import Mathlib

/-!
# ipmisim: the IPMI connection and discovery core

A shallow embedding of `mc.c` (management controllers, addressing, device-id
parsing) and `ipmi_smi.c` (the system-interface transport: pending commands,
command registrations, event subscribers, the connection registry), followed
by the theorems that settle the specification's claims against that code.

Conventions of the embedding.
* A C pointer is an address (`Ptr`, a natural number); `NULL` is address 0.
  Each C struct type has a heap, a total map from addresses to struct values.
* `unsigned char` values are `Byte` (`Fin 256`); wider integers are `Nat` or
  `Int`, with an explicit `% 2^w` where a C assignment narrows.
* A one-bit bitfield is a `Bool` (whether the stored bit is set).
* A function pointer is an address; calling it is recorded, in order, in a
  trace of effects (or, for `mc.c`, returned as the list of calls made).
* What the environment decides (the result of `malloc`, of an `ioctl`, of the
  OS handler's timer operations) is an argument of the embedded function.
* A `while` loop over a linked list takes fuel; running out of fuel is `none`.
-/

namespace Ipmisim

/-! ## Basic types -/

/-- An address. -/
abbrev Ptr := Nat

/-- The null pointer. -/
def NULL : Ptr := 0

/-- An `unsigned char`. -/
abbrev Byte := Fin 256

/-- Conversion of an `int` value to `unsigned char` (keeps the low 8 bits). -/
def to_uchar (n : Nat) : Byte := ⟨n % 256, Nat.mod_lt n (by decide)⟩

def ENOENT : Int := 2
def ENOMEM : Int := 12
def EEXIST : Int := 17
def EINVAL : Int := 22
def ENOSYS : Int := 38

/-- Address types of `linux/ipmi.h`. -/
def IPMI_SYSTEM_INTERFACE_ADDR_TYPE : Nat := 0x0c
def IPMI_IPMB_ADDR_TYPE : Nat := 0x01
def IPMI_IPMB_BROADCAST_ADDR_TYPE : Nat := 0x41

/-- Completion codes of `ipmi_msgbits.h`. -/
def IPMI_INVALID_CMD_CC : Byte := 0xc1
def IPMI_TIMEOUT_CC : Byte := 0xc3
def IPMI_REQUESTED_DATA_LENGTH_EXCEEDED_CC : Byte := 0xc8

/-- The `ipmi_addr_t` of `linux/ipmi.h`, seen through the `ipmi_ipmb_addr_t`
cast the code uses: the type tag, the channel, and the two address bytes. -/
structure ipmi_addr_t where
  addr_type : Nat
  channel : Nat
  slave_addr : Nat
  lun : Nat
deriving DecidableEq, Repr

/-- The `ipmi_msg_t` of `linux/ipmi.h`: `data` is the buffer the `data`
pointer refers to (a `NULL` pointer is the empty buffer), `data_len` the
length field, which the code keeps separately from the buffer. -/
structure ipmi_msg_t where
  netfn : Byte
  cmd : Byte
  data_len : Nat
  data : List Byte
deriving DecidableEq, Repr

/-- The read `data[i]` of a message buffer, as an `int`. -/
def rd (data : List Byte) (i : Nat) : Nat := (data.getD i 0).val

/-! ## mc.c: data model -/

inductive ipmi_con_state_e where
  | DEAD
  | QUERYING_DEVICE_ID
  | QUERYING_MAIN_SDRS
  | QUERYING_SENSOR_SDRS
  | QUERYING_CHANNEL_INFO
  | OPERATIONAL
deriving DecidableEq, Repr

def MAX_IPMI_USED_CHANNELS : Nat := 8

/-- One slot of the channel table (`ipmi_chan_info_t`). -/
structure ipmi_chan_info_t where
  medium : Nat
  xmit_support : Nat
  recv_lun : Nat
  protocol : Nat
  session_support : Nat
  vendor_id : Nat
  aux_info : Nat
deriving DecidableEq, Repr

/-- The `ipmi_bmc_t` of mc.c. `mc_list` is the `ilist_t` of satellite MCs,
whose items are pointers to `ipmi_mc_t`. -/
structure ipmi_bmc_t where
  main_sdrs : Ptr
  state : ipmi_con_state_e
  chan : List ipmi_chan_info_t
  msg_int_type : Byte
  event_msg_int_type : Byte
  mc_list : List Ptr
  event_handlers : Ptr
  oem_event_handler : Ptr
  entities : Ptr
  entity_handler : Ptr
  ll_event_id : Ptr
  conn : Ptr
  new_entity_handler : Ptr
  new_entity_cb_data : Ptr
  new_mc_handler : Ptr
  new_mc_cb_data : Ptr
  do_bus_scan : Int
deriving DecidableEq, Repr

/-- The `struct ipmi_mc_s` of mc.c. -/
structure ipmi_mc_t where
  bmc_mc : Ptr
  addr : ipmi_addr_t
  addr_len : Nat
  bmc : Ptr
  sdrs : Ptr
  sensors : Ptr
  controls : Ptr
  provides_device_sdrs : Bool
  device_available : Bool
  chassis_support : Bool
  bridge_support : Bool
  IPMB_event_generator_support : Bool
  IPMB_event_receiver_support : Bool
  FRU_inventory_support : Bool
  SEL_device_support : Bool
  SDR_repository_support : Bool
  sensor_device_support : Bool
  in_bmc_list : Bool
  device_id : Nat
  device_revision : Nat
  major_fw_revision : Nat
  minor_fw_revision : Nat
  major_version : Nat
  minor_version : Nat
  manufacturer_id : Nat
  product_id : Nat
  aux_fw_revision : List Byte
  new_sensor_handler : Ptr
  new_sensor_cb_data : Ptr
deriving DecidableEq, Repr

/-- The `oem_handlers_t` of mc.c. -/
structure oem_handlers_t where
  manufacturer_id : Nat
  product_id : Nat
  handler : Ptr
  cb_data : Ptr
deriving DecidableEq, Repr

/-- What calling an OEM match handler does: from the function's address, the MC
and `cb_data`, the MC as the handler leaves it and the handler's return value. -/
abbrev oem_call_t := Ptr → ipmi_mc_t → Ptr → ipmi_mc_t × Int

/-- The outcome of `get_device_id_data_from_rsp`: the return value, the MC as
left by the function, and the OEM handlers that have been run, in order. -/
structure devid_result where
  rv : Int
  mc : ipmi_mc_t
  oem_run : List oem_handlers_t

/-! ## mc.c: OEM handlers and device-id parsing -/

/-- Modelled from the spec: `ilist_search` of ilist.h, which is not among the
sources; a linear search that returns the first item the comparison accepts,
or nothing (`NULL`). -/
def ilist_search {α : Type} (list : List α) (cmp : α → Bool) : Option α :=
  list.find? cmp

def oem_handler_cmp (hndlr : oem_handlers_t) (mc : ipmi_mc_t) : Bool :=
  (hndlr.manufacturer_id == mc.manufacturer_id)
    && (hndlr.product_id == mc.product_id)

def check_oem_handlers (oem_call : oem_call_t) (oem_handlers : List oem_handlers_t)
    (mc : ipmi_mc_t) : devid_result :=
  match ilist_search oem_handlers (fun item => oem_handler_cmp item mc) with
  | some hndlr =>
    let r := oem_call hndlr.handler mc hndlr.cb_data
    { rv := r.2, mc := r.1, oem_run := [hndlr] }
  | none => { rv := 0, mc := mc, oem_run := [] }

/-- The function `get_device_id_data_from_rsp` of mc.c. `IPMI_IPMI_ERR_VAL` is
a macro of ipmi_err.h, which is not among the sources: it is the argument
`err_val`. -/
def get_device_id_data_from_rsp (err_val : Nat → Int) (oem_call : oem_call_t)
    (oem_handlers : List oem_handlers_t) (mc : ipmi_mc_t) (rsp : ipmi_msg_t) :
    devid_result :=
  let rsp_data := rsp.data
  if rd rsp_data 0 ≠ 0 then
    { rv := err_val (rd rsp_data 0), mc := mc, oem_run := [] }
  else if rsp.data_len < 12 then
    { rv := EINVAL, mc := mc, oem_run := [] }
  else
    let mc := { mc with
      device_id := rd rsp_data 1
      device_revision := (rd rsp_data 2 &&& 0xf) % 256
      provides_device_sdrs := (rd rsp_data 2 &&& 0x80) == 0x80
      device_available := (rd rsp_data 3 &&& 0x80) == 0x80
      major_fw_revision := (rd rsp_data 3 &&& 0x7f) % 256
      minor_fw_revision := rd rsp_data 4
      major_version := (rd rsp_data 5 &&& 0xf) % 256
      minor_version := ((rd rsp_data 5 >>> 4) &&& 0xf) % 256
      chassis_support := (rd rsp_data 6 &&& 0x80) == 0x80
      bridge_support := (rd rsp_data 6 &&& 0x40) == 0x40
      IPMB_event_generator_support := (rd rsp_data 6 &&& 0x20) == 0x20
      IPMB_event_receiver_support := (rd rsp_data 6 &&& 0x10) == 0x10
      FRU_inventory_support := (rd rsp_data 6 &&& 0x08) == 0x08
      SEL_device_support := (rd rsp_data 6 &&& 0x04) == 0x04
      SDR_repository_support := (rd rsp_data 6 &&& 0x02) == 0x02
      sensor_device_support := (rd rsp_data 6 &&& 0x01) == 0x01
      manufacturer_id :=
        (rd rsp_data 7 ||| (rd rsp_data 8 <<< 8) ||| (rd rsp_data 9 <<< 16)) % 2 ^ 32
      product_id := (rd rsp_data 10 ||| (rd rsp_data 11 <<< 8)) % 2 ^ 16
      aux_fw_revision :=
        if rsp.data_len < 16 then
          [0, 0, 0, 0]
        else
          [rsp_data.getD 12 0, rsp_data.getD 13 0, rsp_data.getD 14 0, rsp_data.getD 15 0] }
    check_oem_handlers oem_call oem_handlers mc

/-! ## mc.c: addressing -/

/-- Modelled from the spec: `ipmi_addr_equal`, which is not among the sources.
"Equality is structural on the active variant's fields; channel is always
compared": a system-interface address has its channel only, the IPMB variants
also their slave address and LUN. -/
def ipmi_addr_equal (addr1 : ipmi_addr_t) (_addr1_len : Nat) (addr2 : ipmi_addr_t)
    (_addr2_len : Nat) : Bool :=
  addr1.addr_type == addr2.addr_type && addr1.channel == addr2.channel
    && (addr1.addr_type == IPMI_SYSTEM_INTERFACE_ADDR_TYPE
        || (addr1.slave_addr == addr2.slave_addr && addr1.lun == addr2.lun))

/-- The type of `ipmi_addr_equal`; the functions of mc.c that compare addresses
take the comparison as an argument. -/
abbrev addr_equal_t := ipmi_addr_t → Nat → ipmi_addr_t → Nat → Bool

/-- The type of `__ipmi_validate`, which is not among the sources: from a
connection pointer, 0 when the connection is live and an error otherwise. -/
abbrev validate_t := Ptr → Int

structure mc_cmp_info_t where
  addr : ipmi_addr_t
  addr_len : Nat
deriving DecidableEq, Repr

/-- The heaps mc.c works on: the `ipmi_mc_t` and the `ipmi_bmc_t` objects. -/
structure mc_heap where
  mc : Ptr → ipmi_mc_t
  bmc : Ptr → ipmi_bmc_t

def ipmi_mc_validate (validate : validate_t) (h : mc_heap) (mc : Ptr) : Int :=
  validate (h.bmc (h.mc (h.mc mc).bmc_mc).bmc).conn

def mc_cmp (addr_equal : addr_equal_t) (h : mc_heap) (item : Ptr) (info : mc_cmp_info_t) :
    Bool :=
  let mc := h.mc item
  addr_equal mc.addr mc.addr_len info.addr info.addr_len

def find_mc_by_addr (addr_equal : addr_equal_t) (h : mc_heap) (bmc : Ptr)
    (addr : ipmi_addr_t) (addr_len : Nat) : Ptr :=
  if addr.addr_type = IPMI_IPMB_ADDR_TYPE ∧ addr.slave_addr = 0x20 then
    bmc
  else
    let info : mc_cmp_info_t := { addr := addr, addr_len := addr_len }
    match ilist_search (h.bmc (h.mc bmc).bmc).mc_list
        (fun item => mc_cmp addr_equal h item info) with
    | some item => item
    | none => NULL

/-- The `ipmi_mc_id_t` of ipmiif.h. -/
structure ipmi_mc_id_t where
  bmc : Ptr
  channel : Nat
  mc_num : Nat
deriving DecidableEq, Repr

def ipmi_mc_convert_to_id (h : mc_heap) (mc : Ptr) : ipmi_mc_id_t :=
  { bmc := (h.mc mc).bmc_mc
    channel := (h.mc mc).addr.channel
    mc_num :=
      if (h.mc mc).addr.addr_type = IPMI_SYSTEM_INTERFACE_ADDR_TYPE then 0
      else (h.mc mc).addr.slave_addr }

/-- One call of an `ipmi_mc_cb` handler: the function, the MC it is given, and
the `cb_data` it is given. -/
structure mc_cb_call where
  handler : Ptr
  mc : Ptr
  cb_data : Ptr
deriving DecidableEq, Repr

/-- The size of an `ipmi_ipmb_addr_t`: an `int`, a `short` and two bytes. -/
def sizeof_ipmi_ipmb_addr_t : Nat := 8

/-- The function `ipmi_mc_pointer_cb` of mc.c: the return value and the handler
calls made, in order. -/
def ipmi_mc_pointer_cb (validate : validate_t) (addr_equal : addr_equal_t) (h : mc_heap)
    (id : ipmi_mc_id_t) (handler : Ptr) (cb_data : Ptr) : Int × List mc_cb_call :=
  let rv := ipmi_mc_validate validate h id.bmc
  if rv ≠ 0 then
    (rv, [])
  else if id.mc_num = 0 then
    (rv, [{ handler := handler, mc := id.bmc, cb_data := cb_data }])
  else
    let ipmb : ipmi_addr_t :=
      { addr_type := IPMI_IPMB_ADDR_TYPE, channel := id.channel, slave_addr := id.mc_num,
        lun := 0 }
    let mc := find_mc_by_addr addr_equal h id.bmc ipmb sizeof_ipmi_ipmb_addr_t
    if mc = NULL then
      (EINVAL, [])
    else
      (rv, [{ handler := handler, mc := mc, cb_data := cb_data }])

/-! ## ipmi_smi.c: data model -/

structure pending_cmd_t where
  ipmi : Ptr
  cancelled : Int
  msg : ipmi_msg_t
  addr : ipmi_addr_t
  addr_len : Nat
  rsp_handler : Ptr
  rsp_data : Ptr
  data2 : Ptr
  data3 : Ptr
  next : Ptr
  prev : Ptr
  timeout_id : Ptr
deriving DecidableEq, Repr

structure cmd_handler_t where
  netfn : Byte
  cmd : Byte
  handler : Ptr
  cmd_data : Ptr
  data2 : Ptr
  data3 : Ptr
  next : Ptr
  prev : Ptr
deriving DecidableEq, Repr

/-- The `struct ipmi_ll_event_handler_id_s` of ipmi_smi.c. -/
structure ipmi_ll_event_handler_id_t where
  ipmi : Ptr
  handler : Ptr
  event_data : Ptr
  data2 : Ptr
  next : Ptr
  prev : Ptr
deriving DecidableEq, Repr

/-- The `smi_data_t` of ipmi_smi.c. Each of the three locks is kept as its hold
count: `ipmi_lock` adds one, `ipmi_unlock` subtracts one. -/
structure smi_data_t where
  ipmi : Ptr
  fd : Int
  if_num : Int
  pending_cmds : Ptr
  cmd_lock : Int
  cmd_handlers : Ptr
  cmd_handlers_lock : Int
  fd_wait_id : Ptr
  event_handlers : Ptr
  event_handlers_lock : Int
  next : Ptr
  prev : Ptr
deriving DecidableEq, Repr

/-- The fields of the `ipmi_con_t` of ipmi_conn.h that ipmi_smi.c reads, and
the two `ipmi_smi_setup_con` stores for `ipmi_init_con`. -/
structure ipmi_con_t where
  con_data : Ptr
  os_hnd : Ptr
  user_data : Ptr
  setup_cb : Ptr := 0
  setup_cb_data : Ptr := 0
deriving DecidableEq, Repr

/-- The `ipmi_recv_t` of `linux/ipmi.h`: one message read from the device. -/
structure ipmi_recv_t where
  recv_type : Int
  addr : ipmi_addr_t
  addr_len : Nat
  msgid : Ptr
  msg : ipmi_msg_t
deriving DecidableEq, Repr

/-- The three locks of an `smi_data_t`. -/
inductive smi_lock where
  | cmd_lock
  | cmd_handlers_lock
  | event_handlers_lock
deriving DecidableEq, Repr

/-- What the transport does to its environment, in the order it does it: calls
of user handlers, releases of memory, requests to the kernel and to the OS
handler's timers, and the calls `setup` and `ipmi_smi_setup_con` make. -/
inductive effect where
  | rsp_handler (fn : Ptr) (ipmi : Ptr) (addr : ipmi_addr_t) (addr_len : Nat)
      (msg : ipmi_msg_t) (rsp_data : Ptr) (data2 : Ptr) (data3 : Ptr)
  | evt_handler (fn : Ptr) (ipmi : Ptr) (addr : ipmi_addr_t) (addr_len : Nat)
      (msg : ipmi_msg_t) (event_data : Ptr) (data2 : Ptr)
  | cmd_handler (fn : Ptr) (ipmi : Ptr) (addr : ipmi_addr_t) (addr_len : Nat)
      (msg : ipmi_msg_t) (msgid : Ptr) (cmd_data : Ptr) (data2 : Ptr) (data3 : Ptr)
  | free (p : Ptr)
  | add_timer (cb_data : Ptr)
  | remove_timer (id : Ptr)
  | ioctl_send_command (fd : Int) (addr : ipmi_addr_t) (addr_len : Nat) (msg : ipmi_msg_t)
      (msgid : Ptr)
  | ioctl_set_gets_events (fd : Int) (val : Int)
  | ioctl_register_for_cmd (fd : Int) (netfn : Byte) (cmd : Byte)
  | ioctl_unregister_for_cmd (fd : Int) (netfn : Byte) (cmd : Byte)
  | ioctl_receive_msg_trunc (fd : Int)
  | destroy_lock (smi : Ptr) (lock : smi_lock)
  | remove_fd_to_wait_for (id : Ptr)
  | close (fd : Int)
  | ipmi_register_ll
  | open_smi_fd (if_num : Int)
  | create_lock (smi : Ptr) (lock : smi_lock)
  | add_fd_to_wait_for (fd : Int) (cb_data : Ptr)
  | ipmi_init_con (con : Ptr) (addr : ipmi_addr_t) (addr_len : Nat)
deriving DecidableEq, Repr

/-- The state ipmi_smi.c works on: the registry head `smi_list`, one heap per
struct type, the kernel's per-descriptor event-delivery flag (what
`IPMICTL_SET_GETS_EVENTS_CMD` last set), the OS handler's running timers (from a
timer id to the `cb_data` its callback will be given), and the trace of effects
so far. -/
structure smi_world where
  smi_list : Ptr
  con : Ptr → ipmi_con_t
  smi : Ptr → smi_data_t
  cmd : Ptr → pending_cmd_t
  hnd : Ptr → cmd_handler_t
  evt : Ptr → ipmi_ll_event_handler_id_t
  gets_events : Int → Int
  timers : Ptr → Option Ptr
  trace : List effect

/-- The store `*p = v` into the `smi_data_t` heap. -/
def smi_world.set_smi (w : smi_world) (p : Ptr) (v : smi_data_t) : smi_world :=
  { w with smi := Function.update w.smi p v }

/-- The store `*p = v` into the `pending_cmd_t` heap. -/
def smi_world.set_cmd (w : smi_world) (p : Ptr) (v : pending_cmd_t) : smi_world :=
  { w with cmd := Function.update w.cmd p v }

/-- The store `*p = v` into the `cmd_handler_t` heap. -/
def smi_world.set_hnd (w : smi_world) (p : Ptr) (v : cmd_handler_t) : smi_world :=
  { w with hnd := Function.update w.hnd p v }

/-- The store `*p = v` into the event-subscriber heap. -/
def smi_world.set_evt (w : smi_world) (p : Ptr) (v : ipmi_ll_event_handler_id_t) :
    smi_world :=
  { w with evt := Function.update w.evt p v }

/-- Appends one effect to the trace. -/
def smi_world.emit (w : smi_world) (e : effect) : smi_world :=
  { w with trace := w.trace ++ [e] }

/-- The store `p->next = v` for a pending command. -/
def cmd_set_next (w : smi_world) (p : Ptr) (v : Ptr) : smi_world :=
  w.set_cmd p { w.cmd p with next := v }

/-- The store `p->prev = v` for a pending command. -/
def cmd_set_prev (w : smi_world) (p : Ptr) (v : Ptr) : smi_world :=
  w.set_cmd p { w.cmd p with prev := v }

/-- The store `p->next = v` for a command registration. -/
def hnd_set_next (w : smi_world) (p : Ptr) (v : Ptr) : smi_world :=
  w.set_hnd p { w.hnd p with next := v }

/-- The store `p->prev = v` for a command registration. -/
def hnd_set_prev (w : smi_world) (p : Ptr) (v : Ptr) : smi_world :=
  w.set_hnd p { w.hnd p with prev := v }

/-- The store `p->next = v` for an event subscriber. -/
def evt_set_next (w : smi_world) (p : Ptr) (v : Ptr) : smi_world :=
  w.set_evt p { w.evt p with next := v }

/-- The store `p->prev = v` for an event subscriber. -/
def evt_set_prev (w : smi_world) (p : Ptr) (v : Ptr) : smi_world :=
  w.set_evt p { w.evt p with prev := v }

/-- The call `ipmi_lock(smi->cmd_lock)`. -/
def lock_cmd_lock (w : smi_world) (smi : Ptr) : smi_world :=
  w.set_smi smi { w.smi smi with cmd_lock := (w.smi smi).cmd_lock + 1 }

/-- The call `ipmi_unlock(smi->cmd_lock)`. -/
def unlock_cmd_lock (w : smi_world) (smi : Ptr) : smi_world :=
  w.set_smi smi { w.smi smi with cmd_lock := (w.smi smi).cmd_lock - 1 }

/-- The call `ipmi_lock(smi->cmd_handlers_lock)`. -/
def lock_cmd_handlers_lock (w : smi_world) (smi : Ptr) : smi_world :=
  w.set_smi smi { w.smi smi with cmd_handlers_lock := (w.smi smi).cmd_handlers_lock + 1 }

/-- The call `ipmi_unlock(smi->cmd_handlers_lock)`. -/
def unlock_cmd_handlers_lock (w : smi_world) (smi : Ptr) : smi_world :=
  w.set_smi smi { w.smi smi with cmd_handlers_lock := (w.smi smi).cmd_handlers_lock - 1 }

/-- The call `ipmi_lock(smi->event_handlers_lock)`. -/
def lock_event_handlers_lock (w : smi_world) (smi : Ptr) : smi_world :=
  w.set_smi smi { w.smi smi with event_handlers_lock := (w.smi smi).event_handlers_lock + 1 }

/-- The call `ipmi_unlock(smi->event_handlers_lock)`. -/
def unlock_event_handlers_lock (w : smi_world) (smi : Ptr) : smi_world :=
  w.set_smi smi { w.smi smi with event_handlers_lock := (w.smi smi).event_handlers_lock - 1 }

/-! ## The environment: OS-handler timers and the kernel's event flag -/

/-- Modelled from the spec: the OS handler's `add_timer` ("schedule a one-shot
timer"), which is not among the sources. `rv` is what the call returns and `id`
the timer id it hands out: when it succeeds the id is stored through
`&(cmd->timeout_id)` and the timer runs, to call back with `cb_data`. -/
def os_add_timer (w : smi_world) (cb_data : Ptr) (rv : Int) (id : Ptr) : smi_world :=
  let w := w.emit (.add_timer cb_data)
  if rv = 0 then
    let w := w.set_cmd cb_data { w.cmd cb_data with timeout_id := id }
    { w with timers := Function.update w.timers id (some cb_data) }
  else w

/-- Modelled from the spec: the OS handler's `remove_timer` ("cancel a timer"),
which is not among the sources. `rv` is what the call returns: 0 means that the
timer is stopped and its callback will not run; otherwise the timer is left as
it is ("the timer will run"). -/
def os_remove_timer (w : smi_world) (id : Ptr) (rv : Int) : smi_world :=
  let w := w.emit (.remove_timer id)
  if rv = 0 then { w with timers := Function.update w.timers id none } else w

/-- Modelled from the spec: the kernel's `IPMICTL_SET_GETS_EVENTS_CMD` ("enable
or disable event delivery"). `rv` is what `ioctl` returns: unless it is -1 the
descriptor's event-delivery flag becomes `val`. -/
def ioctl_set_gets_events (w : smi_world) (fd : Int) (val : Int) (rv : Int) : smi_world :=
  let w := w.emit (.ioctl_set_gets_events fd val)
  if rv = -1 then w else { w with gets_events := Function.update w.gets_events fd val }

/-! ## Doubly-linked lists in a heap -/

/-- The heap holds a doubly-linked list: following `next` from `hd` visits
exactly the nodes of `l`, in order, and then reaches `NULL`; the `prev` of each
node is the node before it, and the `prev` of the first node is `pv`. -/
def dll (next prev : Ptr → Ptr) : Ptr → Ptr → List Ptr → Prop
  | _, hd, [] => hd = NULL
  | pv, hd, x :: xs => hd = x ∧ x ≠ NULL ∧ prev x = pv ∧ dll next prev x (next x) xs

instance dll_decidable (next prev : Ptr → Ptr) :
    (pv hd : Ptr) → (l : List Ptr) → Decidable (dll next prev pv hd l)
  | _, hd, [] => inferInstanceAs (Decidable (hd = NULL))
  | pv, hd, x :: xs =>
    have := dll_decidable next prev x (next x) xs
    inferInstanceAs (Decidable (hd = x ∧ x ≠ NULL ∧ prev x = pv ∧ dll next prev x (next x) xs))

/-- The pending-command list of the connection data at `smi` is `l`. -/
def pending_cmds_are (w : smi_world) (smi : Ptr) (l : List Ptr) : Prop :=
  dll (fun p => (w.cmd p).next) (fun p => (w.cmd p).prev) NULL (w.smi smi).pending_cmds l

/-- The command-registration list of the connection data at `smi` is `l`. -/
def cmd_handlers_are (w : smi_world) (smi : Ptr) (l : List Ptr) : Prop :=
  dll (fun p => (w.hnd p).next) (fun p => (w.hnd p).prev) NULL (w.smi smi).cmd_handlers l

/-- The event-subscriber list of the connection data at `smi` is `l`. -/
def event_handlers_are (w : smi_world) (smi : Ptr) (l : List Ptr) : Prop :=
  dll (fun p => (w.evt p).next) (fun p => (w.evt p).prev) NULL (w.smi smi).event_handlers l

/-- The registry of live connections is `l`. -/
def smi_list_is (w : smi_world) (l : List Ptr) : Prop :=
  dll (fun p => (w.smi p).next) (fun p => (w.smi p).prev) NULL w.smi_list l

instance (w : smi_world) (smi : Ptr) (l : List Ptr) : Decidable (pending_cmds_are w smi l) :=
  inferInstanceAs (Decidable (dll _ _ _ _ _))

instance (w : smi_world) (smi : Ptr) (l : List Ptr) : Decidable (cmd_handlers_are w smi l) :=
  inferInstanceAs (Decidable (dll _ _ _ _ _))

instance (w : smi_world) (smi : Ptr) (l : List Ptr) : Decidable (event_handlers_are w smi l) :=
  inferInstanceAs (Decidable (dll _ _ _ _ _))

instance (w : smi_world) (l : List Ptr) : Decidable (smi_list_is w l) :=
  inferInstanceAs (Decidable (dll _ _ _ _ _))

/-! ## ipmi_smi.c: the registry and the pending commands -/

/-- The loop of `smi_valid_ipmi`: from `elem`, the element at which the loop
stops (`NULL` when `ipmi` is not found). -/
def smi_valid_ipmi_loop (w : smi_world) (ipmi : Ptr) : Nat → Ptr → Option Ptr
  | 0, _ => none
  | fuel + 1, elem =>
    if elem ≠ NULL ∧ (w.smi elem).ipmi ≠ ipmi then
      smi_valid_ipmi_loop w ipmi fuel (w.smi elem).next
    else
      some elem

def smi_valid_ipmi (fuel : Nat) (w : smi_world) (ipmi : Ptr) : Option Bool :=
  match smi_valid_ipmi_loop w ipmi fuel w.smi_list with
  | none => none
  | some elem => some (decide (elem ≠ NULL))

def add_cmd (w : smi_world) (ipmi : Ptr) (addr : ipmi_addr_t) (addr_len : Nat)
    (msg : ipmi_msg_t) (smi : Ptr) (cmd : Ptr) : smi_world :=
  let w := w.set_cmd cmd { w.cmd cmd with
    ipmi := ipmi, addr := addr, addr_len := addr_len, msg := { msg with data := [] } }
  let w := cmd_set_next w cmd (w.smi smi).pending_cmds
  let w := cmd_set_prev w cmd NULL
  let w :=
    if (w.smi smi).pending_cmds ≠ NULL then
      cmd_set_prev w (w.smi smi).pending_cmds cmd
    else w
  w.set_smi smi { w.smi smi with pending_cmds := cmd }

def remove_cmd (w : smi_world) (_ipmi : Ptr) (smi : Ptr) (cmd : Ptr) : smi_world :=
  let w :=
    if (w.cmd cmd).next ≠ NULL then
      cmd_set_prev w (w.cmd cmd).next (w.cmd cmd).prev
    else w
  if (w.cmd cmd).prev ≠ NULL then
    cmd_set_next w (w.cmd cmd).prev (w.cmd cmd).next
  else
    w.set_smi smi { w.smi smi with pending_cmds := (w.cmd cmd).next }

/-- The function `rsp_timeout_handler` of ipmi_smi.c; `cb_data` is the pending
command the timer was started for. -/
def rsp_timeout_handler (fuel : Nat) (w : smi_world) (cb_data : Ptr) : Option smi_world :=
  let cmd := cb_data
  let ipmi := (w.cmd cmd).ipmi
  if (w.cmd cmd).cancelled ≠ 0 then
    some (w.emit (.free cmd))
  else
    match smi_valid_ipmi fuel w ipmi with
    | none => none
    | some false => some (w.emit (.free cmd))
    | some true =>
      let smi := (w.con ipmi).con_data
      let w := lock_cmd_lock w smi
      let w := remove_cmd w ipmi smi cmd
      let msg : ipmi_msg_t :=
        { netfn := to_uchar ((w.cmd cmd).msg.netfn.val ||| 1)
          cmd := (w.cmd cmd).msg.cmd
          data := [IPMI_TIMEOUT_CC]
          data_len := 1 }
      let w := unlock_cmd_lock w smi
      let w := w.emit (.rsp_handler (w.cmd cmd).rsp_handler ipmi (w.cmd cmd).addr
        (w.cmd cmd).addr_len msg (w.cmd cmd).rsp_data (w.cmd cmd).data2 (w.cmd cmd).data3)
      some (w.emit (.free cmd))

/-- The search loop of `handle_response`: from `finder`, the value of `finder`
when the loop ends (`cmd` when it is in the list, `NULL` when it is not). -/
def handle_response_loop (w : smi_world) (cmd : Ptr) : Nat → Ptr → Option Ptr
  | 0, _ => none
  | fuel + 1, finder =>
    if finder ≠ NULL then
      if finder = cmd then some finder
      else handle_response_loop w cmd fuel (w.cmd finder).next
    else
      some finder

/-- The function `handle_response` of ipmi_smi.c; `remove_timer_rv` is what the
OS handler's `remove_timer` returns if it is called. -/
def handle_response (fuel : Nat) (w : smi_world) (ipmi : Ptr) (recv : ipmi_recv_t)
    (remove_timer_rv : Int) : Option smi_world :=
  let smi := (w.con ipmi).con_data
  let cmd := recv.msgid
  let w := lock_cmd_lock w smi
  match handle_response_loop w cmd fuel (w.smi smi).pending_cmds with
  | none => none
  | some finder =>
    if finder = NULL then
      some (unlock_cmd_lock w smi)
    else
      let rsp_handler := (w.cmd cmd).rsp_handler
      let rsp_data := (w.cmd cmd).rsp_data
      let data2 := (w.cmd cmd).data2
      let data3 := (w.cmd cmd).data3
      let w := remove_cmd w ipmi smi cmd
      let w := os_remove_timer w (w.cmd cmd).timeout_id remove_timer_rv
      let rv := remove_timer_rv
      let w :=
        if rv ≠ 0 then w.set_cmd cmd { w.cmd cmd with cancelled := 1 }
        else w.emit (.free cmd)
      let w := unlock_cmd_lock w smi
      let w := w.emit (.rsp_handler rsp_handler ipmi recv.addr recv.addr_len recv.msg
        rsp_data data2 data3)
      some (unlock_cmd_lock w smi)

/-- The size of an `ipmi_addr_t` of `linux/ipmi.h`: an `int`, a `short` and 32
address bytes, padded to a multiple of 4. -/
def sizeof_ipmi_addr_t : Nat := 40

/-- The function `smi_send` of ipmi_smi.c; `ioctl_rv` and `errno` are what the
`IPMICTL_SEND_COMMAND` request returns and, when it fails, sets. -/
def smi_send (w : smi_world) (_smi : Ptr) (fd : Int) (addr : ipmi_addr_t) (addr_len : Nat)
    (msg : ipmi_msg_t) (msgid : Ptr) (ioctl_rv : Int) (errno : Int) : smi_world × Int :=
  let w := w.emit (.ioctl_send_command fd addr addr_len msg msgid)
  if ioctl_rv = -1 then (w, errno) else (w, 0)

/-- The function `smi_send_command` of ipmi_smi.c. `cmd` is what `malloc`
returns; `add_timer_rv` and `timeout_id` are the outcome of `add_timer`;
`ioctl_rv` and `errno` the outcome of the send request; `remove_timer_rv` what
`remove_timer` returns if it is called. -/
def smi_send_command (w : smi_world) (ipmi : Ptr) (addr : ipmi_addr_t) (addr_len : Nat)
    (msg : ipmi_msg_t) (rsp_handler : Ptr) (rsp_data : Ptr) (data2 : Ptr) (data3 : Ptr)
    (cmd : Ptr) (add_timer_rv : Int) (timeout_id : Ptr) (ioctl_rv : Int) (errno : Int)
    (remove_timer_rv : Int) : smi_world × Int :=
  let smi := (w.con ipmi).con_data
  if addr_len > sizeof_ipmi_addr_t then
    (w, EINVAL)
  else if cmd = NULL then
    (w, ENOMEM)
  else
    let w := w.set_cmd cmd { w.cmd cmd with
      rsp_handler := rsp_handler, rsp_data := rsp_data, data2 := data2, data3 := data3,
      cancelled := 0 }
    let w := lock_cmd_lock w smi
    let w := add_cmd w ipmi addr addr_len msg smi cmd
    let w := os_add_timer w cmd add_timer_rv timeout_id
    let rv := add_timer_rv
    if rv ≠ 0 then
      let w := remove_cmd w ipmi smi cmd
      let w := w.emit (.free cmd)
      (unlock_cmd_lock w smi, rv)
    else
      let r := smi_send w smi (w.smi smi).fd addr addr_len msg cmd ioctl_rv errno
      let w := r.1
      let rv := r.2
      if rv ≠ 0 then
        let w := remove_cmd w ipmi smi cmd
        let w := os_remove_timer w (w.cmd cmd).timeout_id remove_timer_rv
        let err := remove_timer_rv
        let w :=
          if err = 0 then w.emit (.free cmd)
          else w.set_cmd cmd { w.cmd cmd with cancelled := 1 }
        (unlock_cmd_lock w smi, rv)
      else
        (unlock_cmd_lock w smi, rv)

/-- The OS handler runs the timer `id`: nothing happens unless the timer is
running; a running timer stops (it is one-shot) and its callback,
`rsp_timeout_handler`, is called with the timer's `cb_data`. -/
def timer_fires (fuel : Nat) (w : smi_world) (id : Ptr) : Option smi_world :=
  match w.timers id with
  | none => some w
  | some cb_data =>
    rsp_timeout_handler fuel { w with timers := Function.update w.timers id none } cb_data

/-- What can happen to one pending command after it has been sent: a RESPONSE
carrying its token is read from the device (with any source address and
message, and any outcome of `remove_timer`), or its timer runs. -/
inductive pending_event where
  | response (addr : ipmi_addr_t) (addr_len : Nat) (msg : ipmi_msg_t) (remove_timer_rv : Int)
  | timeout
deriving DecidableEq, Repr

/-- The `IPMI_RESPONSE_RECV_TYPE` of `linux/ipmi.h`. -/
def IPMI_RESPONSE_RECV_TYPE : Int := 1

/-- Runs a sequence of events concerning the pending command `cmd` of the
connection `ipmi`, whose timer has the id `id`. -/
def pending_events_run (fuel : Nat) (ipmi : Ptr) (cmd : Ptr) (id : Ptr) :
    smi_world → List pending_event → Option smi_world
  | w, [] => some w
  | w, .response addr addr_len msg remove_timer_rv :: rest =>
    match handle_response fuel w ipmi
        { recv_type := IPMI_RESPONSE_RECV_TYPE, addr := addr, addr_len := addr_len,
          msgid := cmd, msg := msg } remove_timer_rv with
    | none => none
    | some w => pending_events_run fuel ipmi cmd id w rest
  | w, .timeout :: rest =>
    match timer_fires fuel w id with
    | none => none
    | some w => pending_events_run fuel ipmi cmd id w rest

/-- The number of response-handler calls in a trace. -/
def rsp_handler_calls : List effect → Nat
  | [] => 0
  | .rsp_handler _ _ _ _ _ _ _ _ :: t => rsp_handler_calls t + 1
  | _ :: t => rsp_handler_calls t

/-! ## ipmi_smi.c: command registrations -/

/-- The search loop of `add_cmd_registration`: whether an entry for
(`netfn`, `cmd`) is found from `finder` on. -/
def add_cmd_registration_loop (w : smi_world) (netfn : Byte) (cmd : Byte) :
    Nat → Ptr → Option Bool
  | 0, _ => none
  | fuel + 1, finder =>
    if finder ≠ NULL then
      if (w.hnd finder).netfn = netfn ∧ (w.hnd finder).cmd = cmd then some true
      else add_cmd_registration_loop w netfn cmd fuel (w.hnd finder).next
    else
      some false

/-- The four statements of `add_cmd_registration` that link `elem` in at the
head of the connection's registration list. -/
def cmd_handlers_link (w : smi_world) (smi : Ptr) (elem : Ptr) : smi_world :=
  let w := hnd_set_next w elem (w.smi smi).cmd_handlers
  let w := hnd_set_prev w elem NULL
  let w :=
    if (w.smi smi).cmd_handlers ≠ NULL then
      hnd_set_prev w (w.smi smi).cmd_handlers elem
    else w
  w.set_smi smi { w.smi smi with cmd_handlers := elem }

/-- The statements of `remove_cmd_registration` that unlink `elem` from the
connection's registration list. -/
def cmd_handlers_unlink (w : smi_world) (smi : Ptr) (elem : Ptr) : smi_world :=
  let w :=
    if (w.hnd elem).next ≠ NULL then
      hnd_set_prev w (w.hnd elem).next (w.hnd elem).prev
    else w
  if (w.hnd elem).prev ≠ NULL then
    hnd_set_next w (w.hnd elem).prev (w.hnd elem).next
  else
    w.set_smi smi { w.smi smi with cmd_handlers := (w.hnd elem).next }

/-- The function `add_cmd_registration` of ipmi_smi.c; `elem` is what `malloc`
returns. -/
def add_cmd_registration (fuel : Nat) (w : smi_world) (ipmi : Ptr) (netfn : Byte) (cmd : Byte)
    (handler : Ptr) (cmd_data : Ptr) (data2 : Ptr) (data3 : Ptr) (elem : Ptr) :
    Option (smi_world × Int) :=
  let smi := (w.con ipmi).con_data
  if elem = NULL then
    some (w, ENOMEM)
  else
    let w := w.set_hnd elem { w.hnd elem with
      netfn := netfn, cmd := cmd, handler := handler, cmd_data := cmd_data, data2 := data2,
      data3 := data3 }
    let w := lock_cmd_handlers_lock w smi
    match add_cmd_registration_loop w netfn cmd fuel (w.smi smi).cmd_handlers with
    | none => none
    | some true =>
      let w := unlock_cmd_handlers_lock w smi
      let w := w.emit (.free elem)
      some (w, EEXIST)
    | some false =>
      let w := cmd_handlers_link w smi elem
      let w := unlock_cmd_handlers_lock w smi
      some (w, 0)

/-- The search loop of `remove_cmd_registration`: the entry for (`netfn`, `cmd`)
found from `elem` on, or `NULL`. -/
def remove_cmd_registration_loop (w : smi_world) (netfn : Byte) (cmd : Byte) :
    Nat → Ptr → Option Ptr
  | 0, _ => none
  | fuel + 1, elem =>
    if elem ≠ NULL then
      if (w.hnd elem).netfn = netfn ∧ (w.hnd elem).cmd = cmd then some elem
      else remove_cmd_registration_loop w netfn cmd fuel (w.hnd elem).next
    else
      some elem

def remove_cmd_registration (fuel : Nat) (w : smi_world) (ipmi : Ptr) (netfn : Byte)
    (cmd : Byte) : Option (smi_world × Int) :=
  let smi := (w.con ipmi).con_data
  let w := lock_cmd_handlers_lock w smi
  match remove_cmd_registration_loop w netfn cmd fuel (w.smi smi).cmd_handlers with
  | none => none
  | some elem =>
    if elem = NULL then
      let w := unlock_cmd_handlers_lock w smi
      some (w, ENOENT)
    else
      let w := cmd_handlers_unlink w smi elem
      let w := unlock_cmd_handlers_lock w smi
      some (w, 0)

/-- The function `smi_register_for_command` of ipmi_smi.c; `elem` is what
`malloc` returns, `ioctl_rv` and `errno` the outcome of the
`IPMICTL_REGISTER_FOR_CMD` request. -/
def smi_register_for_command (fuel : Nat) (w : smi_world) (ipmi : Ptr) (netfn : Byte)
    (cmd : Byte) (handler : Ptr) (cmd_data : Ptr) (data2 : Ptr) (data3 : Ptr) (elem : Ptr)
    (ioctl_rv : Int) (errno : Int) : Option (smi_world × Int) :=
  let smi := (w.con ipmi).con_data
  match add_cmd_registration fuel w ipmi netfn cmd handler cmd_data data2 data3 elem with
  | none => none
  | some (w, rv) =>
    if rv ≠ 0 then
      some (w, rv)
    else
      let w := w.emit (.ioctl_register_for_cmd (w.smi smi).fd netfn cmd)
      let rv := ioctl_rv
      if rv = -1 then
        match remove_cmd_registration fuel w ipmi netfn cmd with
        | none => none
        | some (w, _) => some (w, errno)
      else
        some (w, rv)

/-- The function `smi_deregister_for_command` of ipmi_smi.c; `ioctl_rv` and
`errno` are the outcome of the `IPMICTL_UNREGISTER_FOR_CMD` request. On the
failure path the code assigns `rv = errno` and jumps to a label whose statement
is `return 0`. -/
def smi_deregister_for_command (fuel : Nat) (w : smi_world) (ipmi : Ptr) (netfn : Byte)
    (cmd : Byte) (ioctl_rv : Int) (_errno : Int) : Option (smi_world × Int) :=
  let smi := (w.con ipmi).con_data
  let w := w.emit (.ioctl_unregister_for_cmd (w.smi smi).fd netfn cmd)
  let rv := ioctl_rv
  if rv = -1 then
    some (w, 0)
  else
    match remove_cmd_registration fuel w ipmi netfn cmd with
    | none => none
    | some (w, _) => some (w, 0)

/-! ## ipmi_smi.c: event subscribers -/

def add_event_handler (w : smi_world) (ipmi : Ptr) (smi : Ptr) (event : Ptr) : smi_world :=
  let w := w.set_evt event { w.evt event with ipmi := ipmi }
  let w := evt_set_next w event (w.smi smi).event_handlers
  let w := evt_set_prev w event NULL
  let w :=
    if (w.smi smi).event_handlers ≠ NULL then
      evt_set_prev w (w.smi smi).event_handlers event
    else w
  w.set_smi smi { w.smi smi with event_handlers := event }

def remove_event_handler (w : smi_world) (smi : Ptr) (event : Ptr) : smi_world :=
  let w :=
    if (w.evt event).next ≠ NULL then
      evt_set_prev w (w.evt event).next (w.evt event).prev
    else w
  if (w.evt event).prev ≠ NULL then
    evt_set_next w (w.evt event).prev (w.evt event).next
  else
    w.set_smi smi { w.smi smi with event_handlers := (w.evt event).next }

/-- The function `smi_register_for_events` of ipmi_smi.c; `entry` is what
`malloc` returns, `ioctl_rv` and `errno` the outcome of the
`IPMICTL_SET_GETS_EVENTS_CMD` request if it is made. The code never stores
through its `id` argument, which is therefore absent here. -/
def smi_register_for_events (w : smi_world) (ipmi : Ptr) (handler : Ptr) (event_data : Ptr)
    (data2 : Ptr) (entry : Ptr) (ioctl_rv : Int) (errno : Int) : smi_world × Int :=
  let smi := (w.con ipmi).con_data
  if entry = NULL then
    (w, ENOMEM)
  else
    let w := w.set_evt entry { w.evt entry with
      handler := handler, event_data := event_data, data2 := data2 }
    let w := lock_event_handlers_lock w smi
    let was_empty := decide ((w.smi smi).event_handlers = NULL)
    let w := add_event_handler w ipmi smi entry
    if was_empty then
      let w := ioctl_set_gets_events w (w.smi smi).fd 1 ioctl_rv
      let rv := ioctl_rv
      if rv = -1 then
        let w := remove_event_handler w smi entry
        (unlock_event_handlers_lock w smi, errno)
      else
        (unlock_event_handlers_lock w smi, rv)
    else
      (unlock_event_handlers_lock w smi, 0)

/-- The function `smi_deregister_for_events` of ipmi_smi.c; `ioctl_rv` and
`errno` are the outcome of the `IPMICTL_SET_GETS_EVENTS_CMD` request if it is
made. -/
def smi_deregister_for_events (w : smi_world) (ipmi : Ptr) (id : Ptr) (ioctl_rv : Int)
    (errno : Int) : smi_world × Int :=
  let smi := (w.con ipmi).con_data
  if (w.evt id).ipmi ≠ ipmi then
    (w, EINVAL)
  else
    let w := lock_event_handlers_lock w smi
    let w := remove_event_handler w smi id
    let w := w.set_evt id { w.evt id with ipmi := NULL }
    if (w.smi smi).event_handlers = NULL then
      let w := ioctl_set_gets_events w (w.smi smi).fd 0 ioctl_rv
      let rv := ioctl_rv
      if rv = -1 then
        (unlock_event_handlers_lock w smi, errno)
      else
        (unlock_event_handlers_lock w smi, rv)
    else
      (unlock_event_handlers_lock w smi, 0)

/-! ## ipmi_smi.c: read dispatch -/

/-- The receive types of `linux/ipmi.h` other than the response. -/
def IPMI_ASYNC_EVENT_RECV_TYPE : Int := 2
def IPMI_CMD_RECV_TYPE : Int := 3

/-- The `EMSGSIZE` of errno.h. -/
def EMSGSIZE : Int := 90

/-- What the code of a user's event handler does to the state when the
transport calls it, from the subscriber record it was called for. -/
abbrev evt_user_t := Ptr → smi_world → smi_world

/-- The loop of `handle_async_event`, from `elem`: `next` is read before the
subscriber's handler is called. -/
def handle_async_event_loop (user : evt_user_t) (ipmi : Ptr) (recv : ipmi_recv_t) :
    Nat → smi_world → Ptr → Option smi_world
  | 0, _, _ => none
  | fuel + 1, w, elem =>
    if elem ≠ NULL then
      let next := (w.evt elem).next
      let w := w.emit (.evt_handler (w.evt elem).handler ipmi recv.addr recv.addr_len recv.msg
        (w.evt elem).event_data (w.evt elem).data2)
      let w := user elem w
      handle_async_event_loop user ipmi recv fuel w next
    else
      some w

/-- The function `handle_async_event` of ipmi_smi.c. -/
def handle_async_event (user : evt_user_t) (fuel : Nat) (w : smi_world) (ipmi : Ptr)
    (recv : ipmi_recv_t) : Option smi_world :=
  let smi := (w.con ipmi).con_data
  let w := lock_event_handlers_lock w smi
  match handle_async_event_loop user ipmi recv fuel w (w.smi smi).event_handlers with
  | none => none
  | some w => some (unlock_event_handlers_lock w smi)

/-- The search loop of `handle_incoming_command`: the registration for
(`netfn`, `cmd_num`) found from `elem` on, or `NULL`. -/
def handle_incoming_command_loop (w : smi_world) (netfn : Byte) (cmd_num : Byte) :
    Nat → Ptr → Option Ptr
  | 0, _ => none
  | fuel + 1, elem =>
    if elem ≠ NULL then
      if (w.hnd elem).netfn = netfn ∧ (w.hnd elem).cmd = cmd_num then some elem
      else handle_incoming_command_loop w netfn cmd_num fuel (w.hnd elem).next
    else
      some elem

/-- The function `handle_incoming_command` of ipmi_smi.c; `ioctl_rv` and `errno`
are the outcome of the send request if it is made (the code does not look at
what `smi_send` returns). -/
def handle_incoming_command (fuel : Nat) (w : smi_world) (ipmi : Ptr) (recv : ipmi_recv_t)
    (ioctl_rv : Int) (errno : Int) : Option smi_world :=
  let smi := (w.con ipmi).con_data
  let netfn := recv.msg.netfn
  let cmd_num := recv.msg.cmd
  let w := lock_cmd_handlers_lock w smi
  match handle_incoming_command_loop w netfn cmd_num fuel (w.smi smi).cmd_handlers with
  | none => none
  | some elem =>
    if elem = NULL then
      let msg := recv.msg
      let msg := { msg with netfn := to_uchar (msg.netfn.val ||| 1) }
      let msg := { msg with data := [IPMI_INVALID_CMD_CC] }
      let msg := { msg with data_len := 1 }
      let r := smi_send w smi (w.smi smi).fd recv.addr recv.addr_len msg recv.msgid ioctl_rv errno
      some (unlock_cmd_handlers_lock r.1 smi)
    else
      let w := w.emit (.cmd_handler (w.hnd elem).handler ipmi recv.addr recv.addr_len recv.msg
        recv.msgid (w.hnd elem).cmd_data (w.hnd elem).data2 (w.hnd elem).data3)
      some (unlock_cmd_handlers_lock w smi)

/-- What one call of `data_handler` gets from its environment: the outcome of
the `IPMICTL_RECEIVE_MSG_TRUNC` request (`ioctl_rv`, `errno` and the message
`recv` the kernel filled in), what `remove_timer` returns if a response is
handled, and the outcome of the send request if an unhandled command is
answered. -/
structure data_env where
  ioctl_rv : Int
  errno : Int
  recv : ipmi_recv_t
  remove_timer_rv : Int
  send_ioctl_rv : Int
  send_errno : Int
deriving DecidableEq, Repr

/-- The function `data_handler` of ipmi_smi.c; `cb_data` is the connection the
descriptor was registered for. -/
def data_handler (user : evt_user_t) (fuel : Nat) (w : smi_world) (fd : Int) (cb_data : Ptr)
    (env : data_env) : Option smi_world :=
  let ipmi := cb_data
  match smi_valid_ipmi fuel w ipmi with
  | none => none
  | some false => some w
  | some true =>
    let w := w.emit (.ioctl_receive_msg_trunc fd)
    let rv := env.ioctl_rv
    if rv = -1 ∧ env.errno ≠ EMSGSIZE then
      some w
    else
      let recv :=
        if rv = -1 then
          { env.recv with msg := { env.recv.msg with
              data := IPMI_REQUESTED_DATA_LENGTH_EXCEEDED_CC :: env.recv.msg.data.tail } }
        else env.recv
      if recv.recv_type = IPMI_RESPONSE_RECV_TYPE then
        handle_response fuel w ipmi recv env.remove_timer_rv
      else if recv.recv_type = IPMI_ASYNC_EVENT_RECV_TYPE then
        handle_async_event user fuel w ipmi recv
      else if recv.recv_type = IPMI_CMD_RECV_TYPE then
        handle_incoming_command fuel w ipmi recv env.send_ioctl_rv env.send_errno
      else
        some w

/-! ## ipmi_smi.c: closing a connection -/

/-- The store `p->next = v` for a connection record. -/
def smi_set_next (w : smi_world) (p : Ptr) (v : Ptr) : smi_world :=
  w.set_smi p { w.smi p with next := v }

/-- The store `p->prev = v` for a connection record. -/
def smi_set_prev (w : smi_world) (p : Ptr) (v : Ptr) : smi_world :=
  w.set_smi p { w.smi p with prev := v }

/-- The statements of `smi_close_connection` that take `smi` out of the
registry. -/
def smi_list_unlink (w : smi_world) (smi : Ptr) : smi_world :=
  let w :=
    if (w.smi smi).next ≠ NULL then
      smi_set_prev w (w.smi smi).next (w.smi smi).prev
    else w
  if (w.smi smi).prev ≠ NULL then
    smi_set_next w (w.smi smi).prev (w.smi smi).next
  else
    { w with smi_list := (w.smi smi).next }

/-- The body of the loop of `smi_close_connection` over the pending commands,
for the command `cmd_to_free`; `rv` is what `remove_timer` returns for its
timer. The record is marked cancelled and released when `rv` is not 0. -/
def smi_close_connection_cmd (w : smi_world) (cmd_to_free : Ptr) (rv : Int) : smi_world :=
  let w := os_remove_timer w (w.cmd cmd_to_free).timeout_id rv
  if rv ≠ 0 then
    let w := w.set_cmd cmd_to_free { w.cmd cmd_to_free with cancelled := 1 }
    w.emit (.free cmd_to_free)
  else w

/-- The loop of `smi_close_connection` over the pending commands;
`remove_timer_rv` gives, for each command, what `remove_timer` returns for its
timer. `next_cmd` is read before the body runs. -/
def smi_close_connection_cmds (remove_timer_rv : Ptr → Int) :
    Nat → smi_world → Ptr → Option smi_world
  | 0, _, _ => none
  | fuel + 1, w, cmd_to_free =>
    if cmd_to_free ≠ NULL then
      let next_cmd := (w.cmd cmd_to_free).next
      let w := smi_close_connection_cmd w cmd_to_free (remove_timer_rv cmd_to_free)
      smi_close_connection_cmds remove_timer_rv fuel w next_cmd
    else
      some w

/-- The loop of `smi_close_connection` over the command registrations. -/
def smi_close_connection_hnds : Nat → smi_world → Ptr → Option smi_world
  | 0, _, _ => none
  | fuel + 1, w, hnd_to_free =>
    if hnd_to_free ≠ NULL then
      let next_hnd := (w.hnd hnd_to_free).next
      let w := w.emit (.free hnd_to_free)
      smi_close_connection_hnds fuel w next_hnd
    else
      some w

/-- The loop of `smi_close_connection` over the event subscribers. -/
def smi_close_connection_evts : Nat → smi_world → Ptr → Option smi_world
  | 0, _, _ => none
  | fuel + 1, w, evt_to_free =>
    if evt_to_free ≠ NULL then
      let w := w.set_evt evt_to_free { w.evt evt_to_free with ipmi := NULL }
      let next_evt := (w.evt evt_to_free).next
      let w := w.emit (.free evt_to_free)
      smi_close_connection_evts fuel w next_evt
    else
      some w

/-- The end of `smi_close_connection`: the locks, the descriptor and the two
records. The lock fields are kept as hold counts; whether each lock object
exists (its pointer is not `NULL`) is the argument `lock_exists`. -/
def smi_close_connection_finish (w : smi_world) (ipmi : Ptr) (smi : Ptr)
    (lock_exists : smi_lock → Bool) : smi_world :=
  let w :=
    if lock_exists .event_handlers_lock then w.emit (.destroy_lock smi .event_handlers_lock)
    else w
  let w :=
    if lock_exists .cmd_handlers_lock then w.emit (.destroy_lock smi .cmd_handlers_lock)
    else w
  let w := if lock_exists .cmd_lock then w.emit (.destroy_lock smi .cmd_lock) else w
  let w :=
    if (w.smi smi).fd_wait_id ≠ NULL then w.emit (.remove_fd_to_wait_for (w.smi smi).fd_wait_id)
    else w
  let w := w.emit (.close (w.smi smi).fd)
  let w := w.emit (.free smi)
  w.emit (.free ipmi)

/-- The function `smi_close_connection` of ipmi_smi.c. -/
def smi_close_connection (fuel : Nat) (w : smi_world) (ipmi : Ptr)
    (remove_timer_rv : Ptr → Int) (lock_exists : smi_lock → Bool) :
    Option (smi_world × Int) :=
  match smi_valid_ipmi fuel w ipmi with
  | none => none
  | some false => some (w, EINVAL)
  | some true =>
    let smi := (w.con ipmi).con_data
    let w := smi_list_unlink w smi
    let cmd_to_free := (w.smi smi).pending_cmds
    let w := w.set_smi smi { w.smi smi with pending_cmds := NULL }
    match smi_close_connection_cmds remove_timer_rv fuel w cmd_to_free with
    | none => none
    | some w =>
      let hnd_to_free := (w.smi smi).cmd_handlers
      let w := w.set_smi smi { w.smi smi with cmd_handlers := NULL }
      match smi_close_connection_hnds fuel w hnd_to_free with
      | none => none
      | some w =>
        let evt_to_free := (w.smi smi).event_handlers
        let w := w.set_smi smi { w.smi smi with event_handlers := NULL }
        match smi_close_connection_evts fuel w evt_to_free with
        | none => none
        | some w => some (smi_close_connection_finish w ipmi smi lock_exists, 0)

/-- Whether an effect is the call of a user's handler (a response, event or
command handler). -/
def is_user_callback : effect → Bool
  | .rsp_handler _ _ _ _ _ _ _ _ => true
  | .evt_handler _ _ _ _ _ _ _ => true
  | .cmd_handler _ _ _ _ _ _ _ _ _ => true
  | _ => false

/-- Whether an effect is a read of a message from the device. -/
def is_receive : effect → Bool
  | .ioctl_receive_msg_trunc _ => true
  | _ => false

/-- What closing a connection and the events that follow leave alone: the
connection objects, the connection each record names, and the calls of user
handlers and the reads from the device that the trace holds. -/
def close_frame (w w2 : smi_world) : Prop :=
  w2.con = w.con ∧ (∀ q, (w2.smi q).ipmi = (w.smi q).ipmi)
  ∧ (∀ p, (w2.cmd p).ipmi = (w.cmd p).ipmi)
  ∧ w2.trace.filter is_user_callback = w.trace.filter is_user_callback
  ∧ w2.trace.filter is_receive = w.trace.filter is_receive

/-! ## mc.c: enabling and disabling events -/

/-- The function `ipmi_bmc_enable_events` of mc.c, for a BMC whose connection is
an SMI connection: `setup` of ipmi_smi.c stores `smi_register_for_events` in the
connection's `register_for_events`. `ll_event_handler` is the address of that
function of mc.c; `entry`, `ioctl_rv` and `errno` are as in
`smi_register_for_events`. The callee is given `&(bmc->bmc->ll_event_id)` as its
`id` argument and never stores through it, so the MC heap comes back as it
was. -/
def ipmi_bmc_enable_events (ll_event_handler : Ptr) (h : mc_heap) (w : smi_world) (bmc : Ptr)
    (entry : Ptr) (ioctl_rv : Int) (errno : Int) : mc_heap × smi_world × Int :=
  if (h.mc bmc).bmc_mc ≠ bmc then
    (h, w, EINVAL)
  else if (h.bmc (h.mc bmc).bmc).ll_event_id ≠ NULL then
    (h, w, EINVAL)
  else
    let r := smi_register_for_events w (h.bmc (h.mc bmc).bmc).conn ll_event_handler NULL bmc
      entry ioctl_rv errno
    (h, r.1, r.2)

/-- The function `ipmi_bmc_disable_events` of mc.c, for a BMC whose connection
is an SMI connection (`deregister_for_events` is `smi_deregister_for_events`). -/
def ipmi_bmc_disable_events (h : mc_heap) (w : smi_world) (bmc : Ptr) (ioctl_rv : Int)
    (errno : Int) : mc_heap × smi_world × Int :=
  if (h.mc bmc).bmc_mc ≠ bmc then
    (h, w, EINVAL)
  else if (h.bmc (h.mc bmc).bmc).ll_event_id = NULL then
    (h, w, EINVAL)
  else
    let r := smi_deregister_for_events w (h.bmc (h.mc bmc).bmc).conn
      (h.bmc (h.mc bmc).bmc).ll_event_id ioctl_rv errno
    let rv := r.2
    let h :=
      if rv = 0 then
        let b := h.bmc (h.mc bmc).bmc
        { h with bmc := Function.update h.bmc (h.mc bmc).bmc ({ b with ll_event_id := NULL }) }
      else h
    (h, r.1, rv)

/-! ## mc.c: the state of discovery

The functions of mc.c below work on a state of their own, `mc_world`. The locks
of mc.c and its calls of `ipmi_log` are not modelled. A call that leaves mc.c
(into the connection, the SDR, sensor, control and entity code, the allocator,
or a user's callback) is recorded in the trace, and what it returns is asked of
the environment `mc_env`: its oracles `rv` and `ptr` give the returned value and
the returned or stored pointer of the call made when the trace had `n` entries,
so every pattern of successes and failures is one environment. -/

/-- The fields of the `ipmi_sdr_t` of ipmi_sdr.h that mc.c uses. -/
structure ipmi_sdr_t where
  major_version : Nat
  minor_version : Nat
  type : Nat
  length : Nat
  data : List Byte
deriving DecidableEq, Repr

/-- The `struct ipmi_event_handler_id_s` of mc.c. -/
structure ipmi_event_handler_id_t where
  mc : Ptr
  handler : Ptr
  event_data : Ptr
  next : Ptr
  prev : Ptr
deriving DecidableEq, Repr

/-- The `ipmi_sensor_id_t` of ipmiif.h, as `ll_event_handler` fills it in. -/
structure ipmi_sensor_id_t where
  bmc : Ptr
  mc_num : Nat
  channel : Nat
  lun : Nat
  sensor_num : Nat
deriving DecidableEq, Repr

/-- The `mc_ipmb_scan_info_t` of mc.c. -/
structure mc_ipmb_scan_info_t where
  addr : ipmi_addr_t
  bmc : Ptr
  msg : ipmi_msg_t
deriving DecidableEq, Repr

/-- The functions of mc.c that mc.c itself passes as callbacks. -/
inductive mc_fn where
  | ll_rsp_handler
  | dev_id_rsp_handler
  | chan_info_rsp_handler
  | sdr_handler
  | mc_sdr_handler
  | devid_bc_rsp_handler
  | sensors_reread
  | event_sensor_cb
  | sdrs_saved
deriving DecidableEq, Repr

/-- The functions whose calls are recorded with their pointer and integer
arguments: functions outside mc.c and, last, `ipmi_cleanup_mc` of mc.c, whose
body is not embedded. -/
inductive mc_ext where
  | malloc
  | free
  | alloc_ilist
  | free_ilist
  | ilist_add_tail
  | ipmi_create_lock
  | ipmi_destroy_lock
  | ipmi_entity_info_alloc
  | ipmi_entity_info_destroy
  | ipmi_sensors_alloc
  | ipmi_sensors_destroy
  | ipmi_controls_alloc
  | ipmi_controls_destroy
  | ipmi_sdr_alloc
  | ipmi_sdr_destroy
  | ipmi_entity_scan_sdrs
  | ipmi_entity_append_to_sdrs
  | close_connection
  | deregister_for_events
  | ipmi_cleanup_mc
deriving DecidableEq, Repr

/-- What mc.c does to its environment, in the order it does it. A
`send_command` carries what the call returned. -/
inductive mc_effect where
  | call (f : mc_ext) (args : List Nat)
  | send_command (conn : Ptr) (addr : ipmi_addr_t) (addr_len : Nat) (msg : ipmi_msg_t)
      (rsp_handler : mc_fn) (rsp_data : Nat) (data2 : Option mc_fn) (data3 : Ptr) (rv : Int)
  | ipmi_sdr_fetch (sdrs : Ptr) (handler : mc_fn) (cb_data : Ptr)
  | ipmi_mc_reread_sensors (mc : Ptr) (handler : mc_fn) (cb_data : Ptr)
  | ipmi_sdr_add (sdrs : Ptr) (sdr : ipmi_sdr_t)
  | ipmi_sdr_save (sdrs : Ptr) (handler : mc_fn) (cb_data : Ptr)
  | setup_cb (fn : Ptr) (mc : Ptr) (cb_data : Ptr) (err : Int)
  | new_mc_handler (fn : Ptr) (bmc : Ptr) (mc : Ptr) (cb_data : Ptr)
  | oem_event_handler (fn : Ptr) (bmc : Ptr) (event : ipmi_msg_t)
  | ipmi_sensor_pointer_cb (id : ipmi_sensor_id_t) (handler : mc_fn)
  | ipmi_sensor_event (sensor : Ptr) (event : ipmi_msg_t)
  | event_handler (fn : Ptr) (bmc : Ptr) (event : ipmi_msg_t) (event_data : Ptr)
deriving DecidableEq, Repr

/-- A request of mc.c that has been accepted and whose completion callback has
not been called yet. -/
inductive mc_completion where
  | command (rsp_handler : mc_fn) (rsp_data : Nat) (data2 : Option mc_fn) (data3 : Ptr)
  | sdr_fetch (sdrs : Ptr) (handler : mc_fn) (cb_data : Ptr)
deriving DecidableEq, Repr

/-- The state mc.c works on: the heaps of its structs, the two fields of the
connection object it reads (`setup_cb`, `setup_cb_data`), the records each SDR
set holds, the requests whose completion is outstanding, and the trace. -/
structure mc_world where
  mc : Ptr → ipmi_mc_t
  bmc : Ptr → ipmi_bmc_t
  evh : Ptr → ipmi_event_handler_id_t
  scan : Ptr → mc_ipmb_scan_info_t
  setup_cb : Ptr → Ptr
  setup_cb_data : Ptr → Ptr
  sdr_sets : Ptr → List ipmi_sdr_t
  outstanding : List mc_completion
  trace : List mc_effect

/-- What the environment of mc.c decides. `rv` and `ptr` are the oracles for
the calls recorded in the trace; the others are the functions and macros that
are not among the sources: `IPMI_IPMI_ERR_VAL`, `ipmi_addr_set_lun` (its return
value and the address as it leaves it), `ipmi_addr_equal`, `__ipmi_validate`,
the registered OEM handlers and what calling one does, and which sensor a
sensor id resolves to. -/
structure mc_env where
  rv : Nat → Int
  ptr : Nat → Ptr
  err_val : Nat → Int
  addr_set_lun : ipmi_addr_t → Nat → Int × ipmi_addr_t
  addr_equal : addr_equal_t
  validate : validate_t
  oem_call : oem_call_t
  oem_handlers : List oem_handlers_t
  sensor_lookup : ipmi_sensor_id_t → Option Ptr

/-- The two heaps of `mc_heap`, for the functions that work on them. -/
def mc_world.heap (w : mc_world) : mc_heap := { mc := w.mc, bmc := w.bmc }

/-- The store `*p = v` into the `ipmi_mc_t` heap. -/
def mc_world.set_mc (w : mc_world) (p : Ptr) (v : ipmi_mc_t) : mc_world :=
  { w with mc := Function.update w.mc p v }

/-- The store `*p = v` into the `ipmi_bmc_t` heap. -/
def mc_world.set_bmc (w : mc_world) (p : Ptr) (v : ipmi_bmc_t) : mc_world :=
  { w with bmc := Function.update w.bmc p v }

/-- The store `*p = v` into the event-handler heap of mc.c. -/
def mc_world.set_evh (w : mc_world) (p : Ptr) (v : ipmi_event_handler_id_t) : mc_world :=
  { w with evh := Function.update w.evh p v }

/-- The store `*p = v` into the scan-info heap. -/
def mc_world.set_scan (w : mc_world) (p : Ptr) (v : mc_ipmb_scan_info_t) : mc_world :=
  { w with scan := Function.update w.scan p v }

/-- Appends one effect to the trace. -/
def mc_world.emit (w : mc_world) (e : mc_effect) : mc_world :=
  { w with trace := w.trace ++ [e] }

/-- Records a call that carries pointers and integers. -/
def mc_world.call (w : mc_world) (f : mc_ext) (args : List Nat) : mc_world :=
  w.emit (.call f args)

/-- The `ipmi_bmc_t` a BMC's `ipmi_mc_t` points to. -/
def mc_world.bmc_of (w : mc_world) (mc : Ptr) : ipmi_bmc_t := w.bmc (w.mc mc).bmc

/-- Constants of ipmi_msgbits.h and ipmi_addr.h. -/
def IPMI_APP_NETFN : Byte := 0x06
def IPMI_GET_DEVICE_ID_CMD : Byte := 0x01
def IPMI_GET_CHANNEL_INFO_CMD : Byte := 0x42
def IPMI_BMC_CHANNEL : Nat := 0xf

/-- Modelled from the spec: the connection's `send_command` operation, called
through the function pointer of the connection object ("anything that issues a
transport `send_command` returns immediately; the user's completion handler runs
later on the event loop", "invoked exactly once"). The call is recorded with
what it returns; when it returns 0 the response handler is outstanding. -/
def conn_send_command (env : mc_env) (w : mc_world) (conn : Ptr) (addr : ipmi_addr_t)
    (addr_len : Nat) (msg : ipmi_msg_t) (rsp_handler : mc_fn) (rsp_data : Nat)
    (data2 : Option mc_fn) (data3 : Ptr) : mc_world × Int :=
  let rv := env.rv w.trace.length
  let w := w.emit (.send_command conn addr addr_len msg rsp_handler rsp_data data2 data3 rv)
  if rv = 0 then
    ({ w with outstanding := w.outstanding ++ [.command rsp_handler rsp_data data2 data3] }, rv)
  else
    (w, rv)

/-- Modelled from the spec: `ipmi_sdr_fetch` of the SDR code, which is not among
the sources ("fetch main SDRs", completed by a call of the handler). The call is
recorded; when it returns 0 the handler is outstanding. -/
def ipmi_sdr_fetch (env : mc_env) (w : mc_world) (sdrs : Ptr) (handler : mc_fn)
    (cb_data : Ptr) : mc_world × Int :=
  let rv := env.rv w.trace.length
  let w := w.emit (.ipmi_sdr_fetch sdrs handler cb_data)
  if rv = 0 then
    ({ w with outstanding := w.outstanding ++ [.sdr_fetch sdrs handler cb_data] }, rv)
  else
    (w, rv)

/-- A call of a function outside mc.c that returns an `int`: the call is
recorded and the environment gives the result. -/
def mc_world.ask (env : mc_env) (w : mc_world) (f : mc_ext) (args : List Nat) :
    mc_world × Int :=
  (w.call f args, env.rv w.trace.length)

/-- A call of a function outside mc.c that returns an `int` and stores a
pointer through its last argument (or, for `malloc`, returns the pointer): the
environment gives both. -/
def mc_world.ask_ptr (env : mc_env) (w : mc_world) (f : mc_ext) (args : List Nat) :
    mc_world × Int × Ptr :=
  (w.call f args, env.rv w.trace.length, env.ptr w.trace.length)

/-- The function `ipmi_send_command` of mc.c. -/
def ipmi_send_command (env : mc_env) (w : mc_world) (mc : Ptr) (lun : Nat) (msg : ipmi_msg_t)
    (rsp_handler : mc_fn) (rsp_data : Nat) : mc_world × Int :=
  let addr := (w.mc mc).addr
  let r := env.addr_set_lun addr lun
  let rv := r.1
  let addr := r.2
  if rv ≠ 0 then
    (w, rv)
  else
    conn_send_command env w (w.bmc_of (w.mc mc).bmc_mc).conn addr (w.mc mc).addr_len msg
      .ll_rsp_handler rsp_data (some rsp_handler) (w.mc mc).bmc_mc

/-! ## mc.c: sample values -/

/-- An MC with every field zero, at the given address. -/
def sample_mc (bmc_mc : Ptr) (bmc : Ptr) (addr : ipmi_addr_t) : ipmi_mc_t :=
  { bmc_mc := bmc_mc, addr := addr, addr_len := 8, bmc := bmc, sdrs := 0, sensors := 0,
    controls := 0, provides_device_sdrs := false, device_available := false,
    chassis_support := false, bridge_support := false,
    IPMB_event_generator_support := false, IPMB_event_receiver_support := false,
    FRU_inventory_support := false, SEL_device_support := false,
    SDR_repository_support := false, sensor_device_support := false, in_bmc_list := false,
    device_id := 0, device_revision := 0, major_fw_revision := 0, minor_fw_revision := 0,
    major_version := 0, minor_version := 0, manufacturer_id := 0, product_id := 0,
    aux_fw_revision := [0, 0, 0, 0], new_sensor_handler := 0, new_sensor_cb_data := 0 }

/-- A BMC extension with the given MC list and connection. -/
def sample_bmc (mc_list : List Ptr) (conn : Ptr) : ipmi_bmc_t :=
  { main_sdrs := 0, state := .OPERATIONAL, chan := [], msg_int_type := 0,
    event_msg_int_type := 0, mc_list := mc_list, event_handlers := 0,
    oem_event_handler := 0, entities := 0, entity_handler := 0, ll_event_id := 0,
    conn := conn, new_entity_handler := 0, new_entity_cb_data := 0, new_mc_handler := 0,
    new_mc_cb_data := 0, do_bus_scan := 0 }

/-- A heap with a BMC at address 100 (its extension at 200, its connection at
300) and two satellites in its list: one at 101 with IPMB address
(channel 0, slave 0x20, lun 0), one at 102 with (channel 0, slave 0x24, lun 0). -/
def sample_heap : mc_heap :=
  { mc := fun p =>
      if p = 100 then sample_mc 100 200 ⟨IPMI_SYSTEM_INTERFACE_ADDR_TYPE, 0xf, 0, 0⟩
      else if p = 101 then sample_mc 100 0 ⟨IPMI_IPMB_ADDR_TYPE, 0, 0x20, 0⟩
      else sample_mc 100 0 ⟨IPMI_IPMB_ADDR_TYPE, 0, 0x24, 0⟩
    bmc := fun _ => sample_bmc [101, 102] 300 }

/-- The `IPMI_IPMI_ERR_VAL` of OpenIPMI's ipmi_err.h, used as a sample value of
the macro. -/
def sample_err_val (v : Nat) : Int := ((v ||| 0x01000000 : Nat) : Int)

/-- A 16-byte Get Device ID response: device 0x20, revision 0x81, firmware
0x81.0x02, IPMI 1.5, capabilities 0xa5, manufacturer f2 1b 00, product 01 02,
aux 1 2 3 4. -/
def sample_devid_rsp : ipmi_msg_t :=
  { netfn := 7, cmd := 1, data_len := 16,
    data := [0, 0x20, 0x81, 0x81, 0x02, 0x51, 0xa5, 0xf2, 0x1b, 0x00, 0x01, 0x02, 1, 2, 3, 4] }

/-- One registered OEM handler, for manufacturer 0x157 and product 0x23. -/
def sample_oem_handlers : List oem_handlers_t :=
  [{ manufacturer_id := 0x157, product_id := 0x23, handler := 900, cb_data := 0 }]

/-- An OEM handler that sets the device id to 0xff and returns 5. -/
def sample_oem_call : oem_call_t := fun _ mc _ => ({ mc with device_id := 0xff }, 5)

/-! ## ipmi_smi.c: sample values -/

/-- A pending command of connection 20 with the given links and handler. -/
def sample_cmd (next : Ptr) (prev : Ptr) (rsp_handler : Ptr) : pending_cmd_t :=
  { ipmi := 20, cancelled := 0,
    msg := { netfn := 6, cmd := 1, data_len := 0, data := [] },
    addr := ⟨IPMI_SYSTEM_INTERFACE_ADDR_TYPE, 0xf, 0, 0⟩, addr_len := 8,
    rsp_handler := rsp_handler, rsp_data := 1, data2 := 2, data3 := 3,
    next := next, prev := prev, timeout_id := 0 }

/-- A command registration with the given key and links. -/
def sample_hnd (netfn : Byte) (cmd : Byte) (next : Ptr) (prev : Ptr) : cmd_handler_t :=
  { netfn := netfn, cmd := cmd, handler := 80, cmd_data := 0, data2 := 0, data3 := 0,
    next := next, prev := prev }

/-- A state with one live connection: the `ipmi_con_t` at 20, its `smi_data_t`
at 10 (descriptor 3), the pending commands 31 and 32 (in that order), the
command registrations 41 for (6, 1) and 42 for (6, 2), no event subscriber, the
event-delivery flag off, no timer and an empty trace. -/
def sample_world : smi_world :=
  { smi_list := 10
    con := fun _ => { con_data := 10, os_hnd := 0, user_data := 0 }
    smi := fun _ =>
      { ipmi := 20, fd := 3, if_num := 0, pending_cmds := 31, cmd_lock := 0,
        cmd_handlers := 41, cmd_handlers_lock := 0, fd_wait_id := 0, event_handlers := 0,
        event_handlers_lock := 0, next := 0, prev := 0 }
    cmd := fun p =>
      if p = 31 then sample_cmd 32 0 71
      else if p = 32 then sample_cmd 0 31 72
      else sample_cmd 0 0 0
    hnd := fun p =>
      if p = 41 then sample_hnd 6 1 42 0
      else if p = 42 then sample_hnd 6 2 0 41
      else sample_hnd 0 0 0 0
    evt := fun _ => { ipmi := 0, handler := 0, event_data := 0, data2 := 0, next := 0, prev := 0 }
    gets_events := fun _ => 0
    timers := fun _ => none
    trace := [] }

/-- A RESPONSE read from the device with the given correlation token. -/
def sample_recv (msgid : Ptr) : ipmi_recv_t :=
  { recv_type := IPMI_RESPONSE_RECV_TYPE, addr := ⟨IPMI_SYSTEM_INTERFACE_ADDR_TYPE, 0xf, 0, 0⟩,
    addr_len := 8, msgid := msgid,
    msg := { netfn := 7, cmd := 1, data_len := 1, data := [0] } }

/-! ## Invariants -/

/-- The key, (netfn, cmd), of the command registration at `p`. -/
def reg_key (w : smi_world) (p : Ptr) : Byte × Byte := ((w.hnd p).netfn, (w.hnd p).cmd)

/-- What the transport's handling of one pending command leaves alone, whatever
path it takes: the connection objects, the registry and its links, and every
pending command's connection and timer id. -/
def frame_ok (w w2 : smi_world) : Prop :=
  w2.con = w.con ∧ w2.smi_list = w.smi_list
  ∧ (∀ q, (w2.smi q).next = (w.smi q).next ∧ (w2.smi q).prev = (w.smi q).prev
      ∧ (w2.smi q).ipmi = (w.smi q).ipmi)
  ∧ (∀ p, (w2.cmd p).ipmi = (w.cmd p).ipmi ∧ (w2.cmd p).timeout_id = (w.cmd p).timeout_id)

/-- The invariant of the life of the pending command `cmd` of connection `ipmi`
with timer `tid`, from the trace that had `base` response-handler calls when it
was sent: either no handler has been called for it yet and it is in the pending
list, not cancelled; or at most one has been, it has left the list, and its
timer can only still run if the record is marked cancelled. -/
def pending_inv (ipmi cmd tid : Ptr) (registry : List Ptr) (n base : Nat) (w : smi_world) :
    Prop :=
  smi_list_is w registry ∧ (w.cmd cmd).ipmi = ipmi ∧ (w.cmd cmd).timeout_id = tid
  ∧ (w.timers tid = none ∨ w.timers tid = some cmd)
  ∧ ∃ l, pending_cmds_are w (w.con ipmi).con_data l ∧ l.length ≤ n
      ∧ ((rsp_handler_calls w.trace = base ∧ cmd ∈ l ∧ (w.cmd cmd).cancelled = 0)
        ∨ (rsp_handler_calls w.trace ≤ base + 1 ∧ cmd ∉ l
            ∧ (w.timers tid = some cmd → (w.cmd cmd).cancelled ≠ 0)))

/-- The states of connection `ipmi` that sequences of calls of
`add_cmd_registration`, `remove_cmd_registration`, `smi_register_for_command`
and `smi_deregister_for_command` reach from an empty registration list. What
`malloc` returns is `NULL` or an address that is not in the list. -/
inductive cmd_handlers_reachable (ipmi : Ptr) : smi_world → Prop
  | init (w : smi_world) :
      (w.smi (w.con ipmi).con_data).cmd_handlers = NULL → cmd_handlers_reachable ipmi w
  | add (fuel : Nat) (w : smi_world) (netfn cmd : Byte)
      (handler cmd_data data2 data3 elem : Ptr) (w2 : smi_world) (rv : Int) :
      cmd_handlers_reachable ipmi w →
      (∀ l, cmd_handlers_are w (w.con ipmi).con_data l → elem ∉ l) →
      add_cmd_registration fuel w ipmi netfn cmd handler cmd_data data2 data3 elem
        = some (w2, rv) →
      cmd_handlers_reachable ipmi w2
  | remove (fuel : Nat) (w : smi_world) (netfn cmd : Byte) (w2 : smi_world) (rv : Int) :
      cmd_handlers_reachable ipmi w →
      remove_cmd_registration fuel w ipmi netfn cmd = some (w2, rv) →
      cmd_handlers_reachable ipmi w2
  | register (fuel : Nat) (w : smi_world) (netfn cmd : Byte)
      (handler cmd_data data2 data3 elem : Ptr) (ioctl_rv errno : Int) (w2 : smi_world)
      (rv : Int) :
      cmd_handlers_reachable ipmi w →
      (∀ l, cmd_handlers_are w (w.con ipmi).con_data l → elem ∉ l) →
      smi_register_for_command fuel w ipmi netfn cmd handler cmd_data data2 data3 elem
        ioctl_rv errno = some (w2, rv) →
      cmd_handlers_reachable ipmi w2
  | deregister (fuel : Nat) (w : smi_world) (netfn cmd : Byte) (ioctl_rv errno : Int)
      (w2 : smi_world) (rv : Int) :
      cmd_handlers_reachable ipmi w →
      smi_deregister_for_command fuel w ipmi netfn cmd ioctl_rv errno = some (w2, rv) →
      cmd_handlers_reachable ipmi w2

/-- The registration list is well formed and holds no key twice. -/
def cmd_handlers_inv (ipmi : Ptr) (w : smi_world) : Prop :=
  ∃ l, cmd_handlers_are w (w.con ipmi).con_data l ∧ (l.map (reg_key w)).Nodup

/-- The subscriber list is well formed, its entries belong to the connection,
and event delivery is on whenever the list is not empty. -/
def event_handlers_inv (ipmi : Ptr) (w : smi_world) : Prop :=
  ∃ l, event_handlers_are w (w.con ipmi).con_data l
    ∧ (∀ p ∈ l, (w.evt p).ipmi = ipmi)
    ∧ (l ≠ [] → w.gets_events (w.smi (w.con ipmi).con_data).fd = 1)

/-- The states that sequences of event registrations and deregistrations reach
from the empty subscriber list with event delivery off. What `malloc` returns
is `NULL` or an address that is not in the list; what is deregistered is a
subscription in the list, or is rejected. -/
inductive event_handlers_reachable (ipmi : Ptr) : smi_world → Prop
  | init (w : smi_world) :
      (w.smi (w.con ipmi).con_data).event_handlers = NULL →
      w.gets_events (w.smi (w.con ipmi).con_data).fd = 0 →
      event_handlers_reachable ipmi w
  | register (w : smi_world) (handler event_data data2 entry : Ptr) (ioctl_rv errno : Int) :
      event_handlers_reachable ipmi w →
      (∀ l, event_handlers_are w (w.con ipmi).con_data l → entry ∉ l) →
      event_handlers_reachable ipmi
        (smi_register_for_events w ipmi handler event_data data2 entry ioctl_rv errno).1
  | deregister (w : smi_world) (id : Ptr) (ioctl_rv errno : Int) :
      event_handlers_reachable ipmi w →
      ((w.evt id).ipmi = ipmi → ∀ l, event_handlers_are w (w.con ipmi).con_data l → id ∈ l) →
      event_handlers_reachable ipmi (smi_deregister_for_events w ipmi id ioctl_rv errno).1


/-- The sample state with no command registration. -/
def sample_world_empty : smi_world :=
  { sample_world with
    smi := fun _ =>
      { ipmi := 20, fd := 3, if_num := 0, pending_cmds := 31, cmd_lock := 0,
        cmd_handlers := 0, cmd_handlers_lock := 0, fd_wait_id := 0, event_handlers := 0,
        event_handlers_lock := 0, next := 0, prev := 0 } }

/-- A heap with a BMC at address 100 whose extension, at 200, has no satellite,
no event subscription handle, and the connection 20 of the sample state. -/
def sample_heap_smi : mc_heap :=
  { mc := fun _ => sample_mc 100 200 ⟨IPMI_SYSTEM_INTERFACE_ADDR_TYPE, 0xf, 0, 0⟩
    bmc := fun _ => sample_bmc [] 20 }

/-- A CMD message read from the device, for (`netfn`, `cmd`), from the BMC's
system-interface address, with sequence 77. -/
def sample_cmd_recv (netfn cmd : Byte) : ipmi_recv_t :=
  { recv_type := IPMI_CMD_RECV_TYPE, addr := ⟨IPMI_SYSTEM_INTERFACE_ADDR_TYPE, 0xf, 0, 0⟩,
    addr_len := 8, msgid := 77,
    msg := { netfn := netfn, cmd := cmd, data_len := 2, data := [1, 2] } }

/-! ## mc.c: stores -/

/-- A store into fields of `*(mc->bmc)`: the record the `bmc` of `mc` points to
becomes `f` of what it was. -/
def bmc_store (w : mc_world) (mc : Ptr) (f : ipmi_bmc_t → ipmi_bmc_t) : mc_world :=
  w.set_bmc (w.mc mc).bmc (f (w.bmc_of mc))

/-- A store into fields of `*mc`. -/
def mc_store (w : mc_world) (mc : Ptr) (f : ipmi_mc_t → ipmi_mc_t) : mc_world :=
  w.set_mc mc (f (w.mc mc))

/-! ## mc.c: creating an MC -/

/-- Records the call of `ipmi_cleanup_mc` of mc.c (the release of an MC and of
what it owns), whose body is not embedded. -/
def ipmi_cleanup_mc (w : mc_world) (mc : Ptr) : mc_world :=
  w.call .ipmi_cleanup_mc [mc]

/-- The function `ipmi_create_mc` of mc.c: the return value and, when it is 0,
the new MC. -/
def ipmi_create_mc (env : mc_env) (w : mc_world) (bmc : Ptr) (addr : ipmi_addr_t)
    (addr_len : Nat) : mc_world × Int × Ptr :=
  if addr_len > sizeof_ipmi_addr_t then
    (w, EINVAL, NULL)
  else
    let r := w.ask_ptr env .malloc []
    let w := r.1
    let mc := r.2.2
    if mc = NULL then
      (w, ENOMEM, NULL)
    else
      let w := mc_store w mc (fun m => { m with
        bmc_mc := bmc, bmc := NULL, sensors := NULL, controls := NULL,
        new_sensor_handler := NULL, addr := addr, addr_len := addr_len, sdrs := NULL })
      let r := w.ask_ptr env .ipmi_sensors_alloc [mc]
      let rv := r.2.1
      let w := if rv = 0 then mc_store r.1 mc (fun m => { m with sensors := r.2.2 }) else r.1
      if rv ≠ 0 then
        (ipmi_cleanup_mc w mc, rv, NULL)
      else
        let r := w.ask_ptr env .ipmi_controls_alloc [mc]
        let rv := r.2.1
        let w := if rv = 0 then mc_store r.1 mc (fun m => { m with controls := r.2.2 }) else r.1
        if rv ≠ 0 then
          (ipmi_cleanup_mc w mc, rv, NULL)
        else
          (w, rv, mc)

/-! ## mc.c: the IPMB bus scan -/

/-- The call of the connection's `send_command` that the bus scan makes, in
`start_ipmb_mc_scan` and in `devid_bc_rsp_handler`: the broadcast Get Device ID
of `info`, to the address `info` holds. -/
def ipmb_scan_send (env : mc_env) (w : mc_world) (bmc : Ptr) (info : Ptr) : mc_world × Int :=
  conn_send_command env w (w.bmc_of bmc).conn (w.scan info).addr sizeof_ipmi_ipmb_addr_t
    (w.scan info).msg .devid_bc_rsp_handler info none NULL

/-- The statement `(info->addr.slave_addr)++` (an `unsigned char`). -/
def ipmb_scan_next_addr (w : mc_world) (info : Ptr) : mc_world :=
  w.set_scan info { w.scan info with
    addr := { (w.scan info).addr with
      slave_addr := ((w.scan info).addr.slave_addr + 1) % 256 } }

/-- The loop `while ((rv) && (info->addr.slave_addr < 0xef))` of
`start_ipmb_mc_scan` and `devid_bc_rsp_handler`, entered with `rv`: the state
and the value of `rv` when it ends. -/
def ipmb_scan_retry (env : mc_env) (bmc : Ptr) (info : Ptr) :
    Nat → mc_world → Int → Option (mc_world × Int)
  | 0, _, _ => none
  | fuel + 1, w, rv =>
    if rv ≠ 0 ∧ (w.scan info).addr.slave_addr < 0xef then
      let w := ipmb_scan_next_addr w info
      let r := ipmb_scan_send env w bmc info
      ipmb_scan_retry env bmc info fuel r.1 r.2
    else
      some (w, rv)

/-- The function `start_ipmb_mc_scan` of mc.c. -/
def start_ipmb_mc_scan (env : mc_env) (fuel : Nat) (w : mc_world) (bmc : Ptr) (channel : Nat) :
    Option mc_world :=
  let r := w.ask_ptr env .malloc []
  let w := r.1
  let info := r.2.2
  if info = NULL then
    some w
  else
    let w := w.set_scan info
      { bmc := bmc
        addr :=
          { addr_type := IPMI_IPMB_BROADCAST_ADDR_TYPE, channel := channel, slave_addr := 0x10,
            lun := 0 }
        msg :=
          { netfn := IPMI_APP_NETFN, cmd := IPMI_GET_DEVICE_ID_CMD, data := [], data_len := 0 } }
    let r := ipmb_scan_send env w bmc info
    match ipmb_scan_retry env bmc info fuel r.1 r.2 with
    | none => none
    | some (w, rv) => if rv ≠ 0 then some (w.call .free [info]) else some w

/-- The first part of `devid_bc_rsp_handler`, up to the label `next_addr`: what
is done when a device has answered. The result says whether the handler has
returned (it gives the scan up when the MC cannot be created). -/
def devid_bc_found (env : mc_env) (w : mc_world) (info : Ptr) (addr : ipmi_addr_t)
    (addr_len : Nat) (msg : ipmi_msg_t) : mc_world × Bool :=
  if rd msg.data 0 = 0 then
    let mc := find_mc_by_addr env.addr_equal w.heap (w.scan info).bmc addr addr_len
    if mc = NULL then
      let r := ipmi_create_mc env w (w.scan info).bmc addr addr_len
      let w := r.1
      let rv := r.2.1
      let mc := r.2.2
      if rv ≠ 0 then
        (w.call .free [info], true)
      else
        let d := get_device_id_data_from_rsp env.err_val env.oem_call env.oem_handlers
          (w.mc mc) msg
        let w := mc_store w mc (fun _ => d.mc)
        let rv := d.rv
        if rv ≠ 0 then
          (w, false)
        else
          let r := w.ask_ptr env .ipmi_sdr_alloc [mc, 0, 1]
          let rv := r.2.1
          let w := if rv = 0 then mc_store r.1 mc (fun m => { m with sdrs := r.2.2 }) else r.1
          let r :=
            if rv = 0 then ipmi_sdr_fetch env w (w.mc mc).sdrs .mc_sdr_handler mc
            else (w, rv)
          let w := r.1
          let rv := r.2
          if rv ≠ 0 then (ipmi_cleanup_mc w mc, false) else (w, false)
    else
      (w, false)
  else
    (w, false)

/-- The function `devid_bc_rsp_handler` of mc.c; `rsp_data` is the scan's
`info`. -/
def devid_bc_rsp_handler (env : mc_env) (fuel : Nat) (w : mc_world) (addr : ipmi_addr_t)
    (addr_len : Nat) (msg : ipmi_msg_t) (rsp_data : Ptr) : Option mc_world :=
  let info := rsp_data
  let r := devid_bc_found env w info addr addr_len msg
  if r.2 then
    some r.1
  else
    let w := ipmb_scan_next_addr r.1 info
    if (w.scan info).addr.slave_addr = 0xf0 then
      some (w.call .free [info])
    else
      let r := ipmb_scan_send env w (w.scan info).bmc info
      match ipmb_scan_retry env (w.scan info).bmc info fuel r.1 r.2 with
      | none => none
      | some (w, rv) => if rv ≠ 0 then some (w.call .free [info]) else some w

/-- An all-zero slot of the channel table. -/
def chan_zero : ipmi_chan_info_t :=
  { medium := 0, xmit_support := 0, recv_lun := 0, protocol := 0, session_support := 0,
    vendor_id := 0, aux_info := 0 }

/-- The loop of `start_mc_scan` over the channels `i` of the list. -/
def start_mc_scan_loop (env : mc_env) (fuel : Nat) (bmc : Ptr) :
    List Nat → mc_world → Option mc_world
  | [], w => some w
  | i :: rest, w =>
    if ((w.bmc_of bmc).chan.getD i chan_zero).medium = 1 then
      match start_ipmb_mc_scan env fuel w bmc i with
      | none => none
      | some w => start_mc_scan_loop env fuel bmc rest w
    else
      start_mc_scan_loop env fuel bmc rest w

/-- The function `start_mc_scan` of mc.c. -/
def start_mc_scan (env : mc_env) (fuel : Nat) (w : mc_world) (bmc : Ptr) : Option mc_world :=
  if (w.bmc_of bmc).do_bus_scan = 0 then
    some w
  else
    start_mc_scan_loop env fuel bmc (List.range MAX_IPMI_USED_CHANNELS) w

/-! ## mc.c: closing the connection of a BMC -/

/-- The search loop of the `remove_event_handler` of mc.c: the value of `ev`
when the loop ends (`event` when it is in the list, `NULL` when it is not). -/
def mc_remove_event_handler_loop (w : mc_world) (event : Ptr) : Nat → Ptr → Option Ptr
  | 0, _ => none
  | fuel + 1, ev =>
    if ev ≠ NULL then
      if ev = event then some ev
      else mc_remove_event_handler_loop w event fuel (w.evh ev).next
    else
      some ev

/-- The function `remove_event_handler` of mc.c (ipmi_smi.c has a function of
the same name). -/
def mc_remove_event_handler (fuel : Nat) (w : mc_world) (mc : Ptr) (event : Ptr) :
    Option (mc_world × Int) :=
  match mc_remove_event_handler_loop w event fuel (w.bmc_of mc).event_handlers with
  | none => none
  | some ev =>
    if ev = NULL then
      some (w, EINVAL)
    else
      let w :=
        if (w.evh event).next ≠ NULL then
          w.set_evh (w.evh event).next
            { w.evh (w.evh event).next with prev := (w.evh event).prev }
        else w
      let w :=
        if (w.evh event).prev ≠ NULL then
          w.set_evh (w.evh event).prev
            { w.evh (w.evh event).prev with next := (w.evh event).next }
        else
          bmc_store w mc (fun b => { b with event_handlers := (w.evh event).next })
      some (w, 0)

/-- The loop `while (mc->bmc->event_handlers)` of `ipmi_close_connection`. -/
def ipmi_close_connection_loop (mc : Ptr) : Nat → mc_world → Option mc_world
  | 0, _ => none
  | fuel + 1, w =>
    if (w.bmc_of mc).event_handlers ≠ NULL then
      match mc_remove_event_handler (fuel + 1) w mc (w.bmc_of mc).event_handlers with
      | none => none
      | some r => ipmi_close_connection_loop mc fuel r.1
    else
      some w

/-- Modelled from the spec: the connection's `close_connection` operation,
called through the function pointer of the connection object ("after
`close_connection`, no further callback is ever invoked for that connection").
The call is recorded and no completion is outstanding any more. -/
def conn_close_connection (w : mc_world) (conn : Ptr) : mc_world :=
  let w := w.call .close_connection [conn]
  { w with outstanding := [] }

/-- The function `ipmi_close_connection` of mc.c (its `close_done` and `cb_data`
arguments are not used by the code). -/
def ipmi_close_connection (env : mc_env) (fuel : Nat) (w : mc_world) (mc : Ptr) :
    Option (mc_world × Int) :=
  if (w.mc mc).bmc_mc ≠ mc then
    some (w, EINVAL)
  else
    let rv := ipmi_mc_validate env.validate w.heap mc
    if rv ≠ 0 then
      some (w, rv)
    else
      let ipmi := (w.bmc_of mc).conn
      let w := if (w.mc mc).sdrs ≠ NULL then w.call .ipmi_sdr_destroy [(w.mc mc).sdrs] else w
      let w :=
        if (w.mc mc).sensors ≠ NULL then w.call .ipmi_sensors_destroy [(w.mc mc).sensors]
        else w
      let w :=
        if (w.mc mc).controls ≠ NULL then w.call .ipmi_controls_destroy [(w.mc mc).controls]
        else w
      let w :=
        if (w.bmc_of mc).main_sdrs ≠ NULL then
          w.call .ipmi_sdr_destroy [(w.bmc_of mc).main_sdrs]
        else w
      match ipmi_close_connection_loop mc fuel w with
      | none => none
      | some w => some (conn_close_connection w ipmi, rv)

/-- The statements with which `chan_info_rsp_handler`, `sdr_handler` and
`dev_id_rsp_handler` end on an error: the call of the connection's `setup_cb`,
if there is one, with `rv`, and `ipmi_close_connection(mc, NULL, NULL)`. -/
def setup_cb_and_close (env : mc_env) (fuel : Nat) (w : mc_world) (mc : Ptr) (rv : Int) :
    Option mc_world :=
  let conn := (w.bmc_of mc).conn
  let w :=
    if w.setup_cb conn ≠ NULL then
      w.emit (.setup_cb (w.setup_cb conn) mc (w.setup_cb_data conn) rv)
    else w
  match ipmi_close_connection env fuel w mc with
  | none => none
  | some r => some r.1

/-! ## mc.c: the channel table -/

/-- The default entry for channel 0: IPMB, session-less. -/
def chan_default_ipmb (protocol : Nat) : ipmi_chan_info_t :=
  { medium := 1, xmit_support := 1, recv_lun := 0, protocol := protocol, session_support := 0,
    vendor_id := 0x001bf2, aux_info := 0 }

/-- The stores `mc->bmc->chan[i] = v` (field by field in the code). -/
def set_chan (w : mc_world) (mc : Ptr) (i : Nat) (v : ipmi_chan_info_t) : mc_world :=
  bmc_store w mc (fun b => { b with chan := b.chan.set i v })

/-- The statements that report the end of discovery, at the label
`chan_info_done` of `chan_info_rsp_handler` and at the end of the second branch
of `finish_mc_handling`: the call of the connection's `setup_cb`, if there is
one, with 0, the scan of the main SDRs for entities, the re-read of the sensors
and `start_mc_scan`. -/
def report_operational (env : mc_env) (fuel : Nat) (w : mc_world) (mc : Ptr) :
    Option mc_world :=
  let conn := (w.bmc_of mc).conn
  let w :=
    if w.setup_cb conn ≠ NULL then
      w.emit (.setup_cb (w.setup_cb conn) mc (w.setup_cb_data conn) 0)
    else w
  let w := w.call .ipmi_entity_scan_sdrs [(w.bmc_of mc).entities, (w.bmc_of mc).main_sdrs]
  let w := w.emit (.ipmi_mc_reread_sensors mc .sensors_reread NULL)
  start_mc_scan env fuel w mc

/-- The channel entry `chan_info_rsp_handler` reads from a Get Channel Info
response. The vendor id is combined with `||`. -/
def chan_info_from_rsp (rsp : ipmi_msg_t) : ipmi_chan_info_t :=
  { medium := rd rsp.data 2 &&& 0x7f
    xmit_support := rd rsp.data 2 >>> 7
    recv_lun := (rd rsp.data 2 >>> 4) &&& 0x7
    protocol := rd rsp.data 3 &&& 0x1f
    session_support := rd rsp.data 4 >>> 6
    vendor_id :=
      if rd rsp.data 5 ≠ 0 ∨ rd rsp.data 6 <<< 8 ≠ 0 ∨ rd rsp.data 7 <<< 16 ≠ 0 then 1 else 0
    aux_info := rd rsp.data 8 ||| (rd rsp.data 9 <<< 8) }

/-- The statements at the label `chan_info_done` of `chan_info_rsp_handler`. -/
def chan_info_done (env : mc_env) (fuel : Nat) (w : mc_world) (mc : Ptr) : Option mc_world :=
  let w := bmc_store w mc (fun b => { b with msg_int_type := 0xff })
  let w := bmc_store w mc (fun b => { b with event_msg_int_type := 0xff })
  let w := bmc_store w mc (fun b => { b with state := .OPERATIONAL })
  report_operational env fuel w mc

/-- The function `chan_info_rsp_handler` of mc.c; `rsp_data` is the channel the
response is for. -/
def chan_info_rsp_handler (env : mc_env) (fuel : Nat) (w : mc_world) (mc : Ptr)
    (rsp : ipmi_msg_t) (rsp_data : Nat) : Option mc_world :=
  let curr := rsp_data
  let rv : Int :=
    if rd rsp.data 0 ≠ 0 then env.err_val (rd rsp.data 0)
    else if rsp.data_len < 8 then EINVAL
    else 0
  if rv ≠ 0 then
    let w := if curr = 0 then set_chan w mc 0 (chan_default_ipmb 1) else w
    chan_info_done env fuel w mc
  else
    let w := set_chan w mc curr (chan_info_from_rsp rsp)
    let curr := curr + 1
    if curr < MAX_IPMI_USED_CHANNELS then
      let cmd_msg : ipmi_msg_t :=
        { netfn := IPMI_APP_NETFN, cmd := IPMI_GET_CHANNEL_INFO_CMD, data := [to_uchar curr],
          data_len := 1 }
      let r := ipmi_send_command env w mc 0 cmd_msg .chan_info_rsp_handler curr
      let rv := r.2
      if rv ≠ 0 then setup_cb_and_close env fuel r.1 mc rv else some r.1
    else
      chan_info_done env fuel w mc

/-- Modelled from the spec: `ipmi_get_sdr_by_type` of the SDR code, which is not
among the sources ("look up an SDR of type 0x14"): the first record of the set
with the type, or an error. -/
def ipmi_get_sdr_by_type (w : mc_world) (sdrs : Ptr) (type : Nat) : Option ipmi_sdr_t :=
  (w.sdr_sets sdrs).find? (fun sdr => sdr.type == type)

/-- The loop `for (i=0; i<MAX_IPMI_USED_CHANNELS; i++)` of `finish_mc_handling`,
over the channels `i` of the list. -/
def finish_mc_handling_loop (mc : Ptr) (sdr : ipmi_sdr_t) : List Nat → mc_world → mc_world
  | [], w => w
  | i :: rest, w =>
    let protocol := rd sdr.data i &&& 0xf
    let w := if protocol ≠ 0 then set_chan w mc i (chan_default_ipmb protocol) else w
    finish_mc_handling_loop mc sdr rest w

/-- The function `finish_mc_handling` of mc.c. -/
def finish_mc_handling (env : mc_env) (fuel : Nat) (w : mc_world) (mc : Ptr) :
    Option (mc_world × Int) :=
  let major := (w.mc mc).major_version
  let minor := (w.mc mc).minor_version
  if major > 1 ∨ (major = 1 ∧ minor ≥ 5) then
    let w := bmc_store w mc (fun b => { b with state := .QUERYING_CHANNEL_INFO })
    let cmd_msg : ipmi_msg_t :=
      { netfn := IPMI_APP_NETFN, cmd := IPMI_GET_CHANNEL_INFO_CMD, data := [0], data_len := 1 }
    some (ipmi_send_command env w mc 0 cmd_msg .chan_info_rsp_handler 0)
  else
    let found :=
      match ipmi_get_sdr_by_type w (w.bmc_of mc).main_sdrs 0x14 with
      | some sdr => some sdr
      | none => ipmi_get_sdr_by_type w (w.mc mc).sdrs 0x14
    let w :=
      match found with
      | none =>
        let w := set_chan w mc 0 (chan_default_ipmb 1)
        let w := bmc_store w mc (fun b => { b with msg_int_type := 0xff })
        bmc_store w mc (fun b => { b with event_msg_int_type := 0xff })
      | some sdr =>
        let w := finish_mc_handling_loop mc sdr (List.range MAX_IPMI_USED_CHANNELS) w
        let w := bmc_store w mc (fun b => { b with msg_int_type := sdr.data.getD 8 0 })
        bmc_store w mc (fun b => { b with event_msg_int_type := sdr.data.getD 9 0 })
    let w := bmc_store w mc (fun b => { b with state := .OPERATIONAL })
    match report_operational env fuel w mc with
    | none => none
    | some w => some (w, 0)

/-! ## mc.c: the discovery handlers -/

/-- The function `sdr_handler` of mc.c (`sdrs`, `changed` and `count` are not
used by the code). -/
def sdr_handler (env : mc_env) (fuel : Nat) (w : mc_world) (err : Int) (cb_data : Ptr) :
    Option mc_world :=
  let mc := cb_data
  if err ≠ 0 then
    setup_cb_and_close env fuel w mc err
  else if (w.bmc_of mc).state = .QUERYING_MAIN_SDRS ∧ (w.mc mc).provides_device_sdrs then
    let w := bmc_store w mc (fun b => { b with state := .QUERYING_SENSOR_SDRS })
    let r := ipmi_sdr_fetch env w (w.mc mc).sdrs .sdr_handler mc
    let rv := r.2
    if rv ≠ 0 then setup_cb_and_close env fuel r.1 mc rv else some r.1
  else
    match finish_mc_handling env fuel w mc with
    | none => none
    | some r =>
      let rv := r.2
      if rv ≠ 0 then setup_cb_and_close env fuel r.1 mc rv else some r.1

/-- The two calls of `ipmi_sdr_alloc` of `dev_id_rsp_handler`, for the main SDRs
and for the device SDRs, each made `if (!rv)`: the state and the value of `rv`
after them. -/
def dev_id_rsp_handler_alloc (env : mc_env) (w : mc_world) (mc : Ptr) (rv : Int) :
    mc_world × Int :=
  let r :=
    if rv = 0 then
      let r := w.ask_ptr env .ipmi_sdr_alloc [mc, 0, 0]
      let w :=
        if r.2.1 = 0 then bmc_store r.1 mc (fun b => { b with main_sdrs := r.2.2 })
        else r.1
      (w, r.2.1)
    else (w, rv)
  let w := r.1
  let rv := r.2
  if rv = 0 then
    let r := w.ask_ptr env .ipmi_sdr_alloc [mc, 0, 1]
    let w := if r.2.1 = 0 then mc_store r.1 mc (fun m => { m with sdrs := r.2.2 }) else r.1
    (w, r.2.1)
  else (w, rv)

/-- The block of `dev_id_rsp_handler` that starts the fetch of the SDRs, or
finishes when the MC has none: the state and the value of `rv` after it. -/
def dev_id_rsp_handler_fetch (env : mc_env) (fuel : Nat) (w : mc_world) (mc : Ptr) :
    Option (mc_world × Int) :=
  if (w.mc mc).SDR_repository_support then
    some (ipmi_sdr_fetch env w (w.bmc_of mc).main_sdrs .sdr_handler mc)
  else if (w.mc mc).sensor_device_support then
    let w := bmc_store w mc (fun b => { b with state := .QUERYING_SENSOR_SDRS })
    some (ipmi_sdr_fetch env w (w.mc mc).sdrs .sdr_handler mc)
  else
    finish_mc_handling env fuel w mc

/-- The function `dev_id_rsp_handler` of mc.c (`rsp_data` is not used by the
code). -/
def dev_id_rsp_handler (env : mc_env) (fuel : Nat) (w : mc_world) (mc : Ptr)
    (rsp : ipmi_msg_t) : Option mc_world :=
  let d := get_device_id_data_from_rsp env.err_val env.oem_call env.oem_handlers (w.mc mc) rsp
  let w := mc_store w mc (fun _ => d.mc)
  let rv := d.rv
  let w := bmc_store w mc (fun b => { b with state := .QUERYING_MAIN_SDRS })
  let r := dev_id_rsp_handler_alloc env w mc rv
  let r : Option (mc_world × Int) :=
    if r.2 = 0 then dev_id_rsp_handler_fetch env fuel r.1 mc else some r
  match r with
  | none => none
  | some r =>
    let rv := r.2
    if rv ≠ 0 then setup_cb_and_close env fuel r.1 mc rv else some r.1

/-! ## mc.c: starting discovery -/

/-- The statement `if (rv) goto out_err;` of `setup_bmc`, after a step that has
left the state and the value of `rv` that `r` holds: the rest `k` of the
function runs when `rv` is 0. -/
def setup_bmc_or_out_err (r : mc_world × Int) (k : mc_world → mc_world × Int) :
    mc_world × Int :=
  if r.2 ≠ 0 then r else k r.1

/-- The allocations of `setup_bmc`, from `alloc_ilist` to the `memset` of the
channel table: the state and the value of `rv` at the label `out_err`. The
locks it creates are recorded as calls. -/
def setup_bmc_allocs (env : mc_env) (w : mc_world) (mc : Ptr) : mc_world × Int :=
  setup_bmc_or_out_err
    (let r := w.ask_ptr env .alloc_ilist []
     (r.1, if r.2.2 = NULL then ENOMEM else 0)) fun w =>
  setup_bmc_or_out_err
    (let r := w.ask_ptr env .ipmi_entity_info_alloc [mc]
     (if r.2.1 = 0 then bmc_store r.1 mc (fun b => { b with entities := r.2.2 }) else r.1,
      r.2.1)) fun w =>
  setup_bmc_or_out_err (w.ask env .ipmi_create_lock [mc, 0]) fun w =>
  setup_bmc_or_out_err (w.ask env .ipmi_create_lock [mc, 1]) fun w =>
  setup_bmc_or_out_err (w.ask env .ipmi_create_lock [mc, 2]) fun w =>
  setup_bmc_or_out_err
    (let r := w.ask_ptr env .ipmi_sensors_alloc [mc]
     (if r.2.1 = 0 then mc_store r.1 mc (fun m => { m with sensors := r.2.2 }) else r.1,
      r.2.1)) fun w =>
  setup_bmc_or_out_err
    (let r := w.ask_ptr env .ipmi_controls_alloc [mc]
     (if r.2.1 = 0 then mc_store r.1 mc (fun m => { m with controls := r.2.2 }) else r.1,
      r.2.1)) fun w =>
  (bmc_store w mc (fun b => { b with
    chan := List.replicate MAX_IPMI_USED_CHANNELS chan_zero }), 0)

/-- The function `setup_bmc` of mc.c: the return value and, when it is 0, the
new BMC. The code does not initialise the `state` of the new `ipmi_bmc_t`, nor
its `ll_event_id`. -/
def setup_bmc (env : mc_env) (w : mc_world) (ipmi : Ptr) (mc_addr : ipmi_addr_t)
    (mc_addr_len : Nat) : mc_world × Int × Ptr :=
  if mc_addr_len > sizeof_ipmi_addr_t then
    (w, EINVAL, NULL)
  else
    let r := w.ask_ptr env .malloc []
    let w := r.1
    let mc := r.2.2
    if mc = NULL then
      (w, ENOMEM, NULL)
    else
      let w := mc_store w mc (fun m => { m with
        bmc_mc := mc, bmc := NULL, sensors := NULL, controls := NULL,
        new_sensor_handler := NULL, addr := mc_addr, addr_len := mc_addr_len, sdrs := NULL })
      let r := w.ask_ptr env .malloc []
      let w := mc_store r.1 mc (fun m => { m with bmc := r.2.2 })
      let r : mc_world × Int :=
        if (w.mc mc).bmc = NULL then
          (w, ENOMEM)
        else
          let w := bmc_store w mc (fun b => { b with
            main_sdrs := NULL, conn := ipmi, event_handlers := NULL, oem_event_handler := NULL,
            mc_list := [], entities := NULL, entity_handler := NULL, new_entity_handler := NULL,
            do_bus_scan := 1 })
          setup_bmc_allocs env w mc
      if r.2 ≠ 0 then (ipmi_cleanup_mc r.1 mc, r.2, NULL) else (r.1, r.2, mc)

/-- The function `ipmi_init_con` of mc.c: the state, the return value and the
BMC that `setup_bmc` has made. -/
def ipmi_init_con (env : mc_env) (fuel : Nat) (w : mc_world) (ipmi : Ptr)
    (mc_addr : ipmi_addr_t) (mc_addr_len : Nat) : Option (mc_world × Int × Ptr) :=
  let r := setup_bmc env w ipmi mc_addr mc_addr_len
  let w := r.1
  let rv := r.2.1
  let mc := r.2.2
  if rv ≠ 0 then
    some (w, rv, mc)
  else
    let cmd_msg : ipmi_msg_t :=
      { netfn := IPMI_APP_NETFN, cmd := IPMI_GET_DEVICE_ID_CMD, data := [], data_len := 0 }
    let r := ipmi_send_command env w mc 0 cmd_msg .dev_id_rsp_handler 0
    let w := r.1
    let rv := r.2
    if rv ≠ 0 then
      match ipmi_close_connection env fuel w mc with
      | none => none
      | some r => some (r.1, rv, mc)
    else
      let w := bmc_store w mc (fun b => { b with state := .QUERYING_DEVICE_ID })
      some (w, 0, mc)

/-- The world without the first occurrence of an outstanding completion. -/
def mc_world.complete (w : mc_world) (c : mc_completion) : mc_world :=
  { w with outstanding := w.outstanding.erase c }

/-- Modelled from the spec: `ipmi_sensor_pointer_cb` of the sensor code, which is
not among the sources, called with `event_sensor_cb` of mc.c as its handler
("resolve the MC via §4.2, then the sensor within that MC; if both found,
deliver to the sensor's handler"). When the id resolves to a sensor the handler
is called with it and the function returns 0; `event_sensor_cb` then stores what
`ipmi_sensor_event` returns in `info->err`. When it does not resolve, the
function returns an error and the handler is not called. The result is the
return value and `info->err`, which the caller has set to 0 before the call. -/
def ipmi_sensor_pointer_cb (env : mc_env) (w : mc_world) (id : ipmi_sensor_id_t)
    (event : ipmi_msg_t) : mc_world × Int × Int :=
  let w := w.emit (.ipmi_sensor_pointer_cb id .event_sensor_cb)
  match env.sensor_lookup id with
  | some sensor =>
    let err := env.rv w.trace.length
    let w := w.emit (.ipmi_sensor_event sensor event)
    (w, 0, err)
  | none => (w, EINVAL, 0)

/-- The call of the OEM event handler at the start of `ll_event_handler`, if one
is installed: whether the handler has returned non-zero. -/
def ll_event_oem (env : mc_env) (w : mc_world) (bmc : Ptr) (event : ipmi_msg_t) :
    mc_world × Bool :=
  if (w.bmc_of bmc).oem_event_handler ≠ NULL then
    let rv := env.rv w.trace.length
    let w := w.emit (.oem_event_handler (w.bmc_of bmc).oem_event_handler bmc event)
    (w, decide (rv ≠ 0))
  else
    (w, false)

/-- The sensor id `ll_event_handler` makes from an event. -/
def ll_event_sensor_id (bmc : Ptr) (event : ipmi_msg_t) : ipmi_sensor_id_t :=
  { bmc := bmc
    channel := if rd event.data 8 = 0x03 then 0 else rd event.data 8 >>> 4
    mc_num := rd event.data 7
    lun := rd event.data 8 &&& 0x3
    sensor_num := rd event.data 11 }

/-- The middle of `ll_event_handler`: the delivery to a sensor. The result is
the value of `rv` after it (`rv` starts as 1; after a failed lookup the code
assigns `rv = info.err`). -/
def ll_event_sensor (env : mc_env) (w : mc_world) (bmc : Ptr) (event : ipmi_msg_t) :
    mc_world × Int :=
  let rv : Int := 1
  if rd event.data 2 = 0x02 ∧ rd event.data 7 &&& 0x01 = 0 then
    let id := ll_event_sensor_id bmc event
    let r := ipmi_sensor_pointer_cb env w id event
    let w := r.1
    let rv := r.2.1
    let info_err := r.2.2
    if rv ≠ 0 then (w, info_err) else (w, rv)
  else
    (w, rv)

/-- The loop of `ll_event_handler` over the subscribers of the BMC, from `l`:
`l->next` is read after the handler has been called. -/
def ll_event_fanout (bmc : Ptr) (event : ipmi_msg_t) : Nat → mc_world → Ptr → Option mc_world
  | 0, _, _ => none
  | fuel + 1, w, l =>
    if l ≠ NULL then
      let w := w.emit (.event_handler (w.evh l).handler bmc event (w.evh l).event_data)
      ll_event_fanout bmc event fuel w (w.evh l).next
    else
      some w

/-- The function `ll_event_handler` of mc.c (`ipmi`, `addr`, `addr_len` and
`event_data` are not used by the code); `data2` is the BMC. -/
def ll_event_handler (env : mc_env) (fuel : Nat) (w : mc_world) (event : ipmi_msg_t)
    (data2 : Ptr) : Option mc_world :=
  let bmc := data2
  let r := ll_event_oem env w bmc event
  if r.2 then
    some r.1
  else
    let r := ll_event_sensor env r.1 bmc event
    let w := r.1
    let rv := r.2
    if rv ≠ 0 then
      ll_event_fanout bmc event fuel w (w.bmc_of bmc).event_handlers
    else
      some w

/-- The subscriber list of the BMC `mc` is `l`. -/
def mc_event_handlers_are (w : mc_world) (mc : Ptr) (l : List Ptr) : Prop :=
  dll (fun p => (w.evh p).next) (fun p => (w.evh p).prev) NULL (w.bmc_of mc).event_handlers l

instance (w : mc_world) (mc : Ptr) (l : List Ptr) : Decidable (mc_event_handlers_are w mc l) :=
  inferInstanceAs (Decidable (dll _ _ _ _ _))

/-! ## mc.c: storing the entities -/

/-- The byte `ipmi_bmc_store_entities` stores for one channel. -/
def chan_sdr_byte (c : ipmi_chan_info_t) : Byte :=
  if c.protocol ≠ 0 then
    to_uchar (c.protocol ||| (c.xmit_support <<< 7) ||| (c.recv_lun <<< 4))
  else 0

/-- The channel SDR `ipmi_bmc_store_entities` assembles: the eleven bytes it
assigns. -/
def chan_sdr (w : mc_world) (bmc : Ptr) : ipmi_sdr_t :=
  { major_version := (w.mc bmc).major_version
    minor_version := (w.mc bmc).minor_version
    type := 0x14
    length := 11
    data :=
      (List.range 8).map (fun i => chan_sdr_byte ((w.bmc_of bmc).chan.getD i chan_zero))
        ++ [(w.bmc_of bmc).msg_int_type, (w.bmc_of bmc).event_msg_int_type, 0] }

/-- The statements at the label `out_err` of `ipmi_bmc_store_entities`. -/
def ipmi_bmc_store_entities_out (w : mc_world) (info : Ptr) (stored_sdrs : Ptr) (rv : Int) :
    mc_world × Int :=
  let w := if rv ≠ 0 then w.call .free [info] else w
  (w.call .ipmi_sdr_destroy [stored_sdrs], rv)

/-- The function `ipmi_bmc_store_entities` of mc.c. Its `done` and `cb_data`
arguments are only stored in the record `info`, which is handed to
`ipmi_sdr_save`. -/
def ipmi_bmc_store_entities (env : mc_env) (w : mc_world) (bmc : Ptr) (_done : Ptr)
    (_cb_data : Ptr) : mc_world × Int :=
  if (w.mc bmc).bmc_mc ≠ bmc then
    (w, EINVAL)
  else
    let r := w.ask_ptr env .malloc []
    let w := r.1
    let info := r.2.2
    if info = NULL then
      (w, ENOMEM)
    else
      let r := w.ask_ptr env .ipmi_sdr_alloc [bmc, 0, 0]
      let w := r.1
      let rv := r.2.1
      let stored_sdrs := r.2.2
      if rv ≠ 0 then
        (w.call .free [info], rv)
      else
        let r : mc_world × Int :=
          if (w.mc bmc).major_version ≤ 1 ∧ (w.mc bmc).minor_version < 5 then
            let rv := env.rv w.trace.length
            (w.emit (.ipmi_sdr_add stored_sdrs (chan_sdr w bmc)), rv)
          else (w, 0)
        let w := r.1
        let rv := r.2
        if rv ≠ 0 then
          ipmi_bmc_store_entities_out w info stored_sdrs rv
        else
          let r := w.ask env .ipmi_entity_append_to_sdrs [(w.bmc_of bmc).entities, stored_sdrs]
          let w := r.1
          let rv := r.2
          if rv ≠ 0 then
            ipmi_bmc_store_entities_out w info stored_sdrs rv
          else
            let rv := env.rv w.trace.length
            let w := w.emit (.ipmi_sdr_save stored_sdrs .sdrs_saved info)
            ipmi_bmc_store_entities_out w info stored_sdrs rv

/-! ## mc.c: what the trace holds -/

/-- The bus-scan requests for `info` that a trace holds: the slave address each
broadcast Get Device ID was sent to, and what the send returned. -/
def scan_sends (info : Ptr) : List mc_effect → List (Nat × Int)
  | [] => []
  | .send_command _ addr _ _ .devid_bc_rsp_handler rsp_data _ _ rv :: t =>
    if rsp_data = info then (addr.slave_addr, rv) :: scan_sends info t else scan_sends info t
  | _ :: t => scan_sends info t

/-- Whether an effect is one the bus scan makes: an allocation or a release, or
a broadcast Get Device ID with `devid_bc_rsp_handler` as its handler. -/
def is_scan_effect : mc_effect → Bool
  | .call .malloc _ => true
  | .call .free _ => true
  | .send_command _ _ _ msg .devid_bc_rsp_handler _ _ _ _ =>
    msg.netfn == IPMI_APP_NETFN && msg.cmd == IPMI_GET_DEVICE_ID_CMD
  | _ => false

/-- Whether an effect is a call of the connection's setup callback. -/
def is_setup_cb : mc_effect → Bool
  | .setup_cb _ _ _ _ => true
  | _ => false

/-- Whether an effect is the sending of a Get Channel Info command. -/
def is_chan_info_send : mc_effect → Bool
  | .send_command _ _ _ msg _ _ _ _ _ =>
    msg.netfn == IPMI_APP_NETFN && msg.cmd == IPMI_GET_CHANNEL_INFO_CMD
  | _ => false

/-- Whether a completion is the bus scan's outstanding response for `info`. -/
def is_scan_completion (info : Ptr) : mc_completion → Bool
  | .command .devid_bc_rsp_handler rsp_data _ _ => rsp_data == info
  | _ => false

/-- Whether a completion is a request of the discovery of the BMC `mc`. -/
def is_discovery (mc : Ptr) : mc_completion → Bool
  | .command .ll_rsp_handler _ (some .dev_id_rsp_handler) data3 => data3 == mc
  | .command .ll_rsp_handler _ (some .chan_info_rsp_handler) data3 => data3 == mc
  | .sdr_fetch _ .sdr_handler cb_data => cb_data == mc
  | _ => false

/-- What the bus scan leaves alone: every heap but the scan records, the
connection's callback, the SDR sets, and the requests of discovery that are
outstanding; what it adds to the trace are effects of the scan. -/
def scan_frame (w w2 : mc_world) : Prop :=
  w2.mc = w.mc ∧ w2.bmc = w.bmc ∧ w2.evh = w.evh ∧ w2.setup_cb = w.setup_cb
  ∧ w2.setup_cb_data = w.setup_cb_data ∧ w2.sdr_sets = w.sdr_sets
  ∧ (∀ mc, w2.outstanding.filter (is_discovery mc) = w.outstanding.filter (is_discovery mc))
  ∧ ∃ added, w2.trace = w.trace ++ added ∧ ∀ e ∈ added, is_scan_effect e = true

/-- The sequences of bus-scan requests (slave address, what the send returned)
that are allowed: the first is for 0x10; each later one is for a greater
address, at most 0xEF, and for the very next address when the one before it
failed. -/
inductive scan_seq : List (Nat × Int) → Prop
  | first (rv : Int) : scan_seq [(0x10, rv)]
  | next (S : List (Nat × Int)) (a : Nat) (r : Int) (b : Nat) (rv : Int) :
      scan_seq (S ++ [(a, r)]) → a < b → b ≤ 0xef → (r ≠ 0 → b = a + 1) →
      scan_seq (S ++ [(a, r)] ++ [(b, rv)])

/-- The state of the bus scan of `info` after a request: the requests made so
far are an allowed sequence, the last of them was for the address `info` now
holds and returned `r`, and `info` holds the Get Device ID message. -/
def scan_inv (info : Ptr) (w : mc_world) (r : Int) : Prop :=
  (∃ S, scan_sends info w.trace = S ++ [((w.scan info).addr.slave_addr, r)]
    ∧ scan_seq (S ++ [((w.scan info).addr.slave_addr, r)]))
  ∧ (w.scan info).msg.netfn = IPMI_APP_NETFN ∧ (w.scan info).msg.cmd = IPMI_GET_DEVICE_ID_CMD

/-- The bus scan's outstanding response for `info`. -/
def scan_completion (info : Ptr) : mc_completion :=
  .command .devid_bc_rsp_handler info none NULL

/-- The bus scan of `info`, from a state in which its first request may be
outstanding to its end: while a response is outstanding, the handler
`devid_bc_rsp_handler` is called with what the transport hands it, a response
or the response it makes of a timeout; `rsp` gives that message (and its source
address) from the length of the trace. -/
def ipmb_scan_run (env : mc_env) (rsp : Nat → ipmi_recv_t) (info : Ptr) (fuel : Nat) :
    Nat → mc_world → Option mc_world
  | 0, _ => none
  | n + 1, w =>
    if scan_completion info ∈ w.outstanding then
      let r := rsp w.trace.length
      match devid_bc_rsp_handler env fuel (w.complete (scan_completion info)) r.addr r.addr_len
          r.msg info with
      | none => none
      | some w => ipmb_scan_run env rsp info fuel n w
    else
      some w

/-- The bus scan of `info` is under way: its last request was accepted and is
the one outstanding response of the scan. -/
def scan_live (info : Ptr) (w : mc_world) : Prop :=
  scan_inv info w 0 ∧ w.outstanding.count (scan_completion info) = 1

/-- The bus scan of `info` has ended: the requests it has made are an allowed
sequence, no response is outstanding, and if its last request failed, that
request was for the address 0xEF. -/
def scan_done (info : Ptr) (w : mc_world) : Prop :=
  scan_seq (scan_sends info w.trace)
  ∧ w.outstanding.count (scan_completion info) = 0
  ∧ ∀ a r, (scan_sends info w.trace).getLast? = some (a, r) → r ≠ 0 → a = 0xef

/-- What the bus scan of `info` is not affected by: a step that leaves the scan
records, the requests made for `info` and its outstanding responses as they
were. -/
def scan_same (info : Ptr) (w w2 : mc_world) : Prop :=
  w2.scan = w.scan ∧ scan_sends info w2.trace = scan_sends info w.trace
  ∧ w2.outstanding.count (scan_completion info) = w.outstanding.count (scan_completion info)

/-! ## mc.c: sample values for discovery -/

/-- An environment in which every call succeeds, allocation at trace length `n`
returns the address `1000 + n`, no OEM handler is registered and no sensor is
known. -/
def sample_mc_env : mc_env :=
  { rv := fun _ => 0
    ptr := fun n => 1000 + n
    err_val := sample_err_val
    addr_set_lun := fun addr lun => (0, { addr with lun := lun })
    addr_equal := ipmi_addr_equal
    validate := fun _ => 0
    oem_call := sample_oem_call
    oem_handlers := []
    sensor_lookup := fun _ => none }

/-- A state with one BMC: the MC at 100 (with the given IPMI version), its
extension at 200 in the given discovery state, with an all-zero channel table,
the bus scan switched off, the connection 300 (whose setup callback is the
function at 500, with data 501) and the two event subscribers 61 and 62, in
that order, with the handlers 71 and 72. -/
def sample_mc_world (major minor : Nat) (state : ipmi_con_state_e) : mc_world :=
  { mc := fun _ =>
      { sample_mc 100 200 ⟨IPMI_SYSTEM_INTERFACE_ADDR_TYPE, 0xf, 0, 0⟩ with
        major_version := major, minor_version := minor }
    bmc := fun _ =>
      { sample_bmc [] 300 with
        state := state, chan := List.replicate 8 chan_zero, event_handlers := 61 }
    evh := fun p =>
      if p = 61 then { mc := 100, handler := 71, event_data := 81, next := 62, prev := 0 }
      else { mc := 100, handler := 72, event_data := 82, next := 0, prev := 61 }
    scan := fun _ =>
      { addr := ⟨0, 0, 0, 0⟩, bmc := 0, msg := { netfn := 0, cmd := 0, data_len := 0, data := [] } }
    setup_cb := fun _ => 500
    setup_cb_data := fun _ => 501
    sdr_sets := fun _ => []
    outstanding := []
    trace := [] }

/-- Whether an effect is the addition of a record to an SDR set. -/
def is_sdr_add : mc_effect → Bool
  | .ipmi_sdr_add _ _ => true
  | _ => false

/-- Whether an effect is the call of an event subscriber of a BMC or the
delivery of an event to a sensor. -/
def is_event_delivery : mc_effect → Bool
  | .event_handler _ _ _ _ => true
  | .ipmi_sensor_event _ _ => true
  | _ => false

/-- Whether an effect is a call of the connection's setup callback or of its
`close_connection`. -/
def is_setup_or_close : mc_effect → Bool
  | .setup_cb _ _ _ _ => true
  | .call .close_connection _ => true
  | _ => false

/-- The call of the setup callback of the connection of the BMC `mc`, with
`err`, if one is installed. -/
def setup_cb_call (w : mc_world) (mc : Ptr) (err : Int) : List mc_effect :=
  if w.setup_cb (w.bmc_of mc).conn ≠ NULL then
    [.setup_cb (w.setup_cb (w.bmc_of mc).conn) mc (w.setup_cb_data (w.bmc_of mc).conn) err]
  else []

/-- The sensor ids looked up in a trace, in order. -/
def sensor_lookups : List mc_effect → List ipmi_sensor_id_t
  | [] => []
  | .ipmi_sensor_pointer_cb id _ :: t => id :: sensor_lookups t
  | _ :: t => sensor_lookups t

/-- The sample state with the SDR sets 400 (the main SDRs of the BMC) and 401
(its device SDRs) holding the given records. -/
def sample_mc_world_sdrs (major minor : Nat) (main dev : List ipmi_sdr_t) : mc_world :=
  { sample_mc_world major minor .QUERYING_MAIN_SDRS with
    mc := fun _ =>
      { sample_mc 100 200 ⟨IPMI_SYSTEM_INTERFACE_ADDR_TYPE, 0xf, 0, 0⟩ with
        major_version := major, minor_version := minor, sdrs := 401 }
    bmc := fun _ =>
      { sample_bmc [] 300 with
        state := .QUERYING_MAIN_SDRS, chan := List.replicate 8 chan_zero, main_sdrs := 400 }
    sdr_sets := fun p => if p = 400 then main else if p = 401 then dev else [] }

/-- A channel SDR (type 0x14) with the given bytes. -/
def sample_chan_sdr (data : List Byte) : ipmi_sdr_t :=
  { major_version := 1, minor_version := 0, type := 0x14, length := 11, data := data }

/-- An event message with the given bytes. -/
def sample_event (data : List Byte) : ipmi_msg_t :=
  { netfn := 0x04, cmd := 0x02, data_len := data.length, data := data }

/-- A Get Channel Info response with the given bytes. -/
def sample_chan_rsp (data : List Byte) : ipmi_msg_t :=
  { netfn := 0x07, cmd := 0x42, data_len := data.length, data := data }

/-! ## mc.c: what a step of discovery leaves -/

/-- The read `msg->data[i]` with the index checked: it fails when `i` is not
below `data_len` (or beyond the bytes the buffer holds). -/
def rd_checked (msg : ipmi_msg_t) (i : Nat) : Option Nat :=
  if i < msg.data_len then (msg.data.get? i).map (fun b => b.val) else none

/-- The operand reads of the `vendor_id` expression of `chan_info_rsp_handler`,
`data[5] || (data[6] << 8) || (data[7] << 16)`, checked: `||` reads its right
operand only when the left one is 0. -/
def chan_info_vendor_id_checked (rsp : ipmi_msg_t) : Option Nat := do
  let v5 ← rd_checked rsp 5
  if v5 ≠ 0 then pure 1
  else do
    let v6 ← rd_checked rsp 6
    if v6 <<< 8 ≠ 0 then pure 1
    else do
      let v7 ← rd_checked rsp 7
      pure (if v7 <<< 16 ≠ 0 then 1 else 0)

/-- The statements of `chan_info_rsp_handler` that read the channel entry from
a response it has accepted, with every read of `rsp->data` checked, in the order
of the code: `data[2]` (three times), `data[3]`, `data[4]`, the bytes of the
vendor id, `data[8]`, `data[9]`. -/
def chan_info_from_rsp_checked (rsp : ipmi_msg_t) : Option ipmi_chan_info_t := do
  let medium ← rd_checked rsp 2
  let xmit ← rd_checked rsp 2
  let recv_lun ← rd_checked rsp 2
  let protocol ← rd_checked rsp 3
  let session ← rd_checked rsp 4
  let vendor_id ← chan_info_vendor_id_checked rsp
  let a8 ← rd_checked rsp 8
  let a9 ← rd_checked rsp 9
  pure
    { medium := medium &&& 0x7f
      xmit_support := xmit >>> 7
      recv_lun := (recv_lun >>> 4) &&& 0x7
      protocol := protocol &&& 0x1f
      session_support := session >>> 6
      vendor_id := vendor_id
      aux_info := a8 ||| (a9 <<< 8) }

/-- The sample state of ipmi_smi.c with the timers 91 and 92 running for the
pending commands 31 and 32. -/
def sample_world_timers : smi_world :=
  { sample_world with
    cmd := fun p =>
      if p = 31 then { sample_cmd 32 0 71 with timeout_id := 91 }
      else if p = 32 then { sample_cmd 0 31 72 with timeout_id := 92 }
      else sample_cmd 0 0 0
    timers := fun t => if t = 91 then some 31 else if t = 92 then some 32 else none }

/-- The sample state of mc.c with the given channel table and interrupt types,
OPERATIONAL. -/
def sample_mc_world_chan (major minor : Nat) (chan : List ipmi_chan_info_t)
    (msg_int_type event_msg_int_type : Byte) : mc_world :=
  { sample_mc_world major minor .OPERATIONAL with
    bmc := fun _ =>
      { sample_bmc [] 300 with
        state := .OPERATIONAL, chan := chan, msg_int_type := msg_int_type,
        event_msg_int_type := event_msg_int_type } }

/-- A channel entry with the given protocol, xmit_support and recv_lun, its
other fields 0. -/
def sample_chan (protocol xmit_support recv_lun : Nat) : ipmi_chan_info_t :=
  { medium := 0, xmit_support := xmit_support, recv_lun := recv_lun, protocol := protocol,
    session_support := 0, vendor_id := 0, aux_info := 0 }

/-- A successful Get Channel Info response for `channel` that encodes medium 1,
xmit_support 1, recv_lun 0, the given protocol, session_support 0, the vendor
id bytes F2 1B 00 and aux_info 0. -/
def sample_chan_ok_rsp (channel protocol : Byte) : ipmi_msg_t :=
  sample_chan_rsp [0, channel, 0x81, protocol, 0, 0xf2, 0x1b, 0, 0, 0]

/-! ## ipmi_smi.c: setting a connection up -/

/-- Modelled from the spec: the `os_handler_t` table of function pointers the
user hands to `ipmi_smi_setup_con` ("add-fd-watch, remove-fd-watch, add-timer,
remove-timer, perform-one-op, allocate/destroy locks"). A pointer is `NULL`
when the primitive is absent. -/
structure os_handler_t where
  add_fd_to_wait_for : Ptr
  remove_fd_to_wait_for : Ptr
  add_timer : Ptr
  remove_timer : Ptr
  perform_one_op : Ptr
  create_lock : Ptr
  destroy_lock : Ptr
deriving DecidableEq, Repr

/-- What the environment answers to the calls `setup` and `ipmi_smi_setup_con`
make: the two results of `malloc`, the descriptor `open_smi_fd` returns and the
`errno` it sets when it fails, for each lock what `ipmi_create_lock_os_hnd`
returns and whether it has stored a lock, what `add_fd_to_wait_for` returns and
the id it stores, what `ipmi_init_con` returns, the address bytes
`ipmi_smi_setup_con` leaves unset, and whether the lock fields of a record that
has not been initialised hold a lock. -/
structure setup_env where
  ipmi : Ptr
  smi : Ptr
  fd : Int
  errno : Int
  create_lock : smi_lock → Int × Bool
  add_fd_rv : Int
  fd_wait_id : Ptr
  init_con_rv : Int
  addr_unset : ipmi_addr_t
  stale_locks : smi_lock → Bool

/-- The size of an `ipmi_system_interface_addr_t` of `linux/ipmi.h`: an `int`,
a `short` and a byte, padded to a multiple of 4. -/
def sizeof_ipmi_system_interface_addr_t : Nat := 8

/-- The store `*p = v` into the `ipmi_con_t` heap. -/
def smi_world.set_con (w : smi_world) (p : Ptr) (v : ipmi_con_t) : smi_world :=
  { w with con := Function.update w.con p v }

/-- The function `cleanup_con` of ipmi_smi.c. The lock fields are kept as hold
counts; whether each lock object exists is the argument `lock_exists`. -/
def cleanup_con (w : smi_world) (ipmi : Ptr) (lock_exists : smi_lock → Bool) : smi_world :=
  let smi := (w.con ipmi).con_data
  let w := if ipmi ≠ NULL then w.emit (.free ipmi) else w
  if smi ≠ NULL then
    let w :=
      if lock_exists .event_handlers_lock then w.emit (.destroy_lock smi .event_handlers_lock)
      else w
    let w :=
      if lock_exists .cmd_handlers_lock then w.emit (.destroy_lock smi .cmd_handlers_lock)
      else w
    let w := if lock_exists .cmd_lock then w.emit (.destroy_lock smi .cmd_lock) else w
    let w := if (w.smi smi).fd ≠ -1 then w.emit (.close (w.smi smi).fd) else w
    let w :=
      if (w.smi smi).fd_wait_id ≠ NULL then
        w.emit (.remove_fd_to_wait_for (w.smi smi).fd_wait_id)
      else w
    w.emit (.free smi)
  else
    w

/-- The statements of `setup` from the call of `add_fd_to_wait_for` on: the
descriptor is registered and the connection is put at the head of `smi_list`;
`locks` tells which locks have been created. -/
def setup_register (env : setup_env) (w : smi_world) (ipmi smi : Ptr)
    (locks : smi_lock → Bool) : smi_world × Int × Ptr :=
  let w := w.emit (.add_fd_to_wait_for (w.smi smi).fd ipmi)
  let w := w.set_smi smi { w.smi smi with fd_wait_id := env.fd_wait_id }
  let rv := env.add_fd_rv
  if rv ≠ 0 then
    (cleanup_con w ipmi locks, rv, NULL)
  else
    let w := if w.smi_list ≠ NULL then smi_set_prev w w.smi_list smi else w
    let w := smi_set_next w smi w.smi_list
    let w := smi_set_prev w smi NULL
    let w := { w with smi_list := smi }
    (w, 0, ipmi)

/-- The three calls of `ipmi_create_lock_os_hnd` of `setup` ("Create the locks
if they are available") and what follows them. The seven stores of the
operations (`ipmi->send_command = smi_send_command` and so on) are not kept:
the operations are the functions of this development. -/
def setup_locks (env : setup_env) (w : smi_world) (if_num : Int) (ipmi smi : Ptr) :
    smi_world × Int × Ptr :=
  let w := w.emit (.create_lock smi .cmd_lock)
  let rv := (env.create_lock .cmd_lock).1
  let locks1 : smi_lock → Bool := fun l => l = .cmd_lock ∧ (env.create_lock .cmd_lock).2
  if rv ≠ 0 then
    (cleanup_con w ipmi locks1, rv, NULL)
  else
    let w := w.emit (.create_lock smi .cmd_handlers_lock)
    let rv := (env.create_lock .cmd_handlers_lock).1
    let locks2 : smi_lock → Bool := fun l =>
      (l = .cmd_lock ∨ l = .cmd_handlers_lock) ∧ (env.create_lock l).2
    if rv ≠ 0 then
      (cleanup_con w ipmi locks2, rv, NULL)
    else
      let w := w.emit (.create_lock smi .event_handlers_lock)
      let rv := (env.create_lock .event_handlers_lock).1
      let locks3 : smi_lock → Bool := fun l => (env.create_lock l).2
      if rv ≠ 0 then
        (cleanup_con w ipmi locks3, rv, NULL)
      else
        let w := w.set_smi smi { w.smi smi with if_num := if_num }
        setup_register env w ipmi smi locks3

/-- The function `setup` of ipmi_smi.c: the state, the return value and what it
has stored through `new_con` (`NULL` when it has stored nothing). -/
def setup (env : setup_env) (w : smi_world) (if_num : Int) (handlers : Ptr)
    (user_data : Ptr) : smi_world × Int × Ptr :=
  let w := w.emit .ipmi_register_ll
  if if_num ≥ 100 then
    (w, EINVAL, NULL)
  else
    let ipmi := env.ipmi
    if ipmi = NULL then
      (w, ENOMEM, NULL)
    else
      let w := w.set_con ipmi { w.con ipmi with user_data := user_data, os_hnd := handlers }
      let smi := env.smi
      if smi = NULL then
        (cleanup_con w ipmi env.stale_locks, ENOMEM, NULL)
      else
        let w := w.set_con ipmi { w.con ipmi with con_data := smi }
        let w := w.set_smi smi { w.smi smi with
          ipmi := ipmi, pending_cmds := NULL, cmd_lock := 0, cmd_handlers := NULL,
          cmd_handlers_lock := 0, event_handlers := NULL, event_handlers_lock := 0,
          fd_wait_id := NULL }
        let w := w.emit (.open_smi_fd if_num)
        let w := w.set_smi smi { w.smi smi with fd := env.fd }
        if (w.smi smi).fd = -1 then
          (cleanup_con w ipmi (fun _ => false), env.errno, NULL)
        else
          setup_locks env w if_num ipmi smi

/-- The function `ipmi_smi_setup_con` of ipmi_smi.c; `os` is the table
`handlers` points to. `ipmi_init_con` is the function of mc.c; here its call is
recorded and the environment gives what it returns. -/
def ipmi_smi_setup_con (env : setup_env) (w : smi_world) (if_num : Int) (os : os_handler_t)
    (handlers : Ptr) (user_data : Ptr) (setup_cb : Ptr) (cb_data : Ptr) : smi_world × Int :=
  if os.add_fd_to_wait_for = NULL ∨ os.remove_fd_to_wait_for = NULL ∨ os.add_timer = NULL
      ∨ os.remove_timer = NULL then
    (w, ENOSYS)
  else
    let r := setup env w if_num handlers user_data
    let w := r.1
    let err := r.2.1
    let con := r.2.2
    if err = 0 then
      let addr : ipmi_addr_t :=
        { env.addr_unset with
          addr_type := IPMI_SYSTEM_INTERFACE_ADDR_TYPE, channel := IPMI_BMC_CHANNEL }
      let w := w.set_con con { w.con con with setup_cb := setup_cb, setup_cb_data := cb_data }
      let w := w.emit (.ipmi_init_con con addr sizeof_ipmi_system_interface_addr_t)
      let err := env.init_con_rv
      let w := if err ≠ 0 then cleanup_con w con (fun l => (env.create_lock l).2) else w
      (w, err)
    else
      (w, err)

/-- Whether an effect is the opening of the device. -/
def is_open_smi_fd : effect → Bool
  | .open_smi_fd _ => true
  | _ => false

/-- An OS-handler table with the four fd and timer primitives and nothing
else: no perform-one-op, no lock allocation, no lock destruction. -/
def sample_os_no_locks : os_handler_t :=
  { add_fd_to_wait_for := 1, remove_fd_to_wait_for := 2, add_timer := 3, remove_timer := 4,
    perform_one_op := 0, create_lock := 0, destroy_lock := 0 }

/-- An OS-handler table with every primitive but remove-timer. -/
def sample_os_no_remove_timer : os_handler_t :=
  { add_fd_to_wait_for := 1, remove_fd_to_wait_for := 2, add_timer := 3, remove_timer := 0,
    perform_one_op := 5, create_lock := 6, destroy_lock := 7 }

/-- An environment in which every call of `setup` succeeds:
`ipmi_create_lock_os_hnd` returns `rv` and stores no lock. -/
def sample_setup_env (rv : Int) : setup_env :=
  { ipmi := 21, smi := 11, fd := 4, errno := 0, create_lock := fun _ => (rv, false),
    add_fd_rv := 0, fd_wait_id := 51, init_con_rv := 0, addr_unset := ⟨0, 0, 0, 0⟩,
    stale_locks := fun _ => false }

/-! ## ipmi_smi.c: a handler that deregisters a subscriber -/

/-- The call of the handler of the subscriber `p` that `handle_async_event`
makes for the event `recv`. -/
def evt_call (w : smi_world) (ipmi : Ptr) (recv : ipmi_recv_t) (p : Ptr) : effect :=
  .evt_handler (w.evt p).handler ipmi recv.addr recv.addr_len recv.msg (w.evt p).event_data
    (w.evt p).data2

/-- User code in which the handler of the subscriber `a` deregisters the
subscriber `r` with `smi_deregister_for_events` (`ioctl_rv` and `errno` are the
outcome of the request it may make), and the handlers of the other subscribers
leave the state alone. -/
def user_deregisters (ipmi a r : Ptr) (ioctl_rv errno : Int) : evt_user_t :=
  fun elem w => if elem = a then (smi_deregister_for_events w ipmi r ioctl_rv errno).1 else w

/-- The sample state with the three event subscribers 61, 62 and 63, whose
handlers are 71, 72 and 73, and event delivery on. -/
def sample_world_evts : smi_world :=
  { sample_world with
    smi := fun _ =>
      { ipmi := 20, fd := 3, if_num := 0, pending_cmds := 31, cmd_lock := 0,
        cmd_handlers := 41, cmd_handlers_lock := 0, fd_wait_id := 0, event_handlers := 61,
        event_handlers_lock := 0, next := 0, prev := 0 }
    evt := fun p =>
      if p = 61 then
        { ipmi := 20, handler := 71, event_data := 81, data2 := 0, next := 62, prev := 0 }
      else if p = 62 then
        { ipmi := 20, handler := 72, event_data := 82, data2 := 0, next := 63, prev := 61 }
      else if p = 63 then
        { ipmi := 20, handler := 73, event_data := 83, data2 := 0, next := 0, prev := 62 }
      else { ipmi := 0, handler := 0, event_data := 0, data2 := 0, next := 0, prev := 0 }
    gets_events := fun _ => 1 }

/-- An event read from the device. -/
def sample_evt_recv : ipmi_recv_t :=
  { recv_type := IPMI_ASYNC_EVENT_RECV_TYPE,
    addr := ⟨IPMI_SYSTEM_INTERFACE_ADDR_TYPE, 0xf, 0, 0⟩, addr_len := 8, msgid := 0,
    msg := { netfn := 4, cmd := 2, data_len := 1, data := [0] } }

/-- The handlers called, in order, by the event-handler calls of a trace. -/
def evt_handlers_called : List effect → List Ptr
  | [] => []
  | .evt_handler fn _ _ _ _ _ _ :: t => fn :: evt_handlers_called t
  | _ :: t => evt_handlers_called t

/-! ## ipmi_smi.c: a sample registry of two connections -/

/-- A state with two live connections: the `ipmi_con_t` at 20, whose
`smi_data_t` at 10 heads the registry and has the one pending command 31 (with
the response handler 71 and the timer 91 running for it), and the `ipmi_con_t`
at 21, whose `smi_data_t` at 11 follows in the registry and has no pending
command. -/
def sample_world_two : smi_world :=
  { smi_list := 10
    con := fun p =>
      if p = 21 then { con_data := 11, os_hnd := 0, user_data := 0 }
      else { con_data := 10, os_hnd := 0, user_data := 0 }
    smi := fun q =>
      if q = 11 then
        { ipmi := 21, fd := 4, if_num := 1, pending_cmds := 0, cmd_lock := 0,
          cmd_handlers := 0, cmd_handlers_lock := 0, fd_wait_id := 0, event_handlers := 0,
          event_handlers_lock := 0, next := 0, prev := 10 }
      else
        { ipmi := 20, fd := 3, if_num := 0, pending_cmds := 31, cmd_lock := 0,
          cmd_handlers := 0, cmd_handlers_lock := 0, fd_wait_id := 0, event_handlers := 0,
          event_handlers_lock := 0, next := 11, prev := 0 }
    cmd := fun p =>
      if p = 31 then { sample_cmd 0 0 71 with timeout_id := 91 } else sample_cmd 0 0 0
    hnd := fun _ => sample_hnd 0 0 0 0
    evt := fun _ => { ipmi := 0, handler := 0, event_data := 0, data2 := 0, next := 0, prev := 0 }
    gets_events := fun _ => 0
    timers := fun t => if t = 91 then some 31 else none
    trace := [] }

/-- The handlers called, in order, by the response-handler calls of a trace,
each with the connection it is called for. -/
def rsp_handlers_called : List effect → List (Ptr × Ptr)
  | [] => []
  | .rsp_handler fn ipmi _ _ _ _ _ _ :: t => (fn, ipmi) :: rsp_handlers_called t
  | _ :: t => rsp_handlers_called t

/-- The sample run after which a timer of a closed connection fires: the
connection 20 of `sample_world_two` is closed while `remove_timer` fails for
the timer of its pending command 31; then a command with the response handler
77 is sent on the connection 21, for which `malloc` returns the address 31
again and `add_timer` hands out the timer 93. -/
def sample_close_then_send : Option smi_world :=
  match smi_close_connection 3 sample_world_two 20 (fun _ => 1) (fun _ => false) with
  | none => none
  | some r =>
    some (smi_send_command r.1 21 ⟨IPMI_SYSTEM_INTERFACE_ADDR_TYPE, 0xf, 0, 0⟩ 8
      { netfn := 6, cmd := 1, data_len := 0, data := [] } 77 0 0 0 31 0 93 0 0 0).1

/-! ## mc.c: the value of `rv` with which a handler of discovery ends -/

theorem rd_lt (data : List Byte) (i : Nat) : rd data i < 256 := (data.getD i 0).isLt

set_option maxRecDepth 100000 in
theorem byte_flag_bits (b : Byte) :
    ((b.val &&& 0x80) == 0x80) = b.val.testBit 7 ∧ ((b.val &&& 0x40) == 0x40) = b.val.testBit 6
    ∧ ((b.val &&& 0x20) == 0x20) = b.val.testBit 5 ∧ ((b.val &&& 0x10) == 0x10) = b.val.testBit 4
    ∧ ((b.val &&& 0x08) == 0x08) = b.val.testBit 3 ∧ ((b.val &&& 0x04) == 0x04) = b.val.testBit 2
    ∧ ((b.val &&& 0x02) == 0x02) = b.val.testBit 1 ∧ ((b.val &&& 0x01) == 0x01) = b.val.testBit 0 := by
  revert b; decide

set_option maxRecDepth 100000 in
theorem byte_top_bit (b : Byte) :
    ((b.val &&& 0x80) == 0x80) = decide (b.val &&& 0x80 ≠ 0) := by
  revert b; decide

theorem three_bytes_lt (a b c : Nat) (ha : a < 256) (hb : b < 256) (hc : c < 256) :
    (a ||| (b <<< 8) ||| (c <<< 16)) < 2 ^ 24 := by
  apply Nat.or_lt_two_pow
  · apply Nat.or_lt_two_pow
    · omega
    · rw [Nat.shiftLeft_eq]; omega
  · rw [Nat.shiftLeft_eq]; omega

theorem two_bytes_lt (a b : Nat) (ha : a < 256) (hb : b < 256) :
    (a ||| (b <<< 8)) < 2 ^ 16 := by
  apply Nat.or_lt_two_pow
  · omega
  · rw [Nat.shiftLeft_eq]; omega

theorem and_mod_256 (a m : Nat) (hm : m < 256) : (a &&& m) % 256 = a &&& m :=
  Nat.mod_eq_of_lt (Nat.lt_of_le_of_lt Nat.and_le_right hm)

theorem check_oem_handlers_none (oem_call : oem_call_t) (oem_handlers : List oem_handlers_t)
    (mc : ipmi_mc_t)
    (h : ∀ hndlr ∈ oem_handlers,
      ¬ (hndlr.manufacturer_id = mc.manufacturer_id ∧ hndlr.product_id = mc.product_id)) :
    check_oem_handlers oem_call oem_handlers mc = { rv := 0, mc := mc, oem_run := [] } := by
  have hs : ilist_search oem_handlers (fun item => oem_handler_cmp item mc) = none := by
    unfold ilist_search
    rw [List.find?_eq_none]
    intro x hx
    have := h x hx
    simpa [oem_handler_cmp] using this
  simp [check_oem_handlers, hs]

/-- C1: a Get Device ID response with completion code 0 and at least 12 bytes,
for which no registered OEM handler matches the parsed manufacturer and product
ids, is parsed successfully: the return value is 0, no OEM handler runs, and
the MC is its previous value with exactly the device-id fields replaced by the
stated functions of the response bytes; the manufacturer id is below 2^24; and
parsing the same bytes again leaves the MC as it is. -/
theorem get_device_id_data_from_rsp_parses (err_val : Nat → Int) (oem_call : oem_call_t)
    (oem_handlers : List oem_handlers_t) (mc : ipmi_mc_t) (rsp : ipmi_msg_t)
    (hcc : rd rsp.data 0 = 0) (hlen : 12 ≤ rsp.data_len)
    (hoem : ∀ hndlr ∈ oem_handlers,
      ¬ (hndlr.manufacturer_id
            = (rd rsp.data 7 ||| (rd rsp.data 8 <<< 8) ||| (rd rsp.data 9 <<< 16))
          ∧ hndlr.product_id = (rd rsp.data 10 ||| (rd rsp.data 11 <<< 8)))) :
    (get_device_id_data_from_rsp err_val oem_call oem_handlers mc rsp).rv = 0
    ∧ (get_device_id_data_from_rsp err_val oem_call oem_handlers mc rsp).oem_run = []
    ∧ (get_device_id_data_from_rsp err_val oem_call oem_handlers mc rsp).mc =
        { mc with
          device_id := rd rsp.data 1
          device_revision := rd rsp.data 2 &&& 0x0F
          provides_device_sdrs := decide (rd rsp.data 2 &&& 0x80 ≠ 0)
          device_available := decide (rd rsp.data 3 &&& 0x80 ≠ 0)
          major_fw_revision := rd rsp.data 3 &&& 0x7F
          minor_fw_revision := rd rsp.data 4
          major_version := rd rsp.data 5 &&& 0x0F
          minor_version := (rd rsp.data 5 >>> 4) &&& 0x0F
          chassis_support := (rd rsp.data 6).testBit 7
          bridge_support := (rd rsp.data 6).testBit 6
          IPMB_event_generator_support := (rd rsp.data 6).testBit 5
          IPMB_event_receiver_support := (rd rsp.data 6).testBit 4
          FRU_inventory_support := (rd rsp.data 6).testBit 3
          SEL_device_support := (rd rsp.data 6).testBit 2
          SDR_repository_support := (rd rsp.data 6).testBit 1
          sensor_device_support := (rd rsp.data 6).testBit 0
          manufacturer_id := rd rsp.data 7 ||| (rd rsp.data 8 <<< 8) ||| (rd rsp.data 9 <<< 16)
          product_id := rd rsp.data 10 ||| (rd rsp.data 11 <<< 8)
          aux_fw_revision :=
            if 16 ≤ rsp.data_len then
              [rsp.data.getD 12 0, rsp.data.getD 13 0, rsp.data.getD 14 0, rsp.data.getD 15 0]
            else [0, 0, 0, 0] }
    ∧ (get_device_id_data_from_rsp err_val oem_call oem_handlers mc rsp).mc.manufacturer_id
        < 2 ^ 24
    ∧ (get_device_id_data_from_rsp err_val oem_call oem_handlers
        (get_device_id_data_from_rsp err_val oem_call oem_handlers mc rsp).mc rsp).mc
        = (get_device_id_data_from_rsp err_val oem_call oem_handlers mc rsp).mc := by
  have key : ∀ m : ipmi_mc_t,
      get_device_id_data_from_rsp err_val oem_call oem_handlers m rsp =
        { rv := 0
          oem_run := []
          mc := { m with
            device_id := rd rsp.data 1
            device_revision := rd rsp.data 2 &&& 0x0F
            provides_device_sdrs := decide (rd rsp.data 2 &&& 0x80 ≠ 0)
            device_available := decide (rd rsp.data 3 &&& 0x80 ≠ 0)
            major_fw_revision := rd rsp.data 3 &&& 0x7F
            minor_fw_revision := rd rsp.data 4
            major_version := rd rsp.data 5 &&& 0x0F
            minor_version := (rd rsp.data 5 >>> 4) &&& 0x0F
            chassis_support := (rd rsp.data 6).testBit 7
            bridge_support := (rd rsp.data 6).testBit 6
            IPMB_event_generator_support := (rd rsp.data 6).testBit 5
            IPMB_event_receiver_support := (rd rsp.data 6).testBit 4
            FRU_inventory_support := (rd rsp.data 6).testBit 3
            SEL_device_support := (rd rsp.data 6).testBit 2
            SDR_repository_support := (rd rsp.data 6).testBit 1
            sensor_device_support := (rd rsp.data 6).testBit 0
            manufacturer_id :=
              rd rsp.data 7 ||| (rd rsp.data 8 <<< 8) ||| (rd rsp.data 9 <<< 16)
            product_id := rd rsp.data 10 ||| (rd rsp.data 11 <<< 8)
            aux_fw_revision :=
              if 16 ≤ rsp.data_len then
                [rsp.data.getD 12 0, rsp.data.getD 13 0, rsp.data.getD 14 0,
                  rsp.data.getD 15 0]
              else [0, 0, 0, 0] } } := by
    intro m
    have hm := three_bytes_lt _ _ _ (rd_lt rsp.data 7) (rd_lt rsp.data 8) (rd_lt rsp.data 9)
    have hp := two_bytes_lt _ _ (rd_lt rsp.data 10) (rd_lt rsp.data 11)
    have hm32 : (rd rsp.data 7 ||| (rd rsp.data 8 <<< 8) ||| (rd rsp.data 9 <<< 16)) % 2 ^ 32
        = rd rsp.data 7 ||| (rd rsp.data 8 <<< 8) ||| (rd rsp.data 9 <<< 16) :=
      Nat.mod_eq_of_lt (by omega)
    have hp16 : (rd rsp.data 10 ||| (rd rsp.data 11 <<< 8)) % 2 ^ 16
        = rd rsp.data 10 ||| (rd rsp.data 11 <<< 8) := Nat.mod_eq_of_lt hp
    have b2 := byte_top_bit (rsp.data.getD 2 0)
    have b3 := byte_top_bit (rsp.data.getD 3 0)
    obtain ⟨f7, f6, f5, f4, f3, f2, f1, f0⟩ := byte_flag_bits (rsp.data.getD 6 0)
    unfold get_device_id_data_from_rsp
    rw [if_neg (by simp [hcc]), if_neg (by omega)]
    rw [check_oem_handlers_none]
    · by_cases h16 : rsp.data_len < 16
      · simp only [rd, hm32, hp16, and_mod_256 _ 0xf (by decide), and_mod_256 _ 0x7f (by decide),
          b2, b3, f7, f6, f5, f4, f3, f2, f1, f0, if_pos h16,
          if_neg (show ¬ 16 ≤ rsp.data_len by omega)] at *
      · simp only [rd, hm32, hp16, and_mod_256 _ 0xf (by decide), and_mod_256 _ 0x7f (by decide),
          b2, b3, f7, f6, f5, f4, f3, f2, f1, f0, if_neg h16,
          if_pos (show 16 ≤ rsp.data_len by omega)] at *
    · simpa only [hm32, hp16] using hoem
  refine ⟨by rw [key], by rw [key], by rw [key], ?_, ?_⟩
  · rw [key]
    exact three_bytes_lt _ _ _ (rd_lt rsp.data 7) (rd_lt rsp.data 8) (rd_lt rsp.data 9)
  · rw [key, key]

/-- Witness of C1: the sample response, with an OEM handler registered for
another product, is parsed with return value 0. -/
theorem get_device_id_data_from_rsp_parses_witness :
    (get_device_id_data_from_rsp sample_err_val sample_oem_call sample_oem_handlers
        (sample_mc 100 200 ⟨IPMI_SYSTEM_INTERFACE_ADDR_TYPE, 0xf, 0, 0⟩) sample_devid_rsp).rv = 0
    ∧ (get_device_id_data_from_rsp sample_err_val sample_oem_call sample_oem_handlers
        (sample_mc 100 200 ⟨IPMI_SYSTEM_INTERFACE_ADDR_TYPE, 0xf, 0, 0⟩)
        sample_devid_rsp).mc.manufacturer_id = 0x001bf2 :=
  have h := get_device_id_data_from_rsp_parses sample_err_val sample_oem_call
    sample_oem_handlers (sample_mc 100 200 ⟨IPMI_SYSTEM_INTERFACE_ADDR_TYPE, 0xf, 0, 0⟩)
    sample_devid_rsp (by decide) (by decide) (by decide)
  ⟨h.1, by rw [h.2.2.1]; decide⟩

/-- C2: a Get Device ID response shorter than 12 bytes is rejected: the return
value is non-zero (given that `IPMI_IPMI_ERR_VAL` maps a non-zero completion
code to a non-zero error), it is `EINVAL` when the completion code is 0, the MC
is left as it was, and no OEM handler runs. -/
theorem get_device_id_data_from_rsp_short (err_val : Nat → Int) (oem_call : oem_call_t)
    (oem_handlers : List oem_handlers_t) (mc : ipmi_mc_t) (rsp : ipmi_msg_t)
    (herr : ∀ v, v ≠ 0 → err_val v ≠ 0) (hlen : rsp.data_len < 12) :
    (get_device_id_data_from_rsp err_val oem_call oem_handlers mc rsp).rv ≠ 0
    ∧ (rd rsp.data 0 = 0 →
        (get_device_id_data_from_rsp err_val oem_call oem_handlers mc rsp).rv = EINVAL)
    ∧ (get_device_id_data_from_rsp err_val oem_call oem_handlers mc rsp).mc = mc
    ∧ (get_device_id_data_from_rsp err_val oem_call oem_handlers mc rsp).oem_run = [] := by
  unfold get_device_id_data_from_rsp
  by_cases hcc : rd rsp.data 0 = 0
  · simp [hcc, hlen, EINVAL]
  · simp [hcc, herr _ hcc]

/-- Witness of C2: an 11-byte response with completion code 0, whose ids would
match the registered OEM handler, is rejected with `EINVAL`. -/
theorem get_device_id_data_from_rsp_short_witness :
    (∀ v, v ≠ 0 → sample_err_val v ≠ 0)
    ∧ (get_device_id_data_from_rsp sample_err_val sample_oem_call sample_oem_handlers
        (sample_mc 100 200 ⟨IPMI_SYSTEM_INTERFACE_ADDR_TYPE, 0xf, 0, 0⟩)
        { netfn := 7, cmd := 1, data_len := 11,
          data := [0, 0x20, 0x81, 0x81, 0x02, 0x51, 0xa5, 0x57, 0x01, 0x00, 0x23] }).rv
        = EINVAL :=
  have herr : ∀ v, v ≠ 0 → sample_err_val v ≠ 0 := by
    intro v _ h
    have h2 : (v ||| 0x01000000 : Nat) = 0 := by
      unfold sample_err_val at h
      exact_mod_cast h
    have h3 : (v ||| 0x01000000).testBit 24 = true := by
      rw [Nat.testBit_or, show Nat.testBit 0x01000000 24 = true by decide, Bool.or_true]
    rw [h2] at h3
    exact absurd h3 (by decide)
  ⟨herr, (get_device_id_data_from_rsp_short sample_err_val sample_oem_call sample_oem_handlers
      _ _ herr (by decide)).2.1 (by decide)⟩

/-! ## Theorems: addressing -/

/-- C3: an IPMB address with slave address 0x20 resolves to the BMC itself,
whatever the channel, the LUN, the content of the MC list and the address
comparison. -/
theorem find_mc_by_addr_bmc (addr_equal : addr_equal_t) (h : mc_heap) (bmc : Ptr)
    (addr : ipmi_addr_t) (addr_len : Nat)
    (htype : addr.addr_type = IPMI_IPMB_ADDR_TYPE) (hslave : addr.slave_addr = 0x20) :
    find_mc_by_addr addr_equal h bmc addr addr_len = bmc := by
  simp [find_mc_by_addr, htype, hslave]

/-- Witness of C3: in the sample heap the satellite at 101 has an address equal
to the queried one, and the lookup still returns the BMC, 100. -/
theorem find_mc_by_addr_bmc_witness :
    101 ∈ (sample_heap.bmc (sample_heap.mc 100).bmc).mc_list
    ∧ ipmi_addr_equal (sample_heap.mc 101).addr 8 ⟨IPMI_IPMB_ADDR_TYPE, 0, 0x20, 0⟩ 8 = true
    ∧ find_mc_by_addr ipmi_addr_equal sample_heap 100 ⟨IPMI_IPMB_ADDR_TYPE, 0, 0x20, 0⟩ 8 = 100 :=
  ⟨by decide, by decide,
    find_mc_by_addr_bmc ipmi_addr_equal sample_heap 100 ⟨IPMI_IPMB_ADDR_TYPE, 0, 0x20, 0⟩ 8
      rfl rfl⟩

/-- C4: `ipmi_mc_pointer_cb` on the id (bmc, channel, mc_num). When the BMC's
connection does not validate, the validation error (non-zero) is returned and
the handler is not called. Otherwise, when mc_num is 0 the handler is called
once on the BMC and 0 is returned; when mc_num is not 0 the IPMB address
(channel, mc_num, lun 0) is looked up with `find_mc_by_addr`, and the handler is
called once on the MC found and 0 is returned, or, when none is found, `EINVAL`
is returned and the handler is not called. -/
theorem ipmi_mc_pointer_cb_cases (validate : validate_t) (addr_equal : addr_equal_t)
    (h : mc_heap) (id : ipmi_mc_id_t) (handler : Ptr) (cb_data : Ptr) :
    (ipmi_mc_validate validate h id.bmc ≠ 0 →
      (ipmi_mc_pointer_cb validate addr_equal h id handler cb_data).1 ≠ 0
      ∧ (ipmi_mc_pointer_cb validate addr_equal h id handler cb_data).2 = [])
    ∧ (ipmi_mc_validate validate h id.bmc = 0 → id.mc_num = 0 →
      ipmi_mc_pointer_cb validate addr_equal h id handler cb_data
        = (0, [{ handler := handler, mc := id.bmc, cb_data := cb_data }]))
    ∧ (ipmi_mc_validate validate h id.bmc = 0 → id.mc_num ≠ 0 →
      find_mc_by_addr addr_equal h id.bmc
          { addr_type := IPMI_IPMB_ADDR_TYPE, channel := id.channel,
            slave_addr := id.mc_num, lun := 0 } sizeof_ipmi_ipmb_addr_t ≠ NULL →
      ipmi_mc_pointer_cb validate addr_equal h id handler cb_data
        = (0, [{ handler := handler
                 mc := find_mc_by_addr addr_equal h id.bmc
                    { addr_type := IPMI_IPMB_ADDR_TYPE, channel := id.channel,
                      slave_addr := id.mc_num, lun := 0 } sizeof_ipmi_ipmb_addr_t
                 cb_data := cb_data }]))
    ∧ (ipmi_mc_validate validate h id.bmc = 0 → id.mc_num ≠ 0 →
      find_mc_by_addr addr_equal h id.bmc
          { addr_type := IPMI_IPMB_ADDR_TYPE, channel := id.channel,
            slave_addr := id.mc_num, lun := 0 } sizeof_ipmi_ipmb_addr_t = NULL →
      ipmi_mc_pointer_cb validate addr_equal h id handler cb_data = (EINVAL, [])) := by
  refine ⟨?_, ?_, ?_, ?_⟩
  · intro hv
    simp [ipmi_mc_pointer_cb, hv]
  · intro hv hz
    simp [ipmi_mc_pointer_cb, hv, hz]
  · intro hv hz hf
    simp [ipmi_mc_pointer_cb, hv, hz, hf]
  · intro hv hz hf
    simp [ipmi_mc_pointer_cb, hv, hz, hf]

/-- Witness of C4: in the sample heap with a live connection, the id
(100, channel 0, mc_num 0x24) resolves to the satellite at 102, on which the
handler is called once; the id with mc_num 0x30 resolves to nothing. -/
theorem ipmi_mc_pointer_cb_cases_witness :
    ipmi_mc_pointer_cb (fun _ => 0) ipmi_addr_equal sample_heap ⟨100, 0, 0x24⟩ 7 9
        = (0, [{ handler := 7, mc := 102, cb_data := 9 }])
    ∧ ipmi_mc_pointer_cb (fun _ => 0) ipmi_addr_equal sample_heap ⟨100, 0, 0x30⟩ 7 9
        = (EINVAL, []) :=
  ⟨(ipmi_mc_pointer_cb_cases (fun _ => 0) ipmi_addr_equal sample_heap ⟨100, 0, 0x24⟩ 7
      9).2.2.1 rfl (by decide) (by decide),
   (ipmi_mc_pointer_cb_cases (fun _ => 0) ipmi_addr_equal sample_heap ⟨100, 0, 0x30⟩ 7
      9).2.2.2 rfl (by decide) (by decide)⟩

/-! ## Theorems: doubly-linked lists in a heap -/

theorem dll_congr {next prev next2 prev2 : Ptr → Ptr} {l : List Ptr} :
    ∀ {pv hd : Ptr}, (∀ p ∈ l, next2 p = next p ∧ prev2 p = prev p) →
      dll next prev pv hd l → dll next2 prev2 pv hd l := by
  induction l with
  | nil => intro pv hd _ h; exact h
  | cons x xs ih =>
    intro pv hd hagree h
    obtain ⟨h1, h2, h3, h4⟩ := h
    have hx := hagree x (List.mem_cons_self x xs)
    refine ⟨h1, h2, by rw [hx.2]; exact h3, ?_⟩
    rw [hx.1]
    exact ih (fun p hp => hagree p (List.mem_cons_of_mem x hp)) h4

theorem dll_null_not_mem {next prev : Ptr → Ptr} {l : List Ptr} :
    ∀ {pv hd : Ptr}, dll next prev pv hd l → NULL ∉ l := by
  induction l with
  | nil => intro pv hd _; simp
  | cons x xs ih =>
    intro pv hd h
    obtain ⟨_, h2, _, h4⟩ := h
    intro hmem
    rcases List.mem_cons.mp hmem with h | h
    · exact h2 h.symm
    · exact ih h4 h

theorem dll_unique {next prev : Ptr → Ptr} {l : List Ptr} :
    ∀ {l2 : List Ptr} {pv pv2 hd : Ptr}, dll next prev pv hd l → dll next prev pv2 hd l2 →
      l = l2 := by
  induction l with
  | nil =>
    intro l2 pv pv2 hd h h2
    cases l2 with
    | nil => rfl
    | cons y ys =>
      obtain ⟨e1, e2, _, _⟩ := h2
      exact absurd (e1.symm.trans h) e2
  | cons x xs ih =>
    intro l2 pv pv2 hd h h2
    obtain ⟨h1, hx, _, h4⟩ := h
    cases l2 with
    | nil => exact absurd (h1.symm.trans h2) hx
    | cons y ys =>
      obtain ⟨e1, _, _, e4⟩ := h2
      have hxy : x = y := h1.symm.trans e1
      subst hxy
      rw [ih h4 e4]

theorem dll_suffix {next prev : Ptr → Ptr} {l1 : List Ptr} :
    ∀ {l2 : List Ptr} {pv hd x : Ptr}, dll next prev pv hd (l1 ++ x :: l2) →
      dll next prev x (next x) l2 := by
  induction l1 with
  | nil => intro l2 pv hd x h; exact h.2.2.2
  | cons y ys ih => intro l2 pv hd x h; exact ih h.2.2.2

theorem dll_nodup {next prev : Ptr → Ptr} {l : List Ptr} :
    ∀ {pv hd : Ptr}, dll next prev pv hd l → l.Nodup := by
  induction l with
  | nil => intro pv hd _; exact List.nodup_nil
  | cons x xs ih =>
    intro pv hd h
    have h4 := h.2.2.2
    refine List.nodup_cons.mpr ⟨?_, ih h4⟩
    intro hmem
    obtain ⟨l1, l2, hsplit⟩ := List.append_of_mem hmem
    rw [hsplit] at h4
    have hs := dll_suffix h4
    have := dll_unique h4 hs
    have hlen := congrArg List.length this
    simp at hlen
    omega

theorem dll_next_mem {next prev : Ptr → Ptr} {l : List Ptr} {c : Ptr} :
    ∀ {pv hd : Ptr}, dll next prev pv hd l → c ∈ l → next c = NULL ∨ next c ∈ l := by
  induction l with
  | nil => intro pv hd _ hc; simp at hc
  | cons x xs ih =>
    intro pv hd h hc
    have h4 := h.2.2.2
    rcases List.mem_cons.mp hc with hcx | hcx
    · subst hcx
      cases xs with
      | nil => left; exact h4
      | cons y ys => right; rw [h4.1]; simp
    · rcases ih h4 hcx with h5 | h5
      · left; exact h5
      · right; exact List.mem_cons_of_mem x h5

theorem dll_prev_cases {next prev : Ptr → Ptr} {l : List Ptr} {c : Ptr} :
    ∀ {pv hd : Ptr}, dll next prev pv hd l → c ∈ l →
      (hd = c ∧ prev c = pv) ∨ (hd ≠ c ∧ prev c ∈ l) := by
  induction l with
  | nil => intro pv hd _ hc; simp at hc
  | cons x xs ih =>
    intro pv hd h hc
    have hnd := dll_nodup h
    obtain ⟨h1, _, h3, h4⟩ := h
    rcases List.mem_cons.mp hc with hcx | hcx
    · subst hcx
      left; exact ⟨h1, h3⟩
    · right
      have hxc : x ≠ c := by
        intro e; subst e
        exact (List.nodup_cons.mp hnd).1 hcx
      refine ⟨by rw [h1]; exact hxc, ?_⟩
      rcases ih h4 hcx with h5 | h5
      · rw [h5.2]; simp
      · exact List.mem_cons_of_mem x h5.2

theorem dll_head {next prev : Ptr → Ptr} {l : List Ptr} {pv hd : Ptr}
    (h : dll next prev pv hd l) : hd = l.headD NULL := by
  cases l with
  | nil => exact h
  | cons x xs => exact h.1

theorem dll_unlink {next prev : Ptr → Ptr} (next2 prev2 : Ptr → Ptr) {c : Ptr} {l : List Ptr} :
    ∀ {pv hd : Ptr}, dll next prev pv hd l → pv ∉ l → c ∈ l →
      (∀ p ∈ l, p ≠ prev c → next2 p = next p) →
      (prev c ∈ l → next2 (prev c) = next c) →
      (∀ p ∈ l, p ≠ next c → prev2 p = prev p) →
      (next c ∈ l → prev2 (next c) = prev c) →
      dll next2 prev2 pv (if hd = c then next c else hd) (l.erase c) := by
  induction l with
  | nil => intro pv hd _ _ hc; simp at hc
  | cons x xs ih =>
    intro pv hd h hpv hc hn hnp hp hpn
    have hnd := dll_nodup h
    have hnull := dll_null_not_mem h
    have hnext := dll_next_mem h hc
    obtain ⟨h1, hx0, h3, h4⟩ := h
    have hxs : x ∉ xs := (List.nodup_cons.mp hnd).1
    by_cases hcx : c = x
    · subst hcx
      rw [if_pos h1, List.erase_cons_head]
      cases xs with
      | nil => exact h4
      | cons y ys =>
        obtain ⟨e1, e2, e3, e4⟩ := h4
        have hy : y ∈ c :: y :: ys := by simp
        have hyc : y ≠ c := by
          intro e; apply hxs; rw [e]; simp
        have hypv : y ≠ pv := by
          intro e; apply hpv; rw [← e]; exact hy
        refine ⟨e1, e2, ?_, ?_⟩
        · have := hpn (by rw [e1]; exact hy)
          rw [e1] at this
          rw [this, h3]
        · have hny : next2 y = next y := hn y hy (by rw [h3]; exact hypv)
          rw [hny]
          refine dll_congr ?_ e4
          intro p hpm
          have hpl : p ∈ c :: y :: ys := by simp [hpm]
          have hppv : p ≠ pv := by
            intro e; apply hpv; rw [← e]; exact hpl
          have hpy : p ≠ y := by
            intro e
            have := (List.nodup_cons.mp (List.nodup_cons.mp hnd).2).1
            apply this; rw [← e]; exact hpm
          exact ⟨hn p hpl (by rw [h3]; exact hppv), hp p hpl (by rw [e1]; exact hpy)⟩
    · have hcxs : c ∈ xs := by
        rcases List.mem_cons.mp hc with e | e
        · exact absurd e hcx
        · exact e
      have hhd : hd ≠ c := by rw [h1]; exact fun e => hcx e.symm
      rw [if_neg hhd]
      have herase : (x :: xs).erase c = x :: xs.erase c := by
        rw [List.erase_cons_tail]
        simpa using fun e => hcx e.symm
      rw [herase]
      have hxl : x ∈ x :: xs := List.mem_cons_self x xs
      have hxnext : x ≠ next c := by
        intro e
        rcases dll_next_mem h4 hcxs with h5 | h5
        · exact hx0 (e.trans h5)
        · exact hxs (e ▸ h5)
      refine ⟨h1, hx0, ?_, ?_⟩
      · rw [hp x hxl hxnext]; exact h3
      · have ih2 := ih h4 hxs hcxs
          (fun p hpm => hn p (List.mem_cons_of_mem x hpm))
          (fun hm => hnp (List.mem_cons_of_mem x hm))
          (fun p hpm => hp p (List.mem_cons_of_mem x hpm))
          (fun hm => hpn (List.mem_cons_of_mem x hm))
        rcases dll_prev_cases h4 hcxs with h5 | h5
        · rw [if_pos h5.1] at ih2
          have : next2 x = next c := by
            have := hnp (by rw [h5.2]; exact hxl)
            rw [h5.2] at this; exact this
          rw [this]; exact ih2
        · rw [if_neg h5.1] at ih2
          have hxprev : x ≠ prev c := fun e => hxs (e ▸ h5.2)
          rw [hn x hxl hxprev]; exact ih2

theorem dll_insert_head {next prev next2 prev2 : Ptr → Ptr} {e hd : Ptr} {l : List Ptr}
    (h : dll next prev NULL hd l) (he0 : e ≠ NULL) (hel : e ∉ l)
    (hne : next2 e = hd) (hpe : prev2 e = NULL)
    (hn : ∀ p ∈ l, next2 p = next p)
    (hph : hd ∈ l → prev2 hd = e)
    (hp : ∀ p ∈ l, p ≠ hd → prev2 p = prev p) :
    dll next2 prev2 NULL e (e :: l) := by
  refine ⟨rfl, he0, hpe, ?_⟩
  rw [hne]
  cases l with
  | nil => exact h
  | cons x xs =>
    have hnd := dll_nodup h
    obtain ⟨h1, h2, _, h4⟩ := h
    have hxl : x ∈ x :: xs := List.mem_cons_self x xs
    refine ⟨h1, h2, ?_, ?_⟩
    · have := hph (by rw [h1]; exact hxl)
      rw [h1] at this; exact this
    · rw [hn x hxl]
      refine dll_congr ?_ h4
      intro p hpm
      have hpx : p ≠ x := fun e2 => (List.nodup_cons.mp hnd).1 (e2 ▸ hpm)
      exact ⟨hn p (List.mem_cons_of_mem x hpm),
        hp p (List.mem_cons_of_mem x hpm) (by rw [h1]; exact hpx)⟩

theorem dll_next_ne {next prev : Ptr → Ptr} {l : List Ptr} {c : Ptr} :
    ∀ {pv hd : Ptr}, dll next prev pv hd l → c ∈ l → next c ≠ c := by
  induction l with
  | nil => intro pv hd _ hc; simp at hc
  | cons x xs ih =>
    intro pv hd h hc
    have hnd := dll_nodup h
    have h4 := h.2.2.2
    rcases List.mem_cons.mp hc with hcx | hcx
    · subst hcx
      cases xs with
      | nil => rw [show next c = NULL from h4]; exact fun e => h.2.1 e.symm
      | cons y ys =>
        rw [h4.1]
        intro e
        apply (List.nodup_cons.mp hnd).1
        rw [← e]; simp
    · exact ih h4 hcx

theorem dll_prev_ne {next prev : Ptr → Ptr} {l : List Ptr} {c : Ptr} :
    ∀ {pv hd : Ptr}, dll next prev pv hd l → pv ∉ l → c ∈ l → prev c ≠ c := by
  induction l with
  | nil => intro pv hd _ _ hc; simp at hc
  | cons x xs ih =>
    intro pv hd h hpv hc
    have hnd := dll_nodup h
    obtain ⟨_, _, h3, h4⟩ := h
    rcases List.mem_cons.mp hc with hcx | hcx
    · subst hcx
      rw [h3]
      intro e
      apply hpv; rw [e]; simp
    · exact ih h4 (List.nodup_cons.mp hnd).1 hcx

/-! ## Theorems: stores, locks and the trace -/

@[simp] theorem set_smi_smi (w : smi_world) (p : Ptr) (v : smi_data_t) (q : Ptr) :
    (w.set_smi p v).smi q = if q = p then v else w.smi q := by
  simp [smi_world.set_smi, Function.update_apply]

@[simp] theorem set_smi_smi_list (w : smi_world) (p : Ptr) (v : smi_data_t) :
    (w.set_smi p v).smi_list = w.smi_list := rfl

@[simp] theorem set_smi_con (w : smi_world) (p : Ptr) (v : smi_data_t) :
    (w.set_smi p v).con = w.con := rfl

@[simp] theorem set_smi_cmd (w : smi_world) (p : Ptr) (v : smi_data_t) :
    (w.set_smi p v).cmd = w.cmd := rfl

@[simp] theorem set_smi_hnd (w : smi_world) (p : Ptr) (v : smi_data_t) :
    (w.set_smi p v).hnd = w.hnd := rfl

@[simp] theorem set_smi_evt (w : smi_world) (p : Ptr) (v : smi_data_t) :
    (w.set_smi p v).evt = w.evt := rfl

@[simp] theorem set_smi_gets_events (w : smi_world) (p : Ptr) (v : smi_data_t) :
    (w.set_smi p v).gets_events = w.gets_events := rfl

@[simp] theorem set_smi_timers (w : smi_world) (p : Ptr) (v : smi_data_t) :
    (w.set_smi p v).timers = w.timers := rfl

@[simp] theorem set_smi_trace (w : smi_world) (p : Ptr) (v : smi_data_t) :
    (w.set_smi p v).trace = w.trace := rfl

@[simp] theorem set_cmd_cmd (w : smi_world) (p : Ptr) (v : pending_cmd_t) (q : Ptr) :
    (w.set_cmd p v).cmd q = if q = p then v else w.cmd q := by
  simp [smi_world.set_cmd, Function.update_apply]

@[simp] theorem set_cmd_smi_list (w : smi_world) (p : Ptr) (v : pending_cmd_t) :
    (w.set_cmd p v).smi_list = w.smi_list := rfl

@[simp] theorem set_cmd_con (w : smi_world) (p : Ptr) (v : pending_cmd_t) :
    (w.set_cmd p v).con = w.con := rfl

@[simp] theorem set_cmd_smi (w : smi_world) (p : Ptr) (v : pending_cmd_t) :
    (w.set_cmd p v).smi = w.smi := rfl

@[simp] theorem set_cmd_hnd (w : smi_world) (p : Ptr) (v : pending_cmd_t) :
    (w.set_cmd p v).hnd = w.hnd := rfl

@[simp] theorem set_cmd_evt (w : smi_world) (p : Ptr) (v : pending_cmd_t) :
    (w.set_cmd p v).evt = w.evt := rfl

@[simp] theorem set_cmd_gets_events (w : smi_world) (p : Ptr) (v : pending_cmd_t) :
    (w.set_cmd p v).gets_events = w.gets_events := rfl

@[simp] theorem set_cmd_timers (w : smi_world) (p : Ptr) (v : pending_cmd_t) :
    (w.set_cmd p v).timers = w.timers := rfl

@[simp] theorem set_cmd_trace (w : smi_world) (p : Ptr) (v : pending_cmd_t) :
    (w.set_cmd p v).trace = w.trace := rfl

@[simp] theorem set_hnd_hnd (w : smi_world) (p : Ptr) (v : cmd_handler_t) (q : Ptr) :
    (w.set_hnd p v).hnd q = if q = p then v else w.hnd q := by
  simp [smi_world.set_hnd, Function.update_apply]

@[simp] theorem set_hnd_smi_list (w : smi_world) (p : Ptr) (v : cmd_handler_t) :
    (w.set_hnd p v).smi_list = w.smi_list := rfl

@[simp] theorem set_hnd_con (w : smi_world) (p : Ptr) (v : cmd_handler_t) :
    (w.set_hnd p v).con = w.con := rfl

@[simp] theorem set_hnd_smi (w : smi_world) (p : Ptr) (v : cmd_handler_t) :
    (w.set_hnd p v).smi = w.smi := rfl

@[simp] theorem set_hnd_cmd (w : smi_world) (p : Ptr) (v : cmd_handler_t) :
    (w.set_hnd p v).cmd = w.cmd := rfl

@[simp] theorem set_hnd_evt (w : smi_world) (p : Ptr) (v : cmd_handler_t) :
    (w.set_hnd p v).evt = w.evt := rfl

@[simp] theorem set_hnd_gets_events (w : smi_world) (p : Ptr) (v : cmd_handler_t) :
    (w.set_hnd p v).gets_events = w.gets_events := rfl

@[simp] theorem set_hnd_timers (w : smi_world) (p : Ptr) (v : cmd_handler_t) :
    (w.set_hnd p v).timers = w.timers := rfl

@[simp] theorem set_hnd_trace (w : smi_world) (p : Ptr) (v : cmd_handler_t) :
    (w.set_hnd p v).trace = w.trace := rfl

@[simp] theorem set_evt_evt (w : smi_world) (p : Ptr) (v : ipmi_ll_event_handler_id_t) (q : Ptr) :
    (w.set_evt p v).evt q = if q = p then v else w.evt q := by
  simp [smi_world.set_evt, Function.update_apply]

@[simp] theorem set_evt_smi_list (w : smi_world) (p : Ptr) (v : ipmi_ll_event_handler_id_t) :
    (w.set_evt p v).smi_list = w.smi_list := rfl

@[simp] theorem set_evt_con (w : smi_world) (p : Ptr) (v : ipmi_ll_event_handler_id_t) :
    (w.set_evt p v).con = w.con := rfl

@[simp] theorem set_evt_smi (w : smi_world) (p : Ptr) (v : ipmi_ll_event_handler_id_t) :
    (w.set_evt p v).smi = w.smi := rfl

@[simp] theorem set_evt_cmd (w : smi_world) (p : Ptr) (v : ipmi_ll_event_handler_id_t) :
    (w.set_evt p v).cmd = w.cmd := rfl

@[simp] theorem set_evt_hnd (w : smi_world) (p : Ptr) (v : ipmi_ll_event_handler_id_t) :
    (w.set_evt p v).hnd = w.hnd := rfl

@[simp] theorem set_evt_gets_events (w : smi_world) (p : Ptr) (v : ipmi_ll_event_handler_id_t) :
    (w.set_evt p v).gets_events = w.gets_events := rfl

@[simp] theorem set_evt_timers (w : smi_world) (p : Ptr) (v : ipmi_ll_event_handler_id_t) :
    (w.set_evt p v).timers = w.timers := rfl

@[simp] theorem set_evt_trace (w : smi_world) (p : Ptr) (v : ipmi_ll_event_handler_id_t) :
    (w.set_evt p v).trace = w.trace := rfl

@[simp] theorem emit_trace (w : smi_world) (e : effect) :
    (w.emit e).trace = w.trace ++ [e] := rfl

@[simp] theorem emit_smi_list (w : smi_world) (e : effect) : (w.emit e).smi_list = w.smi_list := rfl

@[simp] theorem emit_con (w : smi_world) (e : effect) : (w.emit e).con = w.con := rfl

@[simp] theorem emit_smi (w : smi_world) (e : effect) : (w.emit e).smi = w.smi := rfl

@[simp] theorem emit_cmd (w : smi_world) (e : effect) : (w.emit e).cmd = w.cmd := rfl

@[simp] theorem emit_hnd (w : smi_world) (e : effect) : (w.emit e).hnd = w.hnd := rfl

@[simp] theorem emit_evt (w : smi_world) (e : effect) : (w.emit e).evt = w.evt := rfl

@[simp] theorem emit_gets_events (w : smi_world) (e : effect) : (w.emit e).gets_events = w.gets_events := rfl

@[simp] theorem emit_timers (w : smi_world) (e : effect) : (w.emit e).timers = w.timers := rfl

theorem cmd_set_next_eq (w : smi_world) (p v : Ptr) :
    cmd_set_next w p v
      = { w with cmd := fun q =>
          { w.cmd q with next := if q = p then v else (w.cmd q).next } } := by
  unfold cmd_set_next smi_world.set_cmd
  congr 1
  funext q
  by_cases h : q = p
  · subst h; simp
  · simp [h]

theorem cmd_set_prev_eq (w : smi_world) (p v : Ptr) :
    cmd_set_prev w p v
      = { w with cmd := fun q =>
          { w.cmd q with prev := if q = p then v else (w.cmd q).prev } } := by
  unfold cmd_set_prev smi_world.set_cmd
  congr 1
  funext q
  by_cases h : q = p
  · subst h; simp
  · simp [h]

theorem hnd_set_next_eq (w : smi_world) (p v : Ptr) :
    hnd_set_next w p v
      = { w with hnd := fun q =>
          { w.hnd q with next := if q = p then v else (w.hnd q).next } } := by
  unfold hnd_set_next smi_world.set_hnd
  congr 1
  funext q
  by_cases h : q = p
  · subst h; simp
  · simp [h]

theorem hnd_set_prev_eq (w : smi_world) (p v : Ptr) :
    hnd_set_prev w p v
      = { w with hnd := fun q =>
          { w.hnd q with prev := if q = p then v else (w.hnd q).prev } } := by
  unfold hnd_set_prev smi_world.set_hnd
  congr 1
  funext q
  by_cases h : q = p
  · subst h; simp
  · simp [h]

theorem evt_set_next_eq (w : smi_world) (p v : Ptr) :
    evt_set_next w p v
      = { w with evt := fun q =>
          { w.evt q with next := if q = p then v else (w.evt q).next } } := by
  unfold evt_set_next smi_world.set_evt
  congr 1
  funext q
  by_cases h : q = p
  · subst h; simp
  · simp [h]

theorem evt_set_prev_eq (w : smi_world) (p v : Ptr) :
    evt_set_prev w p v
      = { w with evt := fun q =>
          { w.evt q with prev := if q = p then v else (w.evt q).prev } } := by
  unfold evt_set_prev smi_world.set_evt
  congr 1
  funext q
  by_cases h : q = p
  · subst h; simp
  · simp [h]

theorem lock_cmd_lock_eq (w : smi_world) (smi : Ptr) :
    lock_cmd_lock w smi = { w with smi := fun q =>
      { w.smi q with
        cmd_lock := if q = smi then (w.smi q).cmd_lock + 1 else (w.smi q).cmd_lock } } := by
  unfold lock_cmd_lock smi_world.set_smi
  congr 1
  funext q
  by_cases h : q = smi
  · subst h; simp
  · simp [h]

theorem unlock_cmd_lock_eq (w : smi_world) (smi : Ptr) :
    unlock_cmd_lock w smi = { w with smi := fun q =>
      { w.smi q with
        cmd_lock := if q = smi then (w.smi q).cmd_lock - 1 else (w.smi q).cmd_lock } } := by
  unfold unlock_cmd_lock smi_world.set_smi
  congr 1
  funext q
  by_cases h : q = smi
  · subst h; simp
  · simp [h]

theorem unlock_lock_cmd_lock (w : smi_world) (smi : Ptr) :
    unlock_cmd_lock (lock_cmd_lock w smi) smi = w := by
  rw [unlock_cmd_lock_eq, lock_cmd_lock_eq]
  cases w with
  | mk smi_list con smi_h cmd hnd evt ge tm tr =>
    simp only [smi_world.mk.injEq, true_and, and_true]
    funext q
    by_cases h : q = smi
    · subst h; simp
    · simp [h]

theorem lock_cmd_handlers_lock_eq (w : smi_world) (smi : Ptr) :
    lock_cmd_handlers_lock w smi = { w with smi := fun q =>
      { w.smi q with
        cmd_handlers_lock := if q = smi then (w.smi q).cmd_handlers_lock + 1 else (w.smi q).cmd_handlers_lock } } := by
  unfold lock_cmd_handlers_lock smi_world.set_smi
  congr 1
  funext q
  by_cases h : q = smi
  · subst h; simp
  · simp [h]

theorem unlock_cmd_handlers_lock_eq (w : smi_world) (smi : Ptr) :
    unlock_cmd_handlers_lock w smi = { w with smi := fun q =>
      { w.smi q with
        cmd_handlers_lock := if q = smi then (w.smi q).cmd_handlers_lock - 1 else (w.smi q).cmd_handlers_lock } } := by
  unfold unlock_cmd_handlers_lock smi_world.set_smi
  congr 1
  funext q
  by_cases h : q = smi
  · subst h; simp
  · simp [h]

theorem unlock_lock_cmd_handlers_lock (w : smi_world) (smi : Ptr) :
    unlock_cmd_handlers_lock (lock_cmd_handlers_lock w smi) smi = w := by
  rw [unlock_cmd_handlers_lock_eq, lock_cmd_handlers_lock_eq]
  cases w with
  | mk smi_list con smi_h cmd hnd evt ge tm tr =>
    simp only [smi_world.mk.injEq, true_and, and_true]
    funext q
    by_cases h : q = smi
    · subst h; simp
    · simp [h]

theorem lock_event_handlers_lock_eq (w : smi_world) (smi : Ptr) :
    lock_event_handlers_lock w smi = { w with smi := fun q =>
      { w.smi q with
        event_handlers_lock := if q = smi then (w.smi q).event_handlers_lock + 1 else (w.smi q).event_handlers_lock } } := by
  unfold lock_event_handlers_lock smi_world.set_smi
  congr 1
  funext q
  by_cases h : q = smi
  · subst h; simp
  · simp [h]

theorem unlock_event_handlers_lock_eq (w : smi_world) (smi : Ptr) :
    unlock_event_handlers_lock w smi = { w with smi := fun q =>
      { w.smi q with
        event_handlers_lock := if q = smi then (w.smi q).event_handlers_lock - 1 else (w.smi q).event_handlers_lock } } := by
  unfold unlock_event_handlers_lock smi_world.set_smi
  congr 1
  funext q
  by_cases h : q = smi
  · subst h; simp
  · simp [h]

theorem unlock_lock_event_handlers_lock (w : smi_world) (smi : Ptr) :
    unlock_event_handlers_lock (lock_event_handlers_lock w smi) smi = w := by
  rw [unlock_event_handlers_lock_eq, lock_event_handlers_lock_eq]
  cases w with
  | mk smi_list con smi_h cmd hnd evt ge tm tr =>
    simp only [smi_world.mk.injEq, true_and, and_true]
    funext q
    by_cases h : q = smi
    · subst h; simp
    · simp [h]

/-! ## Theorems: a field of a conditional record -/

@[simp] theorem ite_pending_cmd_t_ipmi (c : Prop) [Decidable c] (a b : pending_cmd_t) :
    (if c then a else b).ipmi = if c then a.ipmi else b.ipmi := by
  split <;> rfl

@[simp] theorem ite_pending_cmd_t_cancelled (c : Prop) [Decidable c] (a b : pending_cmd_t) :
    (if c then a else b).cancelled = if c then a.cancelled else b.cancelled := by
  split <;> rfl

@[simp] theorem ite_pending_cmd_t_msg (c : Prop) [Decidable c] (a b : pending_cmd_t) :
    (if c then a else b).msg = if c then a.msg else b.msg := by
  split <;> rfl

@[simp] theorem ite_pending_cmd_t_addr (c : Prop) [Decidable c] (a b : pending_cmd_t) :
    (if c then a else b).addr = if c then a.addr else b.addr := by
  split <;> rfl

@[simp] theorem ite_pending_cmd_t_addr_len (c : Prop) [Decidable c] (a b : pending_cmd_t) :
    (if c then a else b).addr_len = if c then a.addr_len else b.addr_len := by
  split <;> rfl

@[simp] theorem ite_pending_cmd_t_rsp_handler (c : Prop) [Decidable c] (a b : pending_cmd_t) :
    (if c then a else b).rsp_handler = if c then a.rsp_handler else b.rsp_handler := by
  split <;> rfl

@[simp] theorem ite_pending_cmd_t_rsp_data (c : Prop) [Decidable c] (a b : pending_cmd_t) :
    (if c then a else b).rsp_data = if c then a.rsp_data else b.rsp_data := by
  split <;> rfl

@[simp] theorem ite_pending_cmd_t_data2 (c : Prop) [Decidable c] (a b : pending_cmd_t) :
    (if c then a else b).data2 = if c then a.data2 else b.data2 := by
  split <;> rfl

@[simp] theorem ite_pending_cmd_t_data3 (c : Prop) [Decidable c] (a b : pending_cmd_t) :
    (if c then a else b).data3 = if c then a.data3 else b.data3 := by
  split <;> rfl

@[simp] theorem ite_pending_cmd_t_next (c : Prop) [Decidable c] (a b : pending_cmd_t) :
    (if c then a else b).next = if c then a.next else b.next := by
  split <;> rfl

@[simp] theorem ite_pending_cmd_t_prev (c : Prop) [Decidable c] (a b : pending_cmd_t) :
    (if c then a else b).prev = if c then a.prev else b.prev := by
  split <;> rfl

@[simp] theorem ite_pending_cmd_t_timeout_id (c : Prop) [Decidable c] (a b : pending_cmd_t) :
    (if c then a else b).timeout_id = if c then a.timeout_id else b.timeout_id := by
  split <;> rfl

@[simp] theorem ite_cmd_handler_t_netfn (c : Prop) [Decidable c] (a b : cmd_handler_t) :
    (if c then a else b).netfn = if c then a.netfn else b.netfn := by
  split <;> rfl

@[simp] theorem ite_cmd_handler_t_cmd (c : Prop) [Decidable c] (a b : cmd_handler_t) :
    (if c then a else b).cmd = if c then a.cmd else b.cmd := by
  split <;> rfl

@[simp] theorem ite_cmd_handler_t_handler (c : Prop) [Decidable c] (a b : cmd_handler_t) :
    (if c then a else b).handler = if c then a.handler else b.handler := by
  split <;> rfl

@[simp] theorem ite_cmd_handler_t_cmd_data (c : Prop) [Decidable c] (a b : cmd_handler_t) :
    (if c then a else b).cmd_data = if c then a.cmd_data else b.cmd_data := by
  split <;> rfl

@[simp] theorem ite_cmd_handler_t_data2 (c : Prop) [Decidable c] (a b : cmd_handler_t) :
    (if c then a else b).data2 = if c then a.data2 else b.data2 := by
  split <;> rfl

@[simp] theorem ite_cmd_handler_t_data3 (c : Prop) [Decidable c] (a b : cmd_handler_t) :
    (if c then a else b).data3 = if c then a.data3 else b.data3 := by
  split <;> rfl

@[simp] theorem ite_cmd_handler_t_next (c : Prop) [Decidable c] (a b : cmd_handler_t) :
    (if c then a else b).next = if c then a.next else b.next := by
  split <;> rfl

@[simp] theorem ite_cmd_handler_t_prev (c : Prop) [Decidable c] (a b : cmd_handler_t) :
    (if c then a else b).prev = if c then a.prev else b.prev := by
  split <;> rfl

@[simp] theorem ite_ipmi_ll_event_handler_id_t_ipmi (c : Prop) [Decidable c] (a b : ipmi_ll_event_handler_id_t) :
    (if c then a else b).ipmi = if c then a.ipmi else b.ipmi := by
  split <;> rfl

@[simp] theorem ite_ipmi_ll_event_handler_id_t_handler (c : Prop) [Decidable c] (a b : ipmi_ll_event_handler_id_t) :
    (if c then a else b).handler = if c then a.handler else b.handler := by
  split <;> rfl

@[simp] theorem ite_ipmi_ll_event_handler_id_t_event_data (c : Prop) [Decidable c] (a b : ipmi_ll_event_handler_id_t) :
    (if c then a else b).event_data = if c then a.event_data else b.event_data := by
  split <;> rfl

@[simp] theorem ite_ipmi_ll_event_handler_id_t_data2 (c : Prop) [Decidable c] (a b : ipmi_ll_event_handler_id_t) :
    (if c then a else b).data2 = if c then a.data2 else b.data2 := by
  split <;> rfl

@[simp] theorem ite_ipmi_ll_event_handler_id_t_next (c : Prop) [Decidable c] (a b : ipmi_ll_event_handler_id_t) :
    (if c then a else b).next = if c then a.next else b.next := by
  split <;> rfl

@[simp] theorem ite_ipmi_ll_event_handler_id_t_prev (c : Prop) [Decidable c] (a b : ipmi_ll_event_handler_id_t) :
    (if c then a else b).prev = if c then a.prev else b.prev := by
  split <;> rfl

@[simp] theorem ite_smi_data_t_ipmi (c : Prop) [Decidable c] (a b : smi_data_t) :
    (if c then a else b).ipmi = if c then a.ipmi else b.ipmi := by
  split <;> rfl

@[simp] theorem ite_smi_data_t_fd (c : Prop) [Decidable c] (a b : smi_data_t) :
    (if c then a else b).fd = if c then a.fd else b.fd := by
  split <;> rfl

@[simp] theorem ite_smi_data_t_if_num (c : Prop) [Decidable c] (a b : smi_data_t) :
    (if c then a else b).if_num = if c then a.if_num else b.if_num := by
  split <;> rfl

@[simp] theorem ite_smi_data_t_pending_cmds (c : Prop) [Decidable c] (a b : smi_data_t) :
    (if c then a else b).pending_cmds = if c then a.pending_cmds else b.pending_cmds := by
  split <;> rfl

@[simp] theorem ite_smi_data_t_cmd_lock (c : Prop) [Decidable c] (a b : smi_data_t) :
    (if c then a else b).cmd_lock = if c then a.cmd_lock else b.cmd_lock := by
  split <;> rfl

@[simp] theorem ite_smi_data_t_cmd_handlers (c : Prop) [Decidable c] (a b : smi_data_t) :
    (if c then a else b).cmd_handlers = if c then a.cmd_handlers else b.cmd_handlers := by
  split <;> rfl

@[simp] theorem ite_smi_data_t_cmd_handlers_lock (c : Prop) [Decidable c] (a b : smi_data_t) :
    (if c then a else b).cmd_handlers_lock = if c then a.cmd_handlers_lock else b.cmd_handlers_lock := by
  split <;> rfl

@[simp] theorem ite_smi_data_t_fd_wait_id (c : Prop) [Decidable c] (a b : smi_data_t) :
    (if c then a else b).fd_wait_id = if c then a.fd_wait_id else b.fd_wait_id := by
  split <;> rfl

@[simp] theorem ite_smi_data_t_event_handlers (c : Prop) [Decidable c] (a b : smi_data_t) :
    (if c then a else b).event_handlers = if c then a.event_handlers else b.event_handlers := by
  split <;> rfl

@[simp] theorem ite_smi_data_t_event_handlers_lock (c : Prop) [Decidable c] (a b : smi_data_t) :
    (if c then a else b).event_handlers_lock = if c then a.event_handlers_lock else b.event_handlers_lock := by
  split <;> rfl

@[simp] theorem ite_smi_data_t_next (c : Prop) [Decidable c] (a b : smi_data_t) :
    (if c then a else b).next = if c then a.next else b.next := by
  split <;> rfl

@[simp] theorem ite_smi_data_t_prev (c : Prop) [Decidable c] (a b : smi_data_t) :
    (if c then a else b).prev = if c then a.prev else b.prev := by
  split <;> rfl

/-! ## Theorems: pending commands -/

theorem remove_cmd_eq (w : smi_world) (ipmi smi cmd : Ptr) :
    remove_cmd w ipmi smi cmd = { w with
      cmd := fun p => { w.cmd p with
        next := if (w.cmd cmd).prev ≠ NULL ∧ p = (w.cmd cmd).prev then (w.cmd cmd).next
          else (w.cmd p).next
        prev := if (w.cmd cmd).next ≠ NULL ∧ p = (w.cmd cmd).next then (w.cmd cmd).prev
          else (w.cmd p).prev }
      smi := fun q => { w.smi q with
        pending_cmds := if (w.cmd cmd).prev = NULL ∧ q = smi then (w.cmd cmd).next
          else (w.smi q).pending_cmds } } := by
  unfold remove_cmd
  by_cases h1 : (w.cmd cmd).next = NULL <;> by_cases h2 : (w.cmd cmd).prev = NULL <;>
    simp [h1, h2, cmd_set_next_eq, cmd_set_prev_eq, smi_world.set_smi]
  all_goals
    funext q
    by_cases h : q = smi
    · subst h; simp
    · simp [h]

theorem remove_cmd_list (w : smi_world) (ipmi smi cmd : Ptr) (l : List Ptr)
    (h : pending_cmds_are w smi l) (hc : cmd ∈ l) :
    pending_cmds_are (remove_cmd w ipmi smi cmd) smi (l.erase cmd) := by
  unfold pending_cmds_are at *
  have hnull := dll_null_not_mem h
  have hnext := dll_next_mem h hc
  have hprev := dll_prev_cases h hc
  have key := dll_unlink (fun p => ((remove_cmd w ipmi smi cmd).cmd p).next)
    (fun p => ((remove_cmd w ipmi smi cmd).cmd p).prev) h hnull hc
  have hhead : ((remove_cmd w ipmi smi cmd).smi smi).pending_cmds
      = if (w.smi smi).pending_cmds = cmd then (w.cmd cmd).next else (w.smi smi).pending_cmds := by
    rw [remove_cmd_eq]
    rcases hprev with ⟨e1, e2⟩ | ⟨e1, e2⟩
    · have e2' : (w.cmd cmd).prev = NULL := e2
      simp [e1, e2']
    · have e2' : (w.cmd cmd).prev ≠ NULL := fun e => hnull (e ▸ e2)
      simp [e1, e2']
  rw [hhead]
  apply key
  · intro p _ hne
    simp [remove_cmd_eq, hne]
  · intro hm
    have : (w.cmd cmd).prev ≠ NULL := fun e => hnull (e ▸ hm)
    simp [remove_cmd_eq, this]
  · intro p _ hne
    simp [remove_cmd_eq, hne]
  · intro hm
    have : (w.cmd cmd).next ≠ NULL := fun e => hnull (e ▸ hm)
    simp [remove_cmd_eq, this]

theorem handle_response_loop_spec (w : smi_world) (cmd : Ptr) (l : List Ptr) :
    ∀ (fuel : Nat) (pv hd : Ptr), dll (fun p => (w.cmd p).next) (fun p => (w.cmd p).prev) pv hd l →
      l.length < fuel →
      handle_response_loop w cmd fuel hd = some (if cmd ∈ l then cmd else NULL) := by
  induction l with
  | nil =>
    intro fuel pv hd h hf
    cases fuel with
    | zero => simp at hf
    | succ n =>
      have : hd = NULL := h
      simp [handle_response_loop, this]
  | cons x xs ih =>
    intro fuel pv hd h hf
    obtain ⟨h1, h2, _, h4⟩ := h
    cases fuel with
    | zero => simp at hf
    | succ n =>
      subst h1
      by_cases hx : hd = cmd
      · simp [handle_response_loop, h2, hx]
      · have hx2 : ¬ cmd = hd := fun e => hx e.symm
        have := ih n hd _ h4 (by simpa using hf)
        simp only [handle_response_loop, ne_eq, h2, not_false_eq_true, if_true, hx, if_false,
          List.mem_cons, hx2, false_or]
        exact this

theorem smi_valid_ipmi_loop_spec (w : smi_world) (ipmi : Ptr) (l : List Ptr) :
    ∀ (fuel : Nat) (pv hd : Ptr), dll (fun p => (w.smi p).next) (fun p => (w.smi p).prev) pv hd l →
      l.length < fuel →
      smi_valid_ipmi_loop w ipmi fuel hd
        = some ((l.find? (fun s => decide ((w.smi s).ipmi = ipmi))).getD NULL) := by
  induction l with
  | nil =>
    intro fuel pv hd h hf
    cases fuel with
    | zero => simp at hf
    | succ n =>
      have : hd = NULL := h
      simp [smi_valid_ipmi_loop, this]
  | cons x xs ih =>
    intro fuel pv hd h hf
    obtain ⟨h1, h2, _, h4⟩ := h
    cases fuel with
    | zero => simp at hf
    | succ n =>
      subst h1
      by_cases hx : (w.smi hd).ipmi = ipmi
      · simp [smi_valid_ipmi_loop, h2, hx]
      · have := ih n hd _ h4 (by simpa using hf)
        simp only [smi_valid_ipmi_loop, ne_eq, h2, not_false_eq_true, hx, and_self, if_true,
          List.find?_cons, decide_False]
        exact this

theorem smi_valid_ipmi_spec (fuel : Nat) (w : smi_world) (ipmi : Ptr) (l : List Ptr)
    (h : smi_list_is w l) (hf : l.length < fuel) :
    smi_valid_ipmi fuel w ipmi = some (decide (∃ s ∈ l, (w.smi s).ipmi = ipmi)) := by
  unfold smi_valid_ipmi
  rw [smi_valid_ipmi_loop_spec w ipmi l fuel _ _ h hf]
  have hnull := dll_null_not_mem h
  cases hfind : l.find? (fun s => decide ((w.smi s).ipmi = ipmi)) with
  | none =>
    have := List.find?_eq_none.mp hfind
    simp at this
    simp
    intro s hs
    exact this s hs
  | some s =>
    have hm := List.mem_of_find?_eq_some hfind
    have hp := List.find?_some hfind
    simp at hp
    have hs0 : s ≠ NULL := fun e => hnull (e ▸ hm)
    simp [hs0]
    exact ⟨s, hm, hp⟩

theorem pending_cmds_are_congr {w w2 : smi_world} {smi : Ptr} {l : List Ptr}
    (hcmd : ∀ p ∈ l, (w2.cmd p).next = (w.cmd p).next ∧ (w2.cmd p).prev = (w.cmd p).prev)
    (hhd : (w2.smi smi).pending_cmds = (w.smi smi).pending_cmds)
    (h : pending_cmds_are w smi l) : pending_cmds_are w2 smi l := by
  unfold pending_cmds_are at *
  rw [hhd]
  exact dll_congr hcmd h

theorem to_uchar_or_one (b : Byte) : (to_uchar (b.val ||| 1)).val = b.val ||| 1 := by
  have h : b.val ||| 1 < 2 ^ 8 := Nat.or_lt_two_pow b.isLt (by decide)
  exact Nat.mod_eq_of_lt h

theorem handle_response_not_found (fuel : Nat) (w : smi_world) (ipmi : Ptr)
    (recv : ipmi_recv_t) (remove_timer_rv : Int) (l : List Ptr)
    (hl : pending_cmds_are w (w.con ipmi).con_data l) (hf : l.length < fuel)
    (hnot : recv.msgid ∉ l) :
    handle_response fuel w ipmi recv remove_timer_rv = some w := by
  have hl3 : pending_cmds_are (lock_cmd_lock w (w.con ipmi).con_data)
      (w.con ipmi).con_data l :=
    pending_cmds_are_congr (by intro p _; simp [lock_cmd_lock_eq])
      (by simp [lock_cmd_lock_eq]) hl
  have hloop := handle_response_loop_spec (lock_cmd_lock w (w.con ipmi).con_data)
    recv.msgid l fuel _ _ hl3 hf
  unfold handle_response
  simp only [hloop, if_neg hnot, if_true, unlock_lock_cmd_lock]

/-- C6: a RESPONSE whose correlation token is not an element of the
connection's pending-command list changes nothing: `handle_response` returns
the state it was given (same pending list, no handler call, nothing else in the
trace). The token is only compared with the list's elements: whatever the
memory at the token's address holds, the outcome is the same. -/
theorem handle_response_unknown_token (fuel : Nat) (w : smi_world) (ipmi : Ptr)
    (recv : ipmi_recv_t) (remove_timer_rv : Int) (l : List Ptr)
    (hl : pending_cmds_are w (w.con ipmi).con_data l) (hf : l.length < fuel)
    (hnot : recv.msgid ∉ l) :
    handle_response fuel w ipmi recv remove_timer_rv = some w
    ∧ ∀ v : pending_cmd_t,
        handle_response fuel (w.set_cmd recv.msgid v) ipmi recv remove_timer_rv
          = some (w.set_cmd recv.msgid v) := by
  refine ⟨handle_response_not_found fuel w ipmi recv remove_timer_rv l hl hf hnot,
    fun v => handle_response_not_found fuel _ ipmi recv remove_timer_rv l ?_ hf hnot⟩
  refine pending_cmds_are_congr ?_ ?_ hl
  · intro p hp
    have : p ≠ recv.msgid := fun e => hnot (e ▸ hp)
    simp [this]
  · simp

theorem rsp_timeout_handler_live (fuel : Nat) (w : smi_world) (cmd : Ptr)
    (registry : List Ptr) (hreg : smi_list_is w registry) (hf : registry.length < fuel)
    (hcan : (w.cmd cmd).cancelled = 0)
    (hlive : ∃ s ∈ registry, (w.smi s).ipmi = (w.cmd cmd).ipmi) (l : List Ptr)
    (hl : pending_cmds_are w (w.con (w.cmd cmd).ipmi).con_data l) (hc : cmd ∈ l) :
    ∃ w2, rsp_timeout_handler fuel w cmd = some w2
      ∧ pending_cmds_are w2 (w.con (w.cmd cmd).ipmi).con_data (l.erase cmd)
      ∧ w2.trace = w.trace ++
          [effect.rsp_handler (w.cmd cmd).rsp_handler (w.cmd cmd).ipmi (w.cmd cmd).addr
            (w.cmd cmd).addr_len
            { netfn := to_uchar ((w.cmd cmd).msg.netfn.val ||| 1)
              cmd := (w.cmd cmd).msg.cmd
              data_len := 1
              data := [IPMI_TIMEOUT_CC] }
            (w.cmd cmd).rsp_data (w.cmd cmd).data2 (w.cmd cmd).data3,
           effect.free cmd]
      ∧ frame_ok w w2 ∧ w2.timers = w.timers
      ∧ (w2.cmd cmd).cancelled = (w.cmd cmd).cancelled := by
  have hvalid := smi_valid_ipmi_spec fuel w (w.cmd cmd).ipmi registry hreg hf
  have hv : smi_valid_ipmi fuel w (w.cmd cmd).ipmi = some true := by
    rw [hvalid]; simp only [hlive, decide_True]
  have hl1 : pending_cmds_are (lock_cmd_lock w (w.con (w.cmd cmd).ipmi).con_data)
      (w.con (w.cmd cmd).ipmi).con_data l :=
    pending_cmds_are_congr (by intro p _; simp [lock_cmd_lock_eq])
      (by simp [lock_cmd_lock_eq]) hl
  have hl2 := remove_cmd_list _ (w.cmd cmd).ipmi _ cmd l hl1 hc
  unfold rsp_timeout_handler
  simp only [hcan, ne_eq, not_true_eq_false, if_false, hv]
  refine ⟨_, rfl, ?_, ?_, ?_, ?_, ?_⟩
  · refine pending_cmds_are_congr ?_ ?_ hl2
    · intro p _; simp [unlock_cmd_lock_eq]
    · simp [unlock_cmd_lock_eq]
  · simp [unlock_cmd_lock_eq, remove_cmd_eq, lock_cmd_lock_eq]
  · simp [frame_ok, unlock_cmd_lock_eq, remove_cmd_eq, lock_cmd_lock_eq]
  · simp [unlock_cmd_lock_eq, remove_cmd_eq, lock_cmd_lock_eq]
  · simp [unlock_cmd_lock_eq, remove_cmd_eq, lock_cmd_lock_eq, hcan]

theorem rsp_timeout_handler_dead (fuel : Nat) (w : smi_world) (cmd : Ptr)
    (registry : List Ptr) (hreg : smi_list_is w registry) (hf : registry.length < fuel)
    (h : (w.cmd cmd).cancelled ≠ 0 ∨ ¬ ∃ s ∈ registry, (w.smi s).ipmi = (w.cmd cmd).ipmi) :
    rsp_timeout_handler fuel w cmd = some (w.emit (.free cmd)) := by
  have hvalid := smi_valid_ipmi_spec fuel w (w.cmd cmd).ipmi registry hreg hf
  unfold rsp_timeout_handler
  by_cases hcan : (w.cmd cmd).cancelled = 0
  · have hnl : ¬ ∃ s ∈ registry, (w.smi s).ipmi = (w.cmd cmd).ipmi := by
      rcases h with h | h
      · exact absurd hcan h
      · exact h
    have hv : smi_valid_ipmi fuel w (w.cmd cmd).ipmi = some false := by
      rw [hvalid]; simp only [hnl, decide_False]
    simp only [hcan, ne_eq, not_true_eq_false, if_false, hv]
  · simp only [ne_eq, hcan, not_false_eq_true, if_true]

/-- C7: `rsp_timeout_handler` on a pending command. When the command is not
cancelled, its connection is in the registry and the command is in the
connection's pending list `l`, the handler returns, the pending list becomes `l`
without the command (the others in their order), and the trace grows by exactly
one response-handler call, with the record's handler, connection, address and
context values and the message (netfn = request netfn | 1, request cmd, data =
[IPMI_TIMEOUT_CC], data_len = 1), followed by the release of the record. When
the command is cancelled or its connection is not in the registry, the only
effect is the release of the record. -/
theorem rsp_timeout_handler_spec (fuel : Nat) (w : smi_world) (cmd : Ptr) (registry : List Ptr)
    (hreg : smi_list_is w registry) (hf : registry.length < fuel) :
    ((w.cmd cmd).cancelled = 0 → (∃ s ∈ registry, (w.smi s).ipmi = (w.cmd cmd).ipmi) →
      ∀ l, pending_cmds_are w (w.con (w.cmd cmd).ipmi).con_data l → cmd ∈ l →
        ∃ w2, rsp_timeout_handler fuel w cmd = some w2
          ∧ pending_cmds_are w2 (w.con (w.cmd cmd).ipmi).con_data (l.erase cmd)
          ∧ w2.trace = w.trace ++
              [effect.rsp_handler (w.cmd cmd).rsp_handler (w.cmd cmd).ipmi (w.cmd cmd).addr
                (w.cmd cmd).addr_len
                { netfn := to_uchar ((w.cmd cmd).msg.netfn.val ||| 1)
                  cmd := (w.cmd cmd).msg.cmd
                  data_len := 1
                  data := [IPMI_TIMEOUT_CC] }
                (w.cmd cmd).rsp_data (w.cmd cmd).data2 (w.cmd cmd).data3,
               effect.free cmd]
          ∧ (to_uchar ((w.cmd cmd).msg.netfn.val ||| 1)).val = (w.cmd cmd).msg.netfn.val ||| 1)
    ∧ (((w.cmd cmd).cancelled ≠ 0 ∨ ¬ ∃ s ∈ registry, (w.smi s).ipmi = (w.cmd cmd).ipmi) →
        rsp_timeout_handler fuel w cmd = some (w.emit (.free cmd))) := by
  refine ⟨fun hcan hlive l hl hc => ?_, rsp_timeout_handler_dead fuel w cmd registry hreg hf⟩
  obtain ⟨w2, h1, h2, h3, _⟩ :=
    rsp_timeout_handler_live fuel w cmd registry hreg hf hcan hlive l hl hc
  exact ⟨w2, h1, h2, h3, to_uchar_or_one _⟩


/-- Witness of C6: in the sample state, whose pending list is [31, 32], a
RESPONSE with token 99 leaves the state as it is. -/
theorem handle_response_unknown_token_witness :
    pending_cmds_are sample_world 10 [31, 32]
    ∧ handle_response 3 sample_world 20 (sample_recv 99) 0 = some sample_world :=
  ⟨by decide,
   (handle_response_unknown_token 3 sample_world 20 (sample_recv 99) 0 [31, 32]
      (by decide) (by decide) (by decide)).1⟩

/-- Witness of C7: in the sample state the timeout of command 31 leaves the
pending list [32] and calls handler 71 once with the timeout message. -/
theorem rsp_timeout_handler_spec_witness :
    smi_list_is sample_world [10]
    ∧ ∃ w2, rsp_timeout_handler 2 sample_world 31 = some w2
        ∧ pending_cmds_are w2 10 [32]
        ∧ w2.trace =
            [effect.rsp_handler 71 20 ⟨IPMI_SYSTEM_INTERFACE_ADDR_TYPE, 0xf, 0, 0⟩ 8
              { netfn := 7, cmd := 1, data_len := 1, data := [IPMI_TIMEOUT_CC] } 1 2 3,
             effect.free 31] :=
  ⟨by decide,
   match (rsp_timeout_handler_spec 2 sample_world 31 [10] (by decide) (by decide)).1
      (by decide) ⟨10, by decide, by decide⟩ [31, 32] (by decide) (by decide) with
   | ⟨w2, h1, h2, h3, _⟩ => ⟨w2, h1, h2, h3⟩⟩

/-! ## Theorems: the life of a pending command -/

theorem rsp_handler_calls_append (a b : List effect) :
    rsp_handler_calls (a ++ b) = rsp_handler_calls a + rsp_handler_calls b := by
  induction a with
  | nil => simp [rsp_handler_calls]
  | cons e t ih =>
    cases e <;> simp [rsp_handler_calls, ih]; omega

theorem smi_list_is_congr {w w2 : smi_world} {l : List Ptr}
    (hlinks : ∀ p, (w2.smi p).next = (w.smi p).next ∧ (w2.smi p).prev = (w.smi p).prev)
    (hhd : w2.smi_list = w.smi_list) (h : smi_list_is w l) : smi_list_is w2 l := by
  unfold smi_list_is at *
  rw [hhd]
  exact dll_congr (fun p _ => hlinks p) h

theorem handle_response_found (fuel : Nat) (w : smi_world) (ipmi : Ptr) (recv : ipmi_recv_t)
    (rt : Int) (l : List Ptr)
    (hl : pending_cmds_are w (w.con ipmi).con_data l) (hf : l.length < fuel)
    (hc : recv.msgid ∈ l) :
    ∃ w2, handle_response fuel w ipmi recv rt = some w2
      ∧ pending_cmds_are w2 (w.con ipmi).con_data (l.erase recv.msgid)
      ∧ frame_ok w w2
      ∧ rsp_handler_calls w2.trace = rsp_handler_calls w.trace + 1
      ∧ w2.timers = (if rt = 0 then Function.update w.timers (w.cmd recv.msgid).timeout_id none
          else w.timers)
      ∧ (w2.cmd recv.msgid).cancelled = (if rt ≠ 0 then 1 else (w.cmd recv.msgid).cancelled) := by
  have hl1 : pending_cmds_are (lock_cmd_lock w (w.con ipmi).con_data) (w.con ipmi).con_data l :=
    pending_cmds_are_congr (by intro p _; simp [lock_cmd_lock_eq]) (by simp [lock_cmd_lock_eq]) hl
  have hloop := handle_response_loop_spec (lock_cmd_lock w (w.con ipmi).con_data)
    recv.msgid l fuel _ _ hl1 hf
  have hnull : recv.msgid ≠ NULL := fun e => dll_null_not_mem hl (e ▸ hc)
  have hl2 := remove_cmd_list _ ipmi _ recv.msgid l hl1 hc
  unfold handle_response
  simp only [hloop, if_pos hc, if_neg hnull]
  refine ⟨_, rfl, ?_, ?_, ?_, ?_, ?_⟩
  · refine pending_cmds_are_congr ?_ ?_ hl2
    · intro p _
      by_cases hrt : rt = 0 <;>
        simp [unlock_cmd_lock_eq, os_remove_timer, hrt]
      by_cases hp : p = recv.msgid <;> simp [hp]
    · by_cases hrt : rt = 0 <;>
        simp [unlock_cmd_lock_eq, os_remove_timer, hrt]
  · by_cases hrt : rt = 0 <;>
      simp [frame_ok, unlock_cmd_lock_eq, os_remove_timer, hrt, remove_cmd_eq, lock_cmd_lock_eq]
    intro p
    constructor <;> (intro h; rw [h])
  · by_cases hrt : rt = 0 <;>
      simp [unlock_cmd_lock_eq, os_remove_timer, hrt, remove_cmd_eq, lock_cmd_lock_eq,
        rsp_handler_calls_append, rsp_handler_calls]
  · by_cases hrt : rt = 0 <;>
      simp [unlock_cmd_lock_eq, os_remove_timer, hrt, remove_cmd_eq, lock_cmd_lock_eq]
  · by_cases hrt : rt = 0 <;>
      simp [unlock_cmd_lock_eq, os_remove_timer, hrt, remove_cmd_eq, lock_cmd_lock_eq]

theorem frame_ok_refl (w : smi_world) : frame_ok w w :=
  ⟨rfl, rfl, fun _ => ⟨rfl, rfl, rfl⟩, fun _ => ⟨rfl, rfl⟩⟩

theorem rsp_timeout_handler_cases (fuel : Nat) (w : smi_world) (cmd : Ptr)
    (registry l : List Ptr) (hreg : smi_list_is w registry) (hf : registry.length < fuel)
    (hl : pending_cmds_are w (w.con (w.cmd cmd).ipmi).con_data l)
    (hcl : (w.cmd cmd).cancelled = 0 → cmd ∈ l) :
    ∃ w2, rsp_timeout_handler fuel w cmd = some w2
      ∧ frame_ok w w2 ∧ w2.timers = w.timers
      ∧ (w2.cmd cmd).cancelled = (w.cmd cmd).cancelled
      ∧ ((pending_cmds_are w2 (w.con (w.cmd cmd).ipmi).con_data (l.erase cmd)
            ∧ rsp_handler_calls w2.trace = rsp_handler_calls w.trace + 1
            ∧ (w.cmd cmd).cancelled = 0)
        ∨ (pending_cmds_are w2 (w.con (w.cmd cmd).ipmi).con_data l
            ∧ rsp_handler_calls w2.trace = rsp_handler_calls w.trace)) := by
  by_cases hlive : (w.cmd cmd).cancelled = 0 ∧ ∃ s ∈ registry, (w.smi s).ipmi = (w.cmd cmd).ipmi
  · obtain ⟨hcan, hex⟩ := hlive
    obtain ⟨w2, h1, h2, h3, h4, h5, h6⟩ :=
      rsp_timeout_handler_live fuel w cmd registry hreg hf hcan hex l hl (hcl hcan)
    refine ⟨w2, h1, h4, h5, h6, Or.inl ⟨h2, ?_, hcan⟩⟩
    rw [h3]
    simp [rsp_handler_calls_append, rsp_handler_calls]
  · have hnot : (w.cmd cmd).cancelled ≠ 0
        ∨ ¬ ∃ s ∈ registry, (w.smi s).ipmi = (w.cmd cmd).ipmi := by
      by_cases hcan : (w.cmd cmd).cancelled = 0
      · exact Or.inr (fun hex => hlive ⟨hcan, hex⟩)
      · exact Or.inl hcan
    refine ⟨_, rsp_timeout_handler_dead fuel w cmd registry hreg hf hnot, ?_, rfl, rfl,
      Or.inr ⟨hl, ?_⟩⟩
    · exact ⟨rfl, rfl, fun _ => ⟨rfl, rfl, rfl⟩, fun _ => ⟨rfl, rfl⟩⟩
    · simp [rsp_handler_calls_append, rsp_handler_calls]

theorem frame_ok_smi_list {w w2 : smi_world} {registry : List Ptr} (hfr : frame_ok w w2)
    (h : smi_list_is w registry) : smi_list_is w2 registry :=
  smi_list_is_congr (fun p => ⟨(hfr.2.2.1 p).1, (hfr.2.2.1 p).2.1⟩) hfr.2.1 h

theorem erase_length_le (l : List Ptr) (c : Ptr) : (l.erase c).length ≤ l.length := by
  rw [List.length_erase]
  split <;> omega

theorem pending_inv_response (fuel : Nat) (ipmi cmd tid : Ptr) (registry : List Ptr)
    (n base : Nat) (w : smi_world) (hinv : pending_inv ipmi cmd tid registry n base w)
    (hn : n < fuel) (addr : ipmi_addr_t) (addr_len : Nat) (msg : ipmi_msg_t) (rt : Int) :
    ∃ w2, handle_response fuel w ipmi
        { recv_type := IPMI_RESPONSE_RECV_TYPE, addr := addr, addr_len := addr_len,
          msgid := cmd, msg := msg } rt = some w2
      ∧ pending_inv ipmi cmd tid registry n base w2
      ∧ rsp_handler_calls w.trace ≤ rsp_handler_calls w2.trace := by
  obtain ⟨hreg, hipmi, htid, htm, l, hl, hlen, hcase⟩ := hinv
  rcases hcase with ⟨hcalls, hmem, hcan⟩ | ⟨hcalls, hmem, hcan⟩
  · obtain ⟨w2, h1, h2, hfr, h4, h5, h6⟩ := handle_response_found fuel w ipmi
      { recv_type := IPMI_RESPONSE_RECV_TYPE, addr := addr, addr_len := addr_len,
        msgid := cmd, msg := msg } rt l hl (by omega) hmem
    simp only at h2 h5 h6
    refine ⟨w2, h1, ⟨frame_ok_smi_list hfr hreg, ?_, ?_, ?_, l.erase cmd, ?_, ?_,
      Or.inr ⟨?_, ?_, ?_⟩⟩, by omega⟩
    · rw [(hfr.2.2.2 cmd).1, hipmi]
    · rw [(hfr.2.2.2 cmd).2, htid]
    · rw [h5, htid]
      by_cases hrt : rt = 0
      · simp [hrt]
      · simpa [hrt] using htm
    · rw [hfr.1]; exact h2
    · exact le_trans (erase_length_le l cmd) hlen
    · omega
    · exact fun hm => (List.Nodup.not_mem_erase (dll_nodup hl)) hm
    · rw [h5, h6, htid]
      by_cases hrt : rt = 0
      · simp [hrt]
      · simp [hrt]
  · have h := handle_response_not_found fuel w ipmi
      { recv_type := IPMI_RESPONSE_RECV_TYPE, addr := addr, addr_len := addr_len,
        msgid := cmd, msg := msg } rt l hl (by omega) hmem
    exact ⟨w, h, ⟨hreg, hipmi, htid, htm, l, hl, hlen, Or.inr ⟨hcalls, hmem, hcan⟩⟩, le_refl _⟩

theorem pending_inv_timeout (fuel : Nat) (ipmi cmd tid : Ptr) (registry : List Ptr)
    (n base : Nat) (w : smi_world) (hinv : pending_inv ipmi cmd tid registry n base w)
    (hr : registry.length < fuel) :
    ∃ w2, timer_fires fuel w tid = some w2 ∧ pending_inv ipmi cmd tid registry n base w2
      ∧ rsp_handler_calls w.trace ≤ rsp_handler_calls w2.trace := by
  have hinv0 := hinv
  obtain ⟨hreg, hipmi, htid, htm, l, hl, hlen, hcase⟩ := hinv
  unfold timer_fires
  rcases htm with htm | htm
  · rw [htm]; exact ⟨w, rfl, hinv0, le_refl _⟩
  · rw [htm]
    simp only
    have hcl : (w.cmd cmd).cancelled = 0 → cmd ∈ l := by
      intro hc
      rcases hcase with ⟨_, hmem, _⟩ | ⟨_, _, hcan⟩
      · exact hmem
      · exact absurd hc (hcan htm)
    have hl2 : pending_cmds_are { w with timers := Function.update w.timers tid none }
        (w.con (w.cmd cmd).ipmi).con_data l := by rw [hipmi]; exact hl
    obtain ⟨w2, h1, hfr, h3, h4, h5⟩ := rsp_timeout_handler_cases fuel
      { w with timers := Function.update w.timers tid none } cmd registry l hreg hr hl2 hcl
    have hfr2 : frame_ok w w2 := hfr
    have htm2 : w2.timers tid = none := by rw [h3]; simp
    have hcan2 : (w2.cmd cmd).cancelled = (w.cmd cmd).cancelled := h4
    have hmono : rsp_handler_calls w.trace ≤ rsp_handler_calls w2.trace := by
      rcases h5 with ⟨_, h5b, _⟩ | ⟨_, h5b⟩
      · have : rsp_handler_calls w2.trace = rsp_handler_calls w.trace + 1 := h5b
        omega
      · have : rsp_handler_calls w2.trace = rsp_handler_calls w.trace := h5b
        omega
    refine ⟨w2, h1, ⟨frame_ok_smi_list hfr2 hreg, ?_, ?_, Or.inl htm2, ?_⟩, hmono⟩
    · rw [(hfr2.2.2.2 cmd).1, hipmi]
    · rw [(hfr2.2.2.2 cmd).2, htid]
    · rcases h5 with ⟨h5a, h5b, h5c⟩ | ⟨h5a, h5b⟩
      · have hA : rsp_handler_calls w.trace = base := by
          rcases hcase with ⟨hc, _, _⟩ | ⟨_, _, hcan⟩
          · exact hc
          · exact absurd h5c (hcan htm)
        refine ⟨l.erase cmd, ?_, le_trans (erase_length_le l cmd) hlen, Or.inr ⟨?_, ?_, ?_⟩⟩
        · rw [hfr2.1, ← hipmi]; exact h5a
        · have : rsp_handler_calls w2.trace = rsp_handler_calls w.trace + 1 := h5b
          omega
        · exact fun hm => (List.Nodup.not_mem_erase (dll_nodup hl)) hm
        · intro h; rw [htm2] at h; exact absurd h (by simp)
      · have hcalls : rsp_handler_calls w2.trace = rsp_handler_calls w.trace := h5b
        refine ⟨l, ?_, hlen, ?_⟩
        · rw [hfr2.1, ← hipmi]; exact h5a
        · rcases hcase with ⟨hc, hmem, hcan⟩ | ⟨hc, hmem, _⟩
          · exact Or.inl ⟨by rw [hcalls]; exact hc, hmem, by rw [hcan2]; exact hcan⟩
          · refine Or.inr ⟨by rw [hcalls]; exact hc, hmem, ?_⟩
            intro h; rw [htm2] at h; exact absurd h (by simp)

theorem pending_inv_run (fuel : Nat) (ipmi cmd tid : Ptr) (registry : List Ptr)
    (n base : Nat) (hn : n < fuel) (hr : registry.length < fuel) (events : List pending_event) :
    ∀ w, pending_inv ipmi cmd tid registry n base w →
      ∃ w2, pending_events_run fuel ipmi cmd tid w events = some w2
        ∧ pending_inv ipmi cmd tid registry n base w2
        ∧ rsp_handler_calls w.trace ≤ rsp_handler_calls w2.trace := by
  induction events with
  | nil => intro w hinv; exact ⟨w, rfl, hinv, le_refl _⟩
  | cons e rest ih =>
    intro w hinv
    cases e with
    | response addr addr_len msg rt =>
      obtain ⟨w1, h1, hinv1, hm1⟩ := pending_inv_response fuel ipmi cmd tid registry n base w
        hinv hn addr addr_len msg rt
      obtain ⟨w2, h2, hinv2, hm2⟩ := ih w1 hinv1
      refine ⟨w2, ?_, hinv2, le_trans hm1 hm2⟩
      simp only [pending_events_run, h1]
      exact h2
    | timeout =>
      obtain ⟨w1, h1, hinv1, hm1⟩ := pending_inv_timeout fuel ipmi cmd tid registry n base w
        hinv hr
      obtain ⟨w2, h2, hinv2, hm2⟩ := ih w1 hinv1
      refine ⟨w2, ?_, hinv2, le_trans hm1 hm2⟩
      simp only [pending_events_run, h1]
      exact h2

theorem pending_events_run_append (fuel : Nat) (ipmi cmd tid : Ptr)
    (a b : List pending_event) :
    ∀ w, pending_events_run fuel ipmi cmd tid w (a ++ b)
      = (pending_events_run fuel ipmi cmd tid w a).bind
          (fun w1 => pending_events_run fuel ipmi cmd tid w1 b) := by
  induction a with
  | nil => intro w; simp [pending_events_run]
  | cons e rest ih =>
    intro w
    cases e with
    | response addr addr_len msg rt =>
      simp only [List.cons_append, pending_events_run]
      cases handle_response fuel w ipmi
        { recv_type := IPMI_RESPONSE_RECV_TYPE, addr := addr, addr_len := addr_len,
          msgid := cmd, msg := msg } rt with
      | none => simp
      | some w1 => simp [ih w1]
    | timeout =>
      simp only [List.cons_append, pending_events_run]
      cases timer_fires fuel w tid with
      | none => simp
      | some w1 => simp [ih w1]

theorem pending_inv_calls {ipmi cmd tid : Ptr} {registry : List Ptr} {n base : Nat}
    {w : smi_world} (h : pending_inv ipmi cmd tid registry n base w) :
    rsp_handler_calls w.trace ≤ base + 1 := by
  obtain ⟨_, _, _, _, l, _, _, hcase⟩ := h
  rcases hcase with ⟨hc, _, _⟩ | ⟨hc, _, _⟩ <;> omega

theorem add_cmd_list (w : smi_world) (ipmi : Ptr) (addr : ipmi_addr_t) (addr_len : Nat)
    (msg : ipmi_msg_t) (smi cmd : Ptr) (l : List Ptr)
    (h : pending_cmds_are w smi l) (hc0 : cmd ≠ NULL) (hcl : cmd ∉ l) :
    pending_cmds_are (add_cmd w ipmi addr addr_len msg smi cmd) smi (cmd :: l) := by
  unfold pending_cmds_are at *
  have hnull := dll_null_not_mem h
  have hhead : ((add_cmd w ipmi addr addr_len msg smi cmd).smi smi).pending_cmds = cmd := by
    simp [add_cmd]
  rw [hhead]
  have hhd := dll_head h
  by_cases hh : (w.smi smi).pending_cmds = NULL
  · apply dll_insert_head h hc0 hcl
    · simp [add_cmd, cmd_set_next_eq, cmd_set_prev_eq, hh]
    · simp [add_cmd, cmd_set_next_eq, cmd_set_prev_eq, hh]
    · intro p hp
      have : p ≠ cmd := fun e => hcl (e ▸ hp)
      simp [add_cmd, cmd_set_next_eq, cmd_set_prev_eq, hh, this]
    · intro hm
      exact absurd (hh ▸ hm) hnull
    · intro p hp _
      have : p ≠ cmd := fun e => hcl (e ▸ hp)
      simp [add_cmd, cmd_set_next_eq, cmd_set_prev_eq, hh, this]
  · have hne : cmd ≠ (w.smi smi).pending_cmds := by
      intro e
      cases l with
      | nil => exact hh h
      | cons x xs =>
        apply hcl
        rw [e, h.1]; simp
    apply dll_insert_head h hc0 hcl
    · simp [add_cmd, cmd_set_next_eq, cmd_set_prev_eq, hh]
    · simp [add_cmd, cmd_set_next_eq, cmd_set_prev_eq, hh, hne]
    · intro p hp
      have : p ≠ cmd := fun e => hcl (e ▸ hp)
      simp [add_cmd, cmd_set_next_eq, cmd_set_prev_eq, hh, this]
    · intro _
      simp [add_cmd, cmd_set_next_eq, cmd_set_prev_eq, hh]
    · intro p hp hph
      have : p ≠ cmd := fun e => hcl (e ▸ hp)
      simp [add_cmd, cmd_set_next_eq, cmd_set_prev_eq, hh, this, hph]

theorem smi_send_command_accepted (w0 : smi_world) (ipmi : Ptr) (addr : ipmi_addr_t)
    (addr_len : Nat) (msg : ipmi_msg_t) (rsp_handler rsp_data data2 data3 cmd : Ptr)
    (add_timer_rv : Int) (tid : Ptr) (ioctl_rv errno remove_timer_rv : Int)
    (l registry : List Ptr)
    (hl : pending_cmds_are w0 (w0.con ipmi).con_data l) (hreg : smi_list_is w0 registry)
    (hfresh : cmd ∉ l)
    (haccept : (smi_send_command w0 ipmi addr addr_len msg rsp_handler rsp_data data2 data3 cmd
      add_timer_rv tid ioctl_rv errno remove_timer_rv).2 = 0) :
    pending_inv ipmi cmd tid registry (l.length + 1) (rsp_handler_calls w0.trace)
      (smi_send_command w0 ipmi addr addr_len msg rsp_handler rsp_data data2 data3 cmd
        add_timer_rv tid ioctl_rv errno remove_timer_rv).1
    ∧ rsp_handler_calls (smi_send_command w0 ipmi addr addr_len msg rsp_handler rsp_data data2
        data3 cmd add_timer_rv tid ioctl_rv errno remove_timer_rv).1.trace
        = rsp_handler_calls w0.trace := by
  unfold smi_send_command at haccept ⊢
  by_cases h1 : addr_len > sizeof_ipmi_addr_t
  · simp [h1, EINVAL] at haccept
  by_cases h2 : cmd = NULL
  · simp [h1, h2, ENOMEM] at haccept
  by_cases h3 : add_timer_rv = 0
  swap
  · simp [h1, h2, h3] at haccept
  have hsnd : ∀ (w : smi_world) (s : Ptr) (fd : Int),
      (smi_send w s fd addr addr_len msg cmd ioctl_rv errno).2
        = (if ioctl_rv = -1 then errno else 0) := by
    intro w s fd; unfold smi_send; split <;> rfl
  have hfst : ∀ (w : smi_world) (s : Ptr) (fd : Int),
      (smi_send w s fd addr addr_len msg cmd ioctl_rv errno).1
        = w.emit (.ioctl_send_command fd addr addr_len msg cmd) := by
    intro w s fd; unfold smi_send; split <;> rfl
  by_cases h4 : (if ioctl_rv = -1 then errno else 0) = 0
  swap
  · simp [h1, h2, h3, h4, hsnd] at haccept
  simp only [h1, h2, h3, hsnd, h4, hfst, if_false, ne_eq, not_true_eq_false]
  have hl1 : pending_cmds_are (lock_cmd_lock (w0.set_cmd cmd { w0.cmd cmd with
        rsp_handler := rsp_handler, rsp_data := rsp_data, data2 := data2, data3 := data3,
        cancelled := 0 }) (w0.con ipmi).con_data) (w0.con ipmi).con_data l := by
    refine pending_cmds_are_congr ?_ ?_ hl
    · intro p hp
      have : p ≠ cmd := fun e => hfresh (e ▸ hp)
      simp [lock_cmd_lock_eq, this]
    · simp [lock_cmd_lock_eq]
  have hl2 := add_cmd_list _ ipmi addr addr_len msg _ cmd l hl1 h2 hfresh
  have hadd_smi : ∀ (w : smi_world) (s q : Ptr),
      (add_cmd w ipmi addr addr_len msg s cmd).smi q
        = { w.smi q with pending_cmds := if q = s then cmd else (w.smi q).pending_cmds } := by
    intro w s q
    by_cases hq : q = s <;> by_cases hh : (w.smi s).pending_cmds = NULL <;>
      simp [add_cmd, cmd_set_next_eq, cmd_set_prev_eq, hq, hh]
  have hadd_rest : ∀ (w : smi_world) (s : Ptr),
      (add_cmd w ipmi addr addr_len msg s cmd).con = w.con
      ∧ (add_cmd w ipmi addr addr_len msg s cmd).smi_list = w.smi_list
      ∧ (add_cmd w ipmi addr addr_len msg s cmd).timers = w.timers
      ∧ (add_cmd w ipmi addr addr_len msg s cmd).trace = w.trace := by
    intro w s
    by_cases hh : (w.smi s).pending_cmds = NULL <;>
      simp [add_cmd, cmd_set_next_eq, cmd_set_prev_eq, hh]
  have hadd_cmd : ∀ (w : smi_world) (s : Ptr),
      ((add_cmd w ipmi addr addr_len msg s cmd).cmd cmd).ipmi = ipmi
      ∧ ((add_cmd w ipmi addr addr_len msg s cmd).cmd cmd).cancelled = (w.cmd cmd).cancelled := by
    intro w s
    by_cases hh : (w.smi s).pending_cmds = NULL <;>
      by_cases hh2 : cmd = (w.smi s).pending_cmds <;>
      simp [add_cmd, cmd_set_next_eq, cmd_set_prev_eq, hh, hh2]
  refine ⟨⟨?_, ?_, ?_, ?_, cmd :: l, ?_, ?_, Or.inl ⟨?_, ?_, ?_⟩⟩, ?_⟩
  · refine smi_list_is_congr ?_ ?_ hreg
    · intro p
      simp [unlock_cmd_lock_eq, os_add_timer, hadd_smi, lock_cmd_lock_eq]
    · simp [unlock_cmd_lock_eq, os_add_timer, (hadd_rest _ _).2.1, lock_cmd_lock_eq]
  · simp [unlock_cmd_lock_eq, os_add_timer, (hadd_cmd _ _).1]
  · simp [unlock_cmd_lock_eq, os_add_timer]
  · right
    simp [unlock_cmd_lock_eq, os_add_timer]
  · have hcon : ∀ w1 : smi_world, w1.con = w0.con →
        pending_cmds_are w1 (w0.con ipmi).con_data (cmd :: l) →
        pending_cmds_are w1 (w1.con ipmi).con_data (cmd :: l) := by
      intro w1 e h; rw [e]; exact h
    apply hcon
    · simp [unlock_cmd_lock_eq, os_add_timer, (hadd_rest _ _).1, lock_cmd_lock_eq]
    refine pending_cmds_are_congr ?_ ?_ hl2
    · intro p _
      by_cases hp : p = cmd <;> simp [unlock_cmd_lock_eq, os_add_timer, hp]
    · simp [unlock_cmd_lock_eq, os_add_timer]
  · simp
  · simp [unlock_cmd_lock_eq, os_add_timer, (hadd_rest _ _).2.2.2, lock_cmd_lock_eq,
      rsp_handler_calls_append, rsp_handler_calls]
  · simp
  · simp [unlock_cmd_lock_eq, os_add_timer, (hadd_cmd _ _).2, lock_cmd_lock_eq]
  · simp [unlock_cmd_lock_eq, os_add_timer, (hadd_rest _ _).2.2.2, lock_cmd_lock_eq,
      rsp_handler_calls_append, rsp_handler_calls]


/-- C5: a pending command accepted by `smi_send_command` (return value 0) has
its response handler called at most once, whatever RESPONSEs carrying its token
are read and whenever its timer runs. For every sequence `events` of such steps
and every continuation `later`, the steps run to completion, the number of
response-handler calls in the trace never decreases and never exceeds the
number before the send plus one: so once a response has been delivered, neither
the timer callback nor another RESPONSE calls a handler, and once the timeout
has been delivered no RESPONSE does. -/
theorem pending_cmd_handler_at_most_once (fuel : Nat) (w0 : smi_world) (ipmi : Ptr)
    (addr : ipmi_addr_t) (addr_len : Nat) (msg : ipmi_msg_t)
    (rsp_handler rsp_data data2 data3 cmd : Ptr) (add_timer_rv : Int) (tid : Ptr)
    (ioctl_rv errno remove_timer_rv : Int) (l registry : List Ptr)
    (hl : pending_cmds_are w0 (w0.con ipmi).con_data l) (hreg : smi_list_is w0 registry)
    (hfresh : cmd ∉ l)
    (haccept : (smi_send_command w0 ipmi addr addr_len msg rsp_handler rsp_data data2 data3 cmd
      add_timer_rv tid ioctl_rv errno remove_timer_rv).2 = 0)
    (hfuel : l.length + 1 < fuel) (hfuel2 : registry.length < fuel)
    (events later : List pending_event) :
    ∃ w2 w3,
      pending_events_run fuel ipmi cmd tid
          (smi_send_command w0 ipmi addr addr_len msg rsp_handler rsp_data data2 data3 cmd
            add_timer_rv tid ioctl_rv errno remove_timer_rv).1 events = some w2
      ∧ pending_events_run fuel ipmi cmd tid w2 later = some w3
      ∧ pending_events_run fuel ipmi cmd tid
          (smi_send_command w0 ipmi addr addr_len msg rsp_handler rsp_data data2 data3 cmd
            add_timer_rv tid ioctl_rv errno remove_timer_rv).1 (events ++ later) = some w3
      ∧ rsp_handler_calls w0.trace ≤ rsp_handler_calls w2.trace
      ∧ rsp_handler_calls w2.trace ≤ rsp_handler_calls w3.trace
      ∧ rsp_handler_calls w3.trace ≤ rsp_handler_calls w0.trace + 1 := by
  obtain ⟨hinv, hbase⟩ := smi_send_command_accepted w0 ipmi addr addr_len msg rsp_handler
    rsp_data data2 data3 cmd add_timer_rv tid ioctl_rv errno remove_timer_rv l registry hl hreg
    hfresh haccept
  obtain ⟨w2, h2, hinv2, hm2⟩ := pending_inv_run fuel ipmi cmd tid registry (l.length + 1)
    (rsp_handler_calls w0.trace) hfuel hfuel2 events _ hinv
  obtain ⟨w3, h3, hinv3, hm3⟩ := pending_inv_run fuel ipmi cmd tid registry (l.length + 1)
    (rsp_handler_calls w0.trace) hfuel hfuel2 later w2 hinv2
  refine ⟨w2, w3, h2, h3, ?_, ?_, hm3, pending_inv_calls hinv3⟩
  · rw [pending_events_run_append, h2]
    exact h3
  · rw [← hbase]; exact hm2

/-- Witness of C5: in the sample state a command sent with record 33 and timer
50 is accepted; for the steps "a RESPONSE arrives and the timer cannot be
stopped", then "the timer runs", then "another RESPONSE arrives", at most one
handler call is ever added to the (empty) trace. -/
theorem pending_cmd_handler_at_most_once_witness :
    (smi_send_command sample_world 20 ⟨IPMI_SYSTEM_INTERFACE_ADDR_TYPE, 0xf, 0, 0⟩ 8
      { netfn := 6, cmd := 1, data_len := 0, data := [] } 73 1 2 3 33 0 50 0 0 0).2 = 0
    ∧ ∃ w2 w3,
      pending_events_run 4 20 33 50
          (smi_send_command sample_world 20 ⟨IPMI_SYSTEM_INTERFACE_ADDR_TYPE, 0xf, 0, 0⟩ 8
            { netfn := 6, cmd := 1, data_len := 0, data := [] } 73 1 2 3 33 0 50 0 0 0).1
          [.response ⟨IPMI_SYSTEM_INTERFACE_ADDR_TYPE, 0xf, 0, 0⟩ 8
            { netfn := 7, cmd := 1, data_len := 1, data := [0] } 1] = some w2
      ∧ pending_events_run 4 20 33 50 w2
          [.timeout, .response ⟨IPMI_SYSTEM_INTERFACE_ADDR_TYPE, 0xf, 0, 0⟩ 8
            { netfn := 7, cmd := 1, data_len := 1, data := [0] } 0] = some w3
      ∧ rsp_handler_calls w2.trace ≤ rsp_handler_calls w3.trace
      ∧ rsp_handler_calls w3.trace ≤ 1 :=
  ⟨by decide,
   match pending_cmd_handler_at_most_once 4 sample_world 20
      ⟨IPMI_SYSTEM_INTERFACE_ADDR_TYPE, 0xf, 0, 0⟩ 8
      { netfn := 6, cmd := 1, data_len := 0, data := [] } 73 1 2 3 33 0 50 0 0 0 [31, 32] [10]
      (by decide) (by decide) (by decide) (by decide) (by decide) (by decide)
      [.response ⟨IPMI_SYSTEM_INTERFACE_ADDR_TYPE, 0xf, 0, 0⟩ 8
        { netfn := 7, cmd := 1, data_len := 1, data := [0] } 1]
      [.timeout, .response ⟨IPMI_SYSTEM_INTERFACE_ADDR_TYPE, 0xf, 0, 0⟩ 8
        { netfn := 7, cmd := 1, data_len := 1, data := [0] } 0] with
   | ⟨w2, w3, h1, h2, _, _, h5, h6⟩ => ⟨w2, w3, h1, h2, h5, h6⟩⟩

/-! ## Theorems: command registrations -/


theorem cmd_handlers_link_eq (w : smi_world) (smi elem : Ptr) :
    cmd_handlers_link w smi elem = { w with
      hnd := fun p => { w.hnd p with
        next := if p = elem then (w.smi smi).cmd_handlers else (w.hnd p).next
        prev := if (w.smi smi).cmd_handlers ≠ NULL ∧ p = (w.smi smi).cmd_handlers then elem
          else if p = elem then NULL
          else (w.hnd p).prev }
      smi := fun q => { w.smi q with
        cmd_handlers := if q = smi then elem else (w.smi q).cmd_handlers } } := by
  unfold cmd_handlers_link
  by_cases hh : (w.smi smi).cmd_handlers = NULL <;>
    simp [hnd_set_next_eq, hnd_set_prev_eq, hh, smi_world.set_smi]
  all_goals
    funext q
    by_cases hq : q = smi
    · subst hq; simp
    · simp [hq]

theorem cmd_handlers_unlink_eq (w : smi_world) (smi elem : Ptr) :
    cmd_handlers_unlink w smi elem = { w with
      hnd := fun p => { w.hnd p with
        next := if (w.hnd elem).prev ≠ NULL ∧ p = (w.hnd elem).prev then (w.hnd elem).next
          else (w.hnd p).next
        prev := if (w.hnd elem).next ≠ NULL ∧ p = (w.hnd elem).next then (w.hnd elem).prev
          else (w.hnd p).prev }
      smi := fun q => { w.smi q with
        cmd_handlers := if (w.hnd elem).prev = NULL ∧ q = smi then (w.hnd elem).next
          else (w.smi q).cmd_handlers } } := by
  unfold cmd_handlers_unlink
  by_cases h1 : (w.hnd elem).next = NULL <;> by_cases h2 : (w.hnd elem).prev = NULL <;>
    simp [h1, h2, hnd_set_next_eq, hnd_set_prev_eq, smi_world.set_smi]
  all_goals
    funext q
    by_cases h : q = smi
    · subst h; simp
    · simp [h]

theorem cmd_handlers_are_congr {w w2 : smi_world} {smi : Ptr} {l : List Ptr}
    (hh : ∀ p ∈ l, (w2.hnd p).next = (w.hnd p).next ∧ (w2.hnd p).prev = (w.hnd p).prev)
    (hhd : (w2.smi smi).cmd_handlers = (w.smi smi).cmd_handlers)
    (h : cmd_handlers_are w smi l) : cmd_handlers_are w2 smi l := by
  unfold cmd_handlers_are at *
  rw [hhd]
  exact dll_congr hh h

theorem add_cmd_registration_loop_spec (w : smi_world) (netfn cmd : Byte) (l : List Ptr) :
    ∀ (fuel : Nat) (pv hd : Ptr),
      dll (fun p => (w.hnd p).next) (fun p => (w.hnd p).prev) pv hd l →
      (l.length < fuel → add_cmd_registration_loop w netfn cmd fuel hd
          = some (decide (∃ p ∈ l, reg_key w p = (netfn, cmd))))
      ∧ (∀ r, add_cmd_registration_loop w netfn cmd fuel hd = some r →
          r = decide (∃ p ∈ l, reg_key w p = (netfn, cmd))) := by
  induction l with
  | nil =>
    intro fuel pv hd h
    have : hd = NULL := h
    cases fuel with
    | zero => simp [add_cmd_registration_loop]
    | succ n => simp [add_cmd_registration_loop, this]
  | cons x xs ih =>
    intro fuel pv hd h
    obtain ⟨h1, h2, _, h4⟩ := h
    subst h1
    cases fuel with
    | zero => simp [add_cmd_registration_loop]
    | succ n =>
      by_cases hk : (w.hnd hd).netfn = netfn ∧ (w.hnd hd).cmd = cmd
      · have hk2 : reg_key w hd = (netfn, cmd) := by simp [reg_key, hk.1, hk.2]
        simp [add_cmd_registration_loop, h2, hk, hk2]
      · have hk2 : ¬ reg_key w hd = (netfn, cmd) := by
          intro e
          simp only [reg_key, Prod.mk.injEq] at e
          exact hk e
        have := ih n hd _ h4
        simp only [add_cmd_registration_loop, ne_eq, h2, not_false_eq_true, if_true, hk,
          if_false, List.length_cons, Nat.add_lt_add_iff_right, List.mem_cons,
          exists_eq_or_imp, hk2, false_or]
        exact this

theorem remove_cmd_registration_loop_spec (w : smi_world) (netfn cmd : Byte) (l : List Ptr) :
    ∀ (fuel : Nat) (pv hd : Ptr),
      dll (fun p => (w.hnd p).next) (fun p => (w.hnd p).prev) pv hd l →
      (l.length < fuel → remove_cmd_registration_loop w netfn cmd fuel hd
          = some ((l.find? (fun p => decide (reg_key w p = (netfn, cmd)))).getD NULL))
      ∧ (∀ r, remove_cmd_registration_loop w netfn cmd fuel hd = some r →
          r = (l.find? (fun p => decide (reg_key w p = (netfn, cmd)))).getD NULL) := by
  induction l with
  | nil =>
    intro fuel pv hd h
    have : hd = NULL := h
    cases fuel with
    | zero => simp [remove_cmd_registration_loop]
    | succ n => simp [remove_cmd_registration_loop, this]
  | cons x xs ih =>
    intro fuel pv hd h
    obtain ⟨h1, h2, _, h4⟩ := h
    subst h1
    cases fuel with
    | zero => simp [remove_cmd_registration_loop]
    | succ n =>
      by_cases hk : (w.hnd hd).netfn = netfn ∧ (w.hnd hd).cmd = cmd
      · have hk2 : reg_key w hd = (netfn, cmd) := by simp [reg_key, hk.1, hk.2]
        simp [remove_cmd_registration_loop, h2, hk, hk2]
      · have hk2 : ¬ reg_key w hd = (netfn, cmd) := by
          intro e
          simp only [reg_key, Prod.mk.injEq] at e
          exact hk e
        have := ih n hd _ h4
        simp only [remove_cmd_registration_loop, ne_eq, h2, not_false_eq_true, if_true, hk,
          if_false, List.length_cons, Nat.add_lt_add_iff_right, List.find?_cons, hk2,
          decide_False]
        exact this

theorem reg_key_congr {w w2 : smi_world} {p : Ptr}
    (h : (w2.hnd p).netfn = (w.hnd p).netfn ∧ (w2.hnd p).cmd = (w.hnd p).cmd) :
    reg_key w2 p = reg_key w p := by
  simp [reg_key, h.1, h.2]

theorem exists_key_congr {w w2 : smi_world} {l : List Ptr} {k : Byte × Byte}
    (h : ∀ p ∈ l, reg_key w2 p = reg_key w p) :
    (∃ p ∈ l, reg_key w2 p = k) ↔ (∃ p ∈ l, reg_key w p = k) := by
  constructor
  · rintro ⟨p, hp, e⟩; exact ⟨p, hp, by rw [← h p hp]; exact e⟩
  · rintro ⟨p, hp, e⟩; exact ⟨p, hp, by rw [h p hp]; exact e⟩

theorem add_cmd_registration_scan (fuel : Nat) (w : smi_world) (ipmi : Ptr) (netfn cmd : Byte)
    (handler cmd_data data2 data3 elem : Ptr) (l : List Ptr)
    (hl : cmd_handlers_are w (w.con ipmi).con_data l) (hel : elem ∉ l) :
    (l.length < fuel →
      add_cmd_registration_loop
        (lock_cmd_handlers_lock (w.set_hnd elem { w.hnd elem with
          netfn := netfn, cmd := cmd, handler := handler, cmd_data := cmd_data,
          data2 := data2, data3 := data3 }) (w.con ipmi).con_data) netfn cmd fuel
        (w.smi (w.con ipmi).con_data).cmd_handlers
        = some (decide (∃ p ∈ l, reg_key w p = (netfn, cmd))))
    ∧ (∀ r, add_cmd_registration_loop
        (lock_cmd_handlers_lock (w.set_hnd elem { w.hnd elem with
          netfn := netfn, cmd := cmd, handler := handler, cmd_data := cmd_data,
          data2 := data2, data3 := data3 }) (w.con ipmi).con_data) netfn cmd fuel
        (w.smi (w.con ipmi).con_data).cmd_handlers = some r →
        r = decide (∃ p ∈ l, reg_key w p = (netfn, cmd))) := by
  have hl1 : cmd_handlers_are (lock_cmd_handlers_lock (w.set_hnd elem { w.hnd elem with
      netfn := netfn, cmd := cmd, handler := handler, cmd_data := cmd_data,
      data2 := data2, data3 := data3 }) (w.con ipmi).con_data) (w.con ipmi).con_data l := by
    refine cmd_handlers_are_congr ?_ ?_ hl
    · intro p hp
      have : p ≠ elem := fun e => hel (e ▸ hp)
      simp [lock_cmd_handlers_lock_eq, this]
    · simp [lock_cmd_handlers_lock_eq]
  have hkeys : ∀ p ∈ l, reg_key (lock_cmd_handlers_lock (w.set_hnd elem { w.hnd elem with
      netfn := netfn, cmd := cmd, handler := handler, cmd_data := cmd_data,
      data2 := data2, data3 := data3 }) (w.con ipmi).con_data) p = reg_key w p := by
    intro p hp
    have : p ≠ elem := fun e => hel (e ▸ hp)
    simp [reg_key, lock_cmd_handlers_lock_eq, this]
  have hhd : ((lock_cmd_handlers_lock (w.set_hnd elem { w.hnd elem with
      netfn := netfn, cmd := cmd, handler := handler, cmd_data := cmd_data,
      data2 := data2, data3 := data3 }) (w.con ipmi).con_data).smi
      (w.con ipmi).con_data).cmd_handlers = (w.smi (w.con ipmi).con_data).cmd_handlers := by
    simp [lock_cmd_handlers_lock_eq]
  unfold cmd_handlers_are at hl1
  rw [hhd] at hl1
  have hspec := add_cmd_registration_loop_spec _ netfn cmd l fuel NULL
    (w.smi (w.con ipmi).con_data).cmd_handlers hl1
  simp only [exists_key_congr hkeys] at hspec
  exact hspec

theorem add_cmd_registration_new (fuel : Nat) (w : smi_world) (ipmi : Ptr) (netfn cmd : Byte)
    (handler cmd_data data2 data3 elem : Ptr) (l : List Ptr)
    (hl : cmd_handlers_are w (w.con ipmi).con_data l) (he0 : elem ≠ NULL) (hel : elem ∉ l)
    (hf : l.length < fuel) (hnew : ¬ ∃ p ∈ l, reg_key w p = (netfn, cmd)) :
    ∃ w2, add_cmd_registration fuel w ipmi netfn cmd handler cmd_data data2 data3 elem
        = some (w2, 0)
      ∧ cmd_handlers_are w2 (w.con ipmi).con_data (elem :: l)
      ∧ w2.hnd elem =
          { netfn := netfn, cmd := cmd, handler := handler, cmd_data := cmd_data,
            data2 := data2, data3 := data3,
            next := (w.smi (w.con ipmi).con_data).cmd_handlers, prev := NULL }
      ∧ (∀ p ∈ l, ∃ pv, w2.hnd p = { w.hnd p with prev := pv })
      ∧ w2.con = w.con ∧ w2.trace = w.trace := by
  have hscan := (add_cmd_registration_scan fuel w ipmi netfn cmd handler cmd_data data2 data3
    elem l hl hel).1 hf
  have hnull := dll_null_not_mem hl
  unfold add_cmd_registration
  simp only [he0, if_false]
  have hhd : ((lock_cmd_handlers_lock (w.set_hnd elem { w.hnd elem with
      netfn := netfn, cmd := cmd, handler := handler, cmd_data := cmd_data,
      data2 := data2, data3 := data3 }) (w.con ipmi).con_data).smi
      (w.con ipmi).con_data).cmd_handlers = (w.smi (w.con ipmi).con_data).cmd_handlers := by
    simp [lock_cmd_handlers_lock_eq]
  rw [hhd, hscan]
  simp only [hnew, decide_False]
  have hne : elem ≠ (w.smi (w.con ipmi).con_data).cmd_handlers := by
    intro e
    cases l with
    | nil => exact he0 (e.trans hl)
    | cons x xs =>
      apply hel
      rw [e, hl.1]; simp
  refine ⟨_, rfl, ?_, ?_, ?_, ?_, ?_⟩
  · unfold cmd_handlers_are at hl ⊢
    have hhead : ∀ x : smi_world, (x.smi (w.con ipmi).con_data).cmd_handlers = elem →
        dll (fun p => (x.hnd p).next) (fun p => (x.hnd p).prev) NULL elem (elem :: l) →
        dll (fun p => (x.hnd p).next) (fun p => (x.hnd p).prev) NULL
          (x.smi (w.con ipmi).con_data).cmd_handlers (elem :: l) := by
      intro x e h; rw [e]; exact h
    apply hhead
    · simp [unlock_cmd_handlers_lock_eq, cmd_handlers_link_eq]
    apply dll_insert_head hl he0 hel
    · simp [unlock_cmd_handlers_lock_eq, cmd_handlers_link_eq, lock_cmd_handlers_lock_eq]
    · simp [unlock_cmd_handlers_lock_eq, cmd_handlers_link_eq, lock_cmd_handlers_lock_eq, hne]
    · intro p hp
      have : p ≠ elem := fun e => hel (e ▸ hp)
      simp [unlock_cmd_handlers_lock_eq, cmd_handlers_link_eq, lock_cmd_handlers_lock_eq, this]
    · intro hm
      have : (w.smi (w.con ipmi).con_data).cmd_handlers ≠ NULL := fun e => hnull (e ▸ hm)
      simp [unlock_cmd_handlers_lock_eq, cmd_handlers_link_eq, lock_cmd_handlers_lock_eq, this]
    · intro p hp hph
      have : p ≠ elem := fun e => hel (e ▸ hp)
      simp [unlock_cmd_handlers_lock_eq, cmd_handlers_link_eq, lock_cmd_handlers_lock_eq,
        this, hph]
  · simp [unlock_cmd_handlers_lock_eq, cmd_handlers_link_eq, lock_cmd_handlers_lock_eq, hne]
  · intro p hp
    have hpe : p ≠ elem := fun e => hel (e ▸ hp)
    refine ⟨if (w.smi (w.con ipmi).con_data).cmd_handlers ≠ NULL
        ∧ p = (w.smi (w.con ipmi).con_data).cmd_handlers then elem else (w.hnd p).prev, ?_⟩
    simp [unlock_cmd_handlers_lock_eq, cmd_handlers_link_eq, lock_cmd_handlers_lock_eq, hpe]
  · simp [unlock_cmd_handlers_lock_eq, cmd_handlers_link_eq, lock_cmd_handlers_lock_eq]
  · simp [unlock_cmd_handlers_lock_eq, cmd_handlers_link_eq, lock_cmd_handlers_lock_eq]

theorem add_cmd_registration_dup (fuel : Nat) (w : smi_world) (ipmi : Ptr) (netfn cmd : Byte)
    (handler cmd_data data2 data3 elem : Ptr) (l : List Ptr)
    (hl : cmd_handlers_are w (w.con ipmi).con_data l) (he0 : elem ≠ NULL) (hel : elem ∉ l)
    (hf : l.length < fuel) (hdup : ∃ p ∈ l, reg_key w p = (netfn, cmd)) :
    ∃ w2, add_cmd_registration fuel w ipmi netfn cmd handler cmd_data data2 data3 elem
        = some (w2, EEXIST)
      ∧ cmd_handlers_are w2 (w.con ipmi).con_data l
      ∧ (∀ p ∈ l, w2.hnd p = w.hnd p)
      ∧ w2.con = w.con ∧ w2.trace = w.trace ++ [effect.free elem] := by
  have hscan := (add_cmd_registration_scan fuel w ipmi netfn cmd handler cmd_data data2 data3
    elem l hl hel).1 hf
  unfold add_cmd_registration
  simp only [he0, if_false]
  have hhd : ((lock_cmd_handlers_lock (w.set_hnd elem { w.hnd elem with
      netfn := netfn, cmd := cmd, handler := handler, cmd_data := cmd_data,
      data2 := data2, data3 := data3 }) (w.con ipmi).con_data).smi
      (w.con ipmi).con_data).cmd_handlers = (w.smi (w.con ipmi).con_data).cmd_handlers := by
    simp [lock_cmd_handlers_lock_eq]
  rw [hhd, hscan]
  simp only [hdup, decide_True]
  refine ⟨_, rfl, ?_, ?_, ?_, ?_⟩
  · refine cmd_handlers_are_congr ?_ ?_ hl
    · intro p hp
      have : p ≠ elem := fun e => hel (e ▸ hp)
      simp [unlock_lock_cmd_handlers_lock, this]
    · simp [unlock_lock_cmd_handlers_lock]
  · intro p hp
    have : p ≠ elem := fun e => hel (e ▸ hp)
    simp [unlock_lock_cmd_handlers_lock, this]
  · simp [unlock_lock_cmd_handlers_lock]
  · simp [unlock_lock_cmd_handlers_lock]

theorem add_cmd_registration_fuel (fuel : Nat) (w : smi_world) (ipmi : Ptr) (netfn cmd : Byte)
    (handler cmd_data data2 data3 elem : Ptr) (l : List Ptr)
    (hl : cmd_handlers_are w (w.con ipmi).con_data l) (hel : elem ∉ l)
    (r : smi_world × Int)
    (h : add_cmd_registration fuel w ipmi netfn cmd handler cmd_data data2 data3 elem = some r) :
    add_cmd_registration (l.length + 1) w ipmi netfn cmd handler cmd_data data2 data3 elem
      = some r := by
  have hscan := add_cmd_registration_scan fuel w ipmi netfn cmd handler cmd_data data2 data3
    elem l hl hel
  have hscan2 := (add_cmd_registration_scan (l.length + 1) w ipmi netfn cmd handler cmd_data
    data2 data3 elem l hl hel).1 (by omega)
  have hhd : ((lock_cmd_handlers_lock (w.set_hnd elem { w.hnd elem with
      netfn := netfn, cmd := cmd, handler := handler, cmd_data := cmd_data,
      data2 := data2, data3 := data3 }) (w.con ipmi).con_data).smi
      (w.con ipmi).con_data).cmd_handlers = (w.smi (w.con ipmi).con_data).cmd_handlers := by
    simp [lock_cmd_handlers_lock_eq]
  unfold add_cmd_registration at h ⊢
  by_cases he0 : elem = NULL
  · simpa [he0] using h
  · simp only [he0, if_false] at h ⊢
    rw [hhd] at h ⊢
    rw [hscan2]
    cases hres : add_cmd_registration_loop
        (lock_cmd_handlers_lock (w.set_hnd elem { w.hnd elem with
          netfn := netfn, cmd := cmd, handler := handler, cmd_data := cmd_data,
          data2 := data2, data3 := data3 }) (w.con ipmi).con_data) netfn cmd fuel
        (w.smi (w.con ipmi).con_data).cmd_handlers with
    | none => rw [hres] at h; simp at h
    | some b =>
      rw [hres] at h
      rw [← hscan.2 b hres]
      exact h

theorem cmd_handlers_unlink_list (w : smi_world) (smi elem : Ptr) (l : List Ptr)
    (h : cmd_handlers_are w smi l) (hc : elem ∈ l) :
    cmd_handlers_are (cmd_handlers_unlink w smi elem) smi (l.erase elem) := by
  unfold cmd_handlers_are at *
  have hnull := dll_null_not_mem h
  have hprev := dll_prev_cases h hc
  have key := dll_unlink (fun p => ((cmd_handlers_unlink w smi elem).hnd p).next)
    (fun p => ((cmd_handlers_unlink w smi elem).hnd p).prev) h hnull hc
  have hhead : ((cmd_handlers_unlink w smi elem).smi smi).cmd_handlers
      = if (w.smi smi).cmd_handlers = elem then (w.hnd elem).next
        else (w.smi smi).cmd_handlers := by
    rw [cmd_handlers_unlink_eq]
    rcases hprev with ⟨e1, e2⟩ | ⟨e1, e2⟩
    · have e2' : (w.hnd elem).prev = NULL := e2
      simp [e1, e2']
    · have e2' : (w.hnd elem).prev ≠ NULL := fun e => hnull (e ▸ e2)
      simp [e1, e2']
  rw [hhead]
  apply key
  · intro p _ hne
    simp [cmd_handlers_unlink_eq, hne]
  · intro hm
    have : (w.hnd elem).prev ≠ NULL := fun e => hnull (e ▸ hm)
    simp [cmd_handlers_unlink_eq, this]
  · intro p _ hne
    simp [cmd_handlers_unlink_eq, hne]
  · intro hm
    have : (w.hnd elem).next ≠ NULL := fun e => hnull (e ▸ hm)
    simp [cmd_handlers_unlink_eq, this]

theorem remove_cmd_registration_scan (fuel : Nat) (w : smi_world) (ipmi : Ptr)
    (netfn cmd : Byte) (l : List Ptr) (hl : cmd_handlers_are w (w.con ipmi).con_data l) :
    (l.length < fuel →
      remove_cmd_registration_loop (lock_cmd_handlers_lock w (w.con ipmi).con_data) netfn cmd
        fuel (w.smi (w.con ipmi).con_data).cmd_handlers
        = some ((l.find? (fun p => decide (reg_key w p = (netfn, cmd)))).getD NULL))
    ∧ (∀ r, remove_cmd_registration_loop (lock_cmd_handlers_lock w (w.con ipmi).con_data)
        netfn cmd fuel (w.smi (w.con ipmi).con_data).cmd_handlers = some r →
        r = (l.find? (fun p => decide (reg_key w p = (netfn, cmd)))).getD NULL) := by
  have hl1 : dll (fun p => ((lock_cmd_handlers_lock w (w.con ipmi).con_data).hnd p).next)
      (fun p => ((lock_cmd_handlers_lock w (w.con ipmi).con_data).hnd p).prev) NULL
      (w.smi (w.con ipmi).con_data).cmd_handlers l := hl
  have hspec := remove_cmd_registration_loop_spec _ netfn cmd l fuel NULL
    (w.smi (w.con ipmi).con_data).cmd_handlers hl1
  have hkeys : (fun p => decide (reg_key (lock_cmd_handlers_lock w (w.con ipmi).con_data) p
      = (netfn, cmd))) = (fun p => decide (reg_key w p = (netfn, cmd))) := rfl
  rw [hkeys] at hspec
  exact hspec

theorem find_key_none {w : smi_world} {l : List Ptr} {k : Byte × Byte}
    (h : ¬ ∃ p ∈ l, reg_key w p = k) :
    l.find? (fun p => decide (reg_key w p = k)) = none := by
  rw [List.find?_eq_none]
  intro p hp
  simp only [decide_eq_true_eq]
  exact fun e => h ⟨p, hp, e⟩

theorem remove_cmd_registration_absent (fuel : Nat) (w : smi_world) (ipmi : Ptr)
    (netfn cmd : Byte) (l : List Ptr) (hl : cmd_handlers_are w (w.con ipmi).con_data l)
    (hf : l.length < fuel) (hno : ¬ ∃ p ∈ l, reg_key w p = (netfn, cmd)) :
    remove_cmd_registration fuel w ipmi netfn cmd = some (w, ENOENT) := by
  have hscan := (remove_cmd_registration_scan fuel w ipmi netfn cmd l hl).1 hf
  rw [find_key_none hno] at hscan
  unfold remove_cmd_registration
  have hhd : ((lock_cmd_handlers_lock w (w.con ipmi).con_data).smi
      (w.con ipmi).con_data).cmd_handlers = (w.smi (w.con ipmi).con_data).cmd_handlers := by
    simp [lock_cmd_handlers_lock_eq]
  simp only [hhd, hscan, Option.getD_none, if_true, unlock_lock_cmd_handlers_lock]

theorem remove_cmd_registration_found (fuel : Nat) (w : smi_world) (ipmi : Ptr)
    (netfn cmd : Byte) (l : List Ptr) (hl : cmd_handlers_are w (w.con ipmi).con_data l)
    (hf : l.length < fuel) (elem : Ptr)
    (hfind : l.find? (fun p => decide (reg_key w p = (netfn, cmd))) = some elem) :
    ∃ w2, remove_cmd_registration fuel w ipmi netfn cmd = some (w2, 0)
      ∧ cmd_handlers_are w2 (w.con ipmi).con_data (l.erase elem)
      ∧ (∀ p, (w2.hnd p).netfn = (w.hnd p).netfn ∧ (w2.hnd p).cmd = (w.hnd p).cmd
          ∧ (w2.hnd p).handler = (w.hnd p).handler ∧ (w2.hnd p).cmd_data = (w.hnd p).cmd_data
          ∧ (w2.hnd p).data2 = (w.hnd p).data2 ∧ (w2.hnd p).data3 = (w.hnd p).data3)
      ∧ w2.con = w.con ∧ w2.trace = w.trace := by
  have hscan := (remove_cmd_registration_scan fuel w ipmi netfn cmd l hl).1 hf
  rw [hfind] at hscan
  have hmem := List.mem_of_find?_eq_some hfind
  have he0 : elem ≠ NULL := fun e => dll_null_not_mem hl (e ▸ hmem)
  have hl1 : cmd_handlers_are (lock_cmd_handlers_lock w (w.con ipmi).con_data)
      (w.con ipmi).con_data l :=
    cmd_handlers_are_congr (by intro p _; simp [lock_cmd_handlers_lock_eq])
      (by simp [lock_cmd_handlers_lock_eq]) hl
  have hl2 := cmd_handlers_unlink_list _ (w.con ipmi).con_data elem l hl1 hmem
  unfold remove_cmd_registration
  have hhd : ((lock_cmd_handlers_lock w (w.con ipmi).con_data).smi
      (w.con ipmi).con_data).cmd_handlers = (w.smi (w.con ipmi).con_data).cmd_handlers := by
    simp [lock_cmd_handlers_lock_eq]
  simp only [hhd, hscan, Option.getD_some, he0, if_false]
  refine ⟨_, rfl, ?_, ?_, ?_, ?_⟩
  · refine cmd_handlers_are_congr ?_ ?_ hl2
    · intro p _; simp [unlock_cmd_handlers_lock_eq]
    · simp [unlock_cmd_handlers_lock_eq]
  · intro p
    simp [unlock_cmd_handlers_lock_eq, cmd_handlers_unlink_eq, lock_cmd_handlers_lock_eq]
  · simp [unlock_cmd_handlers_lock_eq, cmd_handlers_unlink_eq, lock_cmd_handlers_lock_eq]
  · simp [unlock_cmd_handlers_lock_eq, cmd_handlers_unlink_eq, lock_cmd_handlers_lock_eq]

theorem remove_cmd_registration_fuel (fuel : Nat) (w : smi_world) (ipmi : Ptr)
    (netfn cmd : Byte) (l : List Ptr) (hl : cmd_handlers_are w (w.con ipmi).con_data l)
    (r : smi_world × Int) (h : remove_cmd_registration fuel w ipmi netfn cmd = some r) :
    remove_cmd_registration (l.length + 1) w ipmi netfn cmd = some r := by
  have hscan := remove_cmd_registration_scan fuel w ipmi netfn cmd l hl
  have hscan2 := (remove_cmd_registration_scan (l.length + 1) w ipmi netfn cmd l hl).1
    (by omega)
  have hhd : ((lock_cmd_handlers_lock w (w.con ipmi).con_data).smi
      (w.con ipmi).con_data).cmd_handlers = (w.smi (w.con ipmi).con_data).cmd_handlers := by
    simp [lock_cmd_handlers_lock_eq]
  unfold remove_cmd_registration at h ⊢
  simp only [hhd] at h ⊢
  rw [hscan2]
  cases hres : remove_cmd_registration_loop (lock_cmd_handlers_lock w (w.con ipmi).con_data)
      netfn cmd fuel (w.smi (w.con ipmi).con_data).cmd_handlers with
  | none => rw [hres] at h; simp at h
  | some b =>
    rw [hres] at h
    rw [← hscan.2 b hres]
    exact h

theorem map_key_congr {w w2 : smi_world} {l : List Ptr}
    (h : ∀ p ∈ l, reg_key w2 p = reg_key w p) : l.map (reg_key w2) = l.map (reg_key w) :=
  List.map_congr_left h

theorem find_key_some {w : smi_world} {l : List Ptr} {k : Byte × Byte}
    (h : ∃ p ∈ l, reg_key w p = k) :
    ∃ e, l.find? (fun p => decide (reg_key w p = k)) = some e := by
  cases hf : l.find? (fun p => decide (reg_key w p = k)) with
  | some e => exact ⟨e, rfl⟩
  | none =>
    exfalso
    obtain ⟨p, hp, e⟩ := h
    have := List.find?_eq_none.mp hf p hp
    simp [e] at this

theorem cmd_handlers_inv_add (fuel : Nat) (ipmi : Ptr) (w : smi_world) (netfn cmd : Byte)
    (handler cmd_data data2 data3 elem : Ptr) (w2 : smi_world) (rv : Int)
    (hinv : cmd_handlers_inv ipmi w)
    (hfresh : ∀ l, cmd_handlers_are w (w.con ipmi).con_data l → elem ∉ l)
    (h : add_cmd_registration fuel w ipmi netfn cmd handler cmd_data data2 data3 elem
      = some (w2, rv)) :
    cmd_handlers_inv ipmi w2 := by
  obtain ⟨l, hl, hnd⟩ := hinv
  have hel := hfresh l hl
  by_cases he0 : elem = NULL
  · unfold add_cmd_registration at h
    simp only [he0, if_true, Option.some.injEq, Prod.mk.injEq] at h
    rw [← h.1]
    exact ⟨l, hl, hnd⟩
  · have h2 := add_cmd_registration_fuel fuel w ipmi netfn cmd handler cmd_data data2 data3
      elem l hl hel _ h
    by_cases hdup : ∃ p ∈ l, reg_key w p = (netfn, cmd)
    · obtain ⟨w3, e1, e2, e3, e4, _⟩ := add_cmd_registration_dup (l.length + 1) w ipmi netfn cmd
        handler cmd_data data2 data3 elem l hl he0 hel (by omega) hdup
      rw [e1] at h2
      simp only [Option.some.injEq, Prod.mk.injEq] at h2
      obtain ⟨h3, _⟩ := h2
      subst h3
      refine ⟨l, by rw [e4]; exact e2, ?_⟩
      have hk : ∀ p ∈ l, reg_key w3 p = reg_key w p := fun p hp => by simp [reg_key, e3 p hp]
      rw [map_key_congr hk]
      exact hnd
    · obtain ⟨w3, e1, e2, e3, e4, e5, _⟩ := add_cmd_registration_new (l.length + 1) w ipmi netfn
        cmd handler cmd_data data2 data3 elem l hl he0 hel (by omega) hdup
      rw [e1] at h2
      simp only [Option.some.injEq, Prod.mk.injEq] at h2
      obtain ⟨h3, _⟩ := h2
      subst h3
      refine ⟨elem :: l, by rw [e5]; exact e2, ?_⟩
      have hk : ∀ p ∈ l, reg_key w3 p = reg_key w p := by
        intro p hp
        obtain ⟨pv, e⟩ := e4 p hp
        simp [reg_key, e]
      have hke : reg_key w3 elem = (netfn, cmd) := by simp [reg_key, e3]
      rw [List.map_cons, map_key_congr hk, hke]
      refine List.nodup_cons.mpr ⟨?_, hnd⟩
      intro hm
      obtain ⟨p, hp, e⟩ := List.mem_map.mp hm
      exact hdup ⟨p, hp, e⟩

theorem cmd_handlers_inv_remove (fuel : Nat) (ipmi : Ptr) (w : smi_world) (netfn cmd : Byte)
    (w2 : smi_world) (rv : Int) (hinv : cmd_handlers_inv ipmi w)
    (h : remove_cmd_registration fuel w ipmi netfn cmd = some (w2, rv)) :
    cmd_handlers_inv ipmi w2 := by
  obtain ⟨l, hl, hnd⟩ := hinv
  have h2 := remove_cmd_registration_fuel fuel w ipmi netfn cmd l hl _ h
  by_cases hex : ∃ p ∈ l, reg_key w p = (netfn, cmd)
  · obtain ⟨e, hfind⟩ := find_key_some hex
    obtain ⟨w3, e1, e2, e3, e4, _⟩ := remove_cmd_registration_found (l.length + 1) w ipmi netfn
      cmd l hl (by omega) e hfind
    rw [e1] at h2
    simp only [Option.some.injEq, Prod.mk.injEq] at h2
    obtain ⟨h3, _⟩ := h2
    subst h3
    refine ⟨l.erase e, by rw [e4]; exact e2, ?_⟩
    have hk : ∀ p ∈ l.erase e, reg_key w3 p = reg_key w p := by
      intro p _
      simp [reg_key, (e3 p).1, (e3 p).2.1]
    rw [map_key_congr hk]
    exact List.Nodup.sublist (List.Sublist.map _ (List.erase_sublist e l)) hnd
  · rw [remove_cmd_registration_absent (l.length + 1) w ipmi netfn cmd l hl (by omega) hex] at h2
    simp only [Option.some.injEq, Prod.mk.injEq] at h2
    rw [← h2.1]
    exact ⟨l, hl, hnd⟩

theorem cmd_handlers_inv_emit (ipmi : Ptr) (w : smi_world) (e : effect)
    (hinv : cmd_handlers_inv ipmi w) : cmd_handlers_inv ipmi (w.emit e) := hinv

theorem cmd_handlers_inv_register (fuel : Nat) (ipmi : Ptr) (w : smi_world) (netfn cmd : Byte)
    (handler cmd_data data2 data3 elem : Ptr) (ioctl_rv errno : Int) (w2 : smi_world) (rv : Int)
    (hinv : cmd_handlers_inv ipmi w)
    (hfresh : ∀ l, cmd_handlers_are w (w.con ipmi).con_data l → elem ∉ l)
    (h : smi_register_for_command fuel w ipmi netfn cmd handler cmd_data data2 data3 elem
      ioctl_rv errno = some (w2, rv)) :
    cmd_handlers_inv ipmi w2 := by
  unfold smi_register_for_command at h
  cases hadd : add_cmd_registration fuel w ipmi netfn cmd handler cmd_data data2 data3 elem with
  | none => rw [hadd] at h; simp at h
  | some r =>
    obtain ⟨w1, rv1⟩ := r
    have hinv1 := cmd_handlers_inv_add fuel ipmi w netfn cmd handler cmd_data data2 data3 elem
      w1 rv1 hinv hfresh hadd
    rw [hadd] at h
    simp only at h
    by_cases hrv : rv1 = 0
    · simp only [hrv, ne_eq, not_true_eq_false, if_false] at h
      by_cases hio : ioctl_rv = -1
      · simp only [hio, if_true] at h
        cases hrm : remove_cmd_registration fuel
            (w1.emit (.ioctl_register_for_cmd (w1.smi (w.con ipmi).con_data).fd netfn cmd))
            ipmi netfn cmd with
        | none => rw [hrm] at h; simp at h
        | some r2 =>
          obtain ⟨w3, rv3⟩ := r2
          rw [hrm] at h
          simp only [Option.some.injEq, Prod.mk.injEq] at h
          rw [← h.1]
          exact cmd_handlers_inv_remove fuel ipmi _ netfn cmd w3 rv3
            (cmd_handlers_inv_emit ipmi w1 _ hinv1) hrm
      · simp only [hio, if_false, Option.some.injEq, Prod.mk.injEq] at h
        rw [← h.1]
        exact cmd_handlers_inv_emit ipmi w1 _ hinv1
    · simp only [ne_eq, hrv, not_false_eq_true, if_true, Option.some.injEq, Prod.mk.injEq] at h
      rw [← h.1]
      exact hinv1

theorem cmd_handlers_inv_deregister (fuel : Nat) (ipmi : Ptr) (w : smi_world) (netfn cmd : Byte)
    (ioctl_rv errno : Int) (w2 : smi_world) (rv : Int) (hinv : cmd_handlers_inv ipmi w)
    (h : smi_deregister_for_command fuel w ipmi netfn cmd ioctl_rv errno = some (w2, rv)) :
    cmd_handlers_inv ipmi w2 := by
  unfold smi_deregister_for_command at h
  by_cases hio : ioctl_rv = -1
  · simp only [hio, if_true, Option.some.injEq, Prod.mk.injEq] at h
    rw [← h.1]
    exact cmd_handlers_inv_emit ipmi w _ hinv
  · simp only [hio, if_false] at h
    cases hrm : remove_cmd_registration fuel
        (w.emit (.ioctl_unregister_for_cmd (w.smi (w.con ipmi).con_data).fd netfn cmd))
        ipmi netfn cmd with
    | none => rw [hrm] at h; simp at h
    | some r2 =>
      obtain ⟨w3, rv3⟩ := r2
      rw [hrm] at h
      simp only [Option.some.injEq, Prod.mk.injEq] at h
      rw [← h.1]
      exact cmd_handlers_inv_remove fuel ipmi _ netfn cmd w3 rv3
        (cmd_handlers_inv_emit ipmi w _ hinv) hrm

theorem cmd_handlers_reachable_inv (ipmi : Ptr) (w : smi_world)
    (h : cmd_handlers_reachable ipmi w) : cmd_handlers_inv ipmi w := by
  induction h with
  | init w h0 => exact ⟨[], h0, List.nodup_nil⟩
  | add fuel w netfn cmd handler cmd_data data2 data3 elem w2 rv _ hfresh hstep ih =>
    exact cmd_handlers_inv_add fuel ipmi w netfn cmd handler cmd_data data2 data3 elem w2 rv ih
      hfresh hstep
  | remove fuel w netfn cmd w2 rv _ hstep ih =>
    exact cmd_handlers_inv_remove fuel ipmi w netfn cmd w2 rv ih hstep
  | register fuel w netfn cmd handler cmd_data data2 data3 elem ioctl_rv errno w2 rv _ hfresh
      hstep ih =>
    exact cmd_handlers_inv_register fuel ipmi w netfn cmd handler cmd_data data2 data3 elem
      ioctl_rv errno w2 rv ih hfresh hstep
  | deregister fuel w netfn cmd ioctl_rv errno w2 rv _ hstep ih =>
    exact cmd_handlers_inv_deregister fuel ipmi w netfn cmd ioctl_rv errno w2 rv ih hstep

/-- C8: in every state that registration calls reach from the empty list, the
registration list is well formed and no (netfn, cmd) occurs twice in it.
In such a state, with enough fuel and a fresh non-null `elem` from `malloc`:
registering a pair that is already in the list returns `EEXIST` and leaves the
list and its entries as they are; registering a pair that is not in the list
returns 0 and puts exactly one new entry, for that pair and with the given
handler and context values, in front of the unchanged others. -/
theorem cmd_handlers_unique (ipmi : Ptr) (w : smi_world)
    (hreach : cmd_handlers_reachable ipmi w) :
    ∃ l, cmd_handlers_are w (w.con ipmi).con_data l ∧ (l.map (reg_key w)).Nodup
      ∧ ∀ (fuel : Nat) (netfn cmd : Byte) (handler cmd_data data2 data3 elem : Ptr),
          l.length < fuel → elem ≠ NULL → elem ∉ l →
          ((∃ p ∈ l, reg_key w p = (netfn, cmd)) →
            ∃ w2, add_cmd_registration fuel w ipmi netfn cmd handler cmd_data data2 data3 elem
                = some (w2, EEXIST)
              ∧ cmd_handlers_are w2 (w2.con ipmi).con_data l
              ∧ ∀ p ∈ l, w2.hnd p = w.hnd p)
          ∧ ((¬ ∃ p ∈ l, reg_key w p = (netfn, cmd)) →
            ∃ w2, add_cmd_registration fuel w ipmi netfn cmd handler cmd_data data2 data3 elem
                = some (w2, 0)
              ∧ cmd_handlers_are w2 (w2.con ipmi).con_data (elem :: l)
              ∧ (elem :: l).map (reg_key w2) = (netfn, cmd) :: l.map (reg_key w)
              ∧ (w2.hnd elem).handler = handler ∧ (w2.hnd elem).cmd_data = cmd_data
              ∧ (w2.hnd elem).data2 = data2 ∧ (w2.hnd elem).data3 = data3) := by
  obtain ⟨l, hl, hnd⟩ := cmd_handlers_reachable_inv ipmi w hreach
  refine ⟨l, hl, hnd, ?_⟩
  intro fuel netfn cmd handler cmd_data data2 data3 elem hf he0 hel
  constructor
  · intro hdup
    obtain ⟨w3, e1, e2, e3, e4, _⟩ := add_cmd_registration_dup fuel w ipmi netfn cmd
      handler cmd_data data2 data3 elem l hl he0 hel hf hdup
    exact ⟨w3, e1, by rw [e4]; exact e2, e3⟩
  · intro hnew
    obtain ⟨w3, e1, e2, e3, e4, e5, _⟩ := add_cmd_registration_new fuel w ipmi netfn
      cmd handler cmd_data data2 data3 elem l hl he0 hel hf hnew
    refine ⟨w3, e1, by rw [e5]; exact e2, ?_, by rw [e3], by rw [e3], by rw [e3], by rw [e3]⟩
    have hk : ∀ p ∈ l, reg_key w3 p = reg_key w p := by
      intro p hp
      obtain ⟨pv, e⟩ := e4 p hp
      simp [reg_key, e]
    have hke : reg_key w3 elem = (netfn, cmd) := by simp [reg_key, e3]
    rw [List.map_cons, map_key_congr hk, hke]


/-- Witness of C8: from the sample state without registrations, registering
(6, 1) with the fresh entry 41 succeeds, and the state reached has a well-formed
list without duplicate keys. -/
theorem cmd_handlers_unique_witness :
    ∃ w2, add_cmd_registration 1 sample_world_empty 20 6 1 80 0 0 0 41 = some (w2, 0)
      ∧ cmd_handlers_reachable 20 w2
      ∧ ∃ l, cmd_handlers_are w2 (w2.con 20).con_data l ∧ (l.map (reg_key w2)).Nodup := by
  obtain ⟨l, hl, _, hadd⟩ := cmd_handlers_unique 20 sample_world_empty (.init _ rfl)
  have hl0 : l = [] :=
    dll_unique hl (show cmd_handlers_are sample_world_empty 10 [] from rfl)
  subst hl0
  obtain ⟨w2, h1, _⟩ := (hadd 1 6 1 80 0 0 0 41 (by decide) (by decide) (by decide)).2 (by simp)
  have hreach : cmd_handlers_reachable 20 w2 :=
    .add 1 sample_world_empty 6 1 80 0 0 0 41 w2 0 (.init _ rfl)
      (fun l2 hl2 => by
        have : l2 = [] :=
          dll_unique hl2 (show cmd_handlers_are sample_world_empty 10 [] from rfl)
        rw [this]; simp) h1
  obtain ⟨l2, hl2, hnd2, _⟩ := cmd_handlers_unique 20 w2 hreach
  exact ⟨w2, h1, hreach, l2, hl2, hnd2⟩

/-- The return value of `smi_deregister_for_command` is 0 on every path. -/
theorem smi_deregister_for_command_returns_zero (fuel : Nat) (w : smi_world) (ipmi : Ptr)
    (netfn cmd : Byte) (ioctl_rv errno : Int) (w2 : smi_world) (rv : Int)
    (h : smi_deregister_for_command fuel w ipmi netfn cmd ioctl_rv errno = some (w2, rv)) :
    rv = 0 := by
  unfold smi_deregister_for_command at h
  by_cases hio : ioctl_rv = -1
  · simp only [hio, if_true, Option.some.injEq, Prod.mk.injEq] at h
    exact h.2.symm
  · simp only [hio, if_false] at h
    cases hrm : remove_cmd_registration fuel
        (w.emit (.ioctl_unregister_for_cmd (w.smi (w.con ipmi).con_data).fd netfn cmd))
        ipmi netfn cmd with
    | none => rw [hrm] at h; simp at h
    | some r2 =>
      rw [hrm] at h
      simp only [Option.some.injEq, Prod.mk.injEq] at h
      exact h.2.symm

/-- C9 at the failing inputs: in the sample state the registrations are 41 for
(6, 1) and 42 for (6, 2). Deregistering (6, 3), which is not registered, returns
0 and not `ENOENT`, whether the kernel refuses the request with `ENOENT` or
accepts it, although `remove_cmd_registration` itself answers `ENOENT` there.
Deregistering (6, 1), which is registered, when the kernel request fails also
returns 0, and the entry is still in the list. -/
theorem smi_deregister_for_command_not_enoent :
    cmd_handlers_are sample_world 10 [41, 42]
    ∧ reg_key sample_world 41 = (6, 1) ∧ reg_key sample_world 42 = (6, 2)
    ∧ (remove_cmd_registration 3 sample_world 20 6 3).map Prod.snd = some ENOENT
    ∧ (smi_deregister_for_command 3 sample_world 20 6 3 (-1) ENOENT).map Prod.snd = some 0
    ∧ (smi_deregister_for_command 3 sample_world 20 6 3 0 0).map Prod.snd = some 0
    ∧ (smi_deregister_for_command 3 sample_world 20 6 1 (-1) EINVAL).map Prod.snd = some 0
    ∧ (smi_deregister_for_command 3 sample_world 20 6 1 (-1) EINVAL).map
        (fun r => decide (cmd_handlers_are r.1 10 [41, 42])) = some true := by
  refine ⟨by decide, by decide, by decide, by decide, by decide, by decide, by decide, by decide⟩

/-! ## Theorems: event subscribers -/


theorem event_handlers_are_congr {w w2 : smi_world} {smi : Ptr} {l : List Ptr}
    (hh : ∀ p ∈ l, (w2.evt p).next = (w.evt p).next ∧ (w2.evt p).prev = (w.evt p).prev)
    (hhd : (w2.smi smi).event_handlers = (w.smi smi).event_handlers)
    (h : event_handlers_are w smi l) : event_handlers_are w2 smi l := by
  unfold event_handlers_are at *
  rw [hhd]
  exact dll_congr hh h

theorem add_event_handler_eq (w : smi_world) (ipmi smi event : Ptr) :
    add_event_handler w ipmi smi event = { w with
      evt := fun p => { w.evt p with
        ipmi := if p = event then ipmi else (w.evt p).ipmi
        next := if p = event then (w.smi smi).event_handlers else (w.evt p).next
        prev := if (w.smi smi).event_handlers ≠ NULL ∧ p = (w.smi smi).event_handlers then event
          else if p = event then NULL
          else (w.evt p).prev }
      smi := fun q => { w.smi q with
        event_handlers := if q = smi then event else (w.smi q).event_handlers } } := by
  unfold add_event_handler
  by_cases hh : (w.smi smi).event_handlers = NULL
  · simp only [evt_set_next_eq, evt_set_prev_eq, hh, smi_world.set_smi, smi_world.set_evt,
      ne_eq, not_true_eq_false, if_false, false_and]
    congr 1
    · funext q
      by_cases hq : q = smi
      · subst hq; simp
      · simp [hq]
    · funext p
      by_cases hp : p = event
      · subst hp; simp
      · simp [hp]
  · simp only [evt_set_next_eq, evt_set_prev_eq, hh, smi_world.set_smi, smi_world.set_evt,
      ne_eq, not_false_eq_true, if_true, true_and]
    congr 1
    · funext q
      by_cases hq : q = smi
      · subst hq; simp
      · simp [hq]
    · funext p
      by_cases hp : p = event
      · subst hp; simp
      · simp [hp]

theorem remove_event_handler_eq (w : smi_world) (smi event : Ptr) :
    remove_event_handler w smi event = { w with
      evt := fun p => { w.evt p with
        next := if (w.evt event).prev ≠ NULL ∧ p = (w.evt event).prev then (w.evt event).next
          else (w.evt p).next
        prev := if (w.evt event).next ≠ NULL ∧ p = (w.evt event).next then (w.evt event).prev
          else (w.evt p).prev }
      smi := fun q => { w.smi q with
        event_handlers := if (w.evt event).prev = NULL ∧ q = smi then (w.evt event).next
          else (w.smi q).event_handlers } } := by
  unfold remove_event_handler
  by_cases h1 : (w.evt event).next = NULL <;> by_cases h2 : (w.evt event).prev = NULL <;>
    simp [h1, h2, evt_set_next_eq, evt_set_prev_eq, smi_world.set_smi]
  all_goals
    funext q
    by_cases h : q = smi
    · subst h; simp
    · simp [h]

theorem remove_event_handler_list (w : smi_world) (smi event : Ptr) (l : List Ptr)
    (h : event_handlers_are w smi l) (hc : event ∈ l) :
    event_handlers_are (remove_event_handler w smi event) smi (l.erase event) := by
  unfold event_handlers_are at *
  have hnull := dll_null_not_mem h
  have hprev := dll_prev_cases h hc
  have key := dll_unlink (fun p => ((remove_event_handler w smi event).evt p).next)
    (fun p => ((remove_event_handler w smi event).evt p).prev) h hnull hc
  have hhead : ((remove_event_handler w smi event).smi smi).event_handlers
      = if (w.smi smi).event_handlers = event then (w.evt event).next
        else (w.smi smi).event_handlers := by
    rw [remove_event_handler_eq]
    rcases hprev with ⟨e1, e2⟩ | ⟨e1, e2⟩
    · have e2' : (w.evt event).prev = NULL := e2
      simp [e1, e2']
    · have e2' : (w.evt event).prev ≠ NULL := fun e => hnull (e ▸ e2)
      simp [e1, e2']
  rw [hhead]
  apply key
  · intro p _ hne
    simp [remove_event_handler_eq, hne]
  · intro hm
    have : (w.evt event).prev ≠ NULL := fun e => hnull (e ▸ hm)
    simp [remove_event_handler_eq, this]
  · intro p _ hne
    simp [remove_event_handler_eq, hne]
  · intro hm
    have : (w.evt event).next ≠ NULL := fun e => hnull (e ▸ hm)
    simp [remove_event_handler_eq, this]

theorem add_event_handler_list (w : smi_world) (ipmi smi event : Ptr) (l : List Ptr)
    (h : event_handlers_are w smi l) (he0 : event ≠ NULL) (hel : event ∉ l) :
    event_handlers_are (add_event_handler w ipmi smi event) smi (event :: l) := by
  unfold event_handlers_are at *
  have hnull := dll_null_not_mem h
  have hne : event ≠ (w.smi smi).event_handlers := by
    intro e
    cases l with
    | nil => exact he0 (e.trans h)
    | cons x xs =>
      apply hel
      rw [e, h.1]; simp
  have hhead : ((add_event_handler w ipmi smi event).smi smi).event_handlers = event := by
    simp [add_event_handler_eq]
  rw [hhead]
  apply dll_insert_head h he0 hel
  · simp [add_event_handler_eq]
  · simp [add_event_handler_eq, hne]
  · intro p hp
    have : p ≠ event := fun e => hel (e ▸ hp)
    simp [add_event_handler_eq, this]
  · intro hm
    have : (w.smi smi).event_handlers ≠ NULL := fun e => hnull (e ▸ hm)
    simp [add_event_handler_eq, this]
  · intro p hp hph
    have : p ≠ event := fun e => hel (e ▸ hp)
    simp [add_event_handler_eq, this, hph]

theorem event_handlers_head_null {w : smi_world} {smi : Ptr} {l : List Ptr}
    (h : event_handlers_are w smi l) : (w.smi smi).event_handlers = NULL ↔ l = [] := by
  cases l with
  | nil => exact ⟨fun _ => rfl, fun _ => h⟩
  | cons x xs =>
    constructor
    · intro e
      exact absurd (h.1.symm.trans e) h.2.1
    · intro e; simp at e

theorem ioctl_set_gets_events_eq (w : smi_world) (fd val rv : Int) :
    ioctl_set_gets_events w fd val rv = { w with
      trace := w.trace ++ [effect.ioctl_set_gets_events fd val]
      gets_events := if rv = -1 then w.gets_events else Function.update w.gets_events fd val } := by
  unfold ioctl_set_gets_events
  by_cases h : rv = -1 <;> simp [h, smi_world.emit]

theorem smi_register_for_events_ok (w : smi_world) (ipmi handler event_data data2 entry : Ptr)
    (ioctl_rv errno : Int) (l : List Ptr)
    (hl : event_handlers_are w (w.con ipmi).con_data l) (he0 : entry ≠ NULL) (hel : entry ∉ l)
    (hok : ¬ (l = [] ∧ ioctl_rv = -1)) :
    (smi_register_for_events w ipmi handler event_data data2 entry ioctl_rv errno).2
        = (if l = [] then ioctl_rv else 0)
    ∧ event_handlers_are
        (smi_register_for_events w ipmi handler event_data data2 entry ioctl_rv errno).1
        (w.con ipmi).con_data (entry :: l)
    ∧ (smi_register_for_events w ipmi handler event_data data2 entry ioctl_rv errno).1.gets_events
        = (if l = [] then Function.update w.gets_events (w.smi (w.con ipmi).con_data).fd 1
            else w.gets_events)
    ∧ (smi_register_for_events w ipmi handler event_data data2 entry ioctl_rv errno).1.trace
        = w.trace ++ (if l = [] then
            [effect.ioctl_set_gets_events (w.smi (w.con ipmi).con_data).fd 1] else [])
    ∧ ((smi_register_for_events w ipmi handler event_data data2 entry ioctl_rv errno).1.evt
        entry).ipmi = ipmi
    ∧ (∀ p, p ≠ entry →
        ((smi_register_for_events w ipmi handler event_data data2 entry ioctl_rv errno).1.evt
          p).ipmi = (w.evt p).ipmi)
    ∧ (smi_register_for_events w ipmi handler event_data data2 entry ioctl_rv errno).1.con = w.con
    ∧ ((smi_register_for_events w ipmi handler event_data data2 entry ioctl_rv errno).1.smi
        (w.con ipmi).con_data).fd = (w.smi (w.con ipmi).con_data).fd := by
  have hl0 : event_handlers_are (lock_event_handlers_lock (w.set_evt entry { w.evt entry with
      handler := handler, event_data := event_data, data2 := data2 }) (w.con ipmi).con_data)
      (w.con ipmi).con_data l := by
    refine event_handlers_are_congr ?_ ?_ hl
    · intro p hp
      have : p ≠ entry := fun e => hel (e ▸ hp)
      simp [lock_event_handlers_lock_eq, this]
    · simp [lock_event_handlers_lock_eq]
  have hl1 := add_event_handler_list _ ipmi _ entry l hl0 he0 hel
  have hhn := event_handlers_head_null hl
  have hhead0 : ((lock_event_handlers_lock (w.set_evt entry { w.evt entry with
      handler := handler, event_data := event_data, data2 := data2 })
      (w.con ipmi).con_data).smi (w.con ipmi).con_data).event_handlers
      = (w.smi (w.con ipmi).con_data).event_handlers := by
    simp [lock_event_handlers_lock_eq]
  unfold smi_register_for_events
  simp only [he0, if_false, hhead0]
  by_cases hemp : l = []
  · have hio : ioctl_rv ≠ -1 := fun e => hok ⟨hemp, e⟩
    have hh : (w.smi (w.con ipmi).con_data).event_handlers = NULL := hhn.mpr hemp
    simp only [hh, decide_True, if_true, hio, if_false, hemp]
    refine ⟨trivial, ?_, ?_, ?_, ?_, ?_, ?_, ?_⟩
    · rw [← hemp]
      refine event_handlers_are_congr ?_ ?_ hl1
      · intro p _
        simp [unlock_event_handlers_lock_eq, ioctl_set_gets_events_eq, lock_event_handlers_lock_eq]
      · simp [unlock_event_handlers_lock_eq, ioctl_set_gets_events_eq, lock_event_handlers_lock_eq]
    · simp [unlock_event_handlers_lock_eq, ioctl_set_gets_events_eq, hio, add_event_handler_eq,
        lock_event_handlers_lock_eq]
    · simp [unlock_event_handlers_lock_eq, ioctl_set_gets_events_eq, hio, add_event_handler_eq,
        lock_event_handlers_lock_eq]
    · simp [unlock_event_handlers_lock_eq, ioctl_set_gets_events_eq, hio, add_event_handler_eq,
        lock_event_handlers_lock_eq]
    · intro p hp
      simp [unlock_event_handlers_lock_eq, ioctl_set_gets_events_eq, hio, add_event_handler_eq,
        lock_event_handlers_lock_eq, hp]
    · simp [unlock_event_handlers_lock_eq, ioctl_set_gets_events_eq, hio, add_event_handler_eq,
        lock_event_handlers_lock_eq]
    · simp [unlock_event_handlers_lock_eq, ioctl_set_gets_events_eq, hio, add_event_handler_eq,
        lock_event_handlers_lock_eq]
  · have hh : (w.smi (w.con ipmi).con_data).event_handlers ≠ NULL := fun e => hemp (hhn.mp e)
    simp only [hh, decide_False, if_false, hemp, Bool.false_eq_true]
    refine ⟨trivial, ?_, ?_, ?_, ?_, ?_, ?_, ?_⟩
    · refine event_handlers_are_congr ?_ ?_ hl1
      · intro p _
        simp [unlock_event_handlers_lock_eq, lock_event_handlers_lock_eq]
      · simp [unlock_event_handlers_lock_eq, lock_event_handlers_lock_eq]
    · simp [unlock_event_handlers_lock_eq, add_event_handler_eq, lock_event_handlers_lock_eq]
    · simp [unlock_event_handlers_lock_eq, add_event_handler_eq, lock_event_handlers_lock_eq]
    · simp [unlock_event_handlers_lock_eq, add_event_handler_eq, lock_event_handlers_lock_eq]
    · intro p hp
      simp [unlock_event_handlers_lock_eq, add_event_handler_eq, lock_event_handlers_lock_eq, hp]
    · simp [unlock_event_handlers_lock_eq, add_event_handler_eq, lock_event_handlers_lock_eq]
    · simp [unlock_event_handlers_lock_eq, add_event_handler_eq, lock_event_handlers_lock_eq]

theorem smi_register_for_events_fail (w : smi_world) (ipmi handler event_data data2 entry : Ptr)
    (errno : Int) (hl : event_handlers_are w (w.con ipmi).con_data []) (he0 : entry ≠ NULL) :
    (smi_register_for_events w ipmi handler event_data data2 entry (-1) errno).2 = errno
    ∧ event_handlers_are
        (smi_register_for_events w ipmi handler event_data data2 entry (-1) errno).1
        (w.con ipmi).con_data []
    ∧ (smi_register_for_events w ipmi handler event_data data2 entry (-1) errno).1.gets_events
        = w.gets_events
    ∧ (smi_register_for_events w ipmi handler event_data data2 entry (-1) errno).1.trace
        = w.trace ++ [effect.ioctl_set_gets_events (w.smi (w.con ipmi).con_data).fd 1]
    ∧ (smi_register_for_events w ipmi handler event_data data2 entry (-1) errno).1.con = w.con
    ∧ ((smi_register_for_events w ipmi handler event_data data2 entry (-1) errno).1.smi
        (w.con ipmi).con_data).fd = (w.smi (w.con ipmi).con_data).fd := by
  have hl0 : event_handlers_are (lock_event_handlers_lock (w.set_evt entry { w.evt entry with
      handler := handler, event_data := event_data, data2 := data2 }) (w.con ipmi).con_data)
      (w.con ipmi).con_data [] := by
    refine event_handlers_are_congr ?_ ?_ hl
    · intro p hp; simp at hp
    · simp [lock_event_handlers_lock_eq]
  have hl1 := add_event_handler_list _ ipmi _ entry [] hl0 he0 (by simp)
  have hl2 : event_handlers_are (ioctl_set_gets_events (add_event_handler
      (lock_event_handlers_lock (w.set_evt entry { w.evt entry with
        handler := handler, event_data := event_data, data2 := data2 }) (w.con ipmi).con_data)
      ipmi (w.con ipmi).con_data entry) (w.smi (w.con ipmi).con_data).fd 1 (-1))
      (w.con ipmi).con_data [entry] :=
    event_handlers_are_congr (by intro p _; simp [ioctl_set_gets_events_eq])
      (by simp [ioctl_set_gets_events_eq]) hl1
  have hl3 := remove_event_handler_list _ (w.con ipmi).con_data entry [entry] hl2 (by simp)
  have hh : (w.smi (w.con ipmi).con_data).event_handlers = NULL := hl
  have hhead0 : ((lock_event_handlers_lock (w.set_evt entry { w.evt entry with
      handler := handler, event_data := event_data, data2 := data2 })
      (w.con ipmi).con_data).smi (w.con ipmi).con_data).event_handlers
      = (w.smi (w.con ipmi).con_data).event_handlers := by
    simp [lock_event_handlers_lock_eq]
  have hfd : ((add_event_handler (lock_event_handlers_lock (w.set_evt entry { w.evt entry with
      handler := handler, event_data := event_data, data2 := data2 }) (w.con ipmi).con_data)
      ipmi (w.con ipmi).con_data entry).smi (w.con ipmi).con_data).fd
      = (w.smi (w.con ipmi).con_data).fd := by
    simp [add_event_handler_eq, lock_event_handlers_lock_eq]
  unfold smi_register_for_events
  simp only [he0, if_false, hhead0, hh, decide_True, if_true, hfd]
  refine ⟨trivial, ?_, ?_, ?_, ?_, ?_⟩
  · have : ([entry] : List Ptr).erase entry = [] := by simp
    rw [this] at hl3
    refine event_handlers_are_congr ?_ ?_ hl3
    · intro p hp; simp at hp
    · simp [unlock_event_handlers_lock_eq]
  · simp [unlock_event_handlers_lock_eq, remove_event_handler_eq, ioctl_set_gets_events_eq]
    simp [add_event_handler_eq, lock_event_handlers_lock_eq]
  · simp [unlock_event_handlers_lock_eq, remove_event_handler_eq, ioctl_set_gets_events_eq]
    simp [add_event_handler_eq, lock_event_handlers_lock_eq]
  · simp [unlock_event_handlers_lock_eq, remove_event_handler_eq, ioctl_set_gets_events_eq]
    simp [add_event_handler_eq, lock_event_handlers_lock_eq]
  · simp [unlock_event_handlers_lock_eq, remove_event_handler_eq, ioctl_set_gets_events_eq]
    simp [add_event_handler_eq, lock_event_handlers_lock_eq]

theorem smi_deregister_for_events_spec (w : smi_world) (ipmi id : Ptr) (ioctl_rv errno : Int)
    (l : List Ptr) (hl : event_handlers_are w (w.con ipmi).con_data l) (hid : id ∈ l)
    (hipmi : (w.evt id).ipmi = ipmi) :
    event_handlers_are (smi_deregister_for_events w ipmi id ioctl_rv errno).1
        (w.con ipmi).con_data (l.erase id)
    ∧ (smi_deregister_for_events w ipmi id ioctl_rv errno).2
        = (if l.erase id = [] then (if ioctl_rv = -1 then errno else ioctl_rv) else 0)
    ∧ (smi_deregister_for_events w ipmi id ioctl_rv errno).1.gets_events
        = (if l.erase id = [] ∧ ioctl_rv ≠ -1 then
            Function.update w.gets_events (w.smi (w.con ipmi).con_data).fd 0
          else w.gets_events)
    ∧ (smi_deregister_for_events w ipmi id ioctl_rv errno).1.trace
        = w.trace ++ (if l.erase id = [] then
            [effect.ioctl_set_gets_events (w.smi (w.con ipmi).con_data).fd 0] else [])
    ∧ (∀ p, p ≠ id →
        ((smi_deregister_for_events w ipmi id ioctl_rv errno).1.evt p).ipmi = (w.evt p).ipmi)
    ∧ (smi_deregister_for_events w ipmi id ioctl_rv errno).1.con = w.con
    ∧ ((smi_deregister_for_events w ipmi id ioctl_rv errno).1.smi (w.con ipmi).con_data).fd
        = (w.smi (w.con ipmi).con_data).fd := by
  have hl0 : event_handlers_are (lock_event_handlers_lock w (w.con ipmi).con_data)
      (w.con ipmi).con_data l :=
    event_handlers_are_congr (by intro p _; simp [lock_event_handlers_lock_eq])
      (by simp [lock_event_handlers_lock_eq]) hl
  have hl1 := remove_event_handler_list _ (w.con ipmi).con_data id l hl0 hid
  have hl2 : event_handlers_are
      ((remove_event_handler (lock_event_handlers_lock w (w.con ipmi).con_data)
        (w.con ipmi).con_data id).set_evt id
        { (remove_event_handler (lock_event_handlers_lock w (w.con ipmi).con_data)
            (w.con ipmi).con_data id).evt id with ipmi := NULL })
      (w.con ipmi).con_data (l.erase id) := by
    refine event_handlers_are_congr ?_ ?_ hl1
    · intro p _
      by_cases hp : p = id
      · subst hp; simp
      · simp [hp]
    · simp
  have hhn := event_handlers_head_null hl2
  have hfd : (((remove_event_handler (lock_event_handlers_lock w (w.con ipmi).con_data)
        (w.con ipmi).con_data id).set_evt id
        { (remove_event_handler (lock_event_handlers_lock w (w.con ipmi).con_data)
            (w.con ipmi).con_data id).evt id with ipmi := NULL }).smi
        (w.con ipmi).con_data).fd = (w.smi (w.con ipmi).con_data).fd := by
    simp [remove_event_handler_eq, lock_event_handlers_lock_eq]
  unfold smi_deregister_for_events
  simp only [hipmi, ne_eq, not_true_eq_false, if_false, hfd]
  by_cases hemp : l.erase id = []
  · have hh := hhn.mpr hemp
    simp only [hh, if_true, hemp]
    by_cases hio : ioctl_rv = -1
    · simp only [hio, if_true, not_true_eq_false, and_false, if_false]
      refine ⟨?_, trivial, ?_, ?_, ?_, ?_, ?_⟩
      · rw [← hemp]
        refine event_handlers_are_congr ?_ ?_ hl2
        · intro p _; simp [unlock_event_handlers_lock_eq, ioctl_set_gets_events_eq]
        · simp [unlock_event_handlers_lock_eq, ioctl_set_gets_events_eq]
      · simp [unlock_event_handlers_lock_eq, ioctl_set_gets_events_eq, remove_event_handler_eq,
          lock_event_handlers_lock_eq]
      · simp [unlock_event_handlers_lock_eq, ioctl_set_gets_events_eq, remove_event_handler_eq,
          lock_event_handlers_lock_eq]
      · intro p hp
        simp [unlock_event_handlers_lock_eq, ioctl_set_gets_events_eq, remove_event_handler_eq,
          lock_event_handlers_lock_eq, hp]
      · simp [unlock_event_handlers_lock_eq, ioctl_set_gets_events_eq, remove_event_handler_eq,
          lock_event_handlers_lock_eq]
      · simp [unlock_event_handlers_lock_eq, ioctl_set_gets_events_eq, remove_event_handler_eq,
          lock_event_handlers_lock_eq]
    · simp only [hio, if_false, not_false_eq_true, and_self, if_true]
      refine ⟨?_, trivial, ?_, ?_, ?_, ?_, ?_⟩
      · rw [← hemp]
        refine event_handlers_are_congr ?_ ?_ hl2
        · intro p _; simp [unlock_event_handlers_lock_eq, ioctl_set_gets_events_eq]
        · simp [unlock_event_handlers_lock_eq, ioctl_set_gets_events_eq]
      · simp [unlock_event_handlers_lock_eq, ioctl_set_gets_events_eq, remove_event_handler_eq,
          lock_event_handlers_lock_eq, hio]
      · simp [unlock_event_handlers_lock_eq, ioctl_set_gets_events_eq, remove_event_handler_eq,
          lock_event_handlers_lock_eq]
      · intro p hp
        simp [unlock_event_handlers_lock_eq, ioctl_set_gets_events_eq, remove_event_handler_eq,
          lock_event_handlers_lock_eq, hp]
      · simp [unlock_event_handlers_lock_eq, ioctl_set_gets_events_eq, remove_event_handler_eq,
          lock_event_handlers_lock_eq]
      · simp [unlock_event_handlers_lock_eq, ioctl_set_gets_events_eq, remove_event_handler_eq,
          lock_event_handlers_lock_eq]
  · have hh : ¬ _ := fun e => hemp (hhn.mp e)
    simp only [hh, if_false, hemp, false_and]
    refine ⟨?_, trivial, ?_, ?_, ?_, ?_, ?_⟩
    · refine event_handlers_are_congr ?_ ?_ hl2
      · intro p _; simp [unlock_event_handlers_lock_eq]
      · simp [unlock_event_handlers_lock_eq]
    · simp [unlock_event_handlers_lock_eq, remove_event_handler_eq, lock_event_handlers_lock_eq]
    · simp [unlock_event_handlers_lock_eq, remove_event_handler_eq, lock_event_handlers_lock_eq]
    · intro p hp
      simp [unlock_event_handlers_lock_eq, remove_event_handler_eq, lock_event_handlers_lock_eq,
        hp]
    · simp [unlock_event_handlers_lock_eq, remove_event_handler_eq, lock_event_handlers_lock_eq]
    · simp [unlock_event_handlers_lock_eq, remove_event_handler_eq, lock_event_handlers_lock_eq]

theorem event_handlers_inv_register (ipmi : Ptr) (w : smi_world)
    (handler event_data data2 entry : Ptr) (ioctl_rv errno : Int)
    (hinv : event_handlers_inv ipmi w)
    (hfresh : ∀ l, event_handlers_are w (w.con ipmi).con_data l → entry ∉ l) :
    event_handlers_inv ipmi
      (smi_register_for_events w ipmi handler event_data data2 entry ioctl_rv errno).1 := by
  obtain ⟨l, hl, hK, hJ⟩ := hinv
  have hel := hfresh l hl
  by_cases he0 : entry = NULL
  · have : smi_register_for_events w ipmi handler event_data data2 entry ioctl_rv errno
        = (w, ENOMEM) := by
      unfold smi_register_for_events; simp [he0]
    rw [this]
    exact ⟨l, hl, hK, hJ⟩
  by_cases hfail : l = [] ∧ ioctl_rv = -1
  · obtain ⟨hemp, hio⟩ := hfail
    subst hemp
    subst hio
    obtain ⟨_, h2, _, _, h5, _⟩ := smi_register_for_events_fail w ipmi handler event_data data2
      entry errno hl he0
    refine ⟨[], by rw [h5]; exact h2, ?_, ?_⟩
    · intro p hp; simp at hp
    · intro h; exact absurd rfl h
  · obtain ⟨_, h2, h3, _, h5, h6, h7, h8⟩ := smi_register_for_events_ok w ipmi handler
      event_data data2 entry ioctl_rv errno l hl he0 hel hfail
    refine ⟨entry :: l, by rw [h7]; exact h2, ?_, ?_⟩
    · intro p hp
      rcases List.mem_cons.mp hp with e | hm
      · rw [e]; exact h5
      · have : p ≠ entry := fun e => hel (e ▸ hm)
        rw [h6 p this]; exact hK p hm
    · intro _
      rw [h7, h8, h3]
      by_cases hemp : l = []
      · simp [hemp]
      · simp only [hemp, if_false]; exact hJ hemp

theorem event_handlers_inv_deregister (ipmi : Ptr) (w : smi_world) (id : Ptr)
    (ioctl_rv errno : Int) (hinv : event_handlers_inv ipmi w)
    (hpre : (w.evt id).ipmi = ipmi →
      ∀ l, event_handlers_are w (w.con ipmi).con_data l → id ∈ l) :
    event_handlers_inv ipmi (smi_deregister_for_events w ipmi id ioctl_rv errno).1 := by
  obtain ⟨l, hl, hK, hJ⟩ := hinv
  by_cases hipmi : (w.evt id).ipmi = ipmi
  · have hid := hpre hipmi l hl
    obtain ⟨h1, _, h3, _, h5, h6, h7⟩ := smi_deregister_for_events_spec w ipmi id ioctl_rv errno
      l hl hid hipmi
    have hnd : l.Nodup := dll_nodup hl
    refine ⟨l.erase id, by rw [h6]; exact h1, ?_, ?_⟩
    · intro p hp
      have hpid : p ≠ id := fun e => (List.Nodup.not_mem_erase hnd) (e ▸ hp)
      rw [h5 p hpid]
      exact hK p (List.mem_of_mem_erase hp)
    · intro hne
      rw [h6, h7, h3]
      simp only [hne, false_and, if_false]
      exact hJ (List.ne_nil_of_mem hid)
  · have : smi_deregister_for_events w ipmi id ioctl_rv errno = (w, EINVAL) := by
      unfold smi_deregister_for_events; simp [hipmi]
    rw [this]
    exact ⟨l, hl, hK, hJ⟩

theorem event_handlers_reachable_inv (ipmi : Ptr) (w : smi_world)
    (h : event_handlers_reachable ipmi w) : event_handlers_inv ipmi w := by
  induction h with
  | init w h0 _ =>
    exact ⟨[], h0, by intro p hp; simp at hp, fun h => absurd rfl h⟩
  | register w handler event_data data2 entry ioctl_rv errno _ hfresh ih =>
    exact event_handlers_inv_register ipmi w handler event_data data2 entry ioctl_rv errno ih
      hfresh
  | deregister w id ioctl_rv errno _ hpre ih =>
    exact event_handlers_inv_deregister ipmi w id ioctl_rv errno ih hpre

/-- C10: in every state that event registrations and deregistrations reach
from the empty subscriber list with event delivery off (whatever the control
operation answered on the way), with `l` the subscriber list: a registration
that returns 0 leaves the list `entry :: l` and the kernel flag on; it issues
the enable operation exactly when `l` is empty; when `l` is empty and the
enable operation fails, the error is returned and the list is left empty. A
deregistration of a subscription in `l` leaves the list `l` without it; when it
returns 0 the flag is on if and only if the remaining list is not empty; it
issues the disable operation exactly when the remaining list is empty. A failed
control operation is taken to set a non-zero `errno`. -/
theorem event_delivery_follows_subscribers (ipmi : Ptr) (w : smi_world)
    (hreach : event_handlers_reachable ipmi w) :
    ∃ l, event_handlers_are w (w.con ipmi).con_data l
      ∧ (∀ (handler event_data data2 entry : Ptr) (ioctl_rv errno : Int),
          entry ≠ NULL → entry ∉ l → (ioctl_rv = -1 → errno ≠ 0) →
          ((smi_register_for_events w ipmi handler event_data data2 entry ioctl_rv errno).2 = 0 →
            event_handlers_are
              (smi_register_for_events w ipmi handler event_data data2 entry ioctl_rv errno).1
              (w.con ipmi).con_data (entry :: l)
            ∧ (smi_register_for_events w ipmi handler event_data data2 entry ioctl_rv
                errno).1.gets_events (w.smi (w.con ipmi).con_data).fd = 1)
          ∧ (smi_register_for_events w ipmi handler event_data data2 entry ioctl_rv
              errno).1.trace
              = w.trace ++ (if l = [] then
                  [effect.ioctl_set_gets_events (w.smi (w.con ipmi).con_data).fd 1] else [])
          ∧ (l = [] → ioctl_rv = -1 →
              (smi_register_for_events w ipmi handler event_data data2 entry ioctl_rv errno).2
                = errno
              ∧ event_handlers_are
                  (smi_register_for_events w ipmi handler event_data data2 entry ioctl_rv
                    errno).1 (w.con ipmi).con_data []))
      ∧ (∀ (id : Ptr) (ioctl_rv errno : Int), id ∈ l → (ioctl_rv = -1 → errno ≠ 0) →
          event_handlers_are (smi_deregister_for_events w ipmi id ioctl_rv errno).1
            (w.con ipmi).con_data (l.erase id)
          ∧ ((smi_deregister_for_events w ipmi id ioctl_rv errno).2 = 0 →
              ((smi_deregister_for_events w ipmi id ioctl_rv errno).1.gets_events
                  (w.smi (w.con ipmi).con_data).fd ≠ 0 ↔ l.erase id ≠ []))
          ∧ (smi_deregister_for_events w ipmi id ioctl_rv errno).1.trace
              = w.trace ++ (if l.erase id = [] then
                  [effect.ioctl_set_gets_events (w.smi (w.con ipmi).con_data).fd 0] else [])) := by
  obtain ⟨l, hl, hK, hJ⟩ := event_handlers_reachable_inv ipmi w hreach
  refine ⟨l, hl, ?_, ?_⟩
  · intro handler event_data data2 entry ioctl_rv errno he0 hel herr
    by_cases hfail : l = [] ∧ ioctl_rv = -1
    · obtain ⟨hemp, hio⟩ := hfail
      subst hemp
      subst hio
      obtain ⟨h1, h2, _, h4, _, _⟩ := smi_register_for_events_fail w ipmi handler event_data
        data2 entry errno hl he0
      refine ⟨?_, ?_, ?_⟩
      · intro h0
        rw [h1] at h0
        exact absurd h0 (herr rfl)
      · rw [h4]; simp
      · intro _ _; exact ⟨h1, h2⟩
    · obtain ⟨h1, h2, h3, h4, _, _, _, _⟩ := smi_register_for_events_ok w ipmi handler
        event_data data2 entry ioctl_rv errno l hl he0 hel hfail
      refine ⟨?_, h4, ?_⟩
      · intro _
        refine ⟨h2, ?_⟩
        rw [h3]
        by_cases hemp : l = []
        · simp [hemp]
        · simp only [hemp, if_false]; exact hJ hemp
      · intro hemp hio; exact absurd ⟨hemp, hio⟩ hfail
  · intro id ioctl_rv errno hid herr
    obtain ⟨h1, h2, h3, h4, _, _, _⟩ := smi_deregister_for_events_spec w ipmi id ioctl_rv errno
      l hl hid (hK id hid)
    refine ⟨h1, ?_, h4⟩
    intro h0
    rw [h2] at h0
    rw [h3]
    by_cases hemp : l.erase id = []
    · simp only [hemp, if_true] at h0
      have hio : ioctl_rv ≠ -1 := by
        intro e
        rw [if_pos e] at h0
        exact herr e h0
      simp [hemp, hio]
    · simp only [hemp, false_and, if_false, ne_eq, not_false_eq_true, iff_true]
      rw [hJ (List.ne_nil_of_mem hid)]
      decide


/-- Witness of C10: the sample state has no subscriber and event delivery off.
Registering the fresh entry 51 there, with the enable operation succeeding,
returns 0, leaves the list [51] and turns the flag of descriptor 3 on. -/
theorem event_delivery_follows_subscribers_witness :
    event_handlers_reachable 20 sample_world
    ∧ (smi_register_for_events sample_world 20 90 0 0 51 0 0).2 = 0
    ∧ event_handlers_are (smi_register_for_events sample_world 20 90 0 0 51 0 0).1 10 [51]
    ∧ (smi_register_for_events sample_world 20 90 0 0 51 0 0).1.gets_events 3 = 1 := by
  obtain ⟨l, hl, hreg, _⟩ := event_delivery_follows_subscribers 20 sample_world (.init _ rfl rfl)
  have hl0 : l = [] :=
    dll_unique hl (show event_handlers_are sample_world 10 [] from rfl)
  subst hl0
  have h := (hreg 90 0 0 51 0 0 (by decide) (by simp) (by decide)).1 (by decide)
  exact ⟨.init _ rfl rfl, by decide, h.1, h.2⟩

/-! ## Theorems: the event subscription handle -/

/-- C11 at the failing input: from the sample state, with no subscriber, and a
BMC whose subscription handle is `NULL`, `ipmi_bmc_enable_events` (that is,
`smi_register_for_events` with `&ll_event_id` as its `id` argument) succeeds and
the subscriber list becomes [51], but the handle is still `NULL`: the
subscription is not returned. Hence `ipmi_bmc_disable_events` fails with EINVAL
and leaves the subscriber in the list, although deregistering the subscription
51 itself returns 0 and empties the list. -/
theorem ipmi_bmc_enable_events_id_not_stored :
    (ipmi_bmc_enable_events 900 sample_heap_smi sample_world 100 51 0 0).2.2 = 0
    ∧ event_handlers_are (ipmi_bmc_enable_events 900 sample_heap_smi sample_world 100 51 0 0).2.1
        10 [51]
    ∧ ((ipmi_bmc_enable_events 900 sample_heap_smi sample_world 100 51 0 0).1.bmc 200).ll_event_id
        = NULL
    ∧ (ipmi_bmc_disable_events
        (ipmi_bmc_enable_events 900 sample_heap_smi sample_world 100 51 0 0).1
        (ipmi_bmc_enable_events 900 sample_heap_smi sample_world 100 51 0 0).2.1 100 0 0).2.2
        = EINVAL
    ∧ event_handlers_are (ipmi_bmc_disable_events
        (ipmi_bmc_enable_events 900 sample_heap_smi sample_world 100 51 0 0).1
        (ipmi_bmc_enable_events 900 sample_heap_smi sample_world 100 51 0 0).2.1 100 0 0).2.1
        10 [51]
    ∧ (smi_deregister_for_events
        (ipmi_bmc_enable_events 900 sample_heap_smi sample_world 100 51 0 0).2.1 20 51 0 0).2 = 0
    ∧ event_handlers_are (smi_deregister_for_events
        (ipmi_bmc_enable_events 900 sample_heap_smi sample_world 100 51 0 0).2.1 20 51 0 0).1
        10 [] := by
  refine ⟨by decide, by decide, by decide, by decide, by decide, by decide, by decide⟩

/-! ## Theorems: incoming commands -/

theorem data_handler_closed (user : evt_user_t) (fuel : Nat) (w : smi_world) (fd : Int)
    (ipmi : Ptr) (env : data_env) (registry : List Ptr) (hreg : smi_list_is w registry)
    (hf : registry.length < fuel) (hdead : ¬ ∃ s ∈ registry, (w.smi s).ipmi = ipmi) :
    data_handler user fuel w fd ipmi env = some w := by
  have hv := smi_valid_ipmi_spec fuel w ipmi registry hreg hf
  unfold data_handler
  simp only [hv, hdead, decide_False]

theorem smi_set_next_eq (w : smi_world) (p v : Ptr) :
    smi_set_next w p v
      = { w with smi := fun q =>
          { w.smi q with next := if q = p then v else (w.smi q).next } } := by
  unfold smi_set_next smi_world.set_smi
  congr 1
  funext q
  by_cases h : q = p
  · subst h; simp
  · simp [h]

theorem smi_set_prev_eq (w : smi_world) (p v : Ptr) :
    smi_set_prev w p v
      = { w with smi := fun q =>
          { w.smi q with prev := if q = p then v else (w.smi q).prev } } := by
  unfold smi_set_prev smi_world.set_smi
  congr 1
  funext q
  by_cases h : q = p
  · subst h; simp
  · simp [h]

theorem smi_list_unlink_eq (w : smi_world) (smi : Ptr) :
    smi_list_unlink w smi = { w with
      smi := fun q => { w.smi q with
        next := if (w.smi smi).prev ≠ NULL ∧ q = (w.smi smi).prev then (w.smi smi).next
          else (w.smi q).next
        prev := if (w.smi smi).next ≠ NULL ∧ q = (w.smi smi).next then (w.smi smi).prev
          else (w.smi q).prev }
      smi_list := if (w.smi smi).prev = NULL then (w.smi smi).next else w.smi_list } := by
  unfold smi_list_unlink
  by_cases h1 : (w.smi smi).next = NULL <;> by_cases h2 : (w.smi smi).prev = NULL <;>
    simp [h1, h2, smi_set_next_eq, smi_set_prev_eq]

theorem smi_list_unlink_list (w : smi_world) (smi : Ptr) (l : List Ptr)
    (h : smi_list_is w l) (hc : smi ∈ l) :
    smi_list_is (smi_list_unlink w smi) (l.erase smi) := by
  unfold smi_list_is at *
  have hnull := dll_null_not_mem h
  have hnext := dll_next_mem h hc
  have hprev := dll_prev_cases h hc
  have key := dll_unlink (fun p => ((smi_list_unlink w smi).smi p).next)
    (fun p => ((smi_list_unlink w smi).smi p).prev) h hnull hc
  have hhead : (smi_list_unlink w smi).smi_list
      = if w.smi_list = smi then (w.smi smi).next else w.smi_list := by
    rw [smi_list_unlink_eq]
    rcases hprev with ⟨e1, e2⟩ | ⟨e1, e2⟩
    · have e2' : (w.smi smi).prev = NULL := e2
      simp [e1, e2']
    · have e2' : (w.smi smi).prev ≠ NULL := fun e => hnull (e ▸ e2)
      simp [e1, e2']
  rw [hhead]
  apply key
  · intro p _ hne
    simp [smi_list_unlink_eq, hne]
  · intro hm
    have : (w.smi smi).prev ≠ NULL := fun e => hnull (e ▸ hm)
    simp [smi_list_unlink_eq, this]
  · intro p _ hne
    simp [smi_list_unlink_eq, hne]
  · intro hm
    have : (w.smi smi).next ≠ NULL := fun e => hnull (e ▸ hm)
    simp [smi_list_unlink_eq, this]

theorem filter_emit_free (f : effect → Bool) (hf : ∀ p, f (.free p) = false)
    (t : List effect) (p : Ptr) : (t ++ [effect.free p]).filter f = t.filter f := by
  simp [List.filter_append, hf]

theorem smi_close_connection_cmd_frame (w : smi_world) (c : Ptr) (rv : Int) :
    (smi_close_connection_cmd w c rv).smi = w.smi
    ∧ (smi_close_connection_cmd w c rv).smi_list = w.smi_list
    ∧ (smi_close_connection_cmd w c rv).con = w.con
    ∧ (smi_close_connection_cmd w c rv).hnd = w.hnd
    ∧ (smi_close_connection_cmd w c rv).evt = w.evt
    ∧ (∀ p, ((smi_close_connection_cmd w c rv).cmd p).ipmi = (w.cmd p).ipmi
        ∧ ((smi_close_connection_cmd w c rv).cmd p).next = (w.cmd p).next
        ∧ ((smi_close_connection_cmd w c rv).cmd p).prev = (w.cmd p).prev)
    ∧ (smi_close_connection_cmd w c rv).trace.filter is_user_callback
        = w.trace.filter is_user_callback
    ∧ (smi_close_connection_cmd w c rv).trace.filter is_receive
        = w.trace.filter is_receive := by
  unfold smi_close_connection_cmd os_remove_timer
  by_cases h : rv = 0
  · simp [h, List.filter_append, is_user_callback, is_receive]
  · simp [h, List.filter_append, is_user_callback, is_receive]
    intro p
    by_cases hp : p = c
    · subst hp; simp
    · simp [hp]

theorem smi_close_connection_cmds_spec (rt : Ptr → Int) (l : List Ptr) :
    ∀ (fuel : Nat) (w : smi_world) (pv hd : Ptr),
      dll (fun p => (w.cmd p).next) (fun p => (w.cmd p).prev) pv hd l → l.length < fuel →
      ∃ w2, smi_close_connection_cmds rt fuel w hd = some w2
        ∧ w2.smi = w.smi ∧ w2.smi_list = w.smi_list ∧ w2.con = w.con ∧ w2.hnd = w.hnd
        ∧ w2.evt = w.evt ∧ (∀ p, (w2.cmd p).ipmi = (w.cmd p).ipmi)
        ∧ w2.trace.filter is_user_callback = w.trace.filter is_user_callback
        ∧ w2.trace.filter is_receive = w.trace.filter is_receive := by
  induction l with
  | nil =>
    intro fuel w pv hd h hf
    cases fuel with
    | zero => simp at hf
    | succ n =>
      have : hd = NULL := h
      exact ⟨w, by simp [smi_close_connection_cmds, this], rfl, rfl, rfl, rfl, rfl,
        fun _ => rfl, rfl, rfl⟩
  | cons x xs ih =>
    intro fuel w pv hd h hf
    obtain ⟨h1, h2, _, h4⟩ := h
    cases fuel with
    | zero => simp at hf
    | succ n =>
      subst h1
      obtain ⟨f1, f2, f3, f4, f5, f6, f7, f8⟩ := smi_close_connection_cmd_frame w hd (rt hd)
      have h4' : dll (fun p => ((smi_close_connection_cmd w hd (rt hd)).cmd p).next)
          (fun p => ((smi_close_connection_cmd w hd (rt hd)).cmd p).prev) hd
          ((w.cmd hd).next) xs :=
        dll_congr (fun p _ => ⟨(f6 p).2.1, (f6 p).2.2⟩) h4
      obtain ⟨w2, g0, g1, g2, g3, g4, g5, g6, g7, g8⟩ :=
        ih n (smi_close_connection_cmd w hd (rt hd)) hd _ h4' (by simpa using hf)
      refine ⟨w2, ?_, g1.trans f1, g2.trans f2, g3.trans f3, g4.trans f4, g5.trans f5,
        fun p => (g6 p).trans (f6 p).1, g7.trans f7, g8.trans f8⟩
      simp only [smi_close_connection_cmds, ne_eq, h2, not_false_eq_true, if_true]
      exact g0

theorem smi_close_connection_hnds_spec (l : List Ptr) :
    ∀ (fuel : Nat) (w : smi_world) (pv hd : Ptr),
      dll (fun p => (w.hnd p).next) (fun p => (w.hnd p).prev) pv hd l → l.length < fuel →
      ∃ w2, smi_close_connection_hnds fuel w hd = some w2
        ∧ w2.smi = w.smi ∧ w2.smi_list = w.smi_list ∧ w2.con = w.con ∧ w2.cmd = w.cmd
        ∧ w2.evt = w.evt
        ∧ w2.trace.filter is_user_callback = w.trace.filter is_user_callback
        ∧ w2.trace.filter is_receive = w.trace.filter is_receive := by
  induction l with
  | nil =>
    intro fuel w pv hd h hf
    cases fuel with
    | zero => simp at hf
    | succ n =>
      have : hd = NULL := h
      exact ⟨w, by simp [smi_close_connection_hnds, this], rfl, rfl, rfl, rfl, rfl, rfl, rfl⟩
  | cons x xs ih =>
    intro fuel w pv hd h hf
    obtain ⟨h1, h2, _, h4⟩ := h
    cases fuel with
    | zero => simp at hf
    | succ n =>
      subst h1
      obtain ⟨w2, g0, g1, g2, g3, g4, g5, g7, g8⟩ :=
        ih n (w.emit (.free hd)) hd _ h4 (by simpa using hf)
      refine ⟨w2, ?_, g1, g2, g3, g4, g5, ?_, ?_⟩
      · simp only [smi_close_connection_hnds, ne_eq, h2, not_false_eq_true, if_true]
        exact g0
      · rw [g7]; exact filter_emit_free _ (fun _ => rfl) _ _
      · rw [g8]; exact filter_emit_free _ (fun _ => rfl) _ _

theorem smi_close_connection_evts_spec (l : List Ptr) :
    ∀ (fuel : Nat) (w : smi_world) (pv hd : Ptr),
      dll (fun p => (w.evt p).next) (fun p => (w.evt p).prev) pv hd l → l.length < fuel →
      ∃ w2, smi_close_connection_evts fuel w hd = some w2
        ∧ w2.smi = w.smi ∧ w2.smi_list = w.smi_list ∧ w2.con = w.con ∧ w2.cmd = w.cmd
        ∧ w2.hnd = w.hnd
        ∧ w2.trace.filter is_user_callback = w.trace.filter is_user_callback
        ∧ w2.trace.filter is_receive = w.trace.filter is_receive := by
  induction l with
  | nil =>
    intro fuel w pv hd h hf
    cases fuel with
    | zero => simp at hf
    | succ n =>
      have : hd = NULL := h
      exact ⟨w, by simp [smi_close_connection_evts, this], rfl, rfl, rfl, rfl, rfl, rfl, rfl⟩
  | cons x xs ih =>
    intro fuel w pv hd h hf
    obtain ⟨h1, h2, _, h4⟩ := h
    cases fuel with
    | zero => simp at hf
    | succ n =>
      subst h1
      have hnx : (((w.set_evt hd { w.evt hd with ipmi := NULL }).evt hd).next) = (w.evt hd).next := by
        simp
      have h4' : dll
          (fun p => ((((w.set_evt hd { w.evt hd with ipmi := NULL })).emit (.free hd)).evt p).next)
          (fun p => ((((w.set_evt hd { w.evt hd with ipmi := NULL })).emit (.free hd)).evt p).prev)
          hd ((w.evt hd).next) xs := by
        refine dll_congr (fun p _ => ?_) h4
        by_cases hp : p = hd
        · subst hp; simp
        · simp [hp]
      obtain ⟨w2, g0, g1, g2, g3, g4, g5, g7, g8⟩ :=
        ih n ((w.set_evt hd { w.evt hd with ipmi := NULL }).emit (.free hd)) hd _ h4'
          (by simpa using hf)
      refine ⟨w2, ?_, g1, g2, g3, g4, g5, ?_, ?_⟩
      · simp only [smi_close_connection_evts, ne_eq, h2, not_false_eq_true, if_true, hnx]
        exact g0
      · rw [g7]; exact filter_emit_free _ (fun _ => rfl) _ _
      · rw [g8]; exact filter_emit_free _ (fun _ => rfl) _ _

theorem smi_close_connection_finish_frame (w : smi_world) (ipmi smi : Ptr)
    (lock_exists : smi_lock → Bool) :
    (smi_close_connection_finish w ipmi smi lock_exists).smi = w.smi
    ∧ (smi_close_connection_finish w ipmi smi lock_exists).smi_list = w.smi_list
    ∧ (smi_close_connection_finish w ipmi smi lock_exists).con = w.con
    ∧ (smi_close_connection_finish w ipmi smi lock_exists).cmd = w.cmd
    ∧ (smi_close_connection_finish w ipmi smi lock_exists).trace.filter is_user_callback
        = w.trace.filter is_user_callback
    ∧ (smi_close_connection_finish w ipmi smi lock_exists).trace.filter is_receive
        = w.trace.filter is_receive := by
  unfold smi_close_connection_finish
  cases lock_exists .event_handlers_lock <;> cases lock_exists .cmd_handlers_lock <;>
    cases lock_exists .cmd_lock <;> by_cases h : (w.smi smi).fd_wait_id = NULL <;>
    simp [h, List.filter_append, is_user_callback, is_receive]

theorem smi_valid_ipmi_congr (fuel : Nat) (w w2 : smi_world) (ipmi : Ptr)
    (h1 : w2.smi = w.smi) (h2 : w2.smi_list = w.smi_list) :
    smi_valid_ipmi fuel w2 ipmi = smi_valid_ipmi fuel w ipmi := by
  have : ∀ (n : Nat) (e : Ptr), smi_valid_ipmi_loop w2 ipmi n e = smi_valid_ipmi_loop w ipmi n e := by
    intro n
    induction n with
    | zero => intro e; rfl
    | succ k ih => intro e; simp only [smi_valid_ipmi_loop, h1, ih]
  unfold smi_valid_ipmi
  rw [this, h2]


theorem smi_close_connection_run (fuel : Nat) (w : smi_world) (ipmi : Ptr)
    (rt : Ptr → Int) (lock_exists : smi_lock → Bool) (registry lp lh le : List Ptr)
    (hreg : smi_list_is w registry) (hf : registry.length < fuel)
    (hin : (w.con ipmi).con_data ∈ registry)
    (hipmi : (w.smi (w.con ipmi).con_data).ipmi = ipmi)
    (hlp : pending_cmds_are w (w.con ipmi).con_data lp) (hflp : lp.length < fuel)
    (hlh : cmd_handlers_are w (w.con ipmi).con_data lh) (hflh : lh.length < fuel)
    (hle : event_handlers_are w (w.con ipmi).con_data le) (hfle : le.length < fuel) :
    ∃ w2, smi_close_connection fuel w ipmi rt lock_exists = some (w2, 0)
      ∧ smi_list_is w2 (registry.erase (w.con ipmi).con_data)
      ∧ close_frame w w2 := by
  have hv : smi_valid_ipmi fuel w ipmi = some true := by
    rw [smi_valid_ipmi_spec fuel w ipmi registry hreg hf]
    simp only [Option.some.injEq, decide_eq_true_eq]
    exact ⟨_, hin, hipmi⟩
  -- the registry without the connection
  have hl1 := smi_list_unlink_list w (w.con ipmi).con_data registry hreg hin
  have e1 : ∀ q, ((smi_list_unlink w (w.con ipmi).con_data).smi q).ipmi = (w.smi q).ipmi
      ∧ ((smi_list_unlink w (w.con ipmi).con_data).smi q).pending_cmds = (w.smi q).pending_cmds
      ∧ ((smi_list_unlink w (w.con ipmi).con_data).smi q).cmd_handlers = (w.smi q).cmd_handlers
      ∧ ((smi_list_unlink w (w.con ipmi).con_data).smi q).event_handlers
          = (w.smi q).event_handlers := by
    intro q; simp [smi_list_unlink_eq]
  have e1c : (smi_list_unlink w (w.con ipmi).con_data).cmd = w.cmd := by
    simp [smi_list_unlink_eq]
  have e1h : (smi_list_unlink w (w.con ipmi).con_data).hnd = w.hnd := by
    simp [smi_list_unlink_eq]
  have e1e : (smi_list_unlink w (w.con ipmi).con_data).evt = w.evt := by
    simp [smi_list_unlink_eq]
  have e1n : (smi_list_unlink w (w.con ipmi).con_data).con = w.con := by
    simp [smi_list_unlink_eq]
  have e1t : (smi_list_unlink w (w.con ipmi).con_data).trace = w.trace := by
    simp [smi_list_unlink_eq]
  generalize hw1 : smi_list_unlink w (w.con ipmi).con_data = w1 at hl1 e1 e1c e1h e1e e1n e1t
  generalize hsmi : (w.con ipmi).con_data = smi at *
  -- the pending commands
  have hd1 : dll (fun p => ((w1.set_smi smi { w1.smi smi with pending_cmds := NULL }).cmd p).next)
      (fun p => ((w1.set_smi smi { w1.smi smi with pending_cmds := NULL }).cmd p).prev) NULL
      (w1.smi smi).pending_cmds lp := by
    have : (w1.set_smi smi { w1.smi smi with pending_cmds := NULL }).cmd = w.cmd := e1c
    rw [this, (e1 smi).2.1]
    exact hlp
  obtain ⟨w2, a0, a1, a2, a3, a4, a5, a6, a7, a8⟩ :=
    smi_close_connection_cmds_spec rt lp fuel _ _ _ hd1 hflp
  -- the command registrations
  have hd2 : dll (fun p => ((w2.set_smi smi { w2.smi smi with cmd_handlers := NULL }).hnd p).next)
      (fun p => ((w2.set_smi smi { w2.smi smi with cmd_handlers := NULL }).hnd p).prev) NULL
      (w2.smi smi).cmd_handlers lh := by
    have : (w2.set_smi smi { w2.smi smi with cmd_handlers := NULL }).hnd = w.hnd := by
      show w2.hnd = w.hnd
      rw [a4]; exact e1h
    rw [this, a1]
    simp only [set_smi_smi, if_true, (e1 smi).2.2.1]
    exact hlh
  obtain ⟨w3, b0, b1, b2, b3, b4, b5, b7, b8⟩ :=
    smi_close_connection_hnds_spec lh fuel _ _ _ hd2 hflh
  -- the event subscribers
  have hd3 : dll (fun p => ((w3.set_smi smi { w3.smi smi with event_handlers := NULL }).evt p).next)
      (fun p => ((w3.set_smi smi { w3.smi smi with event_handlers := NULL }).evt p).prev) NULL
      (w3.smi smi).event_handlers le := by
    have : (w3.set_smi smi { w3.smi smi with event_handlers := NULL }).evt = w.evt := by
      show w3.evt = w.evt
      rw [b5]
      show w2.evt = w.evt
      rw [a5]; exact e1e
    rw [this, b1]
    simp only [set_smi_smi, if_true, a1, (e1 smi).2.2.2]
    exact hle
  obtain ⟨w4, c0, c1, c2, c3, c4, c5, c7, c8⟩ :=
    smi_close_connection_evts_spec le fuel _ _ _ hd3 hfle
  obtain ⟨d1, d2, d3, d4, d7, d8⟩ := smi_close_connection_finish_frame w4 ipmi smi lock_exists
  refine ⟨smi_close_connection_finish w4 ipmi smi lock_exists, ?_, ?_, ?_⟩
  · unfold smi_close_connection
    simp only [hv, hsmi, hw1, a0, b0, c0]
  · refine smi_list_is_congr (fun p => ?_) ?_ hl1
    · rw [d1, c1]
      simp only [set_smi_smi, b1, a1]
      by_cases hp : p = smi
      · subst hp; simp
      · simp [hp]
    · rw [d2, c2]
      show w3.smi_list = w1.smi_list
      rw [b2]
      show w2.smi_list = w1.smi_list
      rw [a2]
      rfl
  · refine ⟨?_, ?_, ?_, ?_, ?_⟩
    · rw [d3, c3]
      show w3.con = w.con
      rw [b3]
      show w2.con = w.con
      rw [a3]
      exact e1n
    · intro q
      rw [d1, c1]
      simp only [set_smi_smi, b1, a1]
      by_cases hp : q = smi
      · subst hp; simp [(e1 q).1]
      · simp [hp, (e1 q).1]
    · intro p
      rw [d4, c4]
      show (w3.cmd p).ipmi = _
      rw [b4]
      show (w2.cmd p).ipmi = _
      rw [a6 p]
      show (w1.cmd p).ipmi = _
      rw [e1c]
    · rw [d7, c7]
      show w3.trace.filter _ = _
      rw [b7]
      show w2.trace.filter _ = _
      rw [a7]
      show w1.trace.filter _ = _
      rw [e1t]
    · rw [d8, c8]
      show w3.trace.filter _ = _
      rw [b8]
      show w2.trace.filter _ = _
      rw [a8]
      show w1.trace.filter _ = _
      rw [e1t]

/-! ## Theorems: a timer of a closed connection -/

/-- C13: the connection 20 of a registry of two is closed while `remove_timer`
fails for the timer 91 of its pending command 31. Close returns 0 and the
connection is no longer found, but close has released the record 31 while the
timer 91 is still running for it, so the timer callback `rsp_timeout_handler`
will read released memory. When the address 31 is handed out again by `malloc`,
to a command sent on the live connection 21 with the response handler 77, the
timer 91 of the closed connection then fires and calls a response handler:
`rsp_timeout_handler` for 31 calls the handler 77, for the connection 21, with
the timeout completion, and releases the record of the command that has just
been sent, whose own timer 93 is still running. -/
theorem smi_close_connection_stale_timer :
    smi_list_is sample_world_two [10, 11]
    ∧ pending_cmds_are sample_world_two 10 [31]
    ∧ (smi_close_connection 3 sample_world_two 20 (fun _ => 1) (fun _ => false)).map
        (fun r => (r.2, smi_valid_ipmi 3 r.1 20, smi_valid_ipmi 3 r.1 21))
      = some (0, some false, some true)
    ∧ (smi_close_connection 3 sample_world_two 20 (fun _ => 1) (fun _ => false)).map
        (fun r => (r.1.trace.count (.free 31), r.1.timers 91, rsp_handlers_called r.1.trace))
      = some (1, some 31, [])
    ∧ sample_close_then_send.map
        (fun w => (decide (pending_cmds_are w 11 [31]), w.timers 91, w.timers 93,
          rsp_handlers_called w.trace))
      = some (true, some 31, some 31, [])
    ∧ (sample_close_then_send.bind (fun w => rsp_timeout_handler 3 w 31)).map
        (fun w => (rsp_handlers_called w.trace, w.trace.count (.free 31), w.timers 93,
          decide (pending_cmds_are w 11 [])))
      = some ([(77, 21)], 2, some 31, true) := by
  refine ⟨by decide, by decide, by decide, by decide, by decide, by decide⟩

/-! ## Theorems: the stores of mc.c -/

@[simp] theorem mc_set_mc_mc (w : mc_world) (p : Ptr) (v : ipmi_mc_t) (q : Ptr) :
    (w.set_mc p v).mc q = if q = p then v else w.mc q := by
  simp [mc_world.set_mc, Function.update_apply]

@[simp] theorem mc_set_mc_bmc (w : mc_world) (p : Ptr) (v : ipmi_mc_t) :
    (w.set_mc p v).bmc = w.bmc := rfl

@[simp] theorem mc_set_mc_evh (w : mc_world) (p : Ptr) (v : ipmi_mc_t) :
    (w.set_mc p v).evh = w.evh := rfl

@[simp] theorem mc_set_mc_scan (w : mc_world) (p : Ptr) (v : ipmi_mc_t) :
    (w.set_mc p v).scan = w.scan := rfl

@[simp] theorem mc_set_mc_setup_cb (w : mc_world) (p : Ptr) (v : ipmi_mc_t) :
    (w.set_mc p v).setup_cb = w.setup_cb := rfl

@[simp] theorem mc_set_mc_setup_cb_data (w : mc_world) (p : Ptr) (v : ipmi_mc_t) :
    (w.set_mc p v).setup_cb_data = w.setup_cb_data := rfl

@[simp] theorem mc_set_mc_sdr_sets (w : mc_world) (p : Ptr) (v : ipmi_mc_t) :
    (w.set_mc p v).sdr_sets = w.sdr_sets := rfl

@[simp] theorem mc_set_mc_outstanding (w : mc_world) (p : Ptr) (v : ipmi_mc_t) :
    (w.set_mc p v).outstanding = w.outstanding := rfl

@[simp] theorem mc_set_mc_trace (w : mc_world) (p : Ptr) (v : ipmi_mc_t) :
    (w.set_mc p v).trace = w.trace := rfl

@[simp] theorem mc_set_bmc_mc (w : mc_world) (p : Ptr) (v : ipmi_bmc_t) :
    (w.set_bmc p v).mc = w.mc := rfl

@[simp] theorem mc_set_bmc_bmc (w : mc_world) (p : Ptr) (v : ipmi_bmc_t) (q : Ptr) :
    (w.set_bmc p v).bmc q = if q = p then v else w.bmc q := by
  simp [mc_world.set_bmc, Function.update_apply]

@[simp] theorem mc_set_bmc_evh (w : mc_world) (p : Ptr) (v : ipmi_bmc_t) :
    (w.set_bmc p v).evh = w.evh := rfl

@[simp] theorem mc_set_bmc_scan (w : mc_world) (p : Ptr) (v : ipmi_bmc_t) :
    (w.set_bmc p v).scan = w.scan := rfl

@[simp] theorem mc_set_bmc_setup_cb (w : mc_world) (p : Ptr) (v : ipmi_bmc_t) :
    (w.set_bmc p v).setup_cb = w.setup_cb := rfl

@[simp] theorem mc_set_bmc_setup_cb_data (w : mc_world) (p : Ptr) (v : ipmi_bmc_t) :
    (w.set_bmc p v).setup_cb_data = w.setup_cb_data := rfl

@[simp] theorem mc_set_bmc_sdr_sets (w : mc_world) (p : Ptr) (v : ipmi_bmc_t) :
    (w.set_bmc p v).sdr_sets = w.sdr_sets := rfl

@[simp] theorem mc_set_bmc_outstanding (w : mc_world) (p : Ptr) (v : ipmi_bmc_t) :
    (w.set_bmc p v).outstanding = w.outstanding := rfl

@[simp] theorem mc_set_bmc_trace (w : mc_world) (p : Ptr) (v : ipmi_bmc_t) :
    (w.set_bmc p v).trace = w.trace := rfl

@[simp] theorem mc_set_evh_mc (w : mc_world) (p : Ptr) (v : ipmi_event_handler_id_t) :
    (w.set_evh p v).mc = w.mc := rfl

@[simp] theorem mc_set_evh_bmc (w : mc_world) (p : Ptr) (v : ipmi_event_handler_id_t) :
    (w.set_evh p v).bmc = w.bmc := rfl

@[simp] theorem mc_set_evh_evh (w : mc_world) (p : Ptr) (v : ipmi_event_handler_id_t) (q : Ptr) :
    (w.set_evh p v).evh q = if q = p then v else w.evh q := by
  simp [mc_world.set_evh, Function.update_apply]

@[simp] theorem mc_set_evh_scan (w : mc_world) (p : Ptr) (v : ipmi_event_handler_id_t) :
    (w.set_evh p v).scan = w.scan := rfl

@[simp] theorem mc_set_evh_setup_cb (w : mc_world) (p : Ptr) (v : ipmi_event_handler_id_t) :
    (w.set_evh p v).setup_cb = w.setup_cb := rfl

@[simp] theorem mc_set_evh_setup_cb_data (w : mc_world) (p : Ptr) (v : ipmi_event_handler_id_t) :
    (w.set_evh p v).setup_cb_data = w.setup_cb_data := rfl

@[simp] theorem mc_set_evh_sdr_sets (w : mc_world) (p : Ptr) (v : ipmi_event_handler_id_t) :
    (w.set_evh p v).sdr_sets = w.sdr_sets := rfl

@[simp] theorem mc_set_evh_outstanding (w : mc_world) (p : Ptr) (v : ipmi_event_handler_id_t) :
    (w.set_evh p v).outstanding = w.outstanding := rfl

@[simp] theorem mc_set_evh_trace (w : mc_world) (p : Ptr) (v : ipmi_event_handler_id_t) :
    (w.set_evh p v).trace = w.trace := rfl

@[simp] theorem mc_set_scan_mc (w : mc_world) (p : Ptr) (v : mc_ipmb_scan_info_t) :
    (w.set_scan p v).mc = w.mc := rfl

@[simp] theorem mc_set_scan_bmc (w : mc_world) (p : Ptr) (v : mc_ipmb_scan_info_t) :
    (w.set_scan p v).bmc = w.bmc := rfl

@[simp] theorem mc_set_scan_evh (w : mc_world) (p : Ptr) (v : mc_ipmb_scan_info_t) :
    (w.set_scan p v).evh = w.evh := rfl

@[simp] theorem mc_set_scan_scan (w : mc_world) (p : Ptr) (v : mc_ipmb_scan_info_t) (q : Ptr) :
    (w.set_scan p v).scan q = if q = p then v else w.scan q := by
  simp [mc_world.set_scan, Function.update_apply]

@[simp] theorem mc_set_scan_setup_cb (w : mc_world) (p : Ptr) (v : mc_ipmb_scan_info_t) :
    (w.set_scan p v).setup_cb = w.setup_cb := rfl

@[simp] theorem mc_set_scan_setup_cb_data (w : mc_world) (p : Ptr) (v : mc_ipmb_scan_info_t) :
    (w.set_scan p v).setup_cb_data = w.setup_cb_data := rfl

@[simp] theorem mc_set_scan_sdr_sets (w : mc_world) (p : Ptr) (v : mc_ipmb_scan_info_t) :
    (w.set_scan p v).sdr_sets = w.sdr_sets := rfl

@[simp] theorem mc_set_scan_outstanding (w : mc_world) (p : Ptr) (v : mc_ipmb_scan_info_t) :
    (w.set_scan p v).outstanding = w.outstanding := rfl

@[simp] theorem mc_set_scan_trace (w : mc_world) (p : Ptr) (v : mc_ipmb_scan_info_t) :
    (w.set_scan p v).trace = w.trace := rfl

@[simp] theorem mc_emit_mc (w : mc_world) (e : mc_effect) :
    (w.emit e).mc = w.mc := rfl

@[simp] theorem mc_call_mc (w : mc_world) (f : mc_ext) (args : List Nat) :
    (w.call f args).mc = w.mc := rfl

@[simp] theorem mc_emit_bmc (w : mc_world) (e : mc_effect) :
    (w.emit e).bmc = w.bmc := rfl

@[simp] theorem mc_call_bmc (w : mc_world) (f : mc_ext) (args : List Nat) :
    (w.call f args).bmc = w.bmc := rfl

@[simp] theorem mc_emit_evh (w : mc_world) (e : mc_effect) :
    (w.emit e).evh = w.evh := rfl

@[simp] theorem mc_call_evh (w : mc_world) (f : mc_ext) (args : List Nat) :
    (w.call f args).evh = w.evh := rfl

@[simp] theorem mc_emit_scan (w : mc_world) (e : mc_effect) :
    (w.emit e).scan = w.scan := rfl

@[simp] theorem mc_call_scan (w : mc_world) (f : mc_ext) (args : List Nat) :
    (w.call f args).scan = w.scan := rfl

@[simp] theorem mc_emit_setup_cb (w : mc_world) (e : mc_effect) :
    (w.emit e).setup_cb = w.setup_cb := rfl

@[simp] theorem mc_call_setup_cb (w : mc_world) (f : mc_ext) (args : List Nat) :
    (w.call f args).setup_cb = w.setup_cb := rfl

@[simp] theorem mc_emit_setup_cb_data (w : mc_world) (e : mc_effect) :
    (w.emit e).setup_cb_data = w.setup_cb_data := rfl

@[simp] theorem mc_call_setup_cb_data (w : mc_world) (f : mc_ext) (args : List Nat) :
    (w.call f args).setup_cb_data = w.setup_cb_data := rfl

@[simp] theorem mc_emit_sdr_sets (w : mc_world) (e : mc_effect) :
    (w.emit e).sdr_sets = w.sdr_sets := rfl

@[simp] theorem mc_call_sdr_sets (w : mc_world) (f : mc_ext) (args : List Nat) :
    (w.call f args).sdr_sets = w.sdr_sets := rfl

@[simp] theorem mc_emit_outstanding (w : mc_world) (e : mc_effect) :
    (w.emit e).outstanding = w.outstanding := rfl

@[simp] theorem mc_call_outstanding (w : mc_world) (f : mc_ext) (args : List Nat) :
    (w.call f args).outstanding = w.outstanding := rfl

@[simp] theorem mc_emit_trace (w : mc_world) (e : mc_effect) :
    (w.emit e).trace = w.trace ++ [e] := rfl

@[simp] theorem mc_call_trace (w : mc_world) (f : mc_ext) (args : List Nat) :
    (w.call f args).trace = w.trace ++ [.call f args] := rfl

/-! ## Theorems: the IPMB bus scan -/

theorem scan_sends_append (info : Ptr) (t1 t2 : List mc_effect) :
    scan_sends info (t1 ++ t2) = scan_sends info t1 ++ scan_sends info t2 := by
  induction t1 with
  | nil => rfl
  | cons e t ih =>
    rw [List.cons_append]
    cases e with
    | send_command conn addr addr_len msg h rsp_data d2 d3 rv =>
      cases h <;> simp only [scan_sends] <;> try exact ih
      by_cases hr : rsp_data = info
      · simp only [hr, if_true, List.cons_append, ih]
      · simp only [hr, if_false, ih]
    | _ => simp only [scan_sends]; exact ih

theorem scan_sends_of_scan_free (info : Ptr) (t : List mc_effect)
    (h : ∀ e ∈ t, ∀ conn addr addr_len msg d2 d3 rv,
      e ≠ .send_command conn addr addr_len msg .devid_bc_rsp_handler info d2 d3 rv) :
    scan_sends info t = [] := by
  induction t with
  | nil => rfl
  | cons e t ih =>
    have ih2 := ih (fun e he => h e (List.mem_cons_of_mem _ he))
    cases e with
    | send_command conn addr addr_len msg hd rsp_data d2 d3 rv =>
      cases hd <;> simp only [scan_sends, ih2]
      by_cases hr : rsp_data = info
      · exfalso
        subst hr
        exact h _ (List.mem_cons_self _ _) conn addr addr_len msg d2 d3 rv rfl
      · simp [hr]
    | _ => simp only [scan_sends, ih2]

theorem scan_frame_refl (w : mc_world) : scan_frame w w :=
  ⟨rfl, rfl, rfl, rfl, rfl, rfl, fun _ => rfl, [], by simp, by simp⟩

theorem scan_frame_trans {w1 w2 w3 : mc_world} (h1 : scan_frame w1 w2) (h2 : scan_frame w2 w3) :
    scan_frame w1 w3 := by
  obtain ⟨a1, a2, a3, a4, a5, a6, a7, t1, a8, a9⟩ := h1
  obtain ⟨b1, b2, b3, b4, b5, b6, b7, t2, b8, b9⟩ := h2
  refine ⟨b1.trans a1, b2.trans a2, b3.trans a3, b4.trans a4, b5.trans a5, b6.trans a6,
    fun mc => (b7 mc).trans (a7 mc), t1 ++ t2, ?_, ?_⟩
  · rw [b8, a8, List.append_assoc]
  · intro e he
    rcases List.mem_append.mp he with h | h
    · exact a9 e h
    · exact b9 e h

theorem ipmb_scan_send_spec (env : mc_env) (w : mc_world) (bmc info : Ptr)
    (hmsg : (w.scan info).msg.netfn = IPMI_APP_NETFN
      ∧ (w.scan info).msg.cmd = IPMI_GET_DEVICE_ID_CMD) :
    (ipmb_scan_send env w bmc info).2 = env.rv w.trace.length
    ∧ (ipmb_scan_send env w bmc info).1.scan = w.scan
    ∧ scan_sends info (ipmb_scan_send env w bmc info).1.trace
        = scan_sends info w.trace ++ [((w.scan info).addr.slave_addr, env.rv w.trace.length)]
    ∧ (ipmb_scan_send env w bmc info).1.outstanding
        = w.outstanding ++ (if env.rv w.trace.length = 0 then [scan_completion info] else [])
    ∧ scan_frame w (ipmb_scan_send env w bmc info).1 := by
  unfold ipmb_scan_send conn_send_command
  by_cases h : env.rv w.trace.length = 0
  · simp only [h, if_true]
    refine ⟨trivial, rfl, ?_, rfl, rfl, rfl, rfl, rfl, rfl, rfl, ?_, _, rfl, ?_⟩
    · simp [scan_sends_append, scan_sends]
    · intro mc; simp [List.filter_append, is_discovery]
    · simp [is_scan_effect, hmsg.1, hmsg.2]
  · simp only [h, if_false]
    refine ⟨trivial, rfl, ?_, by simp, rfl, rfl, rfl, rfl, rfl, rfl, ?_, _, rfl, ?_⟩
    · simp [scan_sends_append, scan_sends]
    · intro mc; rfl
    · simp [is_scan_effect, hmsg.1, hmsg.2]

theorem scan_seq_props {L : List (Nat × Int)} (h : scan_seq L) :
    L.Pairwise (fun x y => x.1 < y.1)
    ∧ (∀ x ∈ L, 0x10 ≤ x.1 ∧ x.1 ≤ 0xef)
    ∧ L.head?.map Prod.fst = some 0x10
    ∧ L.Chain' (fun x y => x.2 ≠ 0 → y.1 = x.1 + 1)
    ∧ ∀ S a r, L = S ++ [(a, r)] → ∀ x ∈ L, x.1 ≤ a := by
  induction h with
  | first rv =>
    refine ⟨List.pairwise_singleton _ _, ?_, rfl, List.chain'_singleton _, ?_⟩
    · intro x hx
      simp only [List.mem_singleton] at hx
      subst hx
      exact ⟨le_refl _, show (16 : Nat) ≤ 239 by decide⟩
    · intro S a r hL x hx
      have h1 := congrArg List.getLast? hL
      simp only [List.getLast?_singleton, List.getLast?_append, Option.or_some,
        Option.some.injEq] at h1
      simp only [List.mem_singleton] at hx
      subst hx
      exact le_of_eq (congrArg Prod.fst h1)
  | next S a r b rv _ hab hb hr ih =>
    obtain ⟨i1, i2, i3, i4, i5⟩ := ih
    have hle := i5 S a r rfl
    have hmem : (a, r) ∈ S ++ [(a, r)] := by simp
    have ha := i2 _ hmem
    refine ⟨?_, ?_, ?_, ?_, ?_⟩
    · rw [List.pairwise_append]
      refine ⟨i1, List.pairwise_singleton _ _, ?_⟩
      intro x hx y hy
      simp only [List.mem_singleton] at hy
      subst hy
      exact lt_of_le_of_lt (hle x hx) hab
    · intro x hx
      rcases List.mem_append.mp hx with h | h
      · exact i2 x h
      · simp only [List.mem_singleton] at h
        subst h
        exact ⟨le_trans ha.1 (le_of_lt hab), hb⟩
    · rw [List.head?_append_of_ne_nil _ (by simp)]
      exact i3
    · rw [List.chain'_append]
      refine ⟨i4, List.chain'_singleton _, ?_⟩
      intro x hx y hy
      simp only [List.getLast?_append, List.getLast?_singleton, Option.or_some,
        Option.mem_def, Option.some.injEq] at hx
      simp only [List.head?_cons, Option.mem_def, Option.some.injEq] at hy
      subst hx; subst hy
      exact hr
    · intro S2 a2 r2 hL x hx
      have h1 := congrArg List.getLast? hL
      simp only [List.getLast?_append, List.getLast?_singleton, Option.or_some,
        Option.some.injEq] at h1
      have hb2 : b = a2 := congrArg Prod.fst h1
      rw [← hb2]
      rcases List.mem_append.mp hx with h | h
      · exact le_of_lt (lt_of_le_of_lt (hle x h) hab)
      · simp only [List.mem_singleton] at h
        subst h
        exact le_refl _

theorem scan_inv_range {info : Ptr} {w : mc_world} {r : Int} (h : scan_inv info w r) :
    0x10 ≤ (w.scan info).addr.slave_addr ∧ (w.scan info).addr.slave_addr ≤ 0xef := by
  obtain ⟨⟨S, _, hs⟩, _⟩ := h
  exact (scan_seq_props hs).2.1 ((w.scan info).addr.slave_addr, r) (by simp)

theorem scan_frame_next_addr (w : mc_world) (info : Ptr) :
    scan_frame w (ipmb_scan_next_addr w info) :=
  ⟨rfl, rfl, rfl, rfl, rfl, rfl, fun _ => rfl, [], by simp [ipmb_scan_next_addr], by simp⟩

theorem ipmb_scan_step_spec (env : mc_env) (bmc info : Ptr) (w : mc_world) (rv : Int)
    (hinv : scan_inv info w rv) (ha : (w.scan info).addr.slave_addr < 0xef) :
    scan_inv info (ipmb_scan_send env (ipmb_scan_next_addr w info) bmc info).1
      (ipmb_scan_send env (ipmb_scan_next_addr w info) bmc info).2
    ∧ ((ipmb_scan_send env (ipmb_scan_next_addr w info) bmc info).1.scan info).addr.slave_addr
        = (w.scan info).addr.slave_addr + 1
    ∧ (ipmb_scan_send env (ipmb_scan_next_addr w info) bmc info).1.outstanding.count
          (scan_completion info)
        = w.outstanding.count (scan_completion info)
          + (if (ipmb_scan_send env (ipmb_scan_next_addr w info) bmc info).2 = 0 then 1 else 0)
    ∧ scan_frame w (ipmb_scan_send env (ipmb_scan_next_addr w info) bmc info).1
    ∧ ((ipmb_scan_send env (ipmb_scan_next_addr w info) bmc info).1.scan info).bmc
        = (w.scan info).bmc := by
  have hr := scan_inv_range hinv
  obtain ⟨⟨S, hS, hseq⟩, hm1, hm2⟩ := hinv
  have hmsg : ((ipmb_scan_next_addr w info).scan info).msg.netfn = IPMI_APP_NETFN
      ∧ ((ipmb_scan_next_addr w info).scan info).msg.cmd = IPMI_GET_DEVICE_ID_CMD := by
    simp [ipmb_scan_next_addr, hm1, hm2]
  have haddr : ((ipmb_scan_next_addr w info).scan info).addr.slave_addr
      = (w.scan info).addr.slave_addr + 1 := by
    simp only [ipmb_scan_next_addr, mc_set_scan_scan, if_true]
    exact Nat.mod_eq_of_lt (by omega)
  have hbmc : ((ipmb_scan_next_addr w info).scan info).bmc = (w.scan info).bmc := by
    simp [ipmb_scan_next_addr]
  obtain ⟨s1, s2, s3, s4, s5⟩ := ipmb_scan_send_spec env (ipmb_scan_next_addr w info) bmc info hmsg
  have htr : (ipmb_scan_next_addr w info).trace = w.trace := rfl
  have hout : (ipmb_scan_next_addr w info).outstanding = w.outstanding := rfl
  refine ⟨⟨⟨S ++ [((w.scan info).addr.slave_addr, rv)], ?_, ?_⟩, ?_, ?_⟩, ?_, ?_, ?_, ?_⟩
  · rw [s3, s2, haddr, htr, hS, s1, htr]
  · rw [s2, haddr, s1]
    exact scan_seq.next S _ rv _ _ hseq (by omega) (by omega) (fun _ => rfl)
  · rw [s2]; exact hmsg.1
  · rw [s2]; exact hmsg.2
  · rw [s2]; exact haddr
  · rw [s4, s1, hout]
    by_cases h0 : env.rv (ipmb_scan_next_addr w info).trace.length = 0
    · simp [h0]
    · simp [h0]
  · exact scan_frame_trans (scan_frame_next_addr w info) s5
  · rw [s2]; exact hbmc

theorem ipmb_scan_retry_spec (env : mc_env) (bmc info : Ptr) :
    ∀ (fuel : Nat) (w : mc_world) (rv : Int), scan_inv info w rv →
      0xef - (w.scan info).addr.slave_addr < fuel →
      ∃ w2 rv2, ipmb_scan_retry env bmc info fuel w rv = some (w2, rv2)
        ∧ scan_inv info w2 rv2
        ∧ (rv2 ≠ 0 → (w2.scan info).addr.slave_addr = 0xef)
        ∧ (w.scan info).addr.slave_addr ≤ (w2.scan info).addr.slave_addr
        ∧ (rv = 0 → rv2 = 0)
        ∧ w2.outstanding.count (scan_completion info)
            = w.outstanding.count (scan_completion info) + (if rv ≠ 0 ∧ rv2 = 0 then 1 else 0)
        ∧ scan_frame w w2
        ∧ (w2.scan info).bmc = (w.scan info).bmc := by
  intro fuel
  induction fuel with
  | zero => intro w rv _ hf; omega
  | succ n ih =>
    intro w rv hinv hf
    have hr := scan_inv_range hinv
    by_cases hc : rv ≠ 0 ∧ (w.scan info).addr.slave_addr < 0xef
    · obtain ⟨t1, t2, t3, t4, t5⟩ := ipmb_scan_step_spec env bmc info w rv hinv hc.2
      obtain ⟨w2, rv2, g0, g1, g2, g3, g3b, g4, g5, g6⟩ := ih _ _ t1 (by rw [t2]; omega)
      refine ⟨w2, rv2, ?_, g1, g2, by rw [t2] at g3; omega, fun h => absurd h hc.1, ?_,
        scan_frame_trans t4 g5, g6.trans t5⟩
      · simp only [ipmb_scan_retry]
        rw [if_pos hc]
        exact g0
      · rw [g4, t3]
        by_cases h1 : (ipmb_scan_send env (ipmb_scan_next_addr w info) bmc info).2 = 0
        · have := g3b h1
          simp [h1, this, hc.1]
        · by_cases h2 : rv2 = 0
          · simp [h1, h2, hc.1]
          · simp [h1, h2]
    · refine ⟨w, rv, ?_, hinv, ?_, le_refl _, fun h => h, ?_, scan_frame_refl w, rfl⟩
      · simp only [ipmb_scan_retry]
        rw [if_neg hc]
      · intro h0
        have : ¬ (w.scan info).addr.slave_addr < 0xef := fun h => hc ⟨h0, h⟩
        omega
      · have : ¬ (rv ≠ 0 ∧ rv = 0) := fun h => h.1 h.2
        simp [this]

theorem ipmb_scan_retry_frame (env : mc_env) (bmc info : Ptr) :
    ∀ (fuel : Nat) (w : mc_world) (rv : Int),
      (w.scan info).msg.netfn = IPMI_APP_NETFN ∧ (w.scan info).msg.cmd = IPMI_GET_DEVICE_ID_CMD →
      0xef - (w.scan info).addr.slave_addr < fuel →
      ∃ w2 rv2, ipmb_scan_retry env bmc info fuel w rv = some (w2, rv2) ∧ scan_frame w w2 := by
  intro fuel
  induction fuel with
  | zero => intro w rv _ hf; omega
  | succ n ih =>
    intro w rv hmsg hf
    by_cases hc : rv ≠ 0 ∧ (w.scan info).addr.slave_addr < 0xef
    · have hmsg2 : ((ipmb_scan_next_addr w info).scan info).msg.netfn = IPMI_APP_NETFN
          ∧ ((ipmb_scan_next_addr w info).scan info).msg.cmd = IPMI_GET_DEVICE_ID_CMD := by
        simp [ipmb_scan_next_addr, hmsg.1, hmsg.2]
      have haddr : ((ipmb_scan_next_addr w info).scan info).addr.slave_addr
          = (w.scan info).addr.slave_addr + 1 := by
        simp only [ipmb_scan_next_addr, mc_set_scan_scan, if_true]
        exact Nat.mod_eq_of_lt (by omega)
      obtain ⟨_, s2, _, _, s5⟩ :=
        ipmb_scan_send_spec env (ipmb_scan_next_addr w info) bmc info hmsg2
      obtain ⟨w2, rv2, g0, g1⟩ := ih (ipmb_scan_send env (ipmb_scan_next_addr w info) bmc info).1
        (ipmb_scan_send env (ipmb_scan_next_addr w info) bmc info).2
        (by rw [s2]; exact hmsg2) (by rw [s2, haddr]; omega)
      refine ⟨w2, rv2, ?_, scan_frame_trans (scan_frame_trans (scan_frame_next_addr w info) s5) g1⟩
      simp only [ipmb_scan_retry]
      rw [if_pos hc]
      exact g0
    · refine ⟨w, rv, ?_, scan_frame_refl w⟩
      simp only [ipmb_scan_retry]
      rw [if_neg hc]

theorem scan_frame_call_malloc (w : mc_world) (args : List Nat) :
    scan_frame w (w.call .malloc args) :=
  ⟨rfl, rfl, rfl, rfl, rfl, rfl, fun _ => rfl, [.call .malloc args], rfl, by simp [is_scan_effect]⟩

theorem scan_frame_call_free (w : mc_world) (args : List Nat) :
    scan_frame w (w.call .free args) :=
  ⟨rfl, rfl, rfl, rfl, rfl, rfl, fun _ => rfl, [.call .free args], rfl, by simp [is_scan_effect]⟩

theorem scan_frame_set_scan (w : mc_world) (p : Ptr) (v : mc_ipmb_scan_info_t) :
    scan_frame w (w.set_scan p v) :=
  ⟨rfl, rfl, rfl, rfl, rfl, rfl, fun _ => rfl, [], by simp, by simp⟩

theorem start_ipmb_mc_scan_frame (env : mc_env) (fuel : Nat) (w : mc_world) (bmc : Ptr)
    (channel : Nat) (hf : 0xe0 ≤ fuel) :
    ∃ w2, start_ipmb_mc_scan env fuel w bmc channel = some w2 ∧ scan_frame w w2 := by
  unfold start_ipmb_mc_scan mc_world.ask_ptr
  by_cases hinfo : env.ptr w.trace.length = NULL
  · simp only [hinfo, if_true]
    exact ⟨_, rfl, scan_frame_call_malloc w []⟩
  · simp only [hinfo, if_false]
    generalize hw1 : (w.call .malloc []).set_scan (env.ptr w.trace.length)
      { bmc := bmc
        addr :=
          { addr_type := IPMI_IPMB_BROADCAST_ADDR_TYPE, channel := channel, slave_addr := 0x10,
            lun := 0 }
        msg :=
          { netfn := IPMI_APP_NETFN, cmd := IPMI_GET_DEVICE_ID_CMD, data := [], data_len := 0 } }
      = w1
    have hf1 : scan_frame w w1 := by
      rw [← hw1]
      exact scan_frame_trans (scan_frame_call_malloc w []) (scan_frame_set_scan _ _ _)
    have hmsg : (w1.scan (env.ptr w.trace.length)).msg.netfn = IPMI_APP_NETFN
        ∧ (w1.scan (env.ptr w.trace.length)).msg.cmd = IPMI_GET_DEVICE_ID_CMD := by
      rw [← hw1]; simp
    have haddr : (w1.scan (env.ptr w.trace.length)).addr.slave_addr = 0x10 := by
      rw [← hw1]; simp
    obtain ⟨_, s2, _, _, s5⟩ := ipmb_scan_send_spec env w1 bmc (env.ptr w.trace.length) hmsg
    obtain ⟨w2, rv2, g0, g1⟩ := ipmb_scan_retry_frame env bmc (env.ptr w.trace.length) fuel
      (ipmb_scan_send env w1 bmc (env.ptr w.trace.length)).1
      (ipmb_scan_send env w1 bmc (env.ptr w.trace.length)).2
      (by rw [s2]; exact hmsg) (by rw [s2, haddr]; omega)
    rw [g0]
    by_cases hrv : rv2 = 0
    · simp only [hrv, ne_eq, not_true_eq_false, if_false]
      exact ⟨w2, rfl, scan_frame_trans hf1 (scan_frame_trans s5 g1)⟩
    · simp only [ne_eq, hrv, not_false_eq_true, if_true]
      exact ⟨_, rfl, scan_frame_trans hf1 (scan_frame_trans s5
        (scan_frame_trans g1 (scan_frame_call_free w2 _)))⟩

theorem start_mc_scan_loop_frame (env : mc_env) (fuel : Nat) (bmc : Ptr) (hf : 0xe0 ≤ fuel) :
    ∀ (l : List Nat) (w : mc_world),
      ∃ w2, start_mc_scan_loop env fuel bmc l w = some w2 ∧ scan_frame w w2 := by
  intro l
  induction l with
  | nil => intro w; exact ⟨w, rfl, scan_frame_refl w⟩
  | cons i rest ih =>
    intro w
    by_cases hm : ((w.bmc_of bmc).chan.getD i chan_zero).medium = 1
    · obtain ⟨w1, h1, f1⟩ := start_ipmb_mc_scan_frame env fuel w bmc i hf
      obtain ⟨w2, h2, f2⟩ := ih w1
      refine ⟨w2, ?_, scan_frame_trans f1 f2⟩
      simp only [start_mc_scan_loop, hm, if_true, h1]
      exact h2
    · obtain ⟨w2, h2, f2⟩ := ih w
      refine ⟨w2, ?_, f2⟩
      simp only [start_mc_scan_loop, hm, if_false]
      exact h2

theorem start_mc_scan_frame (env : mc_env) (fuel : Nat) (w : mc_world) (bmc : Ptr)
    (hf : 0xe0 ≤ fuel) :
    ∃ w2, start_mc_scan env fuel w bmc = some w2 ∧ scan_frame w w2 := by
  unfold start_mc_scan
  by_cases h : (w.bmc_of bmc).do_bus_scan = 0
  · simp only [h, if_true]
    exact ⟨w, rfl, scan_frame_refl w⟩
  · simp only [h, if_false]
    exact start_mc_scan_loop_frame env fuel bmc hf _ w

/-! ## Theorems: the channel table -/

theorem scan_frame_filter {w w2 : mc_world} (h : scan_frame w w2) (f : mc_effect → Bool)
    (hf : ∀ e, is_scan_effect e = true → f e = false) :
    w2.trace.filter f = w.trace.filter f := by
  obtain ⟨_, _, _, _, _, _, _, added, h1, h2⟩ := h
  rw [h1, List.filter_append]
  have : added.filter f = [] := by
    rw [List.filter_eq_nil_iff]
    intro e he
    rw [hf e (h2 e he)]
    simp
  rw [this, List.append_nil]

theorem is_setup_cb_not_scan (e : mc_effect) (h : is_scan_effect e = true) :
    is_setup_cb e = false := by
  cases e <;> simp_all [is_scan_effect, is_setup_cb]

theorem is_chan_info_send_not_scan (e : mc_effect) (h : is_scan_effect e = true) :
    is_chan_info_send e = false := by
  cases e with
  | send_command conn addr addr_len msg hd rsp_data d2 d3 rv =>
    cases hd <;> simp_all [is_scan_effect, is_chan_info_send]
    intro hh
    exact absurd hh (by decide)
  | _ => simp_all [is_scan_effect, is_chan_info_send]

theorem is_setup_or_close_not_scan (e : mc_effect) (h : is_scan_effect e = true) :
    is_setup_or_close e = false := by
  cases e with
  | call f args => cases f <;> simp_all [is_scan_effect, is_setup_or_close]
  | _ => simp_all [is_scan_effect, is_setup_or_close]

theorem report_operational_spec (env : mc_env) (fuel : Nat) (w : mc_world) (mc : Ptr)
    (hf : 0xe0 ≤ fuel) :
    ∃ w2, report_operational env fuel w mc = some w2
      ∧ w2.mc = w.mc ∧ w2.bmc = w.bmc ∧ w2.evh = w.evh ∧ w2.setup_cb = w.setup_cb
      ∧ w2.setup_cb_data = w.setup_cb_data ∧ w2.sdr_sets = w.sdr_sets
      ∧ (∀ m, w2.outstanding.filter (is_discovery m) = w.outstanding.filter (is_discovery m))
      ∧ w2.trace.filter is_chan_info_send = w.trace.filter is_chan_info_send
      ∧ w2.trace.filter is_setup_cb = w.trace.filter is_setup_cb
          ++ (if w.setup_cb (w.bmc_of mc).conn ≠ NULL then
                [.setup_cb (w.setup_cb (w.bmc_of mc).conn) mc (w.setup_cb_data (w.bmc_of mc).conn) 0]
              else [])
      ∧ w2.trace.filter is_setup_or_close
          = w.trace.filter is_setup_or_close ++ setup_cb_call w mc 0 := by
  unfold report_operational
  dsimp only
  generalize hw1 : ((if w.setup_cb (w.bmc_of mc).conn ≠ NULL then
      w.emit (.setup_cb (w.setup_cb (w.bmc_of mc).conn) mc (w.setup_cb_data (w.bmc_of mc).conn) 0)
    else w)) = w1
  have e1 : w1.mc = w.mc ∧ w1.bmc = w.bmc ∧ w1.evh = w.evh ∧ w1.setup_cb = w.setup_cb
      ∧ w1.setup_cb_data = w.setup_cb_data ∧ w1.sdr_sets = w.sdr_sets
      ∧ w1.outstanding = w.outstanding
      ∧ w1.trace = w.trace ++ (if w.setup_cb (w.bmc_of mc).conn ≠ NULL then
                [.setup_cb (w.setup_cb (w.bmc_of mc).conn) mc (w.setup_cb_data (w.bmc_of mc).conn) 0]
              else []) := by
    rw [← hw1]
    split <;> simp
  obtain ⟨a1, a2, a3, a4, a5, a6, a7, a8⟩ := e1
  obtain ⟨w2, h0, hfr⟩ := start_mc_scan_frame env fuel
    ((w1.call .ipmi_entity_scan_sdrs [(w1.bmc_of mc).entities, (w1.bmc_of mc).main_sdrs]).emit
      (.ipmi_mc_reread_sensors mc .sensors_reread NULL)) mc hf
  have hf1 := scan_frame_filter hfr is_chan_info_send is_chan_info_send_not_scan
  have hf2 := scan_frame_filter hfr is_setup_cb is_setup_cb_not_scan
  have hf3 := scan_frame_filter hfr is_setup_or_close is_setup_or_close_not_scan
  obtain ⟨b1, b2, b3, b4, b5, b6, b7, _⟩ := hfr
  refine ⟨w2, h0, b1.trans a1, b2.trans a2, b3.trans a3, b4.trans a4, b5.trans a5, b6.trans a6,
    ?_, ?_, ?_, ?_⟩
  · intro m; rw [b7 m]; show w1.outstanding.filter _ = _; rw [a7]
  · rw [hf1]
    simp only [mc_emit_trace, mc_call_trace, a8, List.filter_append]
    split <;> simp [is_chan_info_send]
  · rw [hf2]
    simp only [mc_emit_trace, mc_call_trace, a8, List.filter_append]
    split <;> simp [is_setup_cb]
  · rw [hf3]
    simp only [mc_emit_trace, mc_call_trace, a8, List.filter_append, setup_cb_call]
    split <;> simp [is_setup_or_close]


@[simp] theorem bmc_store_bmc_of (w : mc_world) (mc : Ptr) (f : ipmi_bmc_t → ipmi_bmc_t) :
    (bmc_store w mc f).bmc_of mc = f (w.bmc_of mc) := by
  simp [bmc_store, mc_world.bmc_of]

theorem bmc_store_other (w : mc_world) (mc : Ptr) (f : ipmi_bmc_t → ipmi_bmc_t) (p : Ptr)
    (hp : p ≠ (w.mc mc).bmc) : (bmc_store w mc f).bmc p = w.bmc p := by
  simp [bmc_store, hp]

@[simp] theorem bmc_store_mc (w : mc_world) (mc : Ptr) (f : ipmi_bmc_t → ipmi_bmc_t) :
    (bmc_store w mc f).mc = w.mc := rfl

@[simp] theorem bmc_store_evh (w : mc_world) (mc : Ptr) (f : ipmi_bmc_t → ipmi_bmc_t) :
    (bmc_store w mc f).evh = w.evh := rfl

@[simp] theorem bmc_store_scan (w : mc_world) (mc : Ptr) (f : ipmi_bmc_t → ipmi_bmc_t) :
    (bmc_store w mc f).scan = w.scan := rfl

@[simp] theorem bmc_store_setup_cb (w : mc_world) (mc : Ptr) (f : ipmi_bmc_t → ipmi_bmc_t) :
    (bmc_store w mc f).setup_cb = w.setup_cb := rfl

@[simp] theorem bmc_store_setup_cb_data (w : mc_world) (mc : Ptr)
    (f : ipmi_bmc_t → ipmi_bmc_t) : (bmc_store w mc f).setup_cb_data = w.setup_cb_data := rfl

@[simp] theorem bmc_store_sdr_sets (w : mc_world) (mc : Ptr) (f : ipmi_bmc_t → ipmi_bmc_t) :
    (bmc_store w mc f).sdr_sets = w.sdr_sets := rfl

@[simp] theorem bmc_store_outstanding (w : mc_world) (mc : Ptr) (f : ipmi_bmc_t → ipmi_bmc_t) :
    (bmc_store w mc f).outstanding = w.outstanding := rfl

@[simp] theorem bmc_store_trace (w : mc_world) (mc : Ptr) (f : ipmi_bmc_t → ipmi_bmc_t) :
    (bmc_store w mc f).trace = w.trace := rfl

theorem chan_info_done_spec (env : mc_env) (fuel : Nat) (w : mc_world) (mc : Ptr)
    (hf : 0xe0 ≤ fuel) :
    ∃ w2, chan_info_done env fuel w mc = some w2
      ∧ w2.mc = w.mc
      ∧ w2.bmc_of mc = { w.bmc_of mc with
          msg_int_type := 0xff, event_msg_int_type := 0xff, state := .OPERATIONAL }
      ∧ (∀ p, p ≠ (w.mc mc).bmc → w2.bmc p = w.bmc p)
      ∧ w2.evh = w.evh ∧ w2.setup_cb = w.setup_cb
      ∧ w2.setup_cb_data = w.setup_cb_data ∧ w2.sdr_sets = w.sdr_sets
      ∧ (∀ m, w2.outstanding.filter (is_discovery m) = w.outstanding.filter (is_discovery m))
      ∧ w2.trace.filter is_chan_info_send = w.trace.filter is_chan_info_send
      ∧ w2.trace.filter is_setup_cb = w.trace.filter is_setup_cb
          ++ (if w.setup_cb (w.bmc_of mc).conn ≠ NULL then
                [.setup_cb (w.setup_cb (w.bmc_of mc).conn) mc (w.setup_cb_data (w.bmc_of mc).conn) 0]
              else []) := by
  unfold chan_info_done
  dsimp only
  obtain ⟨w3, h0, c1, c2, c3, c4, c5, c6, c7, c8, c9, _⟩ := report_operational_spec env fuel
    (bmc_store (bmc_store (bmc_store w mc (fun b => { b with msg_int_type := 0xff })) mc
      (fun b => { b with event_msg_int_type := 0xff })) mc
      (fun b => { b with state := .OPERATIONAL })) mc hf
  refine ⟨w3, h0, c1, ?_, ?_, c3, c4, c5, c6, c7, c8, ?_⟩
  · have : w3.bmc_of mc = w3.bmc (w.mc mc).bmc := by
      simp only [mc_world.bmc_of, c1]; rfl
    rw [this, c2]
    have h2 := bmc_store_bmc_of (bmc_store (bmc_store w mc (fun b => { b with msg_int_type := 0xff })) mc
      (fun b => { b with event_msg_int_type := 0xff })) mc (fun b => { b with state := .OPERATIONAL })
    simp only [mc_world.bmc_of, bmc_store_mc] at h2
    rw [h2]
    have h3 := bmc_store_bmc_of (bmc_store w mc (fun b => { b with msg_int_type := 0xff })) mc
      (fun b => { b with event_msg_int_type := 0xff })
    simp only [mc_world.bmc_of, bmc_store_mc] at h3
    rw [h3]
    have h4 := bmc_store_bmc_of w mc (fun b => { b with msg_int_type := 0xff })
    simp only [mc_world.bmc_of, bmc_store_mc] at h4
    rw [h4]
    rfl
  · intro p hp
    rw [c2]
    simp only [bmc_store, mc_set_bmc_bmc, mc_set_bmc_mc, if_neg hp]
  · rw [c9]
    simp only [bmc_store_bmc_of, bmc_store_trace, bmc_store_setup_cb, bmc_store_setup_cb_data]

/-- The outcome of `chan_info_rsp_handler` on an error response. -/
theorem chan_info_rsp_handler_on_error (env : mc_env) (fuel : Nat) (w : mc_world) (mc : Ptr)
    (rsp : ipmi_msg_t) (curr : Nat) (hf : 0xe0 ≤ fuel)
    (herr : rd rsp.data 0 ≠ 0 ∨ rsp.data_len < 8)
    (hval : rd rsp.data 0 ≠ 0 → env.err_val (rd rsp.data 0) ≠ 0) :
    ∃ w2, chan_info_rsp_handler env fuel w mc rsp curr = some w2
      ∧ w2.mc = w.mc
      ∧ w2.bmc_of mc = { w.bmc_of mc with
          chan := if curr = 0 then (w.bmc_of mc).chan.set 0 (chan_default_ipmb 1)
            else (w.bmc_of mc).chan
          msg_int_type := 0xff, event_msg_int_type := 0xff, state := .OPERATIONAL }
      ∧ (∀ m, w2.outstanding.filter (is_discovery m) = w.outstanding.filter (is_discovery m))
      ∧ w2.trace.filter is_chan_info_send = w.trace.filter is_chan_info_send
      ∧ w2.trace.filter is_setup_cb = w.trace.filter is_setup_cb
          ++ (if w.setup_cb (w.bmc_of mc).conn ≠ NULL then
                [.setup_cb (w.setup_cb (w.bmc_of mc).conn) mc (w.setup_cb_data (w.bmc_of mc).conn) 0]
              else []) := by
  have hrv : (if rd rsp.data 0 ≠ 0 then env.err_val (rd rsp.data 0)
      else if rsp.data_len < 8 then EINVAL else 0) ≠ 0 := by
    by_cases h0 : rd rsp.data 0 ≠ 0
    · rw [if_pos h0]; exact hval h0
    · rw [if_neg h0]
      rcases herr with h | h
      · exact absurd h h0
      · rw [if_pos h]; decide
  unfold chan_info_rsp_handler
  dsimp only
  rw [if_pos hrv]
  by_cases hc : curr = 0
  · simp only [hc, if_true]
    obtain ⟨w2, h0, c1, c2, _, _, c4, c5, _, c7, c8, c9⟩ :=
      chan_info_done_spec env fuel (set_chan w mc 0 (chan_default_ipmb 1)) mc hf
    refine ⟨w2, h0, c1, ?_, c7, c8, ?_⟩
    · rw [c2]; simp only [set_chan, bmc_store_bmc_of]
    · rw [c9]
      simp only [set_chan, bmc_store_bmc_of, bmc_store_trace, bmc_store_setup_cb,
        bmc_store_setup_cb_data]
  · simp only [hc, if_false]
    obtain ⟨w2, h0, c1, c2, _, _, c4, c5, _, c7, c8, c9⟩ := chan_info_done_spec env fuel w mc hf
    exact ⟨w2, h0, c1, c2, c7, c8, c9⟩

theorem ipmi_send_command_spec (env : mc_env) (w : mc_world) (mc : Ptr) (lun : Nat)
    (msg : ipmi_msg_t) (h : mc_fn) (rsp_data : Nat) :
    (ipmi_send_command env w mc lun msg h rsp_data).1.mc = w.mc
    ∧ (ipmi_send_command env w mc lun msg h rsp_data).1.bmc = w.bmc
    ∧ (ipmi_send_command env w mc lun msg h rsp_data).1.evh = w.evh
    ∧ (ipmi_send_command env w mc lun msg h rsp_data).1.scan = w.scan
    ∧ (ipmi_send_command env w mc lun msg h rsp_data).1.setup_cb = w.setup_cb
    ∧ (ipmi_send_command env w mc lun msg h rsp_data).1.setup_cb_data = w.setup_cb_data
    ∧ (ipmi_send_command env w mc lun msg h rsp_data).1.sdr_sets = w.sdr_sets
    ∧ (ipmi_send_command env w mc lun msg h rsp_data).2
        = (if (env.addr_set_lun (w.mc mc).addr lun).1 ≠ 0 then
            (env.addr_set_lun (w.mc mc).addr lun).1
          else env.rv w.trace.length)
    ∧ (ipmi_send_command env w mc lun msg h rsp_data).1.outstanding
        = w.outstanding ++ (if (ipmi_send_command env w mc lun msg h rsp_data).2 = 0 then
            [.command .ll_rsp_handler rsp_data (some h) (w.mc mc).bmc_mc] else [])
    ∧ (ipmi_send_command env w mc lun msg h rsp_data).1.trace
        = w.trace ++ (if (env.addr_set_lun (w.mc mc).addr lun).1 ≠ 0 then []
          else [.send_command (w.bmc_of (w.mc mc).bmc_mc).conn
            (env.addr_set_lun (w.mc mc).addr lun).2 (w.mc mc).addr_len msg .ll_rsp_handler
            rsp_data (some h) (w.mc mc).bmc_mc (env.rv w.trace.length)]) := by
  unfold ipmi_send_command conn_send_command
  by_cases h1 : (env.addr_set_lun (w.mc mc).addr lun).1 = 0
  · by_cases h2 : env.rv w.trace.length = 0
    · simp [h1, h2]
    · simp [h1, h2]
  · simp [h1]

/-- The outcome of `chan_info_rsp_handler` on a good response for a channel
that is not the last, when the next request is accepted. -/
theorem chan_info_rsp_handler_ok_spec (env : mc_env) (fuel : Nat) (w : mc_world) (mc : Ptr)
    (rsp : ipmi_msg_t) (curr : Nat) (hcc : rd rsp.data 0 = 0) (hlen : 8 ≤ rsp.data_len)
    (hcurr : curr + 1 < MAX_IPMI_USED_CHANNELS)
    (hlun : (env.addr_set_lun (w.mc mc).addr 0).1 = 0) (hsend : env.rv w.trace.length = 0) :
    ∃ w2, chan_info_rsp_handler env fuel w mc rsp curr = some w2
      ∧ w2.mc = w.mc
      ∧ w2.bmc_of mc = { w.bmc_of mc with
          chan := (w.bmc_of mc).chan.set curr (chan_info_from_rsp rsp) }
      ∧ w2.setup_cb = w.setup_cb ∧ w2.setup_cb_data = w.setup_cb_data
      ∧ w2.evh = w.evh
      ∧ w2.outstanding = w.outstanding
          ++ [.command .ll_rsp_handler (curr + 1) (some .chan_info_rsp_handler) (w.mc mc).bmc_mc]
      ∧ w2.trace.filter is_setup_cb = w.trace.filter is_setup_cb := by
  have hrv : ¬ ((if rd rsp.data 0 ≠ 0 then env.err_val (rd rsp.data 0)
      else if rsp.data_len < 8 then EINVAL else 0) ≠ 0) := by
    have : ¬ rsp.data_len < 8 := by omega
    simp [hcc, this]
  unfold chan_info_rsp_handler
  dsimp only
  rw [if_neg hrv, if_pos hcurr]
  obtain ⟨s1, s2, s3, s4, s5, s6, s7, s8, s9, s10⟩ := ipmi_send_command_spec env
    (set_chan w mc curr (chan_info_from_rsp rsp)) mc 0
    { netfn := IPMI_APP_NETFN, cmd := IPMI_GET_CHANNEL_INFO_CMD, data := [to_uchar (curr + 1)],
      data_len := 1 } .chan_info_rsp_handler (curr + 1)
  have hmc : (set_chan w mc curr (chan_info_from_rsp rsp)).mc = w.mc := rfl
  have htr : (set_chan w mc curr (chan_info_from_rsp rsp)).trace = w.trace := rfl
  have hrv2 : (ipmi_send_command env (set_chan w mc curr (chan_info_from_rsp rsp)) mc 0
      { netfn := IPMI_APP_NETFN, cmd := IPMI_GET_CHANNEL_INFO_CMD,
        data := [to_uchar (curr + 1)], data_len := 1 } .chan_info_rsp_handler (curr + 1)).2
      = 0 := by
    rw [s8, hmc, htr]
    simp [hlun, hsend]
  rw [hrv2]
  simp only [ne_eq, not_true_eq_false, if_false]
  refine ⟨_, rfl, s1, ?_, s5, s6, s3, ?_, ?_⟩
  · simp only [mc_world.bmc_of, s1, s2]
    simp only [set_chan, bmc_store, mc_set_bmc_mc, mc_set_bmc_bmc, if_true, mc_world.bmc_of]
  · rw [s9, hrv2]; rfl
  · rw [s10, hmc, htr]
    simp [hlun, List.filter_append, is_setup_cb]

theorem chan_table_one_populated (e : ipmi_chan_info_t) (he : e ≠ chan_zero) :
    (((List.replicate 8 chan_zero).set 0 e).filter (fun c => decide (c ≠ chan_zero))).length
      = 1 := by
  simp [List.replicate, List.filter, he]

/-- C15: for a channel table of 8 slots, any channel `curr` and any Get Channel
Info response that is an error (completion code non-zero, mapped to a non-zero
error, or fewer than 8 bytes), `chan_info_rsp_handler` returns, having sent no
further Get Channel Info, with `msg_int_type = 0xFF`,
`event_msg_int_type = 0xFF` and `state = OPERATIONAL`, and having called the
setup callback, if one is installed, exactly once, with error 0; the channel
table is the old one, but for `curr = 0` with slot 0 replaced by the default
IPMB entry {medium 1, xmit_support 1, recv_lun 0, protocol 1, session_support
0, vendor_id 0x001bf2, aux_info 0}. From an all-zero table, when channel 0
answers ok with medium 1 (and the request for channel 1 is accepted) and
channel 1 answers with completion code 0xCC, exactly one slot is not all-zero
at the end, and the state is OPERATIONAL with both interrupt types 0xFF. -/
theorem chan_info_rsp_handler_error (env : mc_env) (fuel : Nat) (w : mc_world) (mc : Ptr)
    (rsp : ipmi_msg_t) (curr : Nat) (hf : 0xe0 ≤ fuel)
    (hlen : (w.bmc_of mc).chan.length = MAX_IPMI_USED_CHANNELS)
    (herr : rd rsp.data 0 ≠ 0 ∨ rsp.data_len < 8)
    (hval : ∀ cc, cc ≠ 0 → env.err_val cc ≠ 0) :
    (∃ w2, chan_info_rsp_handler env fuel w mc rsp curr = some w2
      ∧ w2.trace.filter is_chan_info_send = w.trace.filter is_chan_info_send
      ∧ (w2.bmc_of mc).msg_int_type = 0xff ∧ (w2.bmc_of mc).event_msg_int_type = 0xff
      ∧ (w2.bmc_of mc).state = .OPERATIONAL
      ∧ w2.trace.filter is_setup_cb = w.trace.filter is_setup_cb
          ++ (if w.setup_cb (w.bmc_of mc).conn ≠ NULL then
                [.setup_cb (w.setup_cb (w.bmc_of mc).conn) mc (w.setup_cb_data (w.bmc_of mc).conn) 0]
              else [])
      ∧ (curr = 0 →
          (w2.bmc_of mc).chan = (w.bmc_of mc).chan.set 0
            { medium := 1, xmit_support := 1, recv_lun := 0, protocol := 1,
              session_support := 0, vendor_id := 0x001bf2, aux_info := 0 }
          ∧ (w2.bmc_of mc).chan.getD 0 chan_zero
            = { medium := 1, xmit_support := 1, recv_lun := 0, protocol := 1,
                session_support := 0, vendor_id := 0x001bf2, aux_info := 0 })
      ∧ (curr > 0 → (w2.bmc_of mc).chan = (w.bmc_of mc).chan))
    ∧ (∀ rsp0 : ipmi_msg_t, (w.bmc_of mc).chan = List.replicate 8 chan_zero →
        rd rsp0.data 0 = 0 → 8 ≤ rsp0.data_len → rd rsp0.data 2 &&& 0x7f = 1 →
        rd rsp.data 0 = 0xCC →
        (env.addr_set_lun (w.mc mc).addr 0).1 = 0 → env.rv w.trace.length = 0 →
        ∃ w1 w2, chan_info_rsp_handler env fuel w mc rsp0 0 = some w1
          ∧ chan_info_rsp_handler env fuel w1 mc rsp 1 = some w2
          ∧ ((w2.bmc_of mc).chan.filter (fun c => decide (c ≠ chan_zero))).length = 1
          ∧ (w2.bmc_of mc).msg_int_type = 0xff ∧ (w2.bmc_of mc).event_msg_int_type = 0xff
          ∧ (w2.bmc_of mc).state = .OPERATIONAL) := by
  have hval2 : ∀ r : ipmi_msg_t, rd r.data 0 ≠ 0 → env.err_val (rd r.data 0) ≠ 0 :=
    fun r h => hval _ h
  constructor
  · obtain ⟨w2, h0, _, hb, _, hs, hc⟩ :=
      chan_info_rsp_handler_on_error env fuel w mc rsp curr hf herr (hval2 rsp)
    refine ⟨w2, h0, hs, ?_, ?_, ?_, hc, ?_, ?_⟩
    · rw [hb]
    · rw [hb]
    · rw [hb]
    · intro h
      have hpos : 0 < (w.bmc_of mc).chan.length := by rw [hlen]; decide
      rw [hb]
      simp only [h, if_true]
      refine ⟨rfl, ?_⟩
      rw [List.getD_eq_getElem?_getD, List.getElem?_set_self hpos]
      rfl
    · intro h
      rw [hb]
      simp only [Nat.ne_of_gt h, if_false]
  · intro rsp0 hz hcc0 hl0 hmed hcc hlun hsend
    obtain ⟨w1, h1, m1, b1, s1, s2, _, _, _⟩ :=
      chan_info_rsp_handler_ok_spec env fuel w mc rsp0 0 hcc0 hl0 (by decide) hlun hsend
    obtain ⟨w2, h2, _, hb, _, _, _⟩ :=
      chan_info_rsp_handler_on_error env fuel w1 mc rsp 1 hf
        (Or.inl (by rw [hcc]; decide)) (hval2 rsp)
    refine ⟨w1, w2, h1, h2, ?_, ?_, ?_, ?_⟩
    · rw [hb, b1, hz]
      simp only [Nat.one_ne_zero, if_false]
      apply chan_table_one_populated
      intro h
      have := congrArg ipmi_chan_info_t.medium h
      simp only [chan_info_from_rsp, chan_zero] at this
      rw [hmed] at this
      exact absurd this (by decide)
    · rw [hb]
    · rw [hb]
    · rw [hb]

/-- Witness of C15: in the sample state, whose channel table is all-zero, the
answer 0xCC for channel 1 after a good answer with medium 1 for channel 0 ends
the probe with one populated slot; the answer 0xCC for channel 1 alone reports
the end of discovery to the setup callback 500 and leaves the table as it
was. -/
theorem chan_info_rsp_handler_error_witness :
    (∃ w2, chan_info_rsp_handler sample_mc_env 0xe0
        (sample_mc_world 1 5 .QUERYING_CHANNEL_INFO) 100 (sample_chan_rsp [0xcc]) 1 = some w2
      ∧ (w2.bmc_of 100).state = .OPERATIONAL
      ∧ w2.trace.filter is_setup_cb = [.setup_cb 500 100 501 0]
      ∧ (w2.bmc_of 100).chan = List.replicate 8 chan_zero)
    ∧ (∃ w1 w2, chan_info_rsp_handler sample_mc_env 0xe0
          (sample_mc_world 1 5 .QUERYING_CHANNEL_INFO) 100
          (sample_chan_rsp [0, 0, 1, 1, 0, 0xf2, 0x1b, 0, 0, 0]) 0 = some w1
        ∧ chan_info_rsp_handler sample_mc_env 0xe0 w1 100 (sample_chan_rsp [0xcc]) 1 = some w2
        ∧ ((w2.bmc_of 100).chan.filter (fun c => decide (c ≠ chan_zero))).length = 1
        ∧ (w2.bmc_of 100).msg_int_type = 0xff ∧ (w2.bmc_of 100).event_msg_int_type = 0xff
        ∧ (w2.bmc_of 100).state = .OPERATIONAL) := by
  have h := chan_info_rsp_handler_error sample_mc_env 0xe0
    (sample_mc_world 1 5 .QUERYING_CHANNEL_INFO) 100 (sample_chan_rsp [0xcc]) 1 (by decide)
    (by decide) (Or.inl (by decide))
    (by
      intro cc _ h
      have h1 : ((cc ||| 0x01000000 : Nat) : Int) = 0 := h
      have h2 : cc ||| 0x01000000 = 0 := by exact_mod_cast h1
      have h3 := congrArg (fun n => Nat.testBit n 24) h2
      have h4 : Nat.testBit 0x01000000 24 = true := by decide
      simp only [Nat.testBit_or, h4, Bool.or_true, Nat.zero_testBit] at h3
      exact absurd h3 (by decide))
  constructor
  · obtain ⟨w2, h0, _, _, _, hs, hcb, _, hch⟩ := h.1
    exact ⟨w2, h0, hs, hcb, hch (by decide)⟩
  · exact h.2 (sample_chan_rsp [0, 0, 1, 1, 0, 0xf2, 0x1b, 0, 0, 0]) rfl (by decide) (by decide)
      (by decide) (by decide) (by decide) (by decide)

/-! ## Theorems: the channel table from the SDRs -/

theorem bmc_store_bmc_store (w : mc_world) (mc : Ptr) (f g : ipmi_bmc_t → ipmi_bmc_t) :
    bmc_store (bmc_store w mc f) mc g = bmc_store w mc (fun b => g (f b)) := by
  simp [bmc_store, mc_world.set_bmc, mc_world.bmc_of]

theorem bmc_store_self (w : mc_world) (mc : Ptr) :
    bmc_store w mc (fun b => b) = w := by
  simp [bmc_store, mc_world.set_bmc, mc_world.bmc_of]

theorem list_getD_set (c : List ipmi_chan_info_t) (i j : Nat) (d : ipmi_chan_info_t) :
    (c.set i d).getD j chan_zero
      = if j = i ∧ i < c.length then d else c.getD j chan_zero := by
  rw [List.getD_eq_getElem?_getD, List.getD_eq_getElem?_getD, List.getElem?_set]
  by_cases h : i = j
  · subst h
    by_cases h2 : i < c.length
    · simp [h2]
    · simp [h2, List.getElem?_eq_none (Nat.le_of_not_lt h2)]
  · have : ¬ j = i := fun e => h e.symm
    simp [h, this]

/-- The loop of `finish_mc_handling` stores into the channel table only: slot
`i` of the list, when it exists and the low four bits of `sdr.data[i]` are not
zero, is the IPMB entry with that protocol, every other slot is as before. -/
theorem finish_mc_handling_loop_spec (mc : Ptr) (sdr : ipmi_sdr_t) (l : List Nat)
    (w : mc_world) :
    ∃ c, finish_mc_handling_loop mc sdr l w = bmc_store w mc (fun b => { b with chan := c })
      ∧ c.length = (w.bmc_of mc).chan.length
      ∧ ∀ j, c.getD j chan_zero
          = if j ∈ l ∧ j < (w.bmc_of mc).chan.length ∧ rd sdr.data j &&& 0xf ≠ 0 then
              chan_default_ipmb (rd sdr.data j &&& 0xf)
            else (w.bmc_of mc).chan.getD j chan_zero := by
  induction l generalizing w with
  | nil =>
    refine ⟨(w.bmc_of mc).chan, ?_, rfl, ?_⟩
    · exact (bmc_store_self w mc).symm
    · intro j; simp
  | cons i rest ih =>
    unfold finish_mc_handling_loop
    dsimp only
    by_cases hp : rd sdr.data i &&& 0xf ≠ 0
    · rw [if_pos hp]
      obtain ⟨c, h1, h2, h3⟩ := ih (set_chan w mc i (chan_default_ipmb (rd sdr.data i &&& 0xf)))
      have hb : (set_chan w mc i (chan_default_ipmb (rd sdr.data i &&& 0xf))).bmc_of mc
          = { w.bmc_of mc with
              chan := (w.bmc_of mc).chan.set i (chan_default_ipmb (rd sdr.data i &&& 0xf)) } := by
        simp only [set_chan, bmc_store_bmc_of]
      refine ⟨c, ?_, ?_, ?_⟩
      · rw [h1, set_chan, bmc_store_bmc_store]
      · rw [h2, hb]; simp
      · intro j
        rw [h3 j, hb]
        simp only [List.length_set, list_getD_set, List.mem_cons]
        by_cases hj : j = i
        · subst hj
          by_cases hl : j < (w.bmc_of mc).chan.length
          · simp [hl, hp]
          · simp [hl]
        · simp [hj]
    · rw [if_neg hp]
      obtain ⟨c, h1, h2, h3⟩ := ih w
      refine ⟨c, h1, h2, ?_⟩
      intro j
      rw [h3 j]
      simp only [List.mem_cons]
      by_cases hj : j = i
      · subst hj
        have hp2 : rd sdr.data j &&& 0xf = 0 := not_not.mp hp
        simp [hp2]
      · simp [hj]

theorem bmc_store_congr (w : mc_world) (mc : Ptr) (f g : ipmi_bmc_t → ipmi_bmc_t)
    (h : f (w.bmc_of mc) = g (w.bmc_of mc)) : bmc_store w mc f = bmc_store w mc g := by
  unfold bmc_store
  rw [h]

/-- The end of the second branch of `finish_mc_handling`, from the state in
which the channel table and the interrupt types have been stored. -/
theorem finish_mc_handling_report (env : mc_env) (fuel : Nat) (w : mc_world) (mc : Ptr)
    (hf : 0xe0 ≤ fuel) (c : List ipmi_chan_info_t) (mi ei : Byte) :
    ∃ w2, (match report_operational env fuel (bmc_store w mc (fun b => { b with
          chan := c, msg_int_type := mi, event_msg_int_type := ei, state := .OPERATIONAL })) mc
        with
        | none => none
        | some w => some (w, (0 : Int))) = some (w2, 0)
      ∧ w2.mc = w.mc
      ∧ (∀ m, w2.outstanding.filter (is_discovery m) = w.outstanding.filter (is_discovery m))
      ∧ w2.trace.filter is_chan_info_send = w.trace.filter is_chan_info_send
      ∧ w2.trace.filter is_setup_cb = w.trace.filter is_setup_cb
          ++ (if w.setup_cb (w.bmc_of mc).conn ≠ NULL then
                [.setup_cb (w.setup_cb (w.bmc_of mc).conn) mc (w.setup_cb_data (w.bmc_of mc).conn) 0]
              else [])
      ∧ w2.bmc_of mc = { w.bmc_of mc with
          chan := c, msg_int_type := mi, event_msg_int_type := ei, state := .OPERATIONAL }
      ∧ w2.setup_cb = w.setup_cb ∧ w2.setup_cb_data = w.setup_cb_data
      ∧ w2.trace.filter is_setup_or_close
          = w.trace.filter is_setup_or_close ++ setup_cb_call w mc 0 := by
  obtain ⟨w3, h0, c1, c2, c3, c4, c5, c6, c7, c8, c9, c10⟩ := report_operational_spec env fuel
    (bmc_store w mc (fun b => { b with
      chan := c, msg_int_type := mi, event_msg_int_type := ei, state := .OPERATIONAL })) mc hf
  rw [h0]
  refine ⟨w3, rfl, c1, c7, c8, ?_, ?_, c4, c5, ?_⟩
  · rw [c9]
    simp only [bmc_store_bmc_of, bmc_store_trace, bmc_store_setup_cb, bmc_store_setup_cb_data]
  · have : w3.bmc_of mc = (bmc_store w mc (fun b => { b with
      chan := c, msg_int_type := mi, event_msg_int_type := ei,
      state := .OPERATIONAL })).bmc_of mc := by
      simp only [mc_world.bmc_of, c1, c2]
    rw [this, bmc_store_bmc_of]
  · rw [c10]
    simp only [setup_cb_call, bmc_store_bmc_of, bmc_store_trace, bmc_store_setup_cb,
      bmc_store_setup_cb_data]

/-- The second branch of `finish_mc_handling`, for a version below 1.5: the
function returns 0 with the BMC OPERATIONAL, the setup callback called with 0
and nothing sent for the channels; the channel table and the interrupt types
are as the type-0x14 record gives them, or the defaults. -/
theorem finish_mc_handling_sdr_spec (env : mc_env) (fuel : Nat) (w : mc_world) (mc : Ptr)
    (hf : 0xe0 ≤ fuel)
    (hv : ¬ ((w.mc mc).major_version > 1
      ∨ ((w.mc mc).major_version = 1 ∧ (w.mc mc).minor_version ≥ 5))) :
    ∃ w2 c, finish_mc_handling env fuel w mc = some (w2, 0)
      ∧ w2.mc = w.mc
      ∧ (∀ m, w2.outstanding.filter (is_discovery m) = w.outstanding.filter (is_discovery m))
      ∧ w2.trace.filter is_chan_info_send = w.trace.filter is_chan_info_send
      ∧ w2.trace.filter is_setup_cb = w.trace.filter is_setup_cb
          ++ (if w.setup_cb (w.bmc_of mc).conn ≠ NULL then
                [.setup_cb (w.setup_cb (w.bmc_of mc).conn) mc (w.setup_cb_data (w.bmc_of mc).conn) 0]
              else [])
      ∧ c.length = (w.bmc_of mc).chan.length
      ∧ (∃ mi ei, w2.bmc_of mc = { w.bmc_of mc with
          chan := c, msg_int_type := mi, event_msg_int_type := ei, state := .OPERATIONAL })
      ∧ w2.setup_cb = w.setup_cb ∧ w2.setup_cb_data = w.setup_cb_data
      ∧ w2.trace.filter is_setup_or_close
          = w.trace.filter is_setup_or_close ++ setup_cb_call w mc 0
      ∧ (∀ sdr,
          (ipmi_get_sdr_by_type w (w.bmc_of mc).main_sdrs 0x14 = some sdr
            ∨ (ipmi_get_sdr_by_type w (w.bmc_of mc).main_sdrs 0x14 = none
              ∧ ipmi_get_sdr_by_type w (w.mc mc).sdrs 0x14 = some sdr)) →
          w2.bmc_of mc = { w.bmc_of mc with
            chan := c, msg_int_type := sdr.data.getD 8 0,
            event_msg_int_type := sdr.data.getD 9 0, state := .OPERATIONAL }
          ∧ ∀ j, c.getD j chan_zero
              = if j < (w.bmc_of mc).chan.length ∧ j < MAX_IPMI_USED_CHANNELS
                  ∧ rd sdr.data j &&& 0xf ≠ 0 then
                  chan_default_ipmb (rd sdr.data j &&& 0xf)
                else (w.bmc_of mc).chan.getD j chan_zero)
      ∧ (ipmi_get_sdr_by_type w (w.bmc_of mc).main_sdrs 0x14 = none →
          ipmi_get_sdr_by_type w (w.mc mc).sdrs 0x14 = none →
          c = (w.bmc_of mc).chan.set 0 (chan_default_ipmb 1)
          ∧ w2.bmc_of mc = { w.bmc_of mc with
            chan := c, msg_int_type := 0xff, event_msg_int_type := 0xff,
            state := .OPERATIONAL }) := by
  unfold finish_mc_handling
  dsimp only
  rw [if_neg hv]
  have hsdr : ∀ sdr : ipmi_sdr_t, ∃ c,
      bmc_store (bmc_store (bmc_store
        (finish_mc_handling_loop mc sdr (List.range MAX_IPMI_USED_CHANNELS) w) mc
        (fun b => { b with msg_int_type := sdr.data.getD 8 0 })) mc
        (fun b => { b with event_msg_int_type := sdr.data.getD 9 0 })) mc
        (fun b => { b with state := .OPERATIONAL })
      = bmc_store w mc (fun b => { b with
          chan := c, msg_int_type := sdr.data.getD 8 0,
          event_msg_int_type := sdr.data.getD 9 0, state := .OPERATIONAL })
      ∧ c.length = (w.bmc_of mc).chan.length
      ∧ ∀ j, c.getD j chan_zero
          = if j < (w.bmc_of mc).chan.length ∧ j < MAX_IPMI_USED_CHANNELS
              ∧ rd sdr.data j &&& 0xf ≠ 0 then
              chan_default_ipmb (rd sdr.data j &&& 0xf)
            else (w.bmc_of mc).chan.getD j chan_zero := by
    intro sdr
    obtain ⟨c, h1, h2, h3⟩ :=
      finish_mc_handling_loop_spec mc sdr (List.range MAX_IPMI_USED_CHANNELS) w
    refine ⟨c, ?_, h2, ?_⟩
    · simp only [h1, bmc_store_bmc_store]
    · intro j
      rw [h3 j]
      by_cases hj : j < MAX_IPMI_USED_CHANNELS
      · simp [hj, List.mem_range]
      · simp [hj, List.mem_range]
  have hdef : bmc_store (bmc_store (bmc_store (set_chan w mc 0 (chan_default_ipmb 1)) mc
        (fun b => { b with msg_int_type := 0xff })) mc
        (fun b => { b with event_msg_int_type := 0xff })) mc
        (fun b => { b with state := .OPERATIONAL })
      = bmc_store w mc (fun b => { b with
          chan := (w.bmc_of mc).chan.set 0 (chan_default_ipmb 1), msg_int_type := 0xff,
          event_msg_int_type := 0xff, state := .OPERATIONAL }) := by
    simp only [set_chan, bmc_store_bmc_store]
    exact bmc_store_congr _ _ _ _ rfl
  rcases h1 : ipmi_get_sdr_by_type w (w.bmc_of mc).main_sdrs 0x14 with _ | sdr
  · rcases h2 : ipmi_get_sdr_by_type w (w.mc mc).sdrs 0x14 with _ | sdr
    · dsimp only
      rw [hdef]
      obtain ⟨w2, r0, r1, r2, r3, r4, r5, r6, r7, r8⟩ := finish_mc_handling_report env fuel w mc hf
        ((w.bmc_of mc).chan.set 0 (chan_default_ipmb 1)) 0xff 0xff
      refine ⟨w2, (w.bmc_of mc).chan.set 0 (chan_default_ipmb 1), r0, r1, r2, r3, r4,
        List.length_set _ _ _, ⟨_, _, r5⟩, r6, r7, r8, ?_, ?_⟩
      · intro sdr hs
        rcases hs with h | ⟨_, h⟩ <;> exact absurd h (by simp)
      · intro _ _
        exact ⟨rfl, r5⟩
    · dsimp only
      obtain ⟨c, e1, e2, e3⟩ := hsdr sdr
      rw [e1]
      obtain ⟨w2, r0, r1, r2, r3, r4, r5, r6, r7, r8⟩ := finish_mc_handling_report env fuel w mc hf
        c (sdr.data.getD 8 0) (sdr.data.getD 9 0)
      refine ⟨w2, c, r0, r1, r2, r3, r4, e2, ⟨_, _, r5⟩, r6, r7, r8, ?_, ?_⟩
      · intro sdr2 hs
        rcases hs with h | ⟨_, h⟩
        · exact absurd h (by simp)
        · cases h
          exact ⟨r5, e3⟩
      · intro _ h
        exact absurd h (by simp)
  · dsimp only
    obtain ⟨c, e1, e2, e3⟩ := hsdr sdr
    rw [e1]
    obtain ⟨w2, r0, r1, r2, r3, r4, r5, r6, r7, r8⟩ := finish_mc_handling_report env fuel w mc hf
      c (sdr.data.getD 8 0) (sdr.data.getD 9 0)
    refine ⟨w2, c, r0, r1, r2, r3, r4, e2, ⟨_, _, r5⟩, r6, r7, r8, ?_, ?_⟩
    · intro sdr2 hs
      rcases hs with h | ⟨h, _⟩
      · cases h
        exact ⟨r5, e3⟩
      · exact absurd h (by simp)
    · intro h
      exact absurd h (by simp)

/-- C16, counterexample: a type-0x14 record whose byte for channel 0 is 0x10, a
non-zero byte, leaves slot 0 of the channel table as it was (all-zero here):
`finish_mc_handling` tests the low four bits of the byte, which are zero. -/
theorem finish_mc_handling_nonzero_byte_unpopulated :
    rd (sample_chan_sdr [0x10, 0, 0, 0, 0, 0, 0, 0, 0x11, 0x22, 0]).data 0 ≠ 0
    ∧ (finish_mc_handling sample_mc_env 0xe0
        (sample_mc_world_sdrs 1 0 [sample_chan_sdr [0x10, 0, 0, 0, 0, 0, 0, 0, 0x11, 0x22, 0]] [])
        100).map (fun r => ((r.1.bmc_of 100).chan.getD 0 chan_zero, r.2))
      = some (chan_zero, 0) := by
  decide

/-- C16, amended: for a BMC of IPMI version below 1.5 with a channel table of 8
slots, `finish_mc_handling` returns 0 with the state OPERATIONAL. If the main
SDRs, or else the device SDRs, hold a type-0x14 record `sdr`, then every slot
`i` in 0..7 for which the protocol nibble `sdr.data[i] & 0xF` is non-zero is
{medium 1, xmit_support 1, recv_lun 0, protocol = that nibble, session_support
0, vendor_id 0x001bf2, aux_info 0}, every slot whose nibble is zero is as it
was, `msg_int_type = sdr.data[8]` and `event_msg_int_type = sdr.data[9]`. If
neither set holds such a record, slot 0 is the default IPMB entry (protocol 1),
the other slots are as they were, and both interrupt types are 0xFF. -/
theorem finish_mc_handling_below_1_5 (env : mc_env) (fuel : Nat) (w : mc_world) (mc : Ptr)
    (hf : 0xe0 ≤ fuel)
    (hlen : (w.bmc_of mc).chan.length = MAX_IPMI_USED_CHANNELS)
    (hv : ¬ ((w.mc mc).major_version > 1
      ∨ ((w.mc mc).major_version = 1 ∧ (w.mc mc).minor_version ≥ 5))) :
    ∃ w2, finish_mc_handling env fuel w mc = some (w2, 0)
      ∧ (w2.bmc_of mc).state = .OPERATIONAL
      ∧ (∀ sdr,
          (ipmi_get_sdr_by_type w (w.bmc_of mc).main_sdrs 0x14 = some sdr
            ∨ (ipmi_get_sdr_by_type w (w.bmc_of mc).main_sdrs 0x14 = none
              ∧ ipmi_get_sdr_by_type w (w.mc mc).sdrs 0x14 = some sdr)) →
          (∀ i, i < 8 → (w2.bmc_of mc).chan.getD i chan_zero
              = if rd sdr.data i &&& 0xf ≠ 0 then
                  { medium := 1, xmit_support := 1, recv_lun := 0,
                    protocol := rd sdr.data i &&& 0xf, session_support := 0,
                    vendor_id := 0x001bf2, aux_info := 0 }
                else (w.bmc_of mc).chan.getD i chan_zero)
          ∧ (w2.bmc_of mc).msg_int_type = sdr.data.getD 8 0
          ∧ (w2.bmc_of mc).event_msg_int_type = sdr.data.getD 9 0)
      ∧ (ipmi_get_sdr_by_type w (w.bmc_of mc).main_sdrs 0x14 = none →
          ipmi_get_sdr_by_type w (w.mc mc).sdrs 0x14 = none →
          (w2.bmc_of mc).chan = (w.bmc_of mc).chan.set 0
            { medium := 1, xmit_support := 1, recv_lun := 0, protocol := 1,
              session_support := 0, vendor_id := 0x001bf2, aux_info := 0 }
          ∧ (w2.bmc_of mc).chan.getD 0 chan_zero
            = { medium := 1, xmit_support := 1, recv_lun := 0, protocol := 1,
                session_support := 0, vendor_id := 0x001bf2, aux_info := 0 }
          ∧ (w2.bmc_of mc).msg_int_type = 0xff
          ∧ (w2.bmc_of mc).event_msg_int_type = 0xff) := by
  obtain ⟨w2, c, h0, _, _, _, _, hc, _, _, _, _, hs, hn⟩ :=
    finish_mc_handling_sdr_spec env fuel w mc hf hv
  have hst : (w2.bmc_of mc).state = .OPERATIONAL := by
    rcases h1 : ipmi_get_sdr_by_type w (w.bmc_of mc).main_sdrs 0x14 with _ | sdr
    · rcases h2 : ipmi_get_sdr_by_type w (w.mc mc).sdrs 0x14 with _ | sdr
      · rw [(hn h1 h2).2]
      · rw [(hs sdr (Or.inr ⟨h1, h2⟩)).1]
    · rw [(hs sdr (Or.inl h1)).1]
  refine ⟨w2, h0, hst, ?_, ?_⟩
  · intro sdr hsdr
    obtain ⟨e1, e2⟩ := hs sdr hsdr
    refine ⟨?_, ?_, ?_⟩
    · intro i hi
      rw [e1]
      show c.getD i chan_zero = _
      rw [e2 i]
      have h1 : i < (w.bmc_of mc).chan.length := by rw [hlen]; exact hi
      have h2 : i < MAX_IPMI_USED_CHANNELS := hi
      simp only [h1, h2, true_and]
      rfl
    · rw [e1]
    · rw [e1]
  · intro h1 h2
    obtain ⟨e1, e2⟩ := hn h1 h2
    have hpos : 0 < (w.bmc_of mc).chan.length := by rw [hlen]; decide
    refine ⟨?_, ?_, ?_, ?_⟩
    · rw [e2, e1]; rfl
    · rw [e2, e1]
      show ((w.bmc_of mc).chan.set 0 (chan_default_ipmb 1)).getD 0 chan_zero = _
      rw [List.getD_eq_getElem?_getD, List.getElem?_set_self hpos]
      rfl
    · rw [e2]
    · rw [e2]

/-- Witness of C16: for a version-1.0 BMC whose main SDRs hold a type-0x14 record
with the bytes 0x10 and 0x82 for channels 0 and 1, the function returns 0 with
the state OPERATIONAL, slot 1 holding protocol 2, slot 0 as it was, and the
interrupt types 0x11 and 0x22. -/
theorem finish_mc_handling_below_1_5_witness :
    ∃ w2, finish_mc_handling sample_mc_env 0xe0
        (sample_mc_world_sdrs 1 0
          [sample_chan_sdr [0x10, 0x82, 0, 0, 0, 0, 0, 0, 0x11, 0x22, 0]] []) 100 = some (w2, 0)
      ∧ (w2.bmc_of 100).state = .OPERATIONAL
      ∧ (w2.bmc_of 100).chan.getD 1 chan_zero
          = { medium := 1, xmit_support := 1, recv_lun := 0, protocol := 2,
              session_support := 0, vendor_id := 0x001bf2, aux_info := 0 }
      ∧ (w2.bmc_of 100).chan.getD 0 chan_zero = chan_zero
      ∧ (w2.bmc_of 100).msg_int_type = 0x11
      ∧ (w2.bmc_of 100).event_msg_int_type = 0x22 := by
  obtain ⟨w2, h0, h1, h2, _⟩ := finish_mc_handling_below_1_5 sample_mc_env 0xe0
    (sample_mc_world_sdrs 1 0
      [sample_chan_sdr [0x10, 0x82, 0, 0, 0, 0, 0, 0, 0x11, 0x22, 0]] []) 100
    (by decide) (by decide) (by decide)
  obtain ⟨e1, e2, e3⟩ := h2 (sample_chan_sdr [0x10, 0x82, 0, 0, 0, 0, 0, 0, 0x11, 0x22, 0])
    (Or.inl (by decide))
  exact ⟨w2, h0, h1, (e1 1 (by decide)).trans (by decide), (e1 0 (by decide)).trans (by decide),
    e2.trans (by decide), e3.trans (by decide)⟩

/-! ## Theorems: which versions are below 1.5 -/

/-- C17: for version 0.9 (version byte 0x90: major 0, minor 9)
`finish_mc_handling` does not take the Get Channel Info path (it ends
OPERATIONAL, having sent no Get Channel Info), so it treats the version as
below 1.5, but `ipmi_bmc_store_entities` returns 0 without having added the
channel SDR; the version byte 0x51 (major 1, minor 5) takes the Get Channel
Info path. Over all versions with major and minor in 0..15, in the sample
state, `finish_mc_handling` takes the Get Channel Info path exactly for
major > 1 or (major = 1 and minor >= 5), `ipmi_bmc_store_entities` adds the
channel SDR exactly for major <= 1 and minor < 5, and the two disagree on what
is below 1.5 exactly for major = 0 and minor >= 5. -/
theorem ipmi_bmc_store_entities_version_disagrees :
    (finish_mc_handling sample_mc_env 0xe0 (sample_mc_world 0 9 .QUERYING_MAIN_SDRS) 100).map
        (fun r => ((r.1.bmc_of 100).state, (r.1.trace.filter is_chan_info_send).length, r.2))
      = some (.OPERATIONAL, 0, 0)
    ∧ ((ipmi_bmc_store_entities sample_mc_env (sample_mc_world 0 9 .OPERATIONAL) 100 0 0).1.trace.filter
        is_sdr_add = []
      ∧ (ipmi_bmc_store_entities sample_mc_env (sample_mc_world 0 9 .OPERATIONAL) 100 0 0).2 = 0)
    ∧ (finish_mc_handling sample_mc_env 0xe0 (sample_mc_world 1 5 .QUERYING_MAIN_SDRS) 100).map
        (fun r => ((r.1.bmc_of 100).state, (r.1.trace.filter is_chan_info_send).length, r.2))
      = some (.QUERYING_CHANNEL_INFO, 1, 0)
    ∧ (List.range 16).all (fun major => (List.range 16).all (fun minor =>
        decide (
          ((finish_mc_handling sample_mc_env 0xe0
              (sample_mc_world major minor .QUERYING_MAIN_SDRS) 100).map
              (fun r => ((r.1.bmc_of 100).state, (r.1.trace.filter is_chan_info_send).length))
            = some (.QUERYING_CHANNEL_INFO, 1)
            ↔ (major > 1 ∨ (major = 1 ∧ minor ≥ 5)))
          ∧ ((ipmi_bmc_store_entities sample_mc_env
                (sample_mc_world major minor .OPERATIONAL) 100 0 0).1.trace.filter is_sdr_add ≠ []
            ↔ (major ≤ 1 ∧ minor < 5))
          ∧ ((¬ (major > 1 ∨ (major = 1 ∧ minor ≥ 5)) ∧ ¬ (major ≤ 1 ∧ minor < 5))
            ↔ (major = 0 ∧ minor ≥ 5))))) = true := by
  refine ⟨by decide, by decide, by decide, by decide⟩

/-! ## Theorems: events -/

/-- C19: an MC-generated system event record (data[2] = 0x02, bit 0 of data[7]
clear) whose sensor cannot be resolved, received by a BMC with the two
subscribers 61 and 62 and no OEM filter, is delivered to nobody:
`ll_event_handler` looks the sensor up and then calls neither a sensor handler
nor a subscriber. -/
theorem ll_event_handler_unresolved_not_fanned_out :
    mc_event_handlers_are (sample_mc_world 1 5 .OPERATIONAL) 100 [61, 62]
    ∧ ((sample_mc_world 1 5 .OPERATIONAL).bmc_of 100).oem_event_handler = NULL
    ∧ sample_mc_env.sensor_lookup
        (ll_event_sensor_id 100 (sample_event [0, 0, 2, 0, 0, 0, 0, 0x20, 0, 0, 0, 5])) = none
    ∧ (ll_event_handler sample_mc_env 3 (sample_mc_world 1 5 .OPERATIONAL)
        (sample_event [0, 0, 2, 0, 0, 0, 0, 0x20, 0, 0, 0, 5]) 100).map
        (fun w => (sensor_lookups w.trace, w.trace.filter is_event_delivery))
      = some ([{ bmc := 100, channel := 0, mc_num := 0x20, lun := 0, sensor_num := 5 }], []) := by
  refine ⟨by decide, by decide, by decide, by decide⟩

theorem sensor_lookups_append (a b : List mc_effect) :
    sensor_lookups (a ++ b) = sensor_lookups a ++ sensor_lookups b := by
  induction a with
  | nil => rfl
  | cons e t ih =>
    cases e <;> simp [sensor_lookups, ih]

theorem sensor_lookups_event_handlers (f : Ptr → mc_effect)
    (hf : ∀ p, sensor_lookups [f p] = []) (l : List Ptr) :
    sensor_lookups (l.map f) = [] := by
  induction l with
  | nil => rfl
  | cons x xs ih =>
    have := sensor_lookups_append [f x] (xs.map f)
    simp only [List.singleton_append] at this
    rw [List.map_cons, this, hf x, ih]
    rfl

/-- The loop of `ll_event_handler` calls the handler of every subscriber of the
list once, in list order, and returns. -/
theorem ll_event_fanout_spec (bmc : Ptr) (event : ipmi_msg_t) (l : List Ptr) :
    ∀ (fuel : Nat) (w : mc_world) (pv hd : Ptr),
      dll (fun p => (w.evh p).next) (fun p => (w.evh p).prev) pv hd l → l.length < fuel →
      ll_event_fanout bmc event fuel w hd
        = some { w with
            trace := w.trace ++ List.map
              (fun p => mc_effect.event_handler (w.evh p).handler bmc event (w.evh p).event_data)
              l } := by
  induction l with
  | nil =>
    intro fuel w pv hd h hf
    cases fuel with
    | zero => exact absurd hf (by simp)
    | succ n =>
      have : hd = NULL := h
      subst this
      simp [ll_event_fanout]
  | cons x xs ih =>
    intro fuel w pv hd h hf
    cases fuel with
    | zero => exact absurd hf (by simp)
    | succ n =>
      obtain ⟨h1, h2, _, h4⟩ := h
      subst h1
      unfold ll_event_fanout
      rw [if_pos h2]
      dsimp only
      have := ih n (w.emit (.event_handler (w.evh hd).handler bmc event (w.evh hd).event_data))
        hd ((w.evh hd).next) h4 (by simpa using hf)
      rw [show ((w.emit (.event_handler (w.evh hd).handler bmc event
        (w.evh hd).event_data)).evh hd).next = (w.evh hd).next from rfl, this]
      simp [mc_world.emit]

/-- C20: for every event that the OEM filter does not consume (none is
installed, or it returns 0), received by a BMC whose subscriber list is well
formed, `ll_event_handler` returns, and the sensor lookups it has made are: one,
of the id {bmc = the receiving BMC, channel = 0 if data[8] = 0x03 else
data[8] >> 4, mc_num = data[7], lun = data[8] & 0x3, sensor_num = data[11]},
if data[2] = 0x02 and (data[7] & 0x01) = 0, and none otherwise. -/
theorem ll_event_handler_sensor_lookup (env : mc_env) (fuel : Nat) (w : mc_world)
    (event : ipmi_msg_t) (bmc : Ptr) (l : List Ptr)
    (hl : mc_event_handlers_are w bmc l) (hf : l.length < fuel)
    (hoem : (w.bmc_of bmc).oem_event_handler = NULL ∨ env.rv w.trace.length = 0) :
    ∃ w2, ll_event_handler env fuel w event bmc = some w2
      ∧ sensor_lookups w2.trace = sensor_lookups w.trace
          ++ (if rd event.data 2 = 0x02 ∧ rd event.data 7 &&& 0x01 = 0 then
                [{ bmc := bmc
                   channel := if rd event.data 8 = 0x03 then 0 else rd event.data 8 >>> 4
                   mc_num := rd event.data 7
                   lun := rd event.data 8 &&& 0x3
                   sensor_num := rd event.data 11 }]
              else []) := by
  -- the OEM filter
  have h1 : ∃ w1, ll_event_oem env w bmc event = (w1, false) ∧ w1.evh = w.evh
      ∧ w1.bmc = w.bmc ∧ w1.mc = w.mc ∧ sensor_lookups w1.trace = sensor_lookups w.trace := by
    unfold ll_event_oem
    by_cases ho : (w.bmc_of bmc).oem_event_handler ≠ NULL
    · have hr : env.rv w.trace.length = 0 := by
        rcases hoem with h | h
        · exact absurd h ho
        · exact h
      rw [if_pos ho]
      refine ⟨w.emit (.oem_event_handler (w.bmc_of bmc).oem_event_handler bmc event), ?_, rfl,
        rfl, rfl, ?_⟩
      · simp [hr]
      · simp [mc_world.emit, sensor_lookups_append, sensor_lookups]
    · rw [if_neg ho]
      exact ⟨w, rfl, rfl, rfl, rfl, rfl⟩
  obtain ⟨w1, e1, a1, a2, a3, a4⟩ := h1
  -- the delivery to a sensor
  have h2 : ∃ w2 rv, ll_event_sensor env w1 bmc event = (w2, rv) ∧ w2.evh = w.evh
      ∧ w2.bmc = w.bmc ∧ w2.mc = w.mc
      ∧ sensor_lookups w2.trace = sensor_lookups w.trace
          ++ (if rd event.data 2 = 0x02 ∧ rd event.data 7 &&& 0x01 = 0 then
                [ll_event_sensor_id bmc event] else []) := by
    unfold ll_event_sensor
    dsimp only
    by_cases hc : rd event.data 2 = 0x02 ∧ rd event.data 7 &&& 0x01 = 0
    · rw [if_pos hc, if_pos hc]
      unfold ipmi_sensor_pointer_cb
      dsimp only
      cases hs : env.sensor_lookup (ll_event_sensor_id bmc event) with
      | none =>
        refine ⟨_, _, rfl, a1, a2, a3, ?_⟩
        simp [mc_world.emit, sensor_lookups_append, sensor_lookups, a4]
      | some sensor =>
        refine ⟨_, _, rfl, a1, a2, a3, ?_⟩
        simp [mc_world.emit, sensor_lookups_append, sensor_lookups, a4]
    · rw [if_neg hc, if_neg hc]
      exact ⟨w1, 1, rfl, a1, a2, a3, by simp [a4]⟩
  obtain ⟨w2, rv, e2, b1, b2, b3, b4⟩ := h2
  unfold ll_event_handler
  dsimp only
  rw [e1]
  simp only [Bool.false_eq_true, if_false]
  rw [e2]
  dsimp only
  by_cases hrv : rv ≠ 0
  · rw [if_pos hrv]
    have hl2 : dll (fun p => (w2.evh p).next) (fun p => (w2.evh p).prev) NULL
        (w2.bmc_of bmc).event_handlers l := by
      have : (w2.bmc_of bmc).event_handlers = (w.bmc_of bmc).event_handlers := by
        simp only [mc_world.bmc_of, b2, b3]
      rw [this, b1]
      exact hl
    rw [ll_event_fanout_spec bmc event l fuel w2 NULL _ hl2 hf]
    refine ⟨_, rfl, ?_⟩
    show sensor_lookups (w2.trace ++ _) = _
    rw [sensor_lookups_append, sensor_lookups_event_handlers
      (fun p => mc_effect.event_handler (w2.evh p).handler bmc event (w2.evh p).event_data)
      (fun p => rfl), List.append_nil, b4]
    rfl
  · rw [if_neg hrv]
    refine ⟨w2, rfl, ?_⟩
    rw [b4]
    rfl

/-- Witness of C20: in the sample state an MC-generated system event record is
looked up with the id made of its bytes, and an event of system software
(bit 0 of data[7] set) is not looked up. -/
theorem ll_event_handler_sensor_lookup_witness :
    (∃ w2, ll_event_handler sample_mc_env 3 (sample_mc_world 1 5 .OPERATIONAL)
        (sample_event [0, 0, 2, 0, 0, 0, 0, 0x20, 0x52, 0, 0, 5]) 100 = some w2
      ∧ sensor_lookups w2.trace
        = [{ bmc := 100, channel := 5, mc_num := 0x20, lun := 2, sensor_num := 5 }])
    ∧ (∃ w2, ll_event_handler sample_mc_env 3 (sample_mc_world 1 5 .OPERATIONAL)
        (sample_event [0, 0, 2, 0, 0, 0, 0, 0x21, 0x52, 0, 0, 5]) 100 = some w2
      ∧ sensor_lookups w2.trace = []) :=
  ⟨ll_event_handler_sensor_lookup sample_mc_env 3 (sample_mc_world 1 5 .OPERATIONAL)
      (sample_event [0, 0, 2, 0, 0, 0, 0, 0x20, 0x52, 0, 0, 5]) 100 [61, 62] (by decide)
      (by decide) (Or.inl (by decide)),
   ll_event_handler_sensor_lookup sample_mc_env 3 (sample_mc_world 1 5 .OPERATIONAL)
      (sample_event [0, 0, 2, 0, 0, 0, 0, 0x21, 0x52, 0, 0, 5]) 100 [61, 62] (by decide)
      (by decide) (Or.inl (by decide))⟩

/-! ## Theorems: the run of the bus scan -/

theorem scan_same_refl (info : Ptr) (w : mc_world) : scan_same info w w := ⟨rfl, rfl, rfl⟩

theorem scan_same_trans {info : Ptr} {w1 w2 w3 : mc_world} (h1 : scan_same info w1 w2)
    (h2 : scan_same info w2 w3) : scan_same info w1 w3 :=
  ⟨h2.1.trans h1.1, h2.2.1.trans h1.2.1, h2.2.2.trans h1.2.2⟩

theorem scan_same_sdr_fetch (env : mc_env) (info : Ptr) (w : mc_world) (sdrs : Ptr)
    (h : mc_fn) (cb : Ptr) : scan_same info w (ipmi_sdr_fetch env w sdrs h cb).1 := by
  unfold ipmi_sdr_fetch
  dsimp only
  split_ifs <;>
    simp [scan_same, mc_world.emit, scan_sends_append, scan_sends, scan_completion,
      List.count_append]

theorem scan_same_create_mc (env : mc_env) (info : Ptr) (w : mc_world) (bmc : Ptr)
    (addr : ipmi_addr_t) (addr_len : Nat) :
    scan_same info w (ipmi_create_mc env w bmc addr addr_len).1 := by
  unfold ipmi_create_mc mc_world.ask_ptr ipmi_cleanup_mc
  dsimp only
  split_ifs <;>
    simp [scan_same, mc_store, mc_world.call, mc_world.emit, scan_sends_append, scan_sends]

theorem scan_same_found (env : mc_env) (info : Ptr) (w : mc_world) (addr : ipmi_addr_t)
    (addr_len : Nat) (msg : ipmi_msg_t) :
    scan_same info w (devid_bc_found env w info addr addr_len msg).1 := by
  have hc := scan_same_create_mc env info w (w.scan info).bmc addr addr_len
  unfold devid_bc_found
  dsimp only
  generalize ipmi_create_mc env w (w.scan info).bmc addr addr_len = r at hc
  obtain ⟨w1, rv, mc⟩ := r
  dsimp only at hc ⊢
  by_cases h0 : rd msg.data 0 = 0
  · rw [if_pos h0]
    by_cases h1 : find_mc_by_addr env.addr_equal w.heap (w.scan info).bmc addr addr_len = NULL
    · rw [if_pos h1]
      by_cases h2 : rv ≠ 0
      · rw [if_pos h2]
        refine scan_same_trans hc ?_
        simp [scan_same, mc_world.call, mc_world.emit, scan_sends_append, scan_sends]
      · rw [if_neg h2]
        refine scan_same_trans hc ?_
        generalize get_device_id_data_from_rsp env.err_val env.oem_call env.oem_handlers
          (w1.mc mc) msg = d
        by_cases h3 : d.rv ≠ 0
        · rw [if_pos h3]
          exact ⟨rfl, rfl, rfl⟩
        · rw [if_neg h3]
          unfold mc_world.ask_ptr ipmi_cleanup_mc
          dsimp only
          by_cases h4 : env.rv (mc_store w1 mc fun _ => d.mc).trace.length = 0
          · simp only [h4, if_true]
            have hs := scan_same_sdr_fetch env info
              (mc_store ((mc_store w1 mc fun _ => d.mc).call .ipmi_sdr_alloc [mc, 0, 1]) mc
                (fun m => { m with
                  sdrs := env.ptr (mc_store w1 mc fun _ => d.mc).trace.length }))
              ((mc_store ((mc_store w1 mc fun _ => d.mc).call .ipmi_sdr_alloc [mc, 0, 1]) mc
                (fun m => { m with
                  sdrs := env.ptr (mc_store w1 mc fun _ => d.mc).trace.length })).mc mc).sdrs
              .mc_sdr_handler mc
            have hb : scan_same info w1
                (mc_store ((mc_store w1 mc fun _ => d.mc).call .ipmi_sdr_alloc [mc, 0, 1]) mc
                  (fun m => { m with
                    sdrs := env.ptr (mc_store w1 mc fun _ => d.mc).trace.length })) := by
              simp [scan_same, mc_store, mc_world.call, mc_world.emit, scan_sends_append,
                scan_sends]
            have hsb := scan_same_trans hb hs
            split_ifs
            · refine scan_same_trans hsb ?_
              simp [scan_same, mc_world.call, mc_world.emit, scan_sends_append, scan_sends]
            · exact hsb
          · have h4b : ¬ env.rv w1.trace.length = 0 := h4
            simp [scan_same, mc_store, mc_world.call, mc_world.emit, scan_sends_append,
              scan_sends, h4b]
    · rw [if_neg h1]
      exact scan_same_refl _ _
  · rw [if_neg h0]
    exact scan_same_refl _ _

theorem scan_inv_of_same {info : Ptr} {w w2 : mc_world} {r : Int} (h : scan_inv info w r)
    (hs : scan_same info w w2) : scan_inv info w2 r := by
  unfold scan_inv at h ⊢
  rw [hs.1, hs.2.1]
  exact h

theorem scan_done_of_inv {info : Ptr} {w : mc_world} (w2 : mc_world) {r : Int} (hinv : scan_inv info w r)
    (hs : scan_sends info w2.trace = scan_sends info w.trace)
    (hc : w2.outstanding.count (scan_completion info) = 0)
    (hr : r ≠ 0 → (w.scan info).addr.slave_addr = 0xef) : scan_done info w2 := by
  obtain ⟨⟨S, h1, h2⟩, _⟩ := hinv
  refine ⟨?_, hc, ?_⟩
  · rw [hs, h1]; exact h2
  · intro a r2 hl hne
    rw [hs, h1, List.getLast?_concat] at hl
    simp only [Option.some.injEq, Prod.mk.injEq] at hl
    obtain ⟨e1, e2⟩ := hl
    rw [← e1]
    exact hr (e2 ▸ hne)

theorem scan_sends_call (info : Ptr) (w : mc_world) (f : mc_ext) (args : List Nat) :
    scan_sends info (w.call f args).trace = scan_sends info w.trace := by
  simp [mc_world.call, mc_world.emit, scan_sends_append, scan_sends]

/-- One call of `devid_bc_rsp_handler`, for the one outstanding response of a
scan whose last request was accepted: the handler returns, and either the scan
is under way again, with a request for a greater address outstanding, or it has
ended. -/
theorem devid_bc_rsp_handler_spec (env : mc_env) (fuel : Nat) (w : mc_world)
    (addr : ipmi_addr_t) (addr_len : Nat) (msg : ipmi_msg_t) (info : Ptr) (hf : 0xe0 ≤ fuel)
    (hinv : scan_inv info w 0) (hc : w.outstanding.count (scan_completion info) = 0) :
    ∃ w2, devid_bc_rsp_handler env fuel w addr addr_len msg info = some w2
      ∧ ((scan_live info w2
          ∧ (w.scan info).addr.slave_addr < (w2.scan info).addr.slave_addr)
        ∨ scan_done info w2) := by
  have hs := scan_same_found env info w addr addr_len msg
  unfold devid_bc_rsp_handler
  dsimp only
  generalize devid_bc_found env w info addr addr_len msg = r at hs
  obtain ⟨w1, gave_up⟩ := r
  dsimp only at hs ⊢
  have hinv1 : scan_inv info w1 0 := scan_inv_of_same hinv hs
  have hc1 : w1.outstanding.count (scan_completion info) = 0 := hs.2.2.trans hc
  have hrange := scan_inv_range hinv1
  have haddr : (w1.scan info).addr.slave_addr = (w.scan info).addr.slave_addr := by rw [hs.1]
  cases gave_up with
  | true =>
    simp only [if_true]
    refine ⟨_, rfl, Or.inr ?_⟩
    exact scan_done_of_inv w1 hinv1 rfl hc1 (fun h => absurd rfl h)
  | false =>
    simp only [Bool.false_eq_true, if_false]
    have hnext : ((ipmb_scan_next_addr w1 info).scan info).addr.slave_addr
        = (w1.scan info).addr.slave_addr + 1 := by
      simp only [ipmb_scan_next_addr, mc_world.set_scan, Function.update_same]
      omega
    by_cases hend : ((ipmb_scan_next_addr w1 info).scan info).addr.slave_addr = 0xf0
    · rw [if_pos hend]
      refine ⟨_, rfl, Or.inr ?_⟩
      refine scan_done_of_inv ((ipmb_scan_next_addr w1 info).call .free [info]) hinv1 ?_ hc1
        (fun h => absurd rfl h)
      rw [scan_sends_call]
      rfl
    · rw [if_neg hend]
      have ha : (w1.scan info).addr.slave_addr < 0xef := by
        rw [hnext] at hend
        omega
      obtain ⟨t1, t2, t3, _, _⟩ := ipmb_scan_step_spec env
        ((ipmb_scan_next_addr w1 info).scan info).bmc info w1 0 hinv1 ha
      obtain ⟨w2, rv2, g0, g1, g2, g3, g3b, g4, _, _⟩ := ipmb_scan_retry_spec env
        ((ipmb_scan_next_addr w1 info).scan info).bmc info fuel _ _ t1 (by rw [t2]; omega)
      rw [g0]
      dsimp only
      rw [t3, hc1] at g4
      by_cases hrv : rv2 = 0
      · subst hrv
        simp only [ne_eq, not_true_eq_false, if_false]
        refine ⟨w2, rfl, Or.inl ⟨⟨g1, ?_⟩, ?_⟩⟩
        · rw [g4]
          by_cases h1 : (ipmb_scan_send env (ipmb_scan_next_addr w1 info)
              ((ipmb_scan_next_addr w1 info).scan info).bmc info).2 = 0
          · simp [h1]
          · simp [h1]
        · rw [t2] at g3
          omega
      · simp only [ne_eq, hrv, not_false_eq_true, if_true]
        refine ⟨_, rfl, Or.inr ?_⟩
        refine scan_done_of_inv (w2.call .free [info]) g1 (scan_sends_call info w2 _ _) ?_ g2
        show w2.outstanding.count (scan_completion info) = 0
        rw [g4]
        have h1 : ¬ (ipmb_scan_send env (ipmb_scan_next_addr w1 info)
            ((ipmb_scan_next_addr w1 info).scan info).bmc info).2 = 0 :=
          fun h => hrv (g3b h)
        simp [h1, hrv]

/-- The function `start_ipmb_mc_scan`, when the allocation succeeds and gives a
record no request has been made for: the function returns, and either the scan
is under way or it has ended. -/
theorem start_ipmb_mc_scan_spec (env : mc_env) (fuel : Nat) (w : mc_world) (bmc : Ptr)
    (channel : Nat) (hf : 0xe0 ≤ fuel) (hnn : env.ptr w.trace.length ≠ NULL)
    (hfresh : scan_sends (env.ptr w.trace.length) w.trace = [])
    (hout : w.outstanding.count (scan_completion (env.ptr w.trace.length)) = 0) :
    ∃ w1, start_ipmb_mc_scan env fuel w bmc channel = some w1
      ∧ (scan_live (env.ptr w.trace.length) w1 ∨ scan_done (env.ptr w.trace.length) w1) := by
  unfold start_ipmb_mc_scan mc_world.ask_ptr
  simp only [hnn, if_false]
  generalize hw1 : (w.call .malloc []).set_scan (env.ptr w.trace.length)
    { bmc := bmc
      addr :=
        { addr_type := IPMI_IPMB_BROADCAST_ADDR_TYPE, channel := channel, slave_addr := 0x10,
          lun := 0 }
      msg :=
        { netfn := IPMI_APP_NETFN, cmd := IPMI_GET_DEVICE_ID_CMD, data := [], data_len := 0 } }
    = w1
  generalize hinfo : env.ptr w.trace.length = info at *
  have hmsg : (w1.scan info).msg.netfn = IPMI_APP_NETFN
      ∧ (w1.scan info).msg.cmd = IPMI_GET_DEVICE_ID_CMD := by
    rw [← hw1]; simp [mc_world.set_scan]
  have haddr : (w1.scan info).addr.slave_addr = 0x10 := by
    rw [← hw1]; simp [mc_world.set_scan]
  have hsends : scan_sends info w1.trace = [] := by
    rw [← hw1]
    show scan_sends info (w.call .malloc []).trace = []
    rw [scan_sends_call, hfresh]
  have hout1 : w1.outstanding.count (scan_completion info) = 0 := by
    rw [← hw1]; exact hout
  obtain ⟨s1, s2, s3, s4, _⟩ := ipmb_scan_send_spec env w1 bmc info hmsg
  have hinv : scan_inv info (ipmb_scan_send env w1 bmc info).1
      (ipmb_scan_send env w1 bmc info).2 := by
    refine ⟨⟨[], ?_, ?_⟩, by rw [s2]; exact hmsg⟩
    · rw [s3, hsends, s2, s1]
    · rw [s2, haddr]
      exact scan_seq.first _
  obtain ⟨w2, rv2, g0, g1, g2, _, g3b, g4, _, _⟩ := ipmb_scan_retry_spec env bmc info fuel _ _
    hinv (by rw [s2, haddr]; omega)
  rw [g0]
  dsimp only
  have hcnt : (ipmb_scan_send env w1 bmc info).1.outstanding.count (scan_completion info)
      = if (ipmb_scan_send env w1 bmc info).2 = 0 then 1 else 0 := by
    rw [s4, s1, List.count_append, hout1]
    split_ifs <;> simp
  rw [hcnt] at g4
  by_cases hrv : rv2 = 0
  · subst hrv
    simp only [ne_eq, not_true_eq_false, if_false]
    refine ⟨w2, rfl, Or.inl ⟨g1, ?_⟩⟩
    rw [g4]
    by_cases h1 : (ipmb_scan_send env w1 bmc info).2 = 0
    · simp [h1]
    · simp [h1]
  · simp only [ne_eq, hrv, not_false_eq_true, if_true]
    refine ⟨_, rfl, Or.inr ?_⟩
    refine scan_done_of_inv (w2.call .free [info]) g1 (scan_sends_call info w2 _ _) ?_ g2
    show w2.outstanding.count (scan_completion info) = 0
    rw [g4]
    have h1 : ¬ (ipmb_scan_send env w1 bmc info).2 = 0 := fun h => hrv (g3b h)
    simp [h1, hrv]

/-- The run of the scan ends: with enough rounds, from a scan under way or
ended, the run returns a state in which the scan has ended. -/
theorem ipmb_scan_run_spec (env : mc_env) (rsp : Nat → ipmi_recv_t) (info : Ptr) (fuel : Nat)
    (hf : 0xe0 ≤ fuel) :
    ∀ (n : Nat) (w : mc_world),
      (scan_live info w ∧ 0xf0 - (w.scan info).addr.slave_addr < n) ∨ (scan_done info w ∧ 0 < n) →
      ∃ w2, ipmb_scan_run env rsp info fuel n w = some w2 ∧ scan_done info w2 := by
  intro n
  induction n with
  | zero =>
    intro w h
    rcases h with ⟨_, h⟩ | ⟨_, h⟩ <;> omega
  | succ n ih =>
    intro w h
    unfold ipmb_scan_run
    rcases h with ⟨⟨hinv, hcnt⟩, hn⟩ | ⟨hd, _⟩
    · have hmem : scan_completion info ∈ w.outstanding := by
        rw [← List.count_pos_iff]; omega
      rw [if_pos hmem]
      dsimp only
      have hinv2 : scan_inv info (w.complete (scan_completion info)) 0 := hinv
      have hc2 : (w.complete (scan_completion info)).outstanding.count (scan_completion info)
          = 0 := by
        show (w.outstanding.erase (scan_completion info)).count (scan_completion info) = 0
        rw [List.count_erase_self, hcnt]
      obtain ⟨w2, h0, h1⟩ := devid_bc_rsp_handler_spec env fuel _ (rsp w.trace.length).addr
        (rsp w.trace.length).addr_len (rsp w.trace.length).msg info hf hinv2 hc2
      rw [h0]
      dsimp only
      have hrange := scan_inv_range hinv
      apply ih
      rcases h1 with ⟨hl, hlt⟩ | hd
      · left
        refine ⟨hl, ?_⟩
        have : ((w.complete (scan_completion info)).scan info).addr.slave_addr
            = (w.scan info).addr.slave_addr := rfl
        rw [this] at hlt
        omega
      · right
        exact ⟨hd, by omega⟩
    · have hnm : ¬ scan_completion info ∈ w.outstanding := by
        rw [← List.count_pos_iff, hd.2.1]; omega
      rw [if_neg hnm]
      exact ⟨w, rfl, hd⟩

theorem scan_seq_length {L : List (Nat × Int)} (h : L.Pairwise (fun x y => x.1 < y.1)) :
    ∀ lo hi, (∀ x ∈ L, lo ≤ x.1 ∧ x.1 ≤ hi) → L.length ≤ hi + 1 - lo := by
  induction L with
  | nil => intro lo hi _; simp
  | cons x xs ih =>
    intro lo hi hb
    rw [List.pairwise_cons] at h
    have hx := hb x (List.mem_cons_self _ _)
    have := ih h.2 (x.1 + 1) hi (fun y hy =>
      ⟨h.1 y hy, (hb y (List.mem_cons_of_mem _ hy)).2⟩)
    simp only [List.length_cons]
    omega

/-- C18: for every channel, every pattern of send results (`env.rv`) and every
sequence of responses and timeouts handed to the handler (`rsp`), the bus scan
that `start_ipmb_mc_scan` starts (when its allocation succeeds, with a record
no request has been made for) and that `devid_bc_rsp_handler` continues comes
to an end: both functions return every time, and at the end no response of the
scan is outstanding. The requests the scan has then made, in order, start at
the slave address 0x10, lie in 0x10..0xEF, have strictly increasing addresses
(none is attempted twice, none is for 0xF0 or beyond), and are at most 0xE0;
after a failed request the next request is for the very next address, and if
the last request failed it was for 0xEF. -/
theorem ipmb_scan_terminates (env : mc_env) (rsp : Nat → ipmi_recv_t) (fuel n : Nat)
    (w : mc_world) (bmc : Ptr) (channel : Nat) (hf : 0xe0 ≤ fuel) (hn : 0xe0 < n)
    (hnn : env.ptr w.trace.length ≠ NULL)
    (hfresh : scan_sends (env.ptr w.trace.length) w.trace = [])
    (hout : w.outstanding.count (scan_completion (env.ptr w.trace.length)) = 0) :
    ∃ w1 w2, start_ipmb_mc_scan env fuel w bmc channel = some w1
      ∧ ipmb_scan_run env rsp (env.ptr w.trace.length) fuel n w1 = some w2
      ∧ w2.outstanding.count (scan_completion (env.ptr w.trace.length)) = 0
      ∧ (scan_sends (env.ptr w.trace.length) w2.trace).head?.map Prod.fst = some 0x10
      ∧ (∀ x ∈ scan_sends (env.ptr w.trace.length) w2.trace, 0x10 ≤ x.1 ∧ x.1 ≤ 0xef)
      ∧ (scan_sends (env.ptr w.trace.length) w2.trace).Pairwise (fun x y => x.1 < y.1)
      ∧ (scan_sends (env.ptr w.trace.length) w2.trace).length ≤ 0xe0
      ∧ (scan_sends (env.ptr w.trace.length) w2.trace).Chain'
          (fun x y => x.2 ≠ 0 → y.1 = x.1 + 1)
      ∧ (∀ a r, (scan_sends (env.ptr w.trace.length) w2.trace).getLast? = some (a, r) →
          r ≠ 0 → a = 0xef) := by
  obtain ⟨w1, h0, h1⟩ := start_ipmb_mc_scan_spec env fuel w bmc channel hf hnn hfresh hout
  have hstart : (scan_live (env.ptr w.trace.length) w1
        ∧ 0xf0 - (w1.scan (env.ptr w.trace.length)).addr.slave_addr < n)
      ∨ (scan_done (env.ptr w.trace.length) w1 ∧ 0 < n) := by
    rcases h1 with h | h
    · left
      have := scan_inv_range h.1
      exact ⟨h, by omega⟩
    · right
      exact ⟨h, by omega⟩
  obtain ⟨w2, h2, hseq, hcnt, hlast⟩ :=
    ipmb_scan_run_spec env rsp (env.ptr w.trace.length) fuel hf n w1 hstart
  obtain ⟨p1, p2, p3, p4, _⟩ := scan_seq_props hseq
  refine ⟨w1, w2, h0, h2, hcnt, p3, p2, p1, ?_, p4, hlast⟩
  have := scan_seq_length p1 0x10 0xef p2
  omega

/-- Witness of C18: in the sample state, with every request accepted and every
response a refusal, the scan ends after at most 0xE0 requests, the first of
them for 0x10. -/
theorem ipmb_scan_terminates_witness :
    ∃ w1 w2, start_ipmb_mc_scan sample_mc_env 0xe0 (sample_mc_world 1 5 .OPERATIONAL) 100 0
        = some w1
      ∧ ipmb_scan_run sample_mc_env (fun _ => sample_cmd_recv 7 1) 1000 0xe0 0xe1 w1 = some w2
      ∧ w2.outstanding.count (scan_completion 1000) = 0
      ∧ (scan_sends 1000 w2.trace).head?.map Prod.fst = some 0x10
      ∧ (scan_sends 1000 w2.trace).length ≤ 0xe0 := by
  obtain ⟨w1, w2, h0, h1, h2, h3, _, _, h4, _⟩ := ipmb_scan_terminates sample_mc_env
    (fun _ => sample_cmd_recv 7 1) 0xe0 0xe1 (sample_mc_world 1 5 .OPERATIONAL) 100 0
    (by decide) (by decide) (by decide) (by decide) (by decide)
  exact ⟨w1, w2, h0, h1, h2, h3, h4⟩

/-! ## Theorems: the steps of discovery -/

theorem bmc_store_bmc_at (w : mc_world) (mc b : Ptr) (f : ipmi_bmc_t → ipmi_bmc_t)
    (hb : (w.mc mc).bmc = b) : (bmc_store w mc f).bmc b = f (w.bmc b) := by
  simp [bmc_store, mc_world.bmc_of, mc_world.set_bmc, hb]

/-- C22: for every satellite MC (an MC whose `bmc_mc` is another MC),
`ipmi_close_connection` returns EINVAL and leaves the state as it was: nothing
is added to the trace (no SDR set, sensor set or control set is destroyed and
the connection's `close_connection` is not called), and the event handlers of
every BMC are as they were. -/
theorem ipmi_close_connection_satellite (env : mc_env) (fuel : Nat) (w : mc_world) (mc : Ptr)
    (h : (w.mc mc).bmc_mc ≠ mc) :
    ipmi_close_connection env fuel w mc = some (w, EINVAL) ∧ EINVAL = 22 := by
  unfold ipmi_close_connection
  rw [if_pos h]
  exact ⟨rfl, rfl⟩

/-- Witness of C22: in the sample state the MC at 101 names the MC at 100 as
its BMC, and closing the connection through it returns EINVAL with nothing
done. -/
theorem ipmi_close_connection_satellite_witness :
    ((sample_mc_world 1 5 .OPERATIONAL).mc 101).bmc_mc ≠ 101
    ∧ ipmi_close_connection sample_mc_env 3 (sample_mc_world 1 5 .OPERATIONAL) 101
        = some (sample_mc_world 1 5 .OPERATIONAL, EINVAL) :=
  ⟨by decide,
   (ipmi_close_connection_satellite sample_mc_env 3 (sample_mc_world 1 5 .OPERATIONAL) 101
      (by decide)).1⟩

/-! ## Theorems: the two channel probes -/

/-- C24: for k = 1 and protocol 1, from the all-zero table, the probe of
`chan_info_rsp_handler` (a successful response for channel 0 that encodes
medium 1, xmit_support 1, recv_lun 0, protocol 1, session_support 0, vendor id
bytes F2 1B 00, aux_info 0, then an error response for channel 1) and the
synthesis of `finish_mc_handling` (type-0x14 SDR with data[0] = 1, data[1..7]
= 0, data[8] = data[9] = 0xFF) agree on the interrupt types and on slots 1..7,
but not on slot 0: the probe leaves vendor_id 1 there, the synthesis
0x001bf2. -/
theorem chan_probes_differ_in_vendor_id :
    ((chan_info_rsp_handler sample_mc_env 0xe0 (sample_mc_world 1 5 .QUERYING_CHANNEL_INFO)
        100 (sample_chan_ok_rsp 0 1) 0).bind
      (fun w1 => chan_info_rsp_handler sample_mc_env 0xe0 w1 100 (sample_chan_rsp [0xcc]) 1)).map
      (fun w => ((w.bmc_of 100).chan, (w.bmc_of 100).msg_int_type,
        (w.bmc_of 100).event_msg_int_type))
      = some
        ({ medium := 1, xmit_support := 1, recv_lun := 0, protocol := 1,
           session_support := 0, vendor_id := 1, aux_info := 0 }
          :: List.replicate 7 chan_zero, 0xff, 0xff)
    ∧ (finish_mc_handling sample_mc_env 0xe0
        (sample_mc_world_sdrs 1 0
          [sample_chan_sdr [1, 0, 0, 0, 0, 0, 0, 0, 0xff, 0xff, 0]] []) 100).map
      (fun r => ((r.1.bmc_of 100).chan, (r.1.bmc_of 100).msg_int_type,
        (r.1.bmc_of 100).event_msg_int_type))
      = some
        ({ medium := 1, xmit_support := 1, recv_lun := 0, protocol := 1,
           session_support := 0, vendor_id := 0x001bf2, aux_info := 0 }
          :: List.replicate 7 chan_zero, 0xff, 0xff) := by
  refine ⟨by decide, by decide⟩

/-! ## Theorems: the release of pending commands on close -/

/-- C26: closing the sample connection, whose pending commands 31 and 32 have
the timers 91 and 92 running, when the timer of 31 cannot be cancelled and that
of 32 can: close releases the record 31 (and marks it cancelled), so that with
the timer callback that follows the record is released twice; the record 32,
whose timer is cancelled (no callback follows), is never released. -/
theorem smi_close_connection_release_inverted :
    pending_cmds_are sample_world_timers 10 [31, 32]
    ∧ (smi_close_connection 3 sample_world_timers 20 (fun c => if c = 31 then 1 else 0)
        (fun _ => false)).map
      (fun r => (r.2, r.1.trace.count (.free 31), (r.1.cmd 31).cancelled, r.1.timers 91))
      = some (0, 1, 1, some 31)
    ∧ (smi_close_connection 3 sample_world_timers 20 (fun c => if c = 31 then 1 else 0)
        (fun _ => false)).map
      (fun r => (r.1.trace.count (.free 32), (r.1.cmd 32).cancelled, r.1.timers 92))
      = some (0, 0, none)
    ∧ ((smi_close_connection 3 sample_world_timers 20 (fun c => if c = 31 then 1 else 0)
        (fun _ => false)).bind
      (fun r => rsp_timeout_handler 3 r.1 31)).map
      (fun w => (w.trace.count (.free 31), w.trace.count (.free 32)))
      = some (2, 0) := by
  refine ⟨by decide, by decide, by decide, by decide⟩

/-! ## Theorems: the bytes a channel-info response must hold -/

/-- C28: a Get Channel Info response of exactly 8 bytes with completion code 0
is accepted by `chan_info_rsp_handler` (neither of its two tests rejects it),
but the reads of the entry include `data[8]` and `data[9]`: with checked reads
the parse fails, while with 10 bytes it gives the entry the handler stores. -/
theorem chan_info_rsp_handler_reads_past_len :
    (rd (sample_chan_rsp [0, 0, 0x81, 1, 0, 0xf2, 0x1b, 0]).data 0 = 0
      ∧ ¬ (sample_chan_rsp [0, 0, 0x81, 1, 0, 0xf2, 0x1b, 0]).data_len < 8)
    ∧ chan_info_from_rsp_checked (sample_chan_rsp [0, 0, 0x81, 1, 0, 0xf2, 0x1b, 0]) = none
    ∧ rd_checked (sample_chan_rsp [0, 0, 0x81, 1, 0, 0xf2, 0x1b, 0]) 7 = some 0
    ∧ rd_checked (sample_chan_rsp [0, 0, 0x81, 1, 0, 0xf2, 0x1b, 0]) 8 = none
    ∧ chan_info_from_rsp_checked (sample_chan_ok_rsp 0 1)
        = some (chan_info_from_rsp (sample_chan_ok_rsp 0 1)) := by
  refine ⟨by decide, by decide, by decide, by decide, by decide⟩

/-! ## Theorems: the command lock in the response path -/

/-- C30: in the sample state, where `cmd_lock` is not held (count 0) and the
commands 31 and 32 are pending, `handle_response` for the token 31 returns with
the count at -1, whether the timer could be cancelled or not: the found path
releases the lock twice for one acquisition. For the token 99, which is not
pending, the count is 0 again on return. -/
theorem handle_response_unlocks_twice :
    (sample_world.smi 10).cmd_lock = 0
    ∧ (handle_response 3 sample_world 20 (sample_recv 31) 0).map
        (fun w => (w.smi 10).cmd_lock) = some (-1)
    ∧ (handle_response 3 sample_world 20 (sample_recv 31) 1).map
        (fun w => (w.smi 10).cmd_lock) = some (-1)
    ∧ (handle_response 3 sample_world 20 (sample_recv 99) 0).map
        (fun w => (w.smi 10).cmd_lock) = some 0 := by
  refine ⟨by decide, by decide, by decide, by decide⟩

/-! ## Theorems: the vendor id of a channel -/

theorem bmc_store_chan (w : mc_world) (mc : Ptr) (f : ipmi_bmc_t → ipmi_bmc_t)
    (hf : ∀ b, (f b).chan = b.chan) (p : Ptr) :
    ((bmc_store w mc f).bmc p).chan = (w.bmc p).chan := by
  by_cases hp : p = (w.mc mc).bmc
  · subst hp
    rw [bmc_store_bmc_at w mc _ f rfl]
    exact hf _
  · rw [bmc_store_other w mc f p hp]

theorem mc_remove_event_handler_chan (fuel : Nat) (w : mc_world) (mc ev : Ptr)
    (r : mc_world × Int) (h : mc_remove_event_handler fuel w mc ev = some r) :
    r.1.mc = w.mc ∧ ∀ p, (r.1.bmc p).chan = (w.bmc p).chan := by
  unfold mc_remove_event_handler at h
  cases hl : mc_remove_event_handler_loop w ev fuel (w.bmc_of mc).event_handlers with
  | none => rw [hl] at h; exact absurd h (by simp)
  | some e =>
    rw [hl] at h
    dsimp only at h
    generalize hw1 : (if (w.evh ev).next ≠ NULL then
        w.set_evh (w.evh ev).next { w.evh (w.evh ev).next with prev := (w.evh ev).prev }
      else w) = w1 at h
    have p1 : w1.mc = w.mc ∧ w1.bmc = w.bmc := by
      rw [← hw1]; split_ifs <;> exact ⟨rfl, rfl⟩
    by_cases he : e = NULL
    · rw [if_pos he] at h
      cases h
      exact ⟨rfl, fun _ => rfl⟩
    · rw [if_neg he] at h
      simp only [Option.some.injEq] at h
      subst h
      by_cases hp : (w1.evh ev).prev ≠ NULL
      · rw [if_pos hp]
        exact ⟨p1.1, fun p => by rw [← p1.2]; rfl⟩
      · rw [if_neg hp]
        exact ⟨p1.1, fun p => (bmc_store_chan w1 mc
          (fun b => { b with event_handlers := (w1.evh ev).next }) (fun _ => rfl) p).trans
          (by rw [p1.2])⟩

theorem ipmi_close_connection_loop_chan (mc : Ptr) :
    ∀ (fuel : Nat) (w w2 : mc_world), ipmi_close_connection_loop mc fuel w = some w2 →
      w2.mc = w.mc ∧ ∀ p, (w2.bmc p).chan = (w.bmc p).chan := by
  intro fuel
  induction fuel with
  | zero => intro w w2 h; simp [ipmi_close_connection_loop] at h
  | succ n ih =>
    intro w w2 h
    unfold ipmi_close_connection_loop at h
    split_ifs at h with hc
    · cases hr : mc_remove_event_handler (n + 1) w mc (w.bmc_of mc).event_handlers with
      | none => rw [hr] at h; exact absurd h (by simp)
      | some r =>
        rw [hr] at h
        obtain ⟨a1, a2⟩ := mc_remove_event_handler_chan _ _ _ _ r hr
        obtain ⟨b1, b2⟩ := ih r.1 w2 h
        exact ⟨b1.trans a1, fun p => (b2 p).trans (a2 p)⟩
    · simp only [Option.some.injEq] at h
      subst h
      exact ⟨rfl, fun _ => rfl⟩

theorem cond_call_chan (w : mc_world) (c : Prop) [Decidable c] (f : mc_ext) (args : List Nat) :
    (if c then w.call f args else w).mc = w.mc
    ∧ (if c then w.call f args else w).bmc = w.bmc := by
  split_ifs <;> exact ⟨rfl, rfl⟩

theorem ipmi_close_connection_chan (env : mc_env) (fuel : Nat) (w : mc_world) (mc : Ptr)
    (r : mc_world × Int) (h : ipmi_close_connection env fuel w mc = some r) :
    r.1.mc = w.mc ∧ ∀ p, (r.1.bmc p).chan = (w.bmc p).chan := by
  unfold ipmi_close_connection at h
  by_cases h1 : (w.mc mc).bmc_mc ≠ mc
  · rw [if_pos h1] at h
    cases h; exact ⟨rfl, fun _ => rfl⟩
  rw [if_neg h1] at h
  dsimp only at h
  by_cases h2 : ipmi_mc_validate env.validate w.heap mc ≠ 0
  · rw [if_pos h2] at h
    cases h; exact ⟨rfl, fun _ => rfl⟩
  rw [if_neg h2] at h
  · generalize hw1 : (if (w.mc mc).sdrs ≠ NULL then w.call .ipmi_sdr_destroy [(w.mc mc).sdrs]
      else w) = w1 at h
    have p1 : w1.mc = w.mc ∧ w1.bmc = w.bmc := by rw [← hw1]; exact cond_call_chan w _ _ _
    generalize hw2 : (if (w1.mc mc).sensors ≠ NULL then
      w1.call .ipmi_sensors_destroy [(w1.mc mc).sensors] else w1) = w2 at h
    have p2 : w2.mc = w1.mc ∧ w2.bmc = w1.bmc := by rw [← hw2]; exact cond_call_chan w1 _ _ _
    generalize hw3 : (if (w2.mc mc).controls ≠ NULL then
      w2.call .ipmi_controls_destroy [(w2.mc mc).controls] else w2) = w3 at h
    have p3 : w3.mc = w2.mc ∧ w3.bmc = w2.bmc := by rw [← hw3]; exact cond_call_chan w2 _ _ _
    generalize hw4 : (if (w3.bmc_of mc).main_sdrs ≠ NULL then
      w3.call .ipmi_sdr_destroy [(w3.bmc_of mc).main_sdrs] else w3) = w4 at h
    have p4 : w4.mc = w3.mc ∧ w4.bmc = w3.bmc := by rw [← hw4]; exact cond_call_chan w3 _ _ _
    cases hl : ipmi_close_connection_loop mc fuel w4 with
    | none => rw [hl] at h; exact absurd h (by simp)
    | some w5 =>
      rw [hl] at h
      simp only [Option.some.injEq] at h
      subst h
      obtain ⟨c1, c2⟩ := ipmi_close_connection_loop_chan mc fuel w4 w5 hl
      have hmc : w4.mc = w.mc := p4.1.trans (p3.1.trans (p2.1.trans p1.1))
      have hbmc : w4.bmc = w.bmc := p4.2.trans (p3.2.trans (p2.2.trans p1.2))
      refine ⟨?_, fun p => ?_⟩
      · show w5.mc = w.mc
        exact c1.trans hmc
      · show (w5.bmc p).chan = _
        rw [c2 p, hbmc]

theorem setup_cb_and_close_chan (env : mc_env) (fuel : Nat) (w : mc_world) (mc : Ptr)
    (rv : Int) (w2 : mc_world) (h : setup_cb_and_close env fuel w mc rv = some w2) :
    w2.mc = w.mc ∧ ∀ p, (w2.bmc p).chan = (w.bmc p).chan := by
  unfold setup_cb_and_close at h
  dsimp only at h
  generalize hw1 : (if w.setup_cb (w.bmc_of mc).conn ≠ NULL then
    w.emit (.setup_cb (w.setup_cb (w.bmc_of mc).conn) mc (w.setup_cb_data (w.bmc_of mc).conn) rv)
    else w) = w1 at h
  have p1 : w1.mc = w.mc ∧ w1.bmc = w.bmc := by
    rw [← hw1]; split_ifs <;> exact ⟨rfl, rfl⟩
  cases hc : ipmi_close_connection env fuel w1 mc with
  | none => rw [hc] at h; exact absurd h (by simp)
  | some r =>
    rw [hc] at h
    simp only [Option.some.injEq] at h
    subst h
    obtain ⟨c1, c2⟩ := ipmi_close_connection_chan env fuel w1 mc r hc
    exact ⟨c1.trans p1.1, fun p => by rw [c2 p, p1.2]⟩

/-- C27: for every Get Channel Info response that `chan_info_rsp_handler`
accepts (completion code 0, at least 8 bytes), for a channel `curr` of the
table: whenever the handler returns, the `vendor_id` of slot `curr` is 1 if any
of data[5], data[6], data[7] is non-zero and 0 otherwise; it is at most 1, so
it is the 24-bit value data[5] | data[6]<<8 | data[7]<<16 only if that value is
0 or 1. The handler returns when the request for the next channel, if there is
one, is accepted. -/
theorem chan_info_rsp_handler_vendor_id (env : mc_env) (fuel : Nat) (w : mc_world) (mc : Ptr)
    (rsp : ipmi_msg_t) (curr : Nat) (hf : 0xe0 ≤ fuel) (hcc : rd rsp.data 0 = 0)
    (hlen : 8 ≤ rsp.data_len) (hcurr : curr < (w.bmc_of mc).chan.length) :
    (∀ w2, chan_info_rsp_handler env fuel w mc rsp curr = some w2 →
      ((w2.bmc_of mc).chan.getD curr chan_zero).vendor_id
        = (if rd rsp.data 5 ≠ 0 ∨ rd rsp.data 6 ≠ 0 ∨ rd rsp.data 7 ≠ 0 then 1 else 0)
      ∧ (((w2.bmc_of mc).chan.getD curr chan_zero).vendor_id
          = rd rsp.data 5 ||| (rd rsp.data 6 <<< 8) ||| (rd rsp.data 7 <<< 16) →
        rd rsp.data 5 ||| (rd rsp.data 6 <<< 8) ||| (rd rsp.data 7 <<< 16) ≤ 1))
    ∧ ((curr + 1 < MAX_IPMI_USED_CHANNELS →
          (env.addr_set_lun (w.mc mc).addr 0).1 = 0 ∧ env.rv w.trace.length = 0) →
        ∃ w2, chan_info_rsp_handler env fuel w mc rsp curr = some w2) := by
  have hv : (chan_info_from_rsp rsp).vendor_id
      = (if rd rsp.data 5 ≠ 0 ∨ rd rsp.data 6 ≠ 0 ∨ rd rsp.data 7 ≠ 0 then 1 else 0) := by
    simp [chan_info_from_rsp, Nat.shiftLeft_eq]
  have hrv : ¬ ((if rd rsp.data 0 ≠ 0 then env.err_val (rd rsp.data 0)
      else if rsp.data_len < 8 then EINVAL else 0) ≠ 0) := by
    have : ¬ rsp.data_len < 8 := by omega
    simp [hcc, this]
  -- the slot in the state the handler goes on with
  have hslot : ((set_chan w mc curr (chan_info_from_rsp rsp)).bmc_of mc).chan.getD curr
      chan_zero = chan_info_from_rsp rsp := by
    simp only [set_chan, bmc_store_bmc_of]
    rw [List.getD_eq_getElem?_getD, List.getElem?_set_self hcurr]
    rfl
  have hkeep : ∀ w2 : mc_world, w2.mc = (set_chan w mc curr (chan_info_from_rsp rsp)).mc →
      (∀ p, (w2.bmc p).chan = ((set_chan w mc curr (chan_info_from_rsp rsp)).bmc p).chan) →
      ((w2.bmc_of mc).chan.getD curr chan_zero).vendor_id
        = (if rd rsp.data 5 ≠ 0 ∨ rd rsp.data 6 ≠ 0 ∨ rd rsp.data 7 ≠ 0 then 1 else 0) := by
    intro w2 h1 h2
    have : (w2.bmc_of mc).chan
        = ((set_chan w mc curr (chan_info_from_rsp rsp)).bmc_of mc).chan := by
      simp only [mc_world.bmc_of, h1]
      exact h2 _
    rw [this, hslot, hv]
  constructor
  · intro w2 h
    have hval : ((w2.bmc_of mc).chan.getD curr chan_zero).vendor_id
        = (if rd rsp.data 5 ≠ 0 ∨ rd rsp.data 6 ≠ 0 ∨ rd rsp.data 7 ≠ 0 then 1 else 0) := by
      unfold chan_info_rsp_handler at h
      dsimp only at h
      rw [if_neg hrv] at h
      by_cases h3 : curr + 1 < MAX_IPMI_USED_CHANNELS
      · rw [if_pos h3] at h
        obtain ⟨s1, s2, _⟩ := ipmi_send_command_spec env
          (set_chan w mc curr (chan_info_from_rsp rsp)) mc 0
          { netfn := IPMI_APP_NETFN, cmd := IPMI_GET_CHANNEL_INFO_CMD,
            data := [to_uchar (curr + 1)], data_len := 1 } .chan_info_rsp_handler (curr + 1)
        split_ifs at h with h4
        · obtain ⟨c1, c2⟩ := setup_cb_and_close_chan env fuel _ mc _ w2 h
          exact hkeep w2 (c1.trans s1) (fun p => by rw [c2 p, s2])
        · simp only [Option.some.injEq] at h
          subst h
          exact hkeep _ s1 (fun p => by rw [s2])
      · rw [if_neg h3] at h
        obtain ⟨w3, h0, c1, c2, _⟩ := chan_info_done_spec env fuel
          (set_chan w mc curr (chan_info_from_rsp rsp)) mc hf
        rw [h0] at h
        simp only [Option.some.injEq] at h
        subst h
        have : (w3.bmc_of mc).chan
            = ((set_chan w mc curr (chan_info_from_rsp rsp)).bmc_of mc).chan := by
          rw [c2]
        rw [this, hslot, hv]
    refine ⟨hval, fun _ => ?_⟩
    rw [← ‹_ = rd rsp.data 5 ||| _ ||| _›, hval]
    split_ifs <;> decide
  · intro hsend
    unfold chan_info_rsp_handler
    dsimp only
    rw [if_neg hrv]
    by_cases h3 : curr + 1 < MAX_IPMI_USED_CHANNELS
    · obtain ⟨w2, h0, _⟩ := chan_info_rsp_handler_ok_spec env fuel w mc rsp curr hcc hlen h3
        (hsend h3).1 (hsend h3).2
      refine ⟨w2, ?_⟩
      rw [← h0]
      unfold chan_info_rsp_handler
      dsimp only
      rw [if_neg hrv]
    · rw [if_neg h3]
      obtain ⟨w3, h0, _⟩ := chan_info_done_spec env fuel
        (set_chan w mc curr (chan_info_from_rsp rsp)) mc hf
      exact ⟨w3, h0⟩

/-- Witness of C27: the sample response for channel 0 with the vendor id bytes
F2 1B 00 is accepted, the handler returns, and the vendor id it has stored is
1. -/
theorem chan_info_rsp_handler_vendor_id_witness :
    ∃ w2, chan_info_rsp_handler sample_mc_env 0xe0 (sample_mc_world 1 5 .QUERYING_CHANNEL_INFO)
        100 (sample_chan_ok_rsp 0 1) 0 = some w2
      ∧ ((w2.bmc_of 100).chan.getD 0 chan_zero).vendor_id = 1 := by
  have H := chan_info_rsp_handler_vendor_id sample_mc_env 0xe0
    (sample_mc_world 1 5 .QUERYING_CHANNEL_INFO) 100 (sample_chan_ok_rsp 0 1) 0 (by decide)
    (by decide) (by decide) (by decide)
  obtain ⟨w2, h⟩ := H.2 (fun _ => ⟨by decide, by decide⟩)
  exact ⟨w2, h, ((H.1 w2 h).1).trans (by decide)⟩

/-! ## Theorems: the channel SDR -/

theorem chan_sdr_data_length (w : mc_world) (bmc : Ptr) : (chan_sdr w bmc).data.length = 11 := by
  simp [chan_sdr]

theorem chan_sdr_data_lt (w : mc_world) (bmc : Ptr) (i : Nat) (hi : i < 8) :
    (chan_sdr w bmc).data.getD i 0 = chan_sdr_byte ((w.bmc_of bmc).chan.getD i chan_zero) := by
  have h8 : ((List.range 8).map
      (fun i => chan_sdr_byte ((w.bmc_of bmc).chan.getD i chan_zero))).length = 8 := by simp
  unfold chan_sdr
  dsimp only
  rw [List.getD_append _ _ _ _ (by rw [h8]; exact hi)]
  simp [List.getD_eq_getElem?_getD, List.getElem?_map, List.getElem?_range hi]

theorem chan_sdr_data_ge (w : mc_world) (bmc : Ptr) (i : Nat) :
    (chan_sdr w bmc).data.getD (8 + i) 0
      = [(w.bmc_of bmc).msg_int_type, (w.bmc_of bmc).event_msg_int_type, 0].getD i 0 := by
  have h8 : ((List.range 8).map
      (fun i => chan_sdr_byte ((w.bmc_of bmc).chan.getD i chan_zero))).length = 8 := by simp
  unfold chan_sdr
  dsimp only
  rw [List.getD_append_right _ _ _ _ (by rw [h8]; omega), h8]
  simp

theorem ipmi_bmc_store_entities_out_sdr_add (w : mc_world) (info stored : Ptr) (rv : Int) :
    (ipmi_bmc_store_entities_out w info stored rv).1.trace.filter is_sdr_add
      = w.trace.filter is_sdr_add := by
  unfold ipmi_bmc_store_entities_out
  split_ifs <;> simp [mc_world.call, mc_world.emit, List.filter_append, is_sdr_add]

/-- What `ipmi_bmc_store_entities` adds to the repository it has allocated, for
a BMC that passes the version test of the code. -/
theorem ipmi_bmc_store_entities_adds (env : mc_env) (w : mc_world) (bmc done cb_data : Ptr)
    (hbmc : (w.mc bmc).bmc_mc = bmc)
    (hv : (w.mc bmc).major_version ≤ 1 ∧ (w.mc bmc).minor_version < 5)
    (hinfo : env.ptr w.trace.length ≠ NULL) (halloc : env.rv (w.trace.length + 1) = 0) :
    (ipmi_bmc_store_entities env w bmc done cb_data).1.trace.filter is_sdr_add
      = w.trace.filter is_sdr_add
        ++ [.ipmi_sdr_add (env.ptr (w.trace.length + 1)) (chan_sdr w bmc)] := by
  unfold ipmi_bmc_store_entities
  rw [if_neg (not_not.mpr hbmc)]
  dsimp only
  have hi : ¬ (w.ask_ptr env .malloc []).2.2 = NULL := hinfo
  rw [if_neg hi]
  have hl : (w.ask_ptr env .malloc []).1.trace.length = w.trace.length + 1 := by
    simp [mc_world.ask_ptr, mc_world.call, mc_world.emit]
  have ha : ¬ ((w.ask_ptr env .malloc []).1.ask_ptr env .ipmi_sdr_alloc [bmc, 0, 0]).2.1 ≠ 0 := by
    simp only [mc_world.ask_ptr] at hl ⊢
    rw [hl]
    exact not_not.mpr halloc
  rw [if_neg ha]
  have hst : ((w.ask_ptr env .malloc []).1.ask_ptr env .ipmi_sdr_alloc [bmc, 0, 0]).2.2
      = env.ptr (w.trace.length + 1) := by
    simp only [mc_world.ask_ptr] at hl ⊢
    rw [hl]
  generalize hw1 : ((w.ask_ptr env .malloc []).1.ask_ptr env .ipmi_sdr_alloc [bmc, 0, 0]).1 = w1
  have p1 : w1.mc = w.mc ∧ w1.bmc = w.bmc
      ∧ w1.trace.filter is_sdr_add = w.trace.filter is_sdr_add := by
    rw [← hw1]
    refine ⟨rfl, rfl, ?_⟩
    simp [mc_world.ask_ptr, mc_world.call, mc_world.emit, List.filter_append, is_sdr_add]
  have hv1 : (w1.mc bmc).major_version ≤ 1 ∧ (w1.mc bmc).minor_version < 5 := by
    rw [p1.1]; exact hv
  rw [if_pos hv1, hst]
  have hc : chan_sdr w1 bmc = chan_sdr w bmc := by
    simp only [chan_sdr, mc_world.bmc_of, p1.1, p1.2.1]
  rw [hc]
  have hadd : (w1.emit (.ipmi_sdr_add (env.ptr (w.trace.length + 1))
      (chan_sdr w bmc))).trace.filter is_sdr_add
      = w.trace.filter is_sdr_add
        ++ [.ipmi_sdr_add (env.ptr (w.trace.length + 1)) (chan_sdr w bmc)] := by
    simp [mc_world.emit, List.filter_append, is_sdr_add, p1.2.2]
  generalize hw2 : w1.emit (.ipmi_sdr_add (env.ptr (w.trace.length + 1)) (chan_sdr w bmc)) = w2
    at hadd ⊢
  split_ifs
  · rw [ipmi_bmc_store_entities_out_sdr_add]; exact hadd
  · rw [ipmi_bmc_store_entities_out_sdr_add]
    simpa [mc_world.ask, mc_world.call, mc_world.emit, List.filter_append, is_sdr_add] using hadd
  · rw [ipmi_bmc_store_entities_out_sdr_add]
    simpa [mc_world.ask, mc_world.call, mc_world.emit, List.filter_append, is_sdr_add] using hadd

/-- C25: for every BMC whose version passes the test of the code (major <= 1 and
minor < 5) and every content of its channel table, when the two allocations
succeed, `ipmi_bmc_store_entities` adds exactly one record to the repository it
has allocated: it has type 0x14 and length 11; for every channel i in 0..7,
data[i] is the low byte of (protocol_i | xmit_support_i << 7 | recv_lun_i << 4)
if protocol_i is not 0, and 0 if protocol_i is 0; data[8] = msg_int_type,
data[9] = event_msg_int_type and data[10] = 0. -/
theorem ipmi_bmc_store_entities_chan_sdr (env : mc_env) (w : mc_world)
    (bmc done cb_data : Ptr) (hbmc : (w.mc bmc).bmc_mc = bmc)
    (hv : (w.mc bmc).major_version ≤ 1 ∧ (w.mc bmc).minor_version < 5)
    (hinfo : env.ptr w.trace.length ≠ NULL) (halloc : env.rv (w.trace.length + 1) = 0) :
    ∃ sdr : ipmi_sdr_t,
      (ipmi_bmc_store_entities env w bmc done cb_data).1.trace.filter is_sdr_add
        = w.trace.filter is_sdr_add ++ [.ipmi_sdr_add (env.ptr (w.trace.length + 1)) sdr]
      ∧ sdr.type = 0x14 ∧ sdr.length = 11 ∧ sdr.data.length = 11
      ∧ (∀ i, i < 8 →
          (sdr.data.getD i 0).val
            = if ((w.bmc_of bmc).chan.getD i chan_zero).protocol ≠ 0 then
                (((w.bmc_of bmc).chan.getD i chan_zero).protocol
                  ||| (((w.bmc_of bmc).chan.getD i chan_zero).xmit_support <<< 7)
                  ||| (((w.bmc_of bmc).chan.getD i chan_zero).recv_lun <<< 4)) % 256
              else 0)
      ∧ sdr.data.getD 8 0 = (w.bmc_of bmc).msg_int_type
      ∧ sdr.data.getD 9 0 = (w.bmc_of bmc).event_msg_int_type
      ∧ sdr.data.getD 10 0 = 0 := by
  refine ⟨chan_sdr w bmc, ipmi_bmc_store_entities_adds env w bmc done cb_data hbmc hv hinfo halloc,
    rfl, rfl, chan_sdr_data_length w bmc, ?_, chan_sdr_data_ge w bmc 0, chan_sdr_data_ge w bmc 1,
    chan_sdr_data_ge w bmc 2⟩
  intro i hi
  rw [chan_sdr_data_lt w bmc i hi]
  unfold chan_sdr_byte
  split_ifs <;> rfl

/-- Witness of C25: the sample BMC of version 1.0 whose channel 0 has protocol 2,
xmit_support 1 and recv_lun 3 gets the byte 0xb2 for channel 0. -/
theorem ipmi_bmc_store_entities_chan_sdr_witness :
    ∃ sdr : ipmi_sdr_t,
      (ipmi_bmc_store_entities sample_mc_env
          (sample_mc_world_chan 1 0 [sample_chan 2 1 3] 7 9) 100 0 0).1.trace.filter is_sdr_add
        = [.ipmi_sdr_add (sample_mc_env.ptr 1) sdr]
      ∧ (sdr.data.getD 0 0).val = 0xb2 ∧ sdr.data.getD 8 0 = 7 ∧ sdr.data.getD 9 0 = 9 := by
  obtain ⟨sdr, h1, _, _, _, h2, h3, h4, _⟩ := ipmi_bmc_store_entities_chan_sdr sample_mc_env
    (sample_mc_world_chan 1 0 [sample_chan 2 1 3] 7 9) 100 0 0 (by decide) (by decide) (by decide) (by decide)
  exact ⟨sdr, h1, (h2 0 (by decide)).trans (by decide), h3.trans (by decide),
    h4.trans (by decide)⟩

/-- Counterexample of C25: for the sample BMC of version 1.0 whose channel 0 has
protocol 0, xmit_support 1 and recv_lun 3, (protocol | xmit_support << 7 |
recv_lun << 4) is 0xb0, and the record `ipmi_bmc_store_entities` adds has
data[0] = 0. -/
theorem ipmi_bmc_store_entities_protocol_zero :
    (0 ||| (1 <<< 7) ||| (3 <<< 4) : Nat) = 0xb0
    ∧ (ipmi_bmc_store_entities sample_mc_env
        (sample_mc_world_chan 1 0 [sample_chan 0 1 3] 7 9) 100 0 0).1.trace.filter is_sdr_add
      = [.ipmi_sdr_add (sample_mc_env.ptr 1)
          { major_version := 1, minor_version := 0, type := 0x14, length := 11,
            data := [0, 0, 0, 0, 0, 0, 0, 0, 7, 9, 0] }] := by
  refine ⟨by decide, by decide⟩

/-! ## Theorems: the channel SDR round trip -/

theorem chan_table_ext (c d : List ipmi_chan_info_t) (hl : c.length = d.length)
    (h : ∀ j, c.getD j chan_zero = d.getD j chan_zero) : c = d := by
  apply List.ext_getElem hl
  intro n h1 h2
  have := h n
  rwa [List.getD_eq_getElem _ _ h1, List.getD_eq_getElem _ _ h2] at this

theorem chan_sdr_byte_default (p : Nat) (hp : p < 16) (h0 : p ≠ 0) :
    (chan_sdr_byte (chan_default_ipmb p)).val &&& 0xf = p := by
  have key : ∀ q : Fin 16, q.val ≠ 0 →
      (chan_sdr_byte (chan_default_ipmb q.val)).val &&& 0xf = q.val := by decide
  exact key ⟨p, hp⟩ h0

theorem and_0xf_lt (n : Nat) : n &&& 0xf < 16 := by
  have : n &&& 0xf = n % 16 := Nat.and_pow_two_sub_one_eq_mod n 4
  rw [this]
  exact Nat.mod_lt _ (by decide)

/-- C29: from the all-zero channel table, for a BMC below 1.5 whose main SDRs
hold the type-0x14 record `s`, `finish_mc_handling` returns, leaving a table
and interrupt types T; and for every BMC below 1.5 with an all-zero table whose
main SDRs hold the channel SDR that `ipmi_bmc_store_entities` assembles from T
(`chan_sdr`), `finish_mc_handling` returns and leaves exactly T: the same
channel table, msg_int_type and event_msg_int_type. -/
theorem chan_sdr_round_trip (env : mc_env) (fuel : Nat) (w : mc_world) (mc : Ptr)
    (s : ipmi_sdr_t) (hf : 0xe0 ≤ fuel)
    (hv : ¬ ((w.mc mc).major_version > 1
      ∨ ((w.mc mc).major_version = 1 ∧ (w.mc mc).minor_version ≥ 5)))
    (hz : (w.bmc_of mc).chan = List.replicate MAX_IPMI_USED_CHANNELS chan_zero)
    (hs : ipmi_get_sdr_by_type w (w.bmc_of mc).main_sdrs 0x14 = some s) :
    ∃ w2, finish_mc_handling env fuel w mc = some (w2, 0)
      ∧ ∀ (env2 : mc_env) (fuel2 : Nat) (v : mc_world) (mc2 : Ptr), 0xe0 ≤ fuel2 →
          ¬ ((v.mc mc2).major_version > 1
            ∨ ((v.mc mc2).major_version = 1 ∧ (v.mc mc2).minor_version ≥ 5)) →
          (v.bmc_of mc2).chan = List.replicate MAX_IPMI_USED_CHANNELS chan_zero →
          ipmi_get_sdr_by_type v (v.bmc_of mc2).main_sdrs 0x14 = some (chan_sdr w2 mc) →
          ∃ v2, finish_mc_handling env2 fuel2 v mc2 = some (v2, 0)
            ∧ (v2.bmc_of mc2).chan = (w2.bmc_of mc).chan
            ∧ (v2.bmc_of mc2).msg_int_type = (w2.bmc_of mc).msg_int_type
            ∧ (v2.bmc_of mc2).event_msg_int_type = (w2.bmc_of mc).event_msg_int_type := by
  obtain ⟨w2, c, h1, _, _, _, _, hlen, _, _, _, _, hsdr, _⟩ :=
    finish_mc_handling_sdr_spec env fuel w mc hf hv
  obtain ⟨hb, hc⟩ := hsdr s (Or.inl hs)
  refine ⟨w2, h1, ?_⟩
  intro env2 fuel2 v mc2 hf2 hv2 hz2 hs2
  obtain ⟨v2, d, g1, _, _, _, _, glen, _, _, _, _, gsdr, _⟩ :=
    finish_mc_handling_sdr_spec env2 fuel2 v mc2 hf2 hv2
  obtain ⟨gb, gc⟩ := gsdr _ (Or.inl hs2)
  have hwl : (w.bmc_of mc).chan.length = 8 := by rw [hz]; simp [MAX_IPMI_USED_CHANNELS]
  have hvl : (v.bmc_of mc2).chan.length = 8 := by rw [hz2]; simp [MAX_IPMI_USED_CHANNELS]
  have hzero : ∀ j, (w.bmc_of mc).chan.getD j chan_zero = chan_zero := by
    intro j; rw [hz]; simp [List.getD_eq_getElem?_getD, List.getElem?_replicate]
    split_ifs <;> rfl
  have hzero2 : ∀ j, (v.bmc_of mc2).chan.getD j chan_zero = chan_zero := by
    intro j; rw [hz2]; simp [List.getD_eq_getElem?_getD, List.getElem?_replicate]
    split_ifs <;> rfl
  have hw2c : (w2.bmc_of mc).chan = c := by rw [hb]
  have hw2m : (w2.bmc_of mc).msg_int_type = s.data.getD 8 0 := by rw [hb]
  have hw2e : (w2.bmc_of mc).event_msg_int_type = s.data.getD 9 0 := by rw [hb]
  -- the byte of the assembled record for channel j
  have hbyte : ∀ j, j < 8 → rd (chan_sdr w2 mc).data j &&& 0xf = rd s.data j &&& 0xf := by
    intro j hj
    have e1 : rd (chan_sdr w2 mc).data j = ((chan_sdr w2 mc).data.getD j 0).val := rfl
    rw [e1, chan_sdr_data_lt w2 mc j hj, hw2c, hc j]
    by_cases hp : rd s.data j &&& 0xf ≠ 0
    · rw [if_pos ⟨by rw [hwl]; exact hj, by simpa [MAX_IPMI_USED_CHANNELS] using hj, hp⟩]
      exact chan_sdr_byte_default _ (and_0xf_lt _) hp
    · rw [if_neg (fun h => hp h.2.2), hzero j]
      rw [not_not] at hp
      rw [hp]
      rfl
  refine ⟨v2, g1, ?_, ?_, ?_⟩
  · rw [gb, hw2c]
    show d = c
    apply chan_table_ext d c (by rw [glen, hlen, hwl, hvl])
    intro j
    rw [gc j, hc j, hwl, hvl, hzero j, hzero2 j]
    by_cases hj : j < 8
    · rw [hbyte j hj]
    · rw [if_neg (fun h => hj h.1), if_neg (fun h => hj h.1)]
  · rw [gb, hw2m]
    show (chan_sdr w2 mc).data.getD 8 0 = _
    rw [chan_sdr_data_ge w2 mc 0, hw2m]
    rfl
  · rw [gb, hw2e]
    show (chan_sdr w2 mc).data.getD 9 0 = _
    rw [chan_sdr_data_ge w2 mc 1, hw2e]
    rfl

/-- Witness of C29: the sample BMC of version 1.0 with the all-zero table whose
main SDRs hold the channel SDR 02 00 13 00 00 00 00 00 07 09 00. -/
theorem chan_sdr_round_trip_witness :
    ∃ w2, finish_mc_handling sample_mc_env 0xe0
        (sample_mc_world_sdrs 1 0 [sample_chan_sdr [2, 0, 0x13, 0, 0, 0, 0, 0, 7, 9, 0]] []) 100
        = some (w2, 0)
      ∧ ∀ (env2 : mc_env) (fuel2 : Nat) (v : mc_world) (mc2 : Ptr), 0xe0 ≤ fuel2 →
          ¬ ((v.mc mc2).major_version > 1
            ∨ ((v.mc mc2).major_version = 1 ∧ (v.mc mc2).minor_version ≥ 5)) →
          (v.bmc_of mc2).chan = List.replicate MAX_IPMI_USED_CHANNELS chan_zero →
          ipmi_get_sdr_by_type v (v.bmc_of mc2).main_sdrs 0x14 = some (chan_sdr w2 100) →
          ∃ v2, finish_mc_handling env2 fuel2 v mc2 = some (v2, 0)
            ∧ (v2.bmc_of mc2).chan = (w2.bmc_of 100).chan
            ∧ (v2.bmc_of mc2).msg_int_type = (w2.bmc_of 100).msg_int_type
            ∧ (v2.bmc_of mc2).event_msg_int_type = (w2.bmc_of 100).event_msg_int_type :=
  chan_sdr_round_trip sample_mc_env 0xe0
    (sample_mc_world_sdrs 1 0 [sample_chan_sdr [2, 0, 0x13, 0, 0, 0, 0, 0, 7, 9, 0]] []) 100
    (sample_chan_sdr [2, 0, 0x13, 0, 0, 0, 0, 0, 7, 9, 0]) (by decide) (by decide) (by decide)
    (by decide)

/-! ## Theorems: the primitives `ipmi_smi_setup_con` requires -/

/-- C23: for every OS-handler table in which at least one of add-fd-watch,
remove-fd-watch, add-timer and remove-timer is absent, `ipmi_smi_setup_con`
returns ENOSYS (38) and leaves the state as it was: the device is not opened,
no connection is created and nothing is added to the trace. (Perform-one-op and
the allocation and destruction of locks are not among the primitives it
checks.) -/
theorem ipmi_smi_setup_con_enosys (env : setup_env) (w : smi_world) (if_num : Int)
    (os : os_handler_t) (handlers user_data setup_cb cb_data : Ptr)
    (h : os.add_fd_to_wait_for = NULL ∨ os.remove_fd_to_wait_for = NULL ∨ os.add_timer = NULL
      ∨ os.remove_timer = NULL) :
    ipmi_smi_setup_con env w if_num os handlers user_data setup_cb cb_data = (w, ENOSYS)
    ∧ ENOSYS = 38 := by
  unfold ipmi_smi_setup_con
  rw [if_pos h]
  exact ⟨rfl, rfl⟩

/-- Witness of C23: a table without remove-timer, everything else present. -/
theorem ipmi_smi_setup_con_enosys_witness :
    ipmi_smi_setup_con (sample_setup_env 0) sample_world_empty 0
        sample_os_no_remove_timer 90 0 500 600
      = (sample_world_empty, ENOSYS) :=
  (ipmi_smi_setup_con_enosys (sample_setup_env 0) sample_world_empty 0
    sample_os_no_remove_timer 90 0 500 600 (by decide)).1

/-- Counterexample of C23: with a table that has the four fd and timer
primitives but no perform-one-op, no lock allocation and no lock destruction,
`ipmi_smi_setup_con` opens the device; where `ipmi_create_lock_os_hnd` returns
0 it returns 0 with the new connection 11 at the head of the registry, and
where `ipmi_create_lock_os_hnd` returns ENOSYS the device has been opened (and
is closed again) before that value is returned. -/
theorem ipmi_smi_setup_con_opens_without_locks :
    (sample_os_no_locks.perform_one_op = NULL ∧ sample_os_no_locks.create_lock = NULL
      ∧ sample_os_no_locks.destroy_lock = NULL)
    ∧ ((ipmi_smi_setup_con (sample_setup_env 0) sample_world_empty 0 sample_os_no_locks
          90 0 500 600).2 = 0
      ∧ (ipmi_smi_setup_con (sample_setup_env 0) sample_world_empty 0 sample_os_no_locks
          90 0 500 600).1.smi_list = 11
      ∧ (ipmi_smi_setup_con (sample_setup_env 0) sample_world_empty 0 sample_os_no_locks
          90 0 500 600).1.trace.filter is_open_smi_fd = [.open_smi_fd 0])
    ∧ ((ipmi_smi_setup_con (sample_setup_env ENOSYS) sample_world_empty 0 sample_os_no_locks
          90 0 500 600).2 = ENOSYS
      ∧ (ipmi_smi_setup_con (sample_setup_env ENOSYS) sample_world_empty 0 sample_os_no_locks
          90 0 500 600).1.trace
        = [.ipmi_register_ll, .open_smi_fd 0, .create_lock 11 .cmd_lock, .free 21, .close 4,
           .free 11]) := by
  refine ⟨by decide, ⟨by decide, by decide, by decide⟩, by decide, by decide⟩

/-! ## Theorems: a subscriber removed during the dispatch of an event -/

theorem handle_async_event_loop_step (user : evt_user_t) (ipmi : Ptr) (recv : ipmi_recv_t)
    (n : Nat) (w : smi_world) (elem : Ptr) (h : elem ≠ NULL) :
    handle_async_event_loop user ipmi recv (n + 1) w elem
      = handle_async_event_loop user ipmi recv n
          (user elem (w.emit (evt_call w ipmi recv elem))) (w.evt elem).next := by
  rw [handle_async_event_loop, if_pos h]
  rfl

theorem handle_async_event_loop_null (user : evt_user_t) (ipmi : Ptr) (recv : ipmi_recv_t)
    (n : Nat) (w : smi_world) :
    handle_async_event_loop user ipmi recv (n + 1) w NULL = some w := by
  rw [handle_async_event_loop, if_neg (by simp)]

/-- The loop of `handle_async_event` over a first part `pre` of the list whose
handlers leave the state alone: each is called once, in order, and the loop
goes on with what follows. -/
theorem handle_async_event_loop_first_part (user : evt_user_t) (ipmi : Ptr) (recv : ipmi_recv_t)
    (pre : List Ptr) : ∀ (rest : List Ptr) (fuel : Nat) (w : smi_world) (pv hd : Ptr),
    dll (fun p => (w.evt p).next) (fun p => (w.evt p).prev) pv hd (pre ++ rest) →
    (∀ p ∈ pre, ∀ v, user p v = v) →
    handle_async_event_loop user ipmi recv (fuel + pre.length) w hd
      = handle_async_event_loop user ipmi recv fuel
          { w with trace := w.trace ++ pre.map (evt_call w ipmi recv) } (rest.headD NULL) := by
  induction pre with
  | nil =>
    intro rest fuel w pv hd h _
    have hh : hd = rest.headD NULL := dll_head h
    simp [hh]
  | cons x xs ih =>
    intro rest fuel w pv hd h hu
    obtain ⟨h1, h2, _, h4⟩ := h
    subst h1
    have e : fuel + (hd :: xs).length = (fuel + xs.length) + 1 := by simp; omega
    rw [e, handle_async_event_loop_step _ _ _ _ _ _ h2, hu hd (List.mem_cons_self _ _)]
    rw [ih rest fuel (w.emit (evt_call w ipmi recv hd)) hd (w.evt hd).next h4
      (fun p hp => hu p (List.mem_cons_of_mem _ hp))]
    congr 1
    simp [smi_world.emit, evt_call]

/-- The loop of `handle_async_event` over a list whose handlers leave the
state alone, with enough fuel: it returns, having called each handler once, in
order. -/
theorem handle_async_event_loop_all (user : evt_user_t) (ipmi : Ptr) (recv : ipmi_recv_t)
    (xs : List Ptr) (fuel : Nat) (w : smi_world) (pv hd : Ptr)
    (h : dll (fun p => (w.evt p).next) (fun p => (w.evt p).prev) pv hd xs)
    (hu : ∀ p ∈ xs, ∀ v, user p v = v) (hf : xs.length < fuel) :
    handle_async_event_loop user ipmi recv fuel w hd
      = some { w with trace := w.trace ++ xs.map (evt_call w ipmi recv) } := by
  obtain ⟨k, rfl⟩ : ∃ k, fuel = (k + 1) + xs.length := ⟨fuel - xs.length - 1, by omega⟩
  have h2 : dll (fun p => (w.evt p).next) (fun p => (w.evt p).prev) pv hd (xs ++ []) := by
    simpa using h
  rw [handle_async_event_loop_first_part user ipmi recv xs [] (k + 1) w pv hd h2 hu]
  exact handle_async_event_loop_null _ _ _ _ _

theorem smi_deregister_for_events_evt (w : smi_world) (ipmi id : Ptr) (ioctl_rv errno : Int)
    (hipmi : (w.evt id).ipmi = ipmi) (p : Ptr) :
    ((smi_deregister_for_events w ipmi id ioctl_rv errno).1.evt p).handler = (w.evt p).handler
    ∧ ((smi_deregister_for_events w ipmi id ioctl_rv errno).1.evt p).event_data
        = (w.evt p).event_data
    ∧ ((smi_deregister_for_events w ipmi id ioctl_rv errno).1.evt p).data2 = (w.evt p).data2
    ∧ (p ≠ (w.evt id).prev →
        ((smi_deregister_for_events w ipmi id ioctl_rv errno).1.evt p).next
          = (w.evt p).next) := by
  have key : (smi_deregister_for_events w ipmi id ioctl_rv errno).1.evt
      = ((remove_event_handler (lock_event_handlers_lock w (w.con ipmi).con_data)
          (w.con ipmi).con_data id).set_evt id
          { (remove_event_handler (lock_event_handlers_lock w (w.con ipmi).con_data)
              (w.con ipmi).con_data id).evt id with ipmi := NULL }).evt := by
    unfold smi_deregister_for_events
    simp only [hipmi, ne_eq, not_true_eq_false, if_false]
    split_ifs <;> simp [unlock_event_handlers_lock_eq, ioctl_set_gets_events_eq]
  rw [key]
  by_cases hp : p = id
  · subst hp
    simp [smi_world.set_evt, remove_event_handler_eq, lock_event_handlers_lock_eq]
  · simp [smi_world.set_evt, remove_event_handler_eq, lock_event_handlers_lock_eq,
      Function.update_apply, hp]
    intro h1 h2 h3
    exact absurd h3 h1

theorem evt_call_congr (w w2 : smi_world) (ipmi : Ptr) (recv : ipmi_recv_t)
    (h : ∀ p, (w2.evt p).handler = (w.evt p).handler
      ∧ (w2.evt p).event_data = (w.evt p).event_data ∧ (w2.evt p).data2 = (w.evt p).data2) :
    evt_call w2 ipmi recv = evt_call w ipmi recv := by
  funext p
  unfold evt_call
  rw [(h p).1, (h p).2.1, (h p).2.2]

theorem erase_later (pre mid post : List Ptr) (a r : Ptr)
    (hnd : (pre ++ a :: (mid ++ r :: post)).Nodup) :
    (pre ++ a :: (mid ++ r :: post)).erase r = pre ++ a :: (mid ++ post)
    ∧ r ∉ pre ++ a :: (mid ++ post) ∧ a ∉ pre ∧ a ∉ mid ++ post ∧ r ≠ a := by
  have h := hnd
  simp only [List.nodup_append, List.nodup_cons, List.mem_append, List.mem_cons, not_or] at h
  obtain ⟨hpre, ⟨⟨ha1, ha2, ha3⟩, hmid, ⟨hr, hpost⟩, hdis⟩, hdis2⟩ := h
  have hrpre : r ∉ pre := fun hm =>
    hdis2 hm (List.mem_cons_of_mem _ (List.mem_append_right _ (List.mem_cons_self _ _)))
  have hapre : a ∉ pre := fun hm => hdis2 hm (List.mem_cons_self _ _)
  have hrmid : r ∉ mid := fun hm => hdis hm (List.mem_cons_self _ _)
  have hra : r ≠ a := fun e => ha2 e.symm
  refine ⟨?_, ?_, hapre, ?_, hra⟩
  · rw [List.erase_append_right _ hrpre, List.erase_cons_tail (by simpa using (Ne.symm hra)),
      List.erase_append_right _ hrmid, List.erase_cons_head]
  · simp only [List.mem_append, List.mem_cons, not_or]
    exact ⟨hrpre, hra, hrmid, hr⟩
  · simp only [List.mem_append, not_or]
    exact ⟨ha1, ha3⟩

/-- C21: for every subscriber list `pre ++ a :: (mid ++ r :: post)` of a
connection and every event, when the handler of the subscriber `a`, while
`handle_async_event` is calling it, deregisters the later subscriber `r`
(`smi_deregister_for_events`) and the other handlers leave the state alone,
the dispatch returns, the list is then `pre ++ a :: (mid ++ post)`, and the
handlers called are, in order and once each, those of every subscriber still in
the list, with in addition that of `r`, after `a`, exactly when `r` is the
subscriber immediately following `a` (`mid` is empty): the dispatch had read
the `next` of `a` before the call. -/
theorem handle_async_event_deregister_later (fuel : Nat) (w : smi_world) (ipmi : Ptr)
    (recv : ipmi_recv_t) (a r : Ptr) (ioctl_rv errno : Int) (pre mid post : List Ptr)
    (hl : event_handlers_are w (w.con ipmi).con_data (pre ++ a :: (mid ++ r :: post)))
    (hr : (w.evt r).ipmi = ipmi)
    (hfuel : (pre ++ a :: (mid ++ r :: post)).length < fuel) :
    ∃ w2, handle_async_event (user_deregisters ipmi a r ioctl_rv errno) fuel w ipmi recv
        = some w2
      ∧ event_handlers_are w2 (w.con ipmi).con_data (pre ++ a :: (mid ++ post))
      ∧ (pre ++ a :: (mid ++ post)).Nodup ∧ r ∉ pre ++ a :: (mid ++ post)
      ∧ w2.trace = w.trace
          ++ (if mid = [] then pre ++ a :: r :: post else pre ++ a :: (mid ++ post)).map
              (evt_call w ipmi recv) := by
  have hnd := dll_nodup hl
  have hnull := dll_null_not_mem hl
  obtain ⟨hers, hrnot, hapre, hatail, hra⟩ := erase_later pre mid post a r hnd
  have hrmem : r ∈ pre ++ a :: (mid ++ r :: post) := by simp
  have hnd2 : (pre ++ a :: (mid ++ post)).Nodup := by
    rw [← hers]; exact hnd.erase r
  have ha0 : a ≠ NULL := fun e => hnull (by rw [← e]; simp)
  have hr0 : r ≠ NULL := fun e => hnull (by rw [← e]; simp)
  -- the user code
  have hu : ∀ p, p ≠ a → ∀ v, user_deregisters ipmi a r ioctl_rv errno p v = v := by
    intro p hp v
    unfold user_deregisters
    rw [if_neg hp]
  have hua : ∀ v, user_deregisters ipmi a r ioctl_rv errno a v
      = (smi_deregister_for_events v ipmi r ioctl_rv errno).1 := by
    intro v
    unfold user_deregisters
    rw [if_pos rfl]
  unfold handle_async_event
  dsimp only
  generalize hw0 : lock_event_handlers_lock w (w.con ipmi).con_data = w0
  have e0 : w0.evt = w.evt ∧ w0.con = w.con ∧ w0.trace = w.trace
      ∧ (w0.smi (w.con ipmi).con_data).event_handlers
        = (w.smi (w.con ipmi).con_data).event_handlers := by
    rw [← hw0, lock_event_handlers_lock_eq]
    exact ⟨rfl, rfl, rfl, rfl⟩
  obtain ⟨e0e, e0c, e0t, e0h⟩ := e0
  have hl0 : dll (fun p => (w0.evt p).next) (fun p => (w0.evt p).prev) NULL
      (w0.smi (w.con ipmi).con_data).event_handlers (pre ++ a :: (mid ++ r :: post)) := by
    rw [e0e, e0h]; exact hl
  obtain ⟨k, rfl⟩ : ∃ k, fuel = (k + 1) + pre.length := ⟨fuel - pre.length - 1, by
    simp only [List.length_append, List.length_cons] at hfuel; omega⟩
  rw [handle_async_event_loop_first_part _ ipmi recv pre (a :: (mid ++ r :: post)) (k + 1) w0 NULL _
    hl0 (fun p hp => hu p (fun e => hapre (e ▸ hp)))]
  rw [List.headD_cons, handle_async_event_loop_step _ _ _ _ _ _ ha0, hua]
  have eA : ∀ t : List effect, ({ w0 with trace := t } : smi_world).evt = w.evt
      ∧ ({ w0 with trace := t } : smi_world).con = w.con
      ∧ ({ w0 with trace := t } : smi_world).trace = t
      ∧ (({ w0 with trace := t } : smi_world).smi (w.con ipmi).con_data).event_handlers
        = (w.smi (w.con ipmi).con_data).event_handlers := fun t => ⟨e0e, e0c, rfl, e0h⟩
  have hcall0 : evt_call w0 ipmi recv = evt_call w ipmi recv :=
    evt_call_congr w w0 ipmi recv (fun p => by rw [e0e]; exact ⟨rfl, rfl, rfl⟩)
  rw [hcall0, e0t]
  obtain ⟨eAe, eAc, eAt, eAh⟩ := eA (w.trace ++ List.map (evt_call w ipmi recv) pre)
  generalize ({ w0 with trace := w.trace ++ List.map (evt_call w ipmi recv) pre } : smi_world)
    = wA at eAe eAc eAt eAh ⊢
  have hcallA : evt_call wA ipmi recv = evt_call w ipmi recv :=
    evt_call_congr w wA ipmi recv (fun p => by rw [eAe]; exact ⟨rfl, rfl, rfl⟩)
  rw [hcallA, eAe]
  generalize hwB : wA.emit (evt_call w ipmi recv a) = wB
  have eB : wB.evt = w.evt ∧ wB.con = w.con
      ∧ wB.trace = w.trace ++ List.map (evt_call w ipmi recv) pre ++ [evt_call w ipmi recv a]
      ∧ (wB.smi (w.con ipmi).con_data).event_handlers
        = (w.smi (w.con ipmi).con_data).event_handlers := by
    rw [← hwB]
    refine ⟨eAe, eAc, ?_, eAh⟩
    simp only [smi_world.emit, eAt]
  obtain ⟨eBe, eBc, eBt, eBh⟩ := eB
  have hlB : event_handlers_are wB (wB.con ipmi).con_data (pre ++ a :: (mid ++ r :: post)) := by
    unfold event_handlers_are
    rw [eBc, eBe, eBh]
    exact hl
  have hrB : (wB.evt r).ipmi = ipmi := by rw [eBe]; exact hr
  obtain ⟨s1, _, _, s4, _, s6, _⟩ :=
    smi_deregister_for_events_spec wB ipmi r ioctl_rv errno _ hlB hrmem hrB
  have sevt := smi_deregister_for_events_evt wB ipmi r ioctl_rv errno hrB
  generalize hw1 : (smi_deregister_for_events wB ipmi r ioctl_rv errno).1 = w1 at s1 s4 s6 sevt
  rw [hers, eBc] at s1
  have hne : ¬ (pre ++ a :: (mid ++ post) = []) := by simp
  rw [hers, if_neg hne, List.append_nil, eBt] at s4
  have hcall : evt_call w1 ipmi recv = evt_call w ipmi recv := by
    apply evt_call_congr
    intro p
    have := sevt p
    rw [eBe] at this
    exact ⟨this.1, this.2.1, this.2.2.1⟩
  have hfin : ∀ wF : smi_world, wF.evt = w1.evt →
      (wF.smi (w.con ipmi).con_data).event_handlers
        = (w1.smi (w.con ipmi).con_data).event_handlers →
      event_handlers_are (unlock_event_handlers_lock wF (w.con ipmi).con_data)
        (w.con ipmi).con_data (pre ++ a :: (mid ++ post)) := by
    intro wF h1 h2
    refine event_handlers_are_congr ?_ ?_ s1
    · intro p _
      rw [unlock_event_handlers_lock_eq]
      show (wF.evt p).next = _ ∧ (wF.evt p).prev = _
      rw [h1]
      exact ⟨rfl, rfl⟩
    · rw [unlock_event_handlers_lock_eq]
      simp only
      exact h2
  have hsufa := dll_suffix hl
  have hsufa1 := dll_suffix s1
  simp only [List.length_append, List.length_cons] at hfuel
  cases mid with
  | nil =>
    simp only [List.nil_append] at hsufa hsufa1 hl hatail hfuel ⊢
    simp only [if_true]
    have hnext_a : (w.evt a).next = r := hsufa.1
    rw [hnext_a]
    obtain ⟨k2, rfl⟩ : ∃ k2, k = k2 + 1 := ⟨k - 1, by simp at hfuel; omega⟩
    rw [handle_async_event_loop_step _ _ _ _ _ _ hr0, hu r hra]
    have hprev : r ≠ (w.evt r).prev := by
      have := dll_prev_ne hl hnull hrmem
      exact fun e => this e.symm
    have hnext_r : (w1.evt r).next = (w.evt r).next := by
      have := (sevt r).2.2.2
      rw [eBe] at this
      exact this hprev
    have hpost_hd : (w.evt r).next = (w1.evt a).next := by
      have h1 : (w.evt r).next = post.headD NULL := dll_head hsufa.2.2.2
      have h2 : (w1.evt a).next = post.headD NULL := dll_head hsufa1
      rw [h1, h2]
    rw [hnext_r, hpost_hd]
    have hupost : ∀ p ∈ post, ∀ v, user_deregisters ipmi a r ioctl_rv errno p v = v :=
      fun p hp => hu p (fun e => hatail (by rw [← e]; simpa using hp))
    rw [handle_async_event_loop_all _ ipmi recv post k2 (w1.emit (evt_call w1 ipmi recv r)) a
      (w1.evt a).next hsufa1 hupost (by simp at hfuel; omega)]
    refine ⟨_, rfl, hfin _ rfl rfl, hnd2, hrnot, ?_⟩
    rw [unlock_event_handlers_lock_eq]
    show (w1.emit (evt_call w1 ipmi recv r)).trace
      ++ List.map (evt_call (w1.emit (evt_call w1 ipmi recv r)) ipmi recv) post = _
    have hc2 : evt_call (w1.emit (evt_call w1 ipmi recv r)) ipmi recv = evt_call w1 ipmi recv :=
      rfl
    rw [hc2, hcall]
    simp only [smi_world.emit, s4, List.map_append, List.map_cons, List.append_assoc,
      List.singleton_append, List.map_nil, List.nil_append, List.cons_append]
  | cons m ms =>
    rw [if_neg (by simp)]
    have hnext_a : (w.evt a).next = (w1.evt a).next := by
      have h1 : (w.evt a).next = m := hsufa.1
      have h2 : (w1.evt a).next = m := hsufa1.1
      rw [h1, h2]
    rw [hnext_a]
    have hutail : ∀ p ∈ (m :: ms) ++ post, ∀ v,
        user_deregisters ipmi a r ioctl_rv errno p v = v :=
      fun p hp => hu p (fun e => hatail (by rw [← e]; exact hp))
    rw [handle_async_event_loop_all _ ipmi recv ((m :: ms) ++ post) k w1 a (w1.evt a).next
      hsufa1 hutail (by simp at hfuel ⊢; omega)]
    refine ⟨_, rfl, hfin _ rfl rfl, hnd2, hrnot, ?_⟩
    rw [unlock_event_handlers_lock_eq]
    show w1.trace ++ List.map (evt_call w1 ipmi recv) ((m :: ms) ++ post) = _
    rw [hcall, s4]
    simp only [List.map_append, List.map_cons, List.append_assoc, List.singleton_append,
      List.cons_append, List.nil_append]

/-- Witness of C21: in the sample state with the subscribers 61, 62 and 63,
the handler of 61 deregisters 63, which does not follow it immediately: the
handlers 71 and 72 are called, that of 63 is not. -/
theorem handle_async_event_deregister_later_witness :
    event_handlers_are sample_world_evts 10 [61, 62, 63]
    ∧ ∃ w2, handle_async_event (user_deregisters 20 61 63 0 0) 4 sample_world_evts 20
        sample_evt_recv = some w2
      ∧ event_handlers_are w2 10 [61, 62]
      ∧ evt_handlers_called w2.trace = [71, 72] := by
  refine ⟨by decide, ?_⟩
  obtain ⟨w2, h1, h2, _, _, h5⟩ := handle_async_event_deregister_later 4 sample_world_evts 20
    sample_evt_recv 61 63 0 0 [] [62] [] (by decide) (by decide) (by decide)
  refine ⟨w2, h1, h2, ?_⟩
  rw [h5]
  decide

/-- Counterexample of C21: in the sample state with the subscribers 61, 62 and
63, the handler of 61 deregisters 62, the subscriber immediately following it:
the dispatch returns with the list 61, 63, and the handlers called are 71, 72
and 73, so the handler of the removed subscriber 62 has been called. -/
theorem handle_async_event_calls_removed_next :
    event_handlers_are sample_world_evts 10 [61, 62, 63]
    ∧ (sample_world_evts.evt 62).handler = 72
    ∧ (handle_async_event (user_deregisters 20 61 62 0 0) 4 sample_world_evts 20
        sample_evt_recv).map
        (fun w => (evt_handlers_called w.trace, decide (event_handlers_are w 10 [61, 63])))
      = some ([71, 72, 73], true) := by
  refine ⟨by decide, by decide, by decide⟩

end Ipmisim
